import Mathlib

/-!
GSParLib: dimension model, block/thread mapping, Map and Reduce launches, and
the compile cache of the pattern engine.

Shallow embedding of `GSPar_BaseGPUDriver.hpp`, `GSPar_BaseParallelPattern.hpp`,
`GSPar_PatternReduce.{hpp,cpp}` and the kernel generators of `GSPar_CUDA.cpp` /
`GSPar_OpenCL.cpp`.

Modelling conventions.
* `unsigned long` / `size_t` values are natural numbers reduced modulo `2 ^ 64`
  where the source can wrap (`SingleDimension::delta`, the scaling operators, the
  product `dims.x.max * dims.y.max`, the sum `gspar_get_global_id(0) + gspar_min_x`);
  `unsigned int` values are reduced modulo `2 ^ 32` (the grid and block sizes that
  `CUDA::Kernel::runAsync` hands to `cuLaunchKernel`, and the CUDA expression
  `blockIdx.x * blockDim.x + threadIdx.x`).
* `ceil((double)a / b)` is computed as the source does: both operands are rounded
  to the nearest `double` (53-bit significand, ties to even), so is their quotient,
  and the ceiling of that is taken (`ceilDouble`).  `(int) sqrt(n)` is `Nat.sqrt n`.
* Generated kernel text is represented by its meaning: one function per
  generated statement group, executed for the threads of a block in lock-step
  between two `gspar_synchronize_local_threads()` barriers.  The launch is the
  CUDA one.  Device buffers are functions from indices to values, and the content
  of memory that was never written is an arbitrary parameter.
* `funcNumRegs *= 1.15` is a floating-point product; its truncated result is an
  input of the model.
* Thrown `GSParException`s are `Except.error` with the message text.
-/

namespace GSPar

/-- Modulus of `unsigned long` arithmetic. -/
def ULONG_MOD : Nat := 2 ^ 64

/-- Modulus of `unsigned int` arithmetic. -/
def UINT_MOD : Nat := 2 ^ 32

namespace Driver

/-- Source `struct SingleDimension { unsigned long max; unsigned long min; }`. -/
structure SingleDimension where
  max : Nat
  min : Nat
deriving DecidableEq, Repr

namespace SingleDimension

/-- Source `unsigned long delta() { return this->max - this->min; }` (unsigned subtraction). -/
def delta (d : SingleDimension) : Nat := (d.max + ULONG_MOD - d.min) % ULONG_MOD

/-- Source `explicit operator bool() const { return this->max > 0; }`. -/
def toBool (d : SingleDimension) : Bool := decide (0 < d.max)

/-- Source `bool operator==(SingleDimension& other)`. -/
def eq (d other : SingleDimension) : Bool := d.max == other.max && d.min == other.min

end SingleDimension

/-- Source `struct Dimensions { SingleDimension x, y, z; }`.  The member `_empty` is
the constant `(0, 0)` returned by `operator[]` for an index outside `0..2`. -/
structure Dimensions where
  x : SingleDimension
  y : SingleDimension
  z : SingleDimension
deriving DecidableEq, Repr

namespace Dimensions

/-- Source `Dimensions(unsigned long maxX, unsigned long maxY, unsigned long maxZ)`. -/
def ofMax (maxX maxY maxZ : Nat) : Dimensions := ⟨⟨maxX, 0⟩, ⟨maxY, 0⟩, ⟨maxZ, 0⟩⟩

/-- Source `SingleDimension& operator[] (const int index)`. -/
def get (d : Dimensions) (index : Nat) : SingleDimension :=
  if index = 0 then d.x else if index = 1 then d.y else if index = 2 then d.z else ⟨0, 0⟩

/-- Source `bool is(unsigned int dimension)`. -/
def is (d : Dimensions) (dimension : Nat) : Bool := (d.get dimension).toBool

/-- Source `int getCount() const { return (bool)x + (bool)y + (bool)z; }`. -/
def getCount (d : Dimensions) : Nat :=
  d.x.toBool.toNat + d.y.toBool.toNat + d.z.toBool.toNat

/-- Source `bool operator==(Dimensions& other)`: equal counts, then the three axes in turn. -/
def eq (d other : Dimensions) : Bool :=
  (d.getCount == other.getCount) &&
    ((d.get 0).eq (other.get 0) && ((d.get 1).eq (other.get 1) && (d.get 2).eq (other.get 2)))

end Dimensions

/-- The array `size_t maxThreadsDimension[SUPPORTED_DIMS]`. -/
structure ThreadLimits where
  d0 : Nat
  d1 : Nat
  d2 : Nat
deriving DecidableEq, Repr

namespace ThreadLimits

/-- Read access `maxThreadsDimension[d]` for `d < 3`. -/
def get (l : ThreadLimits) (d : Nat) : Nat :=
  if d = 0 then l.d0 else if d = 1 then l.d1 else l.d2

end ThreadLimits

/-- The exact ceiling `⌈a / b⌉` for `b ≥ 1`: the number of blocks of `b` threads that
cover `a` indices.  The source computes `ceilDouble`, which agrees with it while both
operands are below `2 ^ 53`. -/
def ceilDiv (a b : Nat) : Nat := (a + b - 1) / b

/-- One step of the search for the leading binary digit: `p` holds the remaining
value and the exponent found so far. -/
def log2Step (k : Nat) (p : Nat × Nat) : Nat × Nat :=
  if 2 ^ k ≤ p.1 then (p.1 / 2 ^ k, p.2 + k) else p

/-- Position of the leading binary digit of `n`, for `1 ≤ n < 2 ^ 256`. -/
def log2Floor (n : Nat) : Nat :=
  (log2Step 1 (log2Step 2 (log2Step 4 (log2Step 8 (log2Step 16 (log2Step 32 (log2Step 64
    (log2Step 128 (n, 0))))))))).2

/-- The conversion `(double)n` of an unsigned integer: the nearest number with a 53-bit
significand, ties to the even significand.  With `e` low digits to drop, `q` is the
kept part and `r` the dropped part. -/
def toDouble (n : Nat) : Nat :=
  let e := log2Floor n - 52
  let q := n / 2 ^ e
  let r := n % 2 ^ e
  if decide (2 ^ e < 2 * r) || (decide (2 * r = 2 ^ e) && decide (q % 2 = 1)) then (q + 1) * 2 ^ e
  else q * 2 ^ e

/-- The value `ceil(a / b)` for two `double`s `a` and `b` that hold non-negative
integers: the quotient is rounded to the nearest `double`, ties to even, and then
rounded up to an integer.  `Q` and `R` are quotient and remainder of `a * 2 ^ K` by
`b`, with `K` large enough for `Q` to have at least 54 digits; `d` digits of `Q` are
dropped, `mant` is the 53-digit significand before rounding and `mant1` after it, so
the rounded quotient is `mant1 * 2 ^ d / 2 ^ K`.  A quotient by zero (not a number of
blocks in the source either) gives `0`. -/
def ceilOfQuotient (a b : Nat) : Nat :=
  if a = 0 ∨ b = 0 then 0
  else
    let K := log2Floor b + 54
    let Q := a * 2 ^ K / b
    let R := a * 2 ^ K % b
    let d := log2Floor Q - 52
    let mant := Q / 2 ^ d
    let rem := Q % 2 ^ d
    let mant1 :=
      if decide (2 ^ (d - 1) < rem) ||
          (decide (rem = 2 ^ (d - 1)) && (decide (R ≠ 0) || decide (mant % 2 = 1)))
      then mant + 1 else mant
    if K ≤ d then mant1 * 2 ^ (d - K) else (mant1 + 2 ^ (K - d) - 1) / 2 ^ (K - d)

/-- Source `ceil((double)dims[d].delta()/maxThreadsDimension[d])`, stored in the
`unsigned long` member `blocksAndThreads[d].min`. -/
def ceilDouble (delta maxThreads : Nat) : Nat :=
  ceilOfQuotient (toDouble delta) (toDouble maxThreads) % ULONG_MOD

/-- Body of the loop `for (d = 0; d < SUPPORTED_DIMS; d++)` of
`BaseKernel::getNumBlocksAndThreads` for one axis: `dim` is `dims[d]`,
`numThreads` is `numThreadsPerBlock[d]`, `maxThreads` is `maxThreadsDimension[d]`
on entry.  The result has the threads in `max` and the blocks in `min`. -/
def axisBlocksAndThreads (dim numThreads : SingleDimension) (maxThreads : Nat) :
    SingleDimension :=
  if dim.toBool then
    let maxThreads1 :=
      if numThreads.toBool && decide (numThreads.max < maxThreads) then numThreads.max
      else maxThreads
    if dim.delta ≤ maxThreads1 then ⟨dim.delta, 1⟩
    else ⟨maxThreads1, ceilDouble dim.delta maxThreads1⟩
  else ⟨1, 1⟩

/-- The 2-D adjustment made before the loop: when Y is active and
`dims.x.max * dims.y.max > maxThreadsPerBlock`, entries 0 and 1 of
`maxThreadsDimension` become `(int) sqrt(maxThreadsPerBlock)`. -/
def adjustLimits2D (dims : Dimensions) (maxThreadsPerBlock : Nat) (l : ThreadLimits) :
    ThreadLimits :=
  if dims.y.toBool && decide (maxThreadsPerBlock < (dims.x.max * dims.y.max) % ULONG_MOD) then
    ⟨Nat.sqrt maxThreadsPerBlock, Nat.sqrt maxThreadsPerBlock, l.d2⟩
  else l

/-- Source `BaseKernel::getNumBlocksAndThreads(dims, maxThreadsPerBlock, maxThreadsDimension)`
with `numThreadsPerBlock` the kernel's configured override. -/
def getNumBlocksAndThreads (numThreadsPerBlock dims : Dimensions) (maxThreadsPerBlock : Nat)
    (maxThreadsDimension : ThreadLimits) : Except String Dimensions :=
  if dims.y.toBool && dims.z.toBool then
    .error "3-dimensional kernels not supported"
  else
    let l := adjustLimits2D dims maxThreadsPerBlock maxThreadsDimension
    .ok ⟨axisBlocksAndThreads (dims.get 0) (numThreadsPerBlock.get 0) (l.get 0),
         axisBlocksAndThreads (dims.get 1) (numThreadsPerBlock.get 1) (l.get 1),
         axisBlocksAndThreads (dims.get 2) (numThreadsPerBlock.get 2) (l.get 2)⟩

/-- The per-axis maximum in force for axis `d` when the mapping is computed:
the entry of `maxThreadsDimension` after the 2-D adjustment, lowered to the
override `numThreadsPerBlock[d]` when that is set and smaller. -/
def effectiveMax (numThreadsPerBlock dims : Dimensions) (maxThreadsPerBlock : Nat)
    (maxThreadsDimension : ThreadLimits) (d : Nat) : Nat :=
  let m := (adjustLimits2D dims maxThreadsPerBlock maxThreadsDimension).get d
  if (numThreadsPerBlock.get d).toBool && decide ((numThreadsPerBlock.get d).max < m) then
    (numThreadsPerBlock.get d).max
  else m

/-- Device attributes read by `CUDA::Kernel::getNumBlocksAndThreadsFor`. -/
structure DeviceAttributes where
  /-- Source `device->getMaxThreadsPerBlock()`. -/
  maxThreadsPerBlock : Nat
  /-- Source `CU_DEVICE_ATTRIBUTE_MAX_REGISTERS_PER_BLOCK`. -/
  maxRegistersPerBlock : Nat
  /-- Source `CU_DEVICE_ATTRIBUTE_MAX_BLOCK_DIM_{X,Y,Z}`. -/
  maxBlockDim : ThreadLimits
deriving DecidableEq, Repr

/-- Source `regsMaxThreadsPerBlock = (double)deviceRegsPerBlock / funcNumRegs`, where
`scaledNumRegs` is the value of `funcNumRegs` after `funcNumRegs *= 1.15`. -/
def regsMaxThreadsPerBlock (dev : DeviceAttributes) (scaledNumRegs : Nat) : Nat :=
  dev.maxRegistersPerBlock / scaledNumRegs

/-- Source `actualMaxThreadsPerBlock` of `CUDA::Kernel::getNumBlocksAndThreadsFor`. -/
def actualMaxThreadsPerBlock (dev : DeviceAttributes) (scaledNumRegs : Nat) : Nat :=
  if regsMaxThreadsPerBlock dev scaledNumRegs < dev.maxThreadsPerBlock then
    regsMaxThreadsPerBlock dev scaledNumRegs
  else dev.maxThreadsPerBlock

/-- Source `CUDA::Kernel::getNumBlocksAndThreadsFor(dims)`. -/
def getNumBlocksAndThreadsFor (dev : DeviceAttributes) (scaledNumRegs : Nat)
    (numThreadsPerBlock dims : Dimensions) : Except String Dimensions :=
  getNumBlocksAndThreads numThreadsPerBlock dims (actualMaxThreadsPerBlock dev scaledNumRegs)
    dev.maxBlockDim

/-! ### Scaling of `Dimensions`, memory objects -/

namespace SingleDimension

/-- Source `SingleDimension& operator*=(unsigned int number)` (`unsigned long` products). -/
def mulAssign (d : SingleDimension) (number : Nat) : SingleDimension :=
  ⟨(d.max * number) % ULONG_MOD, (d.min * number) % ULONG_MOD⟩

/-- Source `SingleDimension operator*(unsigned int number)`. -/
def mul (d : SingleDimension) (number : Nat) : SingleDimension :=
  ⟨(d.max * number) % ULONG_MOD, (d.min * number) % ULONG_MOD⟩

end SingleDimension

namespace Dimensions

/-- Assignment through `(*this)[index]` for `index < 3`. -/
def set (d : Dimensions) (index : Nat) (v : SingleDimension) : Dimensions :=
  if index = 0 then { d with x := v } else if index = 1 then { d with y := v }
  else if index = 2 then { d with z := v } else d

/-- Source `Dimensions& operator*=(unsigned int number)`: the loop
`for (int d = 0; d < this->getCount(); d++) (*this)[d] *= number;`, whose bound is
read again before every round. -/
def mulAssign (d : Dimensions) (number : Nat) : Dimensions :=
  if 0 < d.getCount then
    let d1 := d.set 0 ((d.get 0).mulAssign number)
    if 1 < d1.getCount then
      let d2 := d1.set 1 ((d1.get 1).mulAssign number)
      if 2 < d2.getCount then d2.set 2 ((d2.get 2).mulAssign number) else d2
    else d1
  else d

/-- Source `Dimensions operator*(unsigned int number)`:
`Dimensions(this->x ? this->x*number : 0, this->y ? ... : 0, this->z ? ... : 0)`.  Both
branches of each conditional have type `SingleDimension`; the literal `0` is converted
by `SingleDimension(unsigned long max)`, which gives `(0, 0)`. -/
def mul (d : Dimensions) (number : Nat) : Dimensions :=
  ⟨if d.x.toBool then d.x.mul number else ⟨0, 0⟩,
   if d.y.toBool then d.y.mul number else ⟨0, 0⟩,
   if d.z.toBool then d.z.mul number else ⟨0, 0⟩⟩

/-- The invariant of `Dimensions` in the data model of the specification: the axes are
set contiguously, X before Y and Y before Z. -/
def isContiguous (d : Dimensions) : Bool :=
  (!d.y.toBool || d.x.toBool) && (!d.z.toBool || d.y.toBool)

end Dimensions

/-- Source `static const unsigned char CAN_READ_FLAG = 1 << 0;`. -/
def CAN_READ_FLAG : Nat := 1 <<< 0

/-- Source `static const unsigned char CAN_WRITE_FLAG = 1 << 1;`. -/
def CAN_WRITE_FLAG : Nat := 1 <<< 1

/-- The statement `this->flags &= ~flag;` on an `unsigned char`. -/
def clearFlag (flags flag : Nat) : Nat := flags &&& (255 ^^^ flag)

/-- Data members of `BaseMemoryObject` and `BaseChunkedMemoryObject` that the pattern
engine depends on: `hasHostPointer` is `hostPtr != NULL`, `chunks` is `none` for a
`MemoryObject` and the chunk count for a `ChunkedMemoryObject` (whose `size` is the
size of one chunk). -/
structure MemoryObject where
  size : Nat
  hasHostPointer : Bool := true
  flags : Nat := CAN_READ_FLAG ||| CAN_WRITE_FLAG
  _isPinnedHostMemory : Bool := false
  chunks : Option Nat := none
deriving DecidableEq, Repr

namespace MemoryObject

/-- Source `bool isReadOnly() { return !(this->flags & CAN_WRITE_FLAG); }`. -/
def isReadOnly (m : MemoryObject) : Bool := (m.flags &&& CAN_WRITE_FLAG) == 0

/-- Source `bool isWriteOnly() { return !(this->flags & CAN_READ_FLAG); }`. -/
def isWriteOnly (m : MemoryObject) : Bool := (m.flags &&& CAN_READ_FLAG) == 0

/-- Source `pinHostMemory()`: `BaseMemoryObject::pinHostMemory` sets the pinned mark;
`ChunkedMemoryObject::pinHostMemory` has an empty body. -/
def pinHostMemory (m : MemoryObject) : MemoryObject :=
  match m.chunks with
  | none => { m with _isPinnedHostMemory := true }
  | some _ => m

end MemoryObject

/-- Constructor `BaseMemoryObject(device, size, hostPtr, readOnly, writeOnly)`, which
delegates to `BaseMemoryObject(bool readOnly, bool writeOnly)`. -/
def BaseMemoryObject.new (size : Nat) (hasHostPointer readOnly writeOnly : Bool) :
    Except String MemoryObject :=
  if readOnly && writeOnly then
    .error "A memory object can't be read-only and write-only at the same time"
  else if readOnly then
    .ok { size := size, hasHostPointer := hasHostPointer,
          flags := clearFlag (CAN_READ_FLAG ||| CAN_WRITE_FLAG) CAN_WRITE_FLAG }
  else if writeOnly then
    .ok { size := size, hasHostPointer := hasHostPointer,
          flags := clearFlag (CAN_READ_FLAG ||| CAN_WRITE_FLAG) CAN_READ_FLAG }
  else .ok { size := size, hasHostPointer := hasHostPointer }

/-- Constructor `BaseChunkedMemoryObject(device, chunks, chunkSize, hostPointers,
readOnly, writeOnly)`: its body assigns `device`, `hostPtr = NULL`, `size`,
`hostPointers` and `chunks`; no constructor of `BaseMemoryObject` taking the two
booleans is called, so `flags` keeps its member initialiser. -/
def BaseChunkedMemoryObject.new (chunks chunkSize : Nat) (_readOnly _writeOnly : Bool) :
    MemoryObject :=
  { size := chunkSize, hasHostPointer := false, chunks := some chunks }

/-- Source `Device::malloc(size, hostPtr, readOnly, writeOnly)`. -/
def Device.malloc (size : Nat) (hasHostPointer readOnly writeOnly : Bool) :
    Except String MemoryObject :=
  BaseMemoryObject.new size hasHostPointer readOnly writeOnly

/-- Source `Device::mallocChunked(chunks, chunkSize, hostPointers, readOnly, writeOnly)`. -/
def Device.mallocChunked (chunks chunkSize : Nat) (readOnly writeOnly : Bool) :
    Except String MemoryObject :=
  .ok (BaseChunkedMemoryObject.new chunks chunkSize readOnly writeOnly)

end Driver

namespace Pattern

open Driver

/-- The function `gspar_get_global_id(0)` that `CUDA::KernelGenerator::generateStdFunctions`
emits: `return blockIdx.x * blockDim.x + threadIdx.x;`.  The three operands are
`unsigned int`, so the sum is taken modulo `2 ^ 32` before it is returned as `size_t`. -/
def gspar_get_global_id (blockIdx blockDim threadIdx : Nat) : Nat :=
  (blockIdx * blockDim + threadIdx) % UINT_MOD

/-- The conversions `(unsigned int)blocksAndThreads.x.min` and
`(unsigned int)blocksAndThreads.x.max` of `CUDA::Kernel::runAsync`: the grid size and
the block size that `cuLaunchKernel` receives for the X axis.  The source passes them on
without a test of its own; the launch is taken to run the grid it is given. -/
def launchGrid (blocksAndThreads : Dimensions) : Nat × Nat :=
  (blocksAndThreads.x.min % UINT_MOD, blocksAndThreads.x.max % UINT_MOD)

/-- Values of `gspar_get_global_id(0)` in the threads of a 1-D launch with grid size
`blocks` and block size `threads`, in block order.  A grid or block of size 0 runs no
thread. -/
def globalIds (blocks threads : Nat) : List Nat :=
  (List.range blocks).flatMap fun b =>
    (List.range threads).map fun t => gspar_get_global_id b threads t

/-- Unbatched `generateStdVariables` for one axis:
`size_t x = gspar_get_global_id(d) [+ gspar_min_x]`, the addend being generated
only when `dims[d].min` is non-zero; the sum is a `size_t`. -/
def stdVariable (dim : SingleDimension) (gid : Nat) : Nat :=
  if dim.min ≠ 0 then (gid + dim.min) % ULONG_MOD else gid

/-- Unbatched 1-D `generateDefaultControlIf`: `if ((x < gspar_max_x))`. -/
def defaultControlIf (dim : SingleDimension) (x : Nat) : Bool := decide (x < dim.max)

/-- Indices at which the kernel core is executed by a 1-D launch whose mapping is
`blocksAndThreads`, one entry per execution. -/
def coreExecutions (dims blocksAndThreads : Dimensions) : List Nat :=
  (globalIds (launchGrid blocksAndThreads).1 (launchGrid blocksAndThreads).2).filterMap fun gid =>
    if defaultControlIf dims.x (stdVariable dims.x gid) then some (stdVariable dims.x gid)
    else none

/-- Unbatched Map launch over a request whose only active axis is X
(`BaseParallelPattern::run` down to `Kernel::runAsync`): the checks both
functions make on the request, the mapping, and the indices the user core runs
at. -/
def mapLaunch (numThreadsPerBlock dims : Dimensions) (maxThreadsPerBlock : Nat)
    (maxThreadsDimension : ThreadLimits) : Except String (List Nat) :=
  if dims.getCount = 0 then .error "No dimensions set to run the pattern"
  else if !dims.x.toBool then .error "The first dimension is required to run a kernel"
  else
    match getNumBlocksAndThreads numThreadsPerBlock dims maxThreadsPerBlock
        maxThreadsDimension with
    | .error e => .error e
    | .ok bt => .ok (coreExecutions dims bt)

/-- The user core `result[x] = a[x] + b[x];` of `vector_sum_map.cpp`, acting on
the device buffer `result`. -/
def vectorSumCore (a b : Nat → Nat) (x : Nat) (result : Nat → Nat) : Nat → Nat :=
  Function.update result x (a x + b x)

/-- Buffer `result` after the Map launch of `vectorSumCore`. -/
def vectorSumMap (a b result : Nat → Nat) (numThreadsPerBlock dims : Dimensions)
    (maxThreadsPerBlock : Nat) (maxThreadsDimension : ThreadLimits) :
    Except String (Nat → Nat) :=
  match mapLaunch numThreadsPerBlock dims maxThreadsPerBlock maxThreadsDimension with
  | .error e => .error e
  | .ok xs => .ok (xs.foldl (fun r x => vectorSumCore a b x r) result)

/-! ### Batched Map launch -/

/-- The variables that the batched branch of `KernelGenerator::generateStdVariables`
declares for axis X, all of type `size_t`. -/
structure BatchedVariables where
  /-- Variable `gspar_global_x`. -/
  gspar_global : Nat
  /-- Variable `gspar_batch_x`. -/
  gspar_batch : Nat
  /-- Variable `gspar_offset_x`. -/
  gspar_offset : Nat
  /-- Variable `x`, the standard variable seen by the user core. -/
  x : Nat
deriving DecidableEq, Repr

/-- Batched `generateStdVariables` for axis X:
`size_t gspar_global_x = gspar_get_global_id(0);`
`size_t gspar_batch_x = ((size_t)(gspar_global_x / gspar_max_x));`
`size_t gspar_offset_x = gspar_batch_x * gspar_max_x;`
`size_t x = gspar_global_x - gspar_offset_x;`.
No `gspar_min_x` is added in a batched kernel. -/
def batchedStdVariables (gspar_max : Nat) (gid : Nat) : BatchedVariables :=
  let gspar_global := gid
  let gspar_batch := gspar_global / gspar_max
  let gspar_offset := (gspar_batch * gspar_max) % ULONG_MOD
  { gspar_global := gspar_global
    gspar_batch := gspar_batch
    gspar_offset := gspar_offset
    x := (gspar_global + ULONG_MOD - gspar_offset) % ULONG_MOD }

/-- Batched 1-D `generateDefaultControlIf`:
`if ((gspar_batch_x < gspar_batch_size)&&(x < gspar_max_x))`. -/
def batchedControlIf (gspar_max gspar_batch_size : Nat) (v : BatchedVariables) : Bool :=
  decide (v.gspar_batch < gspar_batch_size) && decide (v.x < gspar_max)

/-- Variables with which the kernel core is executed by a batched 1-D launch whose
mapping is `blocksAndThreads`, one entry per execution.  The argument `gspar_max_x` is
bound to `dims.x.max`, the extent of one batch (`setParametersInKernel(kernel,
dimsToUse)`). -/
def batchedCoreExecutions (dims : Dimensions) (batchSize : Nat)
    (blocksAndThreads : Dimensions) : List BatchedVariables :=
  (globalIds (launchGrid blocksAndThreads).1 (launchGrid blocksAndThreads).2).filterMap fun gid =>
    if batchedControlIf dims.x.max batchSize (batchedStdVariables dims.x.max gid) then
      some (batchedStdVariables dims.x.max gid)
    else none

/-- Batched Map launch (`BaseParallelPattern::run` down to `Kernel::runAsync`):
`dimsToRun = dimsToUse; dimsToRun *= batchSize;`, the checks both functions make, the
mapping computed for `dimsToRun`, and the variables the user core runs with. -/
def batchedMapLaunch (numThreadsPerBlock dimsToUse : Dimensions) (batchSize : Nat)
    (maxThreadsPerBlock : Nat) (maxThreadsDimension : ThreadLimits) :
    Except String (List BatchedVariables) :=
  if dimsToUse.getCount = 0 then .error "No dimensions set to run the pattern"
  else
    let dimsToRun := dimsToUse.mulAssign batchSize
    if !dimsToRun.x.toBool then .error "The first dimension is required to run a kernel"
    else
      match getNumBlocksAndThreads numThreadsPerBlock dimsToRun maxThreadsPerBlock
          maxThreadsDimension with
      | .error e => .error e
      | .ok bt => .ok (batchedCoreExecutions dimsToUse batchSize bt)

/-- The user core `result[x] = a[x] + b[x];` of `vector_sum_map_batch.cpp` in a batched
kernel.  `generateBatchedParametersInitialization` has declared
`a = &gspar_batched_a[gspar_offset_x]` and likewise `b` and `result`, so the core
reads and writes the device buffers (here `a`, `b`, `result`) at
`gspar_offset_x + x`. -/
def batchedVectorSumCore (a b : Nat → Nat) (v : BatchedVariables) (result : Nat → Nat) :
    Nat → Nat :=
  Function.update result (v.gspar_offset + v.x)
    (a (v.gspar_offset + v.x) + b (v.gspar_offset + v.x))

/-- Device buffer `result` after the batched Map launch of `batchedVectorSumCore`. -/
def batchedVectorSumMap (a b result : Nat → Nat) (numThreadsPerBlock dimsToUse : Dimensions)
    (batchSize : Nat) (maxThreadsPerBlock : Nat) (maxThreadsDimension : ThreadLimits) :
    Except String (Nat → Nat) :=
  match batchedMapLaunch numThreadsPerBlock dimsToUse batchSize maxThreadsPerBlock
      maxThreadsDimension with
  | .error e => .error e
  | .ok vs => .ok (vs.foldl (fun r v => batchedVectorSumCore a b v r) result)

/-- Chunk `c` of the device buffer of a chunked memory object whose chunks hold
`chunkElements` elements each: `ChunkedMemoryObject::copyIn(chunk)` and
`copyOut(chunk)` address it at `devicePtr + chunk * getChunkSize()`. -/
def chunkOf (chunkElements : Nat) (buffer : Nat → Nat) (c : Nat) : Nat → Nat :=
  fun i => buffer (c * chunkElements + i)

/-! ### Parameters and the pattern state -/

/-- Source `enum ParameterValueType`. -/
inductive ParameterValueType where
  | GSPAR_PARAM_VALUE
  | GSPAR_PARAM_POINTER
deriving DecidableEq, Repr

/-- Source `enum ParameterDirection`. -/
inductive ParameterDirection where
  | GSPAR_PARAM_NONE
  | GSPAR_PARAM_IN
  | GSPAR_PARAM_OUT
  | GSPAR_PARAM_INOUT
  | GSPAR_PARAM_PRESENT
deriving DecidableEq, Repr

/-- Source `struct VarType`. -/
structure VarType where
  name : String
  isPointer : Bool := false
  isClass : Bool := false
  isConst : Bool := false
  isVolatile : Bool := false
  isLValueRef : Bool := false
  isRValueRef : Bool := false
deriving DecidableEq, Repr

/-- Source `std::string getFullName()` of `VarType`. -/
def VarType.getFullName (t : VarType) : String :=
  "" ++ (if t.isLValueRef then "&" else "") ++ (if t.isRValueRef then "&&" else "") ++ t.name

/-- Source `class BaseParameter` together with the members of `TypedParameter` that the
pattern engine reads: `hasValue` is `value != nullptr`, `memoryObject` is the
object the parameter owns and `userMemoryObject` the one supplied by the user
(`none` for a null pointer). -/
structure BaseParameter where
  name : String
  type : VarType
  size : Nat
  paramValueType : ParameterValueType
  direction : ParameterDirection := .GSPAR_PARAM_IN
  batched : Bool := false
  complete : Bool := true
  hasValue : Bool := true
  memoryObject : Option MemoryObject := none
  userMemoryObject : Option MemoryObject := none
deriving DecidableEq, Repr

namespace BaseParameter

/-- Source `virtual bool isIn()`. -/
def isIn (p : BaseParameter) : Bool :=
  p.direction == .GSPAR_PARAM_IN || p.direction == .GSPAR_PARAM_INOUT

/-- Source `virtual bool isOut()`. -/
def isOut (p : BaseParameter) : Bool :=
  p.direction == .GSPAR_PARAM_OUT || p.direction == .GSPAR_PARAM_INOUT

/-- Source `virtual bool isComplete()`. -/
def isComplete (p : BaseParameter) : Bool := p.complete

/-- Source `virtual bool isBatched()`. -/
def isBatched (p : BaseParameter) : Bool := p.batched

/-- Source `virtual bool isConstant()`. -/
def isConstant (p : BaseParameter) : Bool := p.type.isConst

/-- Source `virtual std::string getKernelParameterName()`. -/
def getKernelParameterName (p : BaseParameter) : String :=
  (if p.isBatched then "gspar_batched_" else "") ++ p.name

/-- Source `virtual std::string toKernelParameter()`. -/
def toKernelParameter (p : BaseParameter) : String :=
  let type := p.type.getFullName
  let type :=
    if p.isBatched && p.paramValueType == .GSPAR_PARAM_VALUE then type ++ "*" else type
  type ++ " " ++ p.getKernelParameterName

/-- Source `virtual std::string toString()` of `BaseParameter`. -/
def toString (p : BaseParameter) : String := p.type.getFullName ++ " " ++ p.name

/-- Source `TypedParameter::getMemoryObject()`: the user's object when there is one,
otherwise the object the parameter owns. -/
def getMemoryObject (p : BaseParameter) : Option MemoryObject :=
  match p.userMemoryObject with
  | some m => some m
  | none => p.memoryObject

end BaseParameter

/-- Constructor `PointerParameter(name, type, size, value, direction, batched)`:
a null `value` makes the parameter an incomplete placeholder. -/
def PointerParameter.mk (name : String) (type : VarType) (size : Nat) (hasValue : Bool)
    (direction : ParameterDirection) (batched : Bool) : BaseParameter :=
  { name := name, type := type, size := size, paramValueType := .GSPAR_PARAM_POINTER,
    direction := direction, batched := batched, complete := hasValue, hasValue := hasValue }

/-- Constructor `PointerParameter(name, type, userMemoryObject, direction, batched)`:
size and value are read from the user's `MemoryObject`, `complete` keeps its
initialiser `true`, and `setUserMemoryObject` records the object. -/
def PointerParameter.ofMemoryObject (name : String) (type : VarType)
    (userMemoryObject : MemoryObject) (direction : ParameterDirection) (batched : Bool) :
    BaseParameter :=
  { name := name, type := type, size := userMemoryObject.size,
    paramValueType := .GSPAR_PARAM_POINTER, direction := direction, batched := batched,
    hasValue := userMemoryObject.hasHostPointer, userMemoryObject := some userMemoryObject }

/-- Constructor `ValueParameter(name, type, size, value, direction, batched)`: a null
`value` makes the parameter an incomplete placeholder. -/
def ValueParameter.mk (name : String) (type : VarType) (size : Nat) (hasValue : Bool)
    (direction : ParameterDirection) (batched : Bool) : BaseParameter :=
  { name := name, type := type, size := size, paramValueType := .GSPAR_PARAM_VALUE,
    direction := direction, batched := batched, complete := hasValue, hasValue := hasValue }

/-- Source `PointerParameter::malloc(gpu, batchSize)`; the result is the parameter
with its `memoryObject` replaced. -/
def PointerParameter.malloc (param : BaseParameter) (batchSize : Nat) :
    Except String BaseParameter :=
  let readOnly := param.direction == .GSPAR_PARAM_IN
  let writeOnly := param.direction == .GSPAR_PARAM_OUT
  if param.isBatched then
    match Device.mallocChunked batchSize param.size readOnly writeOnly with
    | .error e => .error e
    | .ok m => .ok { param with memoryObject := some m }
  else
    match Device.malloc param.size param.hasValue readOnly writeOnly with
    | .error e => .error e
    | .ok m => .ok { param with memoryObject := some m }

/-- Source `ValueParameter::malloc(gpu, batchSize)`: only a batched value parameter
gets a memory object, which is read-only. -/
def ValueParameter.malloc (param : BaseParameter) (batchSize : Nat) :
    Except String BaseParameter :=
  if param.isBatched then
    match Device.malloc (batchSize * param.size) param.hasValue true false with
    | .error e => .error e
    | .ok m => .ok { param with memoryObject := some m }
  else .ok param

/-- The concrete pattern classes deriving from `BaseParallelPattern`. -/
inductive PatternKind where
  | map
  | reduce (vectorName binaryOperation outputParameterName : String)
deriving DecidableEq, Repr

/-- Handle of a compiled kernel: the device it was prepared on and its position
among the kernels that device has prepared (its identity). -/
structure KernelHandle where
  device : Nat
  id : Nat
  /-- Source `Dimensions numThreadsPerBlock = {0, 0, 0};` of `BaseKernel`. -/
  numThreadsPerBlock : Dimensions := Dimensions.ofMax 0 0 0
  /-- Source `unsigned int sharedMemoryBytes = 0;` of `BaseKernel`. -/
  sharedMemoryBytes : Nat := 0
deriving DecidableEq, Repr

/-- Data members of `class BaseParallelPattern` (and of `Reduce`, through `kind`). -/
structure BaseParallelPattern where
  kind : PatternKind
  gpuIndex : Nat := 0
  gpuDevice : Option Nat := none
  executionFlow : Option Nat := none
  batched : Bool := false
  batchSize : Nat := 1
  _isKernelCompiled : Bool := false
  isKernelStale : Bool := false
  compiledKernelDimension : Dimensions := Dimensions.ofMax 0 0 0
  compiledKernel : Option KernelHandle := none
  kernelName : String := ""
  userKernel : String := ""
  extraKernelCode : String := ""
  paramsOrder : List String := []
  numThreadsPerBlock : Nat × Nat × Nat := (0, 0, 0)
  params : List (String × BaseParameter) := []
  stdVarNames : String × String × String := ("", "", "")
  useSharedMemory : Bool := false
  sharedMemoryParameter : Option BaseParameter := none
deriving DecidableEq, Repr

/-- Source `Map(std::string source)`. -/
def Map.new (source : String) : BaseParallelPattern :=
  { kind := .map, userKernel := source }

/-- Source `Reduce(vectorName, binaryOperation, outputParameterName)`. -/
def Reduce.new (vectorName binaryOperation outputParameterName : String) : BaseParallelPattern :=
  { kind := .reduce vectorName binaryOperation outputParameterName, userKernel := "",
    useSharedMemory := true }

/-- Source `const std::string partialTotalsParamName`. -/
def partialTotalsParamName : String := "gspar_partial_reductions"

/-- Assignment `params[name] = parameter` on the `std::map`. -/
def mapAssign (m : List (String × BaseParameter)) (name : String) (v : BaseParameter) :
    List (String × BaseParameter) :=
  match m with
  | [] => [(name, v)]
  | (k, w) :: rest => if k = name then (k, v) :: rest else (k, w) :: mapAssign rest name v

namespace BaseParallelPattern

/-- Source `virtual bool isBatched()`. -/
def isBatched (p : BaseParallelPattern) : Bool := p.batched

/-- Source `BaseParameter* getParameter(std::string name)`. -/
def getParameter (p : BaseParallelPattern) (name : String) : Option BaseParameter :=
  (p.params.find? fun kv => kv.1 == name).map Prod.snd

/-- Source `virtual void setParameter(std::shared_ptr<BaseParameter> parameter)`. -/
def setParameter (p : BaseParallelPattern) (parameter : BaseParameter) : BaseParallelPattern :=
  let p1 :=
    if parameter.name ∈ p.paramsOrder then p
    else { p with paramsOrder := p.paramsOrder ++ [parameter.name], isKernelStale := true }
  { p1 with params := mapAssign p1.params parameter.name parameter }

/-- Source `setPointerParameter(name, type, size, value, direction, batched)` from a raw
host pointer. -/
def setPointerParameter (p : BaseParallelPattern) (name : String) (type : VarType) (size : Nat)
    (hasValue : Bool) (direction : ParameterDirection) (batched : Bool) :
    Except String BaseParallelPattern :=
  if direction = .GSPAR_PARAM_PRESENT then
    .error ("Pattern parameter \"" ++ name ++
      "\": GSPAR_PARAM_PRESENT is only allowed when a MemoryObject is provided")
  else .ok (p.setParameter (PointerParameter.mk name type size hasValue direction batched))

/-- Source `virtual BaseParallelPattern& setBatchSize(unsigned int batchSize)`. -/
def setBatchSize (p : BaseParallelPattern) (batchSize : Nat) : BaseParallelPattern :=
  if batchSize = 0 then
    { p with isKernelStale := if p.isBatched then true else p.isKernelStale,
             batched := false, batchSize := batchSize }
  else
    { p with isKernelStale := if !p.isBatched then true else p.isKernelStale,
             batched := true, batchSize := batchSize }

/-- Source `virtual void setGpuIndex(unsigned int index)`. -/
def setGpuIndex (p : BaseParallelPattern) (index : Nat) : BaseParallelPattern :=
  if p.gpuIndex ≠ index then
    { p with isKernelStale := true, gpuDevice := none, executionFlow := none, gpuIndex := index }
  else p

/-- Source `virtual BaseParallelPattern& addExtraKernelCode(std::string extraKernelCode)`. -/
def addExtraKernelCode (p : BaseParallelPattern) (code : String) : BaseParallelPattern :=
  { p with extraKernelCode := p.extraKernelCode ++ code, isKernelStale := true }

/-- Source `BaseParallelPattern& setStdVarNames(std::array<std::string, 3> names)`. -/
def setStdVarNames (p : BaseParallelPattern) (names : String × String × String) :
    BaseParallelPattern :=
  { p with stdVarNames := names, isKernelStale := true }

/-- Source `virtual void setKernelName(std::string kernelName)`. -/
def setKernelName (p : BaseParallelPattern) (kernelName : String) : BaseParallelPattern :=
  { p with kernelName := kernelName }

/-- Source `setNumThreadsPerBlock(numX, numY, numZ)`. -/
def setNumThreadsPerBlock (p : BaseParallelPattern) (numX numY numZ : Nat) :
    BaseParallelPattern :=
  { p with numThreadsPerBlock := (numX, numY, numZ) }

/-- The statement `this->batched = true;` of `setBatchedParameter` and of a batched
`setParameterPlaceholder`. -/
def markBatched (p : BaseParallelPattern) : BaseParallelPattern :=
  { p with batched := true }

/-- Source `isKernelCompiledFor(dims)`: the `BaseParallelPattern` body for Map, the
override `Reduce::isKernelCompiledFor` for Reduce. -/
def isKernelCompiledFor (p : BaseParallelPattern) (dims : Dimensions) : Bool :=
  match p.kind with
  | .map => p._isKernelCompiled && !p.isKernelStale && p.compiledKernelDimension.eq dims
  | .reduce _ _ _ =>
    p._isKernelCompiled && !p.isKernelStale &&
      (p.compiledKernelDimension.getCount == dims.getCount)

/-- Source `setPointerParameter(name, type, userMemoryObject, direction, batched)`, the
overload that takes the user's `MemoryObject`. -/
def setPointerParameterWithMemoryObject (p : BaseParallelPattern) (name : String)
    (type : VarType) (userMemoryObject : MemoryObject) (direction : ParameterDirection)
    (batched : Bool) : BaseParallelPattern :=
  p.setParameter (PointerParameter.ofMemoryObject name type userMemoryObject direction batched)

/-- Source `setValueParameter(name, type, size, value, direction, batched)`. -/
def setValueParameter (p : BaseParallelPattern) (name : String) (type : VarType) (size : Nat)
    (hasValue : Bool) (direction : ParameterDirection) (batched : Bool) : BaseParallelPattern :=
  p.setParameter (ValueParameter.mk name type size hasValue direction batched)

/-- Source `virtual std::vector<BaseParameter*> getParameterList()`; `none` is a null
entry. -/
def getParameterList (p : BaseParallelPattern) : List (Option BaseParameter) :=
  p.paramsOrder.map p.getParameter

/-- Source `setCompiledKernel<TDriverInstance>(kernel, dims)`. -/
def setCompiledKernel (p : BaseParallelPattern) (kernel : KernelHandle) (dims : Dimensions) :
    BaseParallelPattern :=
  { p with compiledKernel := some kernel, compiledKernelDimension := dims,
           _isKernelCompiled := true, isKernelStale := false }

/-- Source `setGpu<TDriverInstance>(device)`.  For a null `device` the new execution
flow has no device to start on and is represented by `none`. -/
def setGpu (p : BaseParallelPattern) (device : Option Nat) : BaseParallelPattern :=
  if p.gpuDevice ≠ device then { p with gpuDevice := device, executionFlow := device } else p

end BaseParallelPattern

/-- A public member function that can throw leaves the pattern in `pattern`; when a
`GSParException` was thrown, `exception` holds its message. -/
structure CallResult where
  pattern : BaseParallelPattern
  exception : Option String := none
deriving DecidableEq, Repr

namespace BaseParallelPattern

/-- Source `setParameter<T>(name, size, T* value, direction)`.  `varType` is
`getTemplatedType<decltype(value)>()` and `hasValue` is `value != nullptr`.
`setPointerParameter` throws in its first statement, before it writes any member. -/
def setParameterPointer (p : BaseParallelPattern) (name : String) (varType : VarType)
    (size : Nat) (hasValue : Bool) (direction : ParameterDirection) : CallResult :=
  match p.setPointerParameter name varType size hasValue direction false with
  | .error e => { pattern := p, exception := some e }
  | .ok p1 => { pattern := p1 }

/-- Source `setParameter<T>(name, size, const T* value)`. -/
def setParameterConstPointer (p : BaseParallelPattern) (name : String) (varType : VarType)
    (size : Nat) (hasValue : Bool) : CallResult :=
  match p.setPointerParameter name varType size hasValue .GSPAR_PARAM_IN false with
  | .error e => { pattern := p, exception := some e }
  | .ok p1 => { pattern := p1 }

/-- Source `setParameter<T>(name, userMemoryObject, direction)`. -/
def setParameterMemoryObject (p : BaseParallelPattern) (name : String) (varType : VarType)
    (userMemoryObject : MemoryObject) (direction : ParameterDirection) : CallResult :=
  { pattern := p.setPointerParameterWithMemoryObject name varType userMemoryObject direction
      false }

/-- Source `setParameter<T>(name, T value)`: the value is copied to fresh storage, so
the parameter has a value. -/
def setParameterValue (p : BaseParallelPattern) (name : String) (varType : VarType)
    (sizeofT : Nat) : CallResult :=
  { pattern := p.setValueParameter name varType sizeofT true .GSPAR_PARAM_IN false }

/-- Source `setParameterPlaceholder<T>(name, parameterType, direction, batched)`. -/
def setParameterPlaceholder (p : BaseParallelPattern) (name : String) (varType : VarType)
    (sizeofT : Nat) (parameterType : ParameterValueType) (direction : ParameterDirection)
    (batched : Bool) : CallResult :=
  match parameterType with
  | .GSPAR_PARAM_POINTER =>
    match p.setPointerParameter name varType 0 false direction batched with
    | .error e => { pattern := p, exception := some e }
    | .ok p1 => { pattern := if batched then p1.markBatched else p1 }
  | .GSPAR_PARAM_VALUE =>
    let p1 := p.setValueParameter name varType sizeofT false direction batched
    { pattern := if batched then p1.markBatched else p1 }

/-- Source `setBatchedParameter<T>(name, sizeOfEachBatch, T** value, direction)`.
`this->batched = true` is the first statement, so it has taken effect when
`setPointerParameter` throws. -/
def setBatchedParameter (p : BaseParallelPattern) (name : String) (varType : VarType)
    (sizeOfEachBatch : Nat) (hasValue : Bool) (direction : ParameterDirection) : CallResult :=
  let p1 := p.markBatched
  let varType := { varType with name := varType.name.dropRight 1 }
  match p1.setPointerParameter name varType sizeOfEachBatch hasValue direction true with
  | .error e => { pattern := p1, exception := some e }
  | .ok p2 => { pattern := p2 }

/-- Source `setBatchedParameter<T>(name, sizeOfEachBatch, const T** value)`. -/
def setBatchedParameterConst (p : BaseParallelPattern) (name : String) (varType : VarType)
    (sizeOfEachBatch : Nat) (hasValue : Bool) : CallResult :=
  let p1 := p.markBatched
  let varType := { varType with name := varType.name.dropRight 1 }
  match p1.setPointerParameter name varType sizeOfEachBatch hasValue .GSPAR_PARAM_IN true with
  | .error e => { pattern := p1, exception := some e }
  | .ok p2 => { pattern := p2 }

/-- Source `setBatchedParameter<T>(name, const T* value)`, a batched value parameter. -/
def setBatchedParameterValue (p : BaseParallelPattern) (name : String) (varType : VarType)
    (sizeofT : Nat) (hasValue : Bool) : CallResult :=
  let p1 := p.markBatched
  let varType := { varType with name := varType.name.dropRight 1 }
  { pattern := p1.setValueParameter name varType sizeofT hasValue .GSPAR_PARAM_IN true }

/-- Source `BaseKernel::cloneInto(other)` with `CUDA::Kernel::cloneInto`: name, device,
program and shared-memory size are copied, `numThreadsPerBlock` is not. -/
def KernelHandle.cloneInto (k other : KernelHandle) : KernelHandle :=
  { other with device := k.device, id := k.id, sharedMemoryBytes := k.sharedMemoryBytes }

/-- Source `cloneIntoNonTemplated(other)`. -/
def cloneIntoNonTemplated (p other : BaseParallelPattern) : BaseParallelPattern :=
  { other with gpuIndex := p.gpuIndex, batched := p.batched, batchSize := p.batchSize,
               kernelName := p.kernelName, userKernel := p.userKernel,
               extraKernelCode := p.extraKernelCode, paramsOrder := p.paramsOrder,
               params := p.params, stdVarNames := p.stdVarNames,
               useSharedMemory := p.useSharedMemory,
               sharedMemoryParameter := p.sharedMemoryParameter }

/-- Source `cloneInto<TDriverInstance>(other)`. -/
def cloneInto (p other : BaseParallelPattern) : BaseParallelPattern :=
  let o1 := (p.cloneIntoNonTemplated other).setGpu p.gpuDevice
  if p._isKernelCompiled && !p.isKernelStale then
    let o2 := { o1 with _isKernelCompiled := p._isKernelCompiled,
                        isKernelStale := p.isKernelStale }
    let o3 :=
      if p.compiledKernelDimension.getCount ≠ 0 then
        { o2 with compiledKernelDimension := p.compiledKernelDimension }
      else o2
    match p.compiledKernel with
    | some k => { o3 with compiledKernel := some (KernelHandle.cloneInto k { device := 0, id := 0 }) }
    | none => o3
  else o1

/-- Source `Map::clone<TDriverInstance>()` and `Reduce::clone<TDriverInstance>()`: a
default-constructed pattern of the same class receives `cloneInto`; `Reduce::clone`
then copies `vectorName`, `binaryOperation` and `outputParameterName`. -/
def clone (p : BaseParallelPattern) : BaseParallelPattern :=
  match p.kind with
  | .map => p.cloneInto { kind := .map }
  | .reduce vectorName binaryOperation outputParameterName =>
    { p.cloneInto { kind := .reduce "" "" "" } with
      kind := .reduce vectorName binaryOperation outputParameterName }

end BaseParallelPattern

/-! ### Kernel arguments -/

/-- One positional kernel argument, as `setParametersInKernel` hands it to
`kernel->setParameter`: the extent `dims[d].max` or `dims[d].min` of an axis
(`sizeof(unsigned long)`), the batch size (`sizeof(unsigned int)`), the memory object
of a parameter after the `dynamic_cast` to the chunked or the single class (`none`
when the cast gives a null pointer), or the host value of a value parameter. -/
inductive KernelArg where
  | dimensionMax (d : Nat) (value : Nat)
  | dimensionMin (d : Nat) (value : Nat)
  | batchSize (value : Nat)
  | chunkedMemoryObject (parameter : String) (memoryObject : Option MemoryObject)
  | memoryObject (parameter : String) (memoryObject : Option MemoryObject)
  | value (parameter : String) (size : Nat)
deriving DecidableEq, Repr

/-- What a position of the kernel signature stands for. -/
inductive ParameterSlot where
  | dimensionMax (d : Nat)
  | dimensionMin (d : Nat)
  | batchSize
  | parameter (name : String)
deriving DecidableEq, Repr

/-- The argument is a memory object whose `dynamic_cast` gave a null pointer. -/
def KernelArg.isNullMemoryObject : KernelArg → Bool
  | .chunkedMemoryObject _ none => true
  | .memoryObject _ none => true
  | _ => false

/-- The signature position an argument fills. -/
def KernelArg.slot : KernelArg → ParameterSlot
  | .dimensionMax d _ => .dimensionMax d
  | .dimensionMin d _ => .dimensionMin d
  | .batchSize _ => .batchSize
  | .chunkedMemoryObject n _ => .parameter n
  | .memoryObject n _ => .parameter n
  | .value n _ => .parameter n

namespace BaseParallelPattern

/-- Source `setDimsParametersInKernel<TDriverInstance>(kernel, dims)`. -/
def setDimsParametersInKernel (p : BaseParallelPattern) (dims : Dimensions) : List KernelArg :=
  (List.range dims.getCount).flatMap fun d =>
    if dims.is d then
      KernelArg.dimensionMax d (dims.get d).max ::
        (if (dims.get d).min ≠ 0 && !p.isBatched then [KernelArg.dimensionMin d (dims.get d).min]
         else [])
    else []

/-- Source `setParameterInKernel<TDriverInstance>(kernel, parameter)`. -/
def setParameterInKernel (parameter : BaseParameter) : List KernelArg :=
  if parameter.direction = .GSPAR_PARAM_NONE then []
  else
    match parameter.paramValueType with
    | .GSPAR_PARAM_POINTER =>
      if parameter.isBatched then
        [.chunkedMemoryObject parameter.name
          (parameter.getMemoryObject.filter fun m => m.chunks.isSome)]
      else
        [.memoryObject parameter.name
          (parameter.getMemoryObject.filter fun m => m.chunks.isNone)]
    | .GSPAR_PARAM_VALUE =>
      if parameter.isBatched then
        [.memoryObject parameter.name
          (parameter.getMemoryObject.filter fun m => m.chunks.isNone)]
      else [.value parameter.name parameter.size]

/-- Source `setParametersInKernel<TDriverInstance>(kernel, dims)`: the arguments in the
order of the `kernel->setParameter` calls.  A name of `paramsOrder` without an entry in
`params` would make the source dereference a null pointer; it contributes nothing here. -/
def setParametersInKernel (p : BaseParallelPattern) (dims : Dimensions) : List KernelArg :=
  p.setDimsParametersInKernel dims ++
    (if p.isBatched then [KernelArg.batchSize p.batchSize] else []) ++
    p.paramsOrder.flatMap fun paramName =>
      match p.getParameter paramName with
      | some param => setParameterInKernel param
      | none => []

end BaseParallelPattern

/-! ### Backend seen from the pattern engine, kernel source assembly, `compile` -/

/-- Observable calls made while compiling and running: source generation,
`Device::prepareKernel`, `Device::malloc` or `mallocChunked` for a parameter,
`pinHostMemory`, `copyInAsync` and `copyOut` on a parameter's memory object (of one
chunk when `chunk` is given), `Kernel::runAsync` and `Kernel::waitAsync`, and
`Device::prepareKernels` for the kernels of a composition. -/
inductive Event where
  | generatedKernelSource (kernelName : String)
  | prepareKernel (device : Nat) (kernelSource kernelName : String)
  | malloc (device : Nat) (parameter : String) (memoryObject : MemoryObject)
  | pinHostMemory (parameter : String)
  | copyInAsync (parameter : String) (chunk : Option Nat)
  | runAsync (kernel : KernelHandle) (dims blocksAndThreads : Dimensions) (args : List KernelArg)
  | waitAsync (kernel : KernelHandle)
  | copyOut (parameter : String) (chunk : Option Nat)
  | prepareKernels (device : Nat) (kernelSource : String) (kernelNames : List String)
deriving DecidableEq, Repr

/-- The `KernelGenerator` of a backend (`BaseKernelGenerator`'s pure virtual
members), as functions of the pattern and the requested `Dimensions`. -/
structure KernelGenerator where
  getKernelPrefix : String
  generateParams : BaseParallelPattern → Dimensions → String
  generateInitKernel : BaseParallelPattern → Dimensions → String
  generateStdVariables : BaseParallelPattern → Dimensions → String
  generateBatchedParametersInitialization : BaseParallelPattern → Dimensions → String

/-- The backend (`TDriverInstance`) and the process state the engine reads:
number of GPUs, the code generator, whether `Device::prepareKernel` accepts a
source, the values `getRandomString` returns in turn, and the calls made so far. -/
structure Backend where
  gpuCount : Nat
  kernelGenerator : KernelGenerator
  compiles : Nat → String → String → Bool
  randomString : Nat → Nat → String
  randomDraws : Nat := 0
  events : List Event := []
  /-- Limits of the device, read by `Kernel::getNumBlocksAndThreadsFor`. -/
  deviceAttributes : DeviceAttributes := ⟨1024, 65536, ⟨1024, 1024, 64⟩⟩
  /-- Register count the device reports for a kernel, after `funcNumRegs *= 1.15`. -/
  scaledNumRegs : Nat := 32

/-- Source `getRandomString(length)`. -/
def getRandomString (b : Backend) (length : Nat) : String × Backend :=
  (b.randomString b.randomDraws length, { b with randomDraws := b.randomDraws + 1 })

/-- Source `BaseKernelGenerator::getStdVarNameForDimension`, default names `x`, `y`, `z`. -/
def getStdVarNameForDimension (patternNames : String × String × String) (dimension : Nat) :
    String :=
  let n := if dimension = 0 then patternNames.1 else if dimension = 1 then patternNames.2.1
    else patternNames.2.2
  if n.isEmpty then (if dimension = 0 then "x" else if dimension = 1 then "y" else "z") else n

/-- Source `BaseKernelGenerator::getStdVarNames`. -/
def getStdVarNames (patternNames : String × String × String) : String × String × String :=
  (getStdVarNameForDimension patternNames 0, getStdVarNameForDimension patternNames 1,
    getStdVarNameForDimension patternNames 2)

/-! ### Parameter declarations of the generated kernel -/

/-- One parameter declaration of the kernel signature: its text without the
separating comma, and the position it stands for. -/
structure ParameterDeclaration where
  slot : ParameterSlot
  text : String
deriving DecidableEq, Repr

/-- The string a generator builds with `r += text + ","` for each declaration. -/
def joinDeclarations (ds : List ParameterDeclaration) : String :=
  String.join (ds.map fun d => d.text ++ ",")

/-- The statement `if (!r.empty()) r.pop_back();`. -/
def popBackIfNotEmpty (r : String) : String := if r.isEmpty then r else r.dropRight 1

/-- The leading part of `generateParams`, identical in the CUDA and the OpenCL
generator: the loop over the axes and the batch-size parameter. -/
def generateDimsDeclarations (p : BaseParallelPattern) (dims : Dimensions) :
    List ParameterDeclaration :=
  ((List.range dims.getCount).flatMap fun d =>
    if dims.is d then
      let varName := getStdVarNameForDimension p.stdVarNames d
      ParameterDeclaration.mk (.dimensionMax d) ("const unsigned long gspar_max_" ++ varName) ::
        (if (dims.get d).min ≠ 0 && !p.isBatched then
          [ParameterDeclaration.mk (.dimensionMin d) ("const unsigned long gspar_min_" ++ varName)]
         else [])
    else []) ++
  (if p.isBatched then [ParameterDeclaration.mk .batchSize "unsigned int gspar_batch_size"]
   else [])

namespace CUDA

/-- Declaration of one user parameter in `CUDA::KernelGenerator::generateParams`. -/
def generateParam (param : BaseParameter) : List ParameterDeclaration :=
  if param.direction ≠ .GSPAR_PARAM_NONE then
    [⟨.parameter param.name,
      (if param.direction = .GSPAR_PARAM_IN && param.isConstant then "const " else "") ++
        param.toKernelParameter⟩]
  else []

/-- The declarations `CUDA::KernelGenerator::generateParams` emits, in order.  A null
entry of `getParameterList()` would be dereferenced by the source; it contributes
nothing here. -/
def generateParamsDeclarations (p : BaseParallelPattern) (dims : Dimensions) :
    List ParameterDeclaration :=
  generateDimsDeclarations p dims ++
    p.getParameterList.flatMap fun param =>
      match param with
      | some param => generateParam param
      | none => []

/-- Source `CUDA::KernelGenerator::generateParams(pattern, dims)`. -/
def generateParams (p : BaseParallelPattern) (dims : Dimensions) : String :=
  popBackIfNotEmpty (joinDeclarations (generateParamsDeclarations p dims))

end CUDA

namespace OpenCL

/-- Declaration of one user parameter in `OpenCL::KernelGenerator::generateParams`. -/
def generateParam (param : BaseParameter) : List ParameterDeclaration :=
  if param.direction ≠ .GSPAR_PARAM_NONE then
    [⟨.parameter param.name,
      (if param.paramValueType = .GSPAR_PARAM_POINTER || param.isBatched then "__global" ++ " "
        else "") ++
      (if param.direction = .GSPAR_PARAM_IN && param.isConstant then "const " else "") ++
        param.toKernelParameter⟩]
  else []

/-- The declarations `OpenCL::KernelGenerator::generateParams` emits before the
shared-memory parameter, in order. -/
def generateParamsDeclarations (p : BaseParallelPattern) (dims : Dimensions) :
    List ParameterDeclaration :=
  generateDimsDeclarations p dims ++
    p.getParameterList.flatMap fun param =>
      match param with
      | some param => generateParam param
      | none => []

/-- Source `OpenCL::KernelGenerator::generateParams(pattern, dims)`: with shared memory
in use the `__local` parameter follows the last comma, otherwise that comma is
removed.  A pattern that uses shared memory without having the parameter would make
the source dereference a null pointer; the text then ends after the prefix. -/
def generateParams (p : BaseParallelPattern) (dims : Dimensions) : String :=
  let r := joinDeclarations (generateParamsDeclarations p dims)
  if p.useSharedMemory then
    r ++ "__local" ++ " " ++
      (match p.sharedMemoryParameter with
       | some shmem => shmem.toString
       | none => "")
  else popBackIfNotEmpty r

end OpenCL

namespace BaseParameter

/-- Source `virtual std::string getNonPointerTypeName()`. -/
def getNonPointerTypeName (p : BaseParameter) : String :=
  let type := p.type.getFullName
  if type.back = '*' then type.dropRight 1 else type

end BaseParameter

namespace CUDA

/-- Source `CUDA::KernelGenerator::getKernelPrefix()`. -/
def getKernelPrefix : String := "extern \"C\" __global__" ++ " void"

/-- Source `CUDA::KernelGenerator::generateInitKernel(pattern, dims)`.  A pattern that
uses shared memory without having the parameter would make the source dereference
a null pointer; the text is then empty. -/
def generateInitKernel (p : BaseParallelPattern) (_dims : Dimensions) : String :=
  if p.useSharedMemory then
    match p.sharedMemoryParameter with
    | some shmem =>
      "extern __shared__" ++ " " ++ shmem.getNonPointerTypeName ++ " " ++ shmem.name ++ "[];"
    | none => ""
  else ""

/-- Source `CUDA::KernelGenerator::generateStdVariables(pattern, dims)`. -/
def generateStdVariables (p : BaseParallelPattern) (dims : Dimensions) : String :=
  (List.range dims.getCount).foldl (fun r d =>
    if dims.is d then
      let varName := getStdVarNameForDimension p.stdVarNames d
      let r := if p.isBatched then r ++ "size_t gspar_global_" ++ varName
        else r ++ "size_t " ++ varName
      let r := r ++ " = gspar_get_global_id(" ++ toString d ++ ")"
      let r := if (dims.get d).min ≠ 0 && !p.isBatched then r ++ " + gspar_min_" ++ varName
        else r
      let r := r ++ "; \n"
      if p.isBatched then
        r ++ "size_t gspar_batch_" ++ varName ++ " = ((size_t)(gspar_global_" ++ varName
            ++ " / gspar_max_" ++ varName ++ ")); \n"
          ++ "size_t gspar_offset_" ++ varName ++ " = gspar_batch_" ++ varName
            ++ " * gspar_max_" ++ varName ++ "; \n"
          ++ "size_t " ++ varName ++ " = gspar_global_" ++ varName ++ " - gspar_offset_"
            ++ varName ++ "; \n"
      else r
    else r) ""

/-- Source `CUDA::KernelGenerator::generateBatchedParametersInitialization(pattern, max)`. -/
def generateBatchedParametersInitialization (p : BaseParallelPattern) (_max : Dimensions) :
    String :=
  let stdVarFirstDimension := getStdVarNameForDimension p.stdVarNames 0
  p.getParameterList.foldl (fun r param =>
    match param with
    | none => r
    | some param =>
      if param.isBatched then
        let r := if param.direction = .GSPAR_PARAM_IN && param.isConstant then r ++ "const "
          else r
        let r := r ++ param.type.getFullName ++ " " ++ param.name ++ " = "
        let r :=
          match param.paramValueType with
          | .GSPAR_PARAM_POINTER =>
            r ++ "&" ++ param.getKernelParameterName ++ "[gspar_offset_" ++ stdVarFirstDimension
              ++ "]"
          | .GSPAR_PARAM_VALUE =>
            r ++ param.getKernelParameterName ++ "[gspar_batch_" ++ stdVarFirstDimension ++ "]"
        r ++ ";\n"
      else r) ""

/-- The `CUDA::KernelGenerator`. -/
def kernelGenerator : KernelGenerator :=
  { getKernelPrefix := getKernelPrefix
    generateParams := generateParams
    generateInitKernel := generateInitKernel
    generateStdVariables := generateStdVariables
    generateBatchedParametersInitialization := generateBatchedParametersInitialization }

end CUDA

namespace BaseParallelPattern

/-- Source `getGpu<TDriverInstance>()` with the `setGpu` it performs. -/
def getGpu (p : BaseParallelPattern) (b : Backend) : Option Nat × BaseParallelPattern :=
  match p.gpuDevice with
  | some g => (some g, p)
  | none =>
    if b.gpuCount = 0 then (none, p)
    else if p.gpuIndex < b.gpuCount then
      (some p.gpuIndex, { p with gpuDevice := some p.gpuIndex, executionFlow := some p.gpuIndex })
    else (none, p)

/-- Source `virtual std::string getKernelName()`. -/
def getKernelName (p : BaseParallelPattern) (b : Backend) :
    String × BaseParallelPattern × Backend :=
  if p.kernelName.isEmpty then
    let r := getRandomString b 7
    ("gspar_kernel_" ++ r.1, { p with kernelName := "gspar_kernel_" ++ r.1 }, r.2)
  else (p.kernelName, p, b)

/-- Source `generateDefaultControlIf(dims, stdVarNames)`: the opening line of the
bounds check and its closing brace. -/
def generateDefaultControlIf (p : BaseParallelPattern) (dims : Dimensions)
    (stdVarNames : String × String × String) : String × String :=
  let name := fun (d : Nat) =>
    if d = 0 then stdVarNames.1 else if d = 1 then stdVarNames.2.1 else stdVarNames.2.2
  let r := (List.range 3).foldl (fun r d =>
    if dims.is d then
      (if p.isBatched then r ++ "(gspar_batch_" ++ name d ++ " < gspar_batch_size)&&" else r)
        ++ "(" ++ name d ++ " < gspar_max_" ++ name d ++ ")&&"
    else r) "if ("
  ((r.dropRight 2) ++ ") \x7b\n", "\x7d")

/-- Source `Reduce::getOutputParameter()`. -/
def getOutputParameter (p : BaseParallelPattern) (outputParameterName : String) :
    Except String BaseParameter :=
  match p.getParameter outputParameterName with
  | none => .error ("Could not find output parameter with name '" ++ outputParameterName ++
      "' in Reduce pattern")
  | some param => .ok param

/-- Source `getSharedMemoryParameter()`: the stored pointer for Map, the lazily created
placeholder of `Reduce::getSharedMemoryParameter` for Reduce. -/
def getSharedMemoryParameter (p : BaseParallelPattern) (b : Backend) :
    Except String (Option BaseParameter × BaseParallelPattern × Backend) :=
  match p.kind with
  | .map => .ok (p.sharedMemoryParameter, p, b)
  | .reduce _ _ outputParameterName =>
    match p.sharedMemoryParameter with
    | some sh => .ok (some sh, p, b)
    | none =>
      match p.getOutputParameter outputParameterName with
      | .error e => .error e
      | .ok outParam =>
        let r := getRandomString b 5
        let sh := PointerParameter.mk ("gspar_shared_" ++ r.1) outParam.type 0 false
          .GSPAR_PARAM_IN false
        .ok (some sh, { p with sharedMemoryParameter := some sh }, r.2)

/-- Text returned by `Reduce::getKernelCore` for the standard variable `gid`,
shared buffer `shmem`, operator `op`, input vector `vectorName` and output
parameter `outParam`. -/
def reduceKernelCoreText (vectorName op : String) (outParam : BaseParameter)
    (shmem gid : String) : String :=
  let max := "gspar_max_" ++ gid
  let tid := "gspar_tid_" ++ gid
  let bid := "gspar_bid_" ++ gid
  let bsize := "gspar_bsize_" ++ gid
  "   size_t " ++ tid ++ " = gspar_get_thread_id(0); \n" ++
  "   size_t " ++ bid ++ " = gspar_get_block_id(0); \n" ++
  "   size_t " ++ bsize ++ " = gspar_get_block_size(0); \n" ++
  "   " ++ shmem ++ "[" ++ tid ++ "] = " ++ vectorName ++ "[" ++ gid ++ "]; \n" ++
  "   gspar_synchronize_local_threads(); \n" ++
  "   for (unsigned int s=" ++ bsize ++ "/2; s>0; s>>=1) \x7b \n" ++
  "       if (" ++ tid ++ " < s && " ++ gid ++ "+s < " ++ max ++ ") \x7b \n" ++
  "           " ++ shmem ++ "[" ++ tid ++ "] = " ++ shmem ++ "[" ++ tid ++ "]" ++ op ++ shmem ++
    "[" ++ tid ++ "+s]; \n" ++
  "       \x7d \n" ++
  "       gspar_synchronize_local_threads(); \n" ++
  "       if (" ++ tid ++ " == 0 && s > 1 && s % 2 != 0) \x7b \n" ++
  "           " ++ shmem ++ "[" ++ tid ++ "] = " ++ shmem ++ "[" ++ tid ++ "]" ++ op ++ shmem ++
    "[s-1]; \n" ++
  "       \x7d \n" ++
  "       gspar_synchronize_local_threads(); \n" ++
  "   \x7d \n" ++
  "   if (" ++ tid ++ " == 0) \x7b \n" ++
  "       if (" ++ bsize ++ " % 2 != 0) \x7b \n" ++
  "           " ++ shmem ++ "[0] = " ++ shmem ++ "[0]" ++ op ++ shmem ++ "[" ++ max ++ "-1]; \n" ++
  "       \x7d \n" ++
  "       " ++ partialTotalsParamName ++ "[" ++ bid ++ "] = " ++ shmem ++ "[0]; \n" ++
  (if outParam.isIn then
    "       if (gspar_get_grid_size(0) == 1) \x7b \n" ++
    "           " ++ partialTotalsParamName ++ "[" ++ bid ++ "] = " ++ partialTotalsParamName ++
      "[" ++ bid ++ "]" ++ op ++ "*" ++ outParam.name ++ "; \n" ++
    "       \x7d \n"
   else "") ++
  "   \x7d \n"

/-- Source `getKernelCore(dims, stdVarNames)`: the user kernel for Map,
`Reduce::getKernelCore` for Reduce. -/
def getKernelCore (p : BaseParallelPattern) (b : Backend) (dims : Dimensions)
    (stdVarNames : String × String × String) :
    Except String (String × BaseParallelPattern × Backend) :=
  match p.kind with
  | .map => .ok (p.userKernel, p, b)
  | .reduce vectorName binaryOperation outputParameterName =>
    if dims.y.toBool || dims.z.toBool then
      .error "Reduce pattern currently does not support multi-dimensional kernels"
    else
      match p.getOutputParameter outputParameterName with
      | .error e => .error e
      | .ok outParam =>
        match p.getSharedMemoryParameter b with
        | .error e => .error e
        | .ok (shmemParam, p1, b1) =>
          let shmem := match shmemParam with
            | some sh => sh.name
            | none => ""
          .ok (reduceKernelCoreText vectorName binaryOperation outParam shmem stdVarNames.1, p1, b1)

/-- Source `callbackBeforeGeneratingKernelSource()`: empty for Map; Reduce registers the
partial-totals placeholder when it is not registered yet. -/
def callbackBeforeGeneratingKernelSource (p : BaseParallelPattern) :
    Except String BaseParallelPattern :=
  match p.kind with
  | .map => .ok p
  | .reduce _ _ outputParameterName =>
    match p.getParameter partialTotalsParamName with
    | some _ => .ok p
    | none =>
      match p.getOutputParameter outputParameterName with
      | .error e => .error e
      | .ok outParam =>
        let t := if outParam.type.isPointer then outParam.type
          else { outParam.type with name := outParam.type.name ++ "*", isPointer := true }
        p.setPointerParameter partialTotalsParamName t 0 false .GSPAR_PARAM_OUT false

/-- Source `generateKernelSource<TDriverInstance>(dims)`.  The kernel core is produced
first, so that the generator functions see the shared-memory placeholder that
`Reduce::getKernelCore` creates. -/
def generateKernelSource (p : BaseParallelPattern) (b : Backend) (dims : Dimensions) :
    Except String (String × BaseParallelPattern × Backend) :=
  let (kernelName, p0, b0) := p.getKernelName b
  let names := getStdVarNames p0.stdVarNames
  match p0.getKernelCore b0 dims names with
  | .error e => .error e
  | .ok (core, p1, b1) =>
    let g := b1.kernelGenerator
    let ifDimensions := p1.generateDefaultControlIf dims names
    .ok ((if !p1.extraKernelCode.isEmpty then p1.extraKernelCode ++ "\n" else "")
        ++ g.getKernelPrefix ++ " " ++ kernelName ++ "("
        ++ g.generateParams p1 dims ++ ") \x7b\n"
        ++ g.generateInitKernel p1 dims ++ "\n"
        ++ g.generateStdVariables p1 dims
        ++ g.generateBatchedParametersInitialization p1 dims ++ "\n"
        ++ ifDimensions.1
        ++ core
        ++ "\n" ++ ifDimensions.2 ++ "\n"
        ++ "\x7d\n",
      p1, { b1 with events := b1.events ++ [Event.generatedKernelSource kernelName] })

/-- Number of kernels a device has prepared so far. -/
def preparedOn (b : Backend) (device : Nat) : Nat :=
  (b.events.filter fun e =>
    match e with
    | .prepareKernel d _ _ => d == device
    | _ => false).length

/-- Source `compile<TDriverInstance>(dims)`.  An exception thrown by
`Device::prepareKernel` (the native build log) is the error
`"Kernel compilation failed"`. -/
def compile (p : BaseParallelPattern) (b : Backend) (dims : Dimensions) :
    Except String (BaseParallelPattern × Backend) :=
  if p.isKernelCompiledFor dims then .ok (p, b)
  else
    match p.getGpu b with
    | (none, _) => .error "No GPU found for Pattern compilation"
    | (some gpu, p1) =>
      let (kernelName, p2, b2) := p1.getKernelName b
      match p2.callbackBeforeGeneratingKernelSource with
      | .error e => .error e
      | .ok p3 =>
        match p3.generateKernelSource b2 dims with
        | .error e => .error e
        | .ok (kernelSource, p4, b4) =>
          if b4.compiles gpu kernelSource kernelName then
            let kernel : KernelHandle := { device := gpu, id := preparedOn b4 gpu }
            .ok ({ p4 with compiledKernel := some kernel, compiledKernelDimension := dims,
                           _isKernelCompiled := true, isKernelStale := false },
                 { b4 with events := b4.events ++ [Event.prepareKernel gpu kernelSource kernelName] })
          else .error "Kernel compilation failed"

end BaseParallelPattern

/-! ### Running a pattern: allocation, copies, launch

The functions below follow `BaseParallelPattern::run` and `Reduce::run` call by
call.  Driver calls are appended to `Backend.events`.  Native allocation, copy and
launch calls are taken to succeed.  Where the source dereferences a null pointer the
run ends; this is recorded as the exception `nullPointerDereference`. -/

/-- State in which a run ends: the pattern, the backend with the calls made, and the
message of the exception that ended the run, if any. -/
structure RunResult where
  pattern : BaseParallelPattern
  backend : Backend
  exception : Option String := none

/-- Stands for the exception slot of a run that ended by dereferencing a null
pointer. -/
def nullPointerDereference : String := "null pointer dereference"

/-- Source `CUDA::Kernel::getNumBlocksAndThreadsFor(dims)` on the kernel object. -/
def Kernel.getNumBlocksAndThreadsFor (b : Backend) (kernel : KernelHandle) (dims : Dimensions) :
    Except String Dimensions :=
  Driver.getNumBlocksAndThreadsFor b.deviceAttributes b.scaledNumRegs kernel.numThreadsPerBlock
    dims

/-- Source `CUDA::Kernel::runAsync(dims, executionFlow)` with the arguments bound so far.
The event holds the mapping `blocksAndThreads` that the call computes; `cuLaunchKernel`
receives `launchGrid` of it. -/
def Kernel.runAsync (b : Backend) (kernel : KernelHandle) (dims : Dimensions)
    (args : List KernelArg) : Except String Backend :=
  if !dims.x.toBool then .error "The first dimension is required to run a kernel"
  else
    match Kernel.getNumBlocksAndThreadsFor b kernel dims with
    | .error e => .error e
    | .ok blocksAndThreads =>
      .ok { b with events := b.events ++ [Event.runAsync kernel dims blocksAndThreads args] }

namespace BaseParallelPattern

/-- The message thrown by `mallocParametersInGpu` for an incomplete parameter. -/
def placeholderMessage (name : String) : String :=
  "Pattern parameter \"" ++ name ++
    "\" is just a placeholder. The parameter list must be complete to run the parallel pattern."

/-- One round of the loop of `mallocParametersInGpu<TDriverInstance>()`. -/
def mallocParameter (device : Nat) (p : BaseParallelPattern) (b : Backend)
    (paramName : String) : Except String (BaseParallelPattern × Backend) :=
  match p.getParameter paramName with
  | none => .error nullPointerDereference
  | some param =>
    if !param.isComplete then .error (placeholderMessage param.name)
    else
      match param.paramValueType with
      | .GSPAR_PARAM_POINTER =>
        match param.getMemoryObject with
        | some _ => .ok (p, b)
        | none =>
          match PointerParameter.malloc param p.batchSize with
          | .error e => .error e
          | .ok param1 =>
            let pin := param1.direction == .GSPAR_PARAM_INOUT ||
              param1.direction == .GSPAR_PARAM_OUT
            let param2 :=
              if pin then
                { param1 with memoryObject := param1.memoryObject.map MemoryObject.pinHostMemory }
              else param1
            .ok ({ p with params := mapAssign p.params paramName param2 },
                 { b with events := b.events ++
                    (match param1.memoryObject with
                     | some m => [Event.malloc device paramName m]
                     | none => []) ++
                    (if pin then [Event.pinHostMemory paramName] else []) })
      | .GSPAR_PARAM_VALUE =>
        match param.getMemoryObject with
        | some _ => .ok (p, b)
        | none =>
          match ValueParameter.malloc param p.batchSize with
          | .error e => .error e
          | .ok param1 =>
            .ok ({ p with params := mapAssign p.params paramName param1 },
                 { b with events := b.events ++
                    (match param1.memoryObject with
                     | some m => [Event.malloc device paramName m]
                     | none => []) })

/-- The loop `for (auto &paramName : this->paramsOrder)` of `mallocParametersInGpu`. -/
def mallocLoop (device : Nat) :
    List String → BaseParallelPattern → Backend → RunResult
  | [], p, b => { pattern := p, backend := b }
  | paramName :: rest, p, b =>
    match mallocParameter device p b paramName with
    | .error e => { pattern := p, backend := b, exception := some e }
    | .ok (p1, b1) => mallocLoop device rest p1 b1

/-- Source `mallocParametersInGpu<TDriverInstance>()`. -/
def mallocParametersInGpu (p : BaseParallelPattern) (b : Backend) : RunResult :=
  match p.getGpu b with
  | (none, p1) =>
    { pattern := p1, backend := b,
      exception := some "No GPU found to allocate memory for parameters for Pattern" }
  | (some device, p1) => mallocLoop device p1.paramsOrder p1 b

/-- The body of the loop of `copyParametersFromHostToGpuAsync` for one name: the
`copyInAsync` calls it makes. -/
def copyParameterIn (p : BaseParallelPattern) (paramName : String) : Except String (List Event) :=
  match p.getParameter paramName with
  | none => .ok []
  | some param =>
    if param.isIn then
      match param.paramValueType with
      | .GSPAR_PARAM_POINTER =>
        if param.isBatched then
          match param.getMemoryObject with
          | none => .error nullPointerDereference
          | some m =>
            match m.chunks with
            | none => .error nullPointerDereference
            | some chunkCount =>
              if p.batchSize ≠ chunkCount then
                .ok ((List.range p.batchSize).map fun c => Event.copyInAsync paramName (some c))
              else .ok [Event.copyInAsync paramName none]
        else
          match param.getMemoryObject with
          | none => .error nullPointerDereference
          | some m =>
            match m.chunks with
            | none => .ok [Event.copyInAsync paramName none]
            | some _ => .error nullPointerDereference
      | .GSPAR_PARAM_VALUE =>
        if param.isBatched then
          match param.getMemoryObject with
          | none => .error nullPointerDereference
          | some m =>
            match m.chunks with
            | none => .ok [Event.copyInAsync paramName none]
            | some _ => .error nullPointerDereference
        else .ok []
    else .ok []

/-- Runs `f` for every name in turn and concatenates the calls. -/
def forEachParameter (f : String → Except String (List Event)) :
    List String → Except String (List Event)
  | [] => .ok []
  | paramName :: rest =>
    match f paramName with
    | .error e => .error e
    | .ok es =>
      match forEachParameter f rest with
      | .error e => .error e
      | .ok es1 => .ok (es ++ es1)

/-- Source `copyParametersFromHostToGpuAsync<TDriverInstance>()`. -/
def copyParametersFromHostToGpuAsync (p : BaseParallelPattern) : Except String (List Event) :=
  forEachParameter p.copyParameterIn p.paramsOrder

/-- The body of the loop of `copyParametersFromGpuToHostAsync` for one name: the
`copyOut` calls it makes. -/
def copyParameterOut (p : BaseParallelPattern) (paramName : String) :
    Except String (List Event) :=
  match p.getParameter paramName with
  | none => .ok []
  | some param =>
    if param.isOut && param.paramValueType == .GSPAR_PARAM_POINTER then
      if param.isBatched then
        match param.getMemoryObject with
        | none => .error nullPointerDereference
        | some m =>
          match m.chunks with
          | none => .error nullPointerDereference
          | some chunkCount =>
            if p.batchSize ≠ chunkCount then
              .ok ((List.range p.batchSize).map fun c => Event.copyOut paramName (some c))
            else .ok [Event.copyOut paramName none]
      else
        match param.getMemoryObject with
        | none => .ok []
        | some m =>
          match m.chunks with
          | none => .ok [Event.copyOut paramName none]
          | some _ => .ok []
    else .ok []

/-- Source `copyParametersFromGpuToHostAsync<TDriverInstance>()`. -/
def copyParametersFromGpuToHostAsync (p : BaseParallelPattern) : Except String (List Event) :=
  forEachParameter p.copyParameterOut p.paramsOrder

/-- Source `callbackBeforeAllocatingMemoryOnGpu(dims, kernel)`: empty for Map; Reduce
gives the partial-totals parameter a buffer of `blocks * outParam->size` bytes when
it is missing or a placeholder. -/
def callbackBeforeAllocatingMemoryOnGpu (p : BaseParallelPattern) (b : Backend)
    (dims : Dimensions) (kernel : KernelHandle) : Except String BaseParallelPattern :=
  match p.kind with
  | .map => .ok p
  | .reduce _ _ outputParameterName =>
    let incomplete :=
      match p.getParameter partialTotalsParamName with
      | none => true
      | some partialTotalsParam => !partialTotalsParam.isComplete
    if incomplete then
      match Kernel.getNumBlocksAndThreadsFor b kernel dims with
      | .error e => .error e
      | .ok blocksAndThreads =>
        match p.getOutputParameter outputParameterName with
        | .error e => .error e
        | .ok outParam =>
          let partialTotalsSize := blocksAndThreads.x.min * outParam.size
          let t := if outParam.type.isPointer then outParam.type
            else { outParam.type with name := outParam.type.name ++ "*", isPointer := true }
          p.setPointerParameter partialTotalsParamName t partialTotalsSize true
            .GSPAR_PARAM_OUT false
    else .ok p

/-- Source `generateSharedMemoryParameter(dims, kernel)`: the stored pointer for Map,
`Reduce::generateSharedMemoryParameter` for Reduce. -/
def generateSharedMemoryParameter (p : BaseParallelPattern) (b : Backend) (dims : Dimensions)
    (kernel : KernelHandle) :
    Except String (Option BaseParameter × BaseParallelPattern × Backend) :=
  match p.kind with
  | .map => .ok (p.sharedMemoryParameter, p, b)
  | .reduce _ _ outputParameterName =>
    if dims.y.toBool || dims.z.toBool then
      .error "Reduce pattern currently does not support multi-dimensional kernels"
    else
      match p.getSharedMemoryParameter b with
      | .error e => .error e
      | .ok (none, _, _) => .error nullPointerDereference
      | .ok (some shmem, p1, b1) =>
        if !shmem.isComplete then
          match Kernel.getNumBlocksAndThreadsFor b1 kernel dims with
          | .error e => .error e
          | .ok blocksAndThreads =>
            let sharedMemSize :=
              if dims.x.max > blocksAndThreads.x.max then blocksAndThreads.x.max else dims.x.max
            match p1.getOutputParameter outputParameterName with
            | .error e => .error e
            | .ok outParam =>
              let shmem1 := { shmem with size := outParam.size * sharedMemSize, complete := true }
              .ok (some shmem1, { p1 with sharedMemoryParameter := some shmem1 }, b1)
        else .ok (some shmem, p1, b1)

/-- Source `setSharedMemoryInKernel<TDriverInstance>(kernel, dims)`; the kernel object
is the one the pattern holds. -/
def setSharedMemoryInKernel (p : BaseParallelPattern) (b : Backend) (dims : Dimensions)
    (kernel : KernelHandle) : Except String (BaseParallelPattern × Backend) :=
  if !p.useSharedMemory then .ok (p, b)
  else
    match p.generateSharedMemoryParameter b dims kernel with
    | .error e => .error e
    | .ok (none, _, _) => .error nullPointerDereference
    | .ok (some shmemParam, p1, b1) =>
      .ok ({ p1 with compiledKernel := some { kernel with sharedMemoryBytes := shmemParam.size } },
           b1)

/-- The calls `setParametersInKernel` makes, failing where the source dereferences a
null pointer: a name without parameter, or a parameter whose memory object is not of
the class the `dynamic_cast` asks for. -/
def bindParameters (p : BaseParallelPattern) (dims : Dimensions) : Except String (List KernelArg) :=
  if p.paramsOrder.any (fun paramName => (p.getParameter paramName).isNone) then
    .error nullPointerDereference
  else if (p.setParametersInKernel dims).any KernelArg.isNullMemoryObject then
    .error nullPointerDereference
  else .ok (p.setParametersInKernel dims)

/-- The statements of `run` between `compile` and the callback before allocation:
`kernel->clearParameters()` and the per-axis `kernel->setNumThreadsPerBlockFor`. -/
def configureKernel (p : BaseParallelPattern) (kernel : KernelHandle) : KernelHandle :=
  let k0 := kernel
  let k1 :=
    if p.numThreadsPerBlock.1 ≠ 0 then
      { k0 with numThreadsPerBlock := k0.numThreadsPerBlock.set 0 ⟨p.numThreadsPerBlock.1, 0⟩ }
    else k0
  let k2 :=
    if p.numThreadsPerBlock.2.1 ≠ 0 then
      { k1 with numThreadsPerBlock := k1.numThreadsPerBlock.set 1 ⟨p.numThreadsPerBlock.2.1, 0⟩ }
    else k1
  if p.numThreadsPerBlock.2.2 ≠ 0 then
    { k2 with numThreadsPerBlock := k2.numThreadsPerBlock.set 2 ⟨p.numThreadsPerBlock.2.2, 0⟩ }
  else k2

/-- Source `run<TDriverInstance>(pDims, useCompiledDim)` up to the call of
`mallocParametersInGpu`: the pattern and backend at that point, `dimsToUse` and
`dimsToRun`; or the state in which the run ended before. -/
def runUntilAllocation (p : BaseParallelPattern) (b : Backend) (pDims : Dimensions)
    (useCompiledDim : Bool) :
    Except RunResult (BaseParallelPattern × Backend × Dimensions × Dimensions) :=
  let dimsToUse := if useCompiledDim then p.compiledKernelDimension else pDims
  if dimsToUse.getCount = 0 then
    .error { pattern := p, backend := b, exception := some "No dimensions set to run the pattern" }
  else
    let dimsToRun := if p.isBatched then dimsToUse.mulAssign p.batchSize else dimsToUse
    match p.compile b dimsToUse with
    | .error e => .error { pattern := p, backend := b, exception := some e }
    | .ok (p1, b1) =>
      match p1.compiledKernel with
      | none => .error { pattern := p1, backend := b1, exception := some nullPointerDereference }
      | some kernel =>
        let kernel1 := p1.configureKernel kernel
        let p2 := { p1 with compiledKernel := some kernel1 }
        match p2.callbackBeforeAllocatingMemoryOnGpu b1 dimsToUse kernel1 with
        | .error e => .error { pattern := p2, backend := b1, exception := some e }
        | .ok p3 => .ok (p3, b1, dimsToUse, dimsToRun)

/-- Source `run<TDriverInstance>(pDims, useCompiledDim)` from the call of
`mallocParametersInGpu` to the end. -/
def runFromAllocation (p : BaseParallelPattern) (b : Backend) (dimsToUse dimsToRun : Dimensions) :
    RunResult :=
  let r := p.mallocParametersInGpu b
  match r.exception with
  | some _ => r
  | none =>
    match r.pattern.copyParametersFromHostToGpuAsync with
    | .error e => { r with exception := some e }
    | .ok copies =>
      let b1 := { r.backend with events := r.backend.events ++ copies }
      match r.pattern.compiledKernel with
      | none => { pattern := r.pattern, backend := b1, exception := some nullPointerDereference }
      | some kernel =>
        match r.pattern.setSharedMemoryInKernel b1 dimsToUse kernel with
        | .error e => { pattern := r.pattern, backend := b1, exception := some e }
        | .ok (p2, b2) =>
          match p2.bindParameters dimsToUse with
          | .error e => { pattern := p2, backend := b2, exception := some e }
          | .ok args =>
            match p2.compiledKernel with
            | none =>
              { pattern := p2, backend := b2, exception := some nullPointerDereference }
            | some kernel2 =>
              match Kernel.runAsync b2 kernel2 dimsToRun args with
              | .error e => { pattern := p2, backend := b2, exception := some e }
              | .ok b3 =>
                let b4 := { b3 with events := b3.events ++ [Event.waitAsync kernel2] }
                match p2.copyParametersFromGpuToHostAsync with
                | .error e => { pattern := p2, backend := b4, exception := some e }
                | .ok copies1 =>
                  { pattern := p2, backend := { b4 with events := b4.events ++ copies1 } }

/-- Source `BaseParallelPattern::run<TDriverInstance>(pDims, useCompiledDim)`, the run
function of Map. -/
def run (p : BaseParallelPattern) (b : Backend) (pDims : Dimensions) (useCompiledDim : Bool) :
    RunResult :=
  match p.runUntilAllocation b pDims useCompiledDim with
  | .error r => r
  | .ok (p1, b1, dimsToUse, dimsToRun) => p1.runFromAllocation b1 dimsToUse dimsToRun

end BaseParallelPattern

/-- The operations that change a pattern without compiling it. -/
inductive Mutation where
  | setParameter (parameter : BaseParameter)
  | setBatchSize (batchSize : Nat)
  | setGpuIndex (index : Nat)
  | addExtraKernelCode (code : String)
  | setStdVarNames (names : String × String × String)
  | setKernelName (kernelName : String)
  | setNumThreadsPerBlock (numX numY numZ : Nat)
  | markBatched

/-- Effect of one `Mutation`. -/
def Mutation.apply (p : BaseParallelPattern) : Mutation → BaseParallelPattern
  | .setParameter parameter => p.setParameter parameter
  | .setBatchSize n => p.setBatchSize n
  | .setGpuIndex i => p.setGpuIndex i
  | .addExtraKernelCode c => p.addExtraKernelCode c
  | .setStdVarNames ns => p.setStdVarNames ns
  | .setKernelName n => p.setKernelName n
  | .setNumThreadsPerBlock a b c => p.setNumThreadsPerBlock a b c
  | .markBatched => p.markBatched

/-- Effect of a sequence of mutations, first to last. -/
def Mutation.applyAll (p : BaseParallelPattern) (ms : List Mutation) : BaseParallelPattern :=
  ms.foldl Mutation.apply p

/-! ### The generated Reduce kernel and the host loop of `Reduce::run`

The kernel text of `reduceKernelCoreText`, wrapped in the bounds check of
`generateDefaultControlIf`, is executed per block.  All threads of a block run
each statement group between two barriers together; `op` is the meaning of the
operator token.  The model covers requests whose X axis has `min = 0`, for
which `x = gspar_get_global_id(0)`.  `bid` and `bsize` are `blockIdx.x` and
`blockDim.x` of the CUDA launch, `tid` is `threadIdx.x`. -/

namespace Reduce

variable {α : Type}

/-- Thread `tid` of block `bid` exists and passes `if ((x < gspar_max_x))`, with
`x = gspar_get_global_id(0)`. -/
def inRange (max bid bsize tid : Nat) : Bool :=
  decide (tid < bsize) && defaultControlIf ⟨max, 0⟩ (gspar_get_global_id bid bsize tid)

/-- Source `shmem[tid] = vector[x];` for every thread of the block; `shmem` holds the
previous content of the shared buffer. -/
def loadShared (vector : Nat → α) (max bid bsize : Nat) (shmem : Nat → α) : Nat → α :=
  fun tid =>
    if inRange max bid bsize tid then vector (gspar_get_global_id bid bsize tid) else shmem tid

/-- Source `if (tid < s && x + s < max) shmem[tid] = shmem[tid] op shmem[tid + s];`
for every thread of the block. -/
def combineStep (op : α → α → α) (max bid bsize s : Nat) (shmem : Nat → α) : Nat → α :=
  fun tid =>
    if inRange max bid bsize tid && decide (tid < s) &&
        decide (gspar_get_global_id bid bsize tid + s < max) then
      op (shmem tid) (shmem (tid + s))
    else shmem tid

/-- Source `if (tid == 0 && s > 1 && s % 2 != 0) shmem[tid] = shmem[tid] op shmem[s - 1];`. -/
def oddLeftoverStep (op : α → α → α) (max bid bsize s : Nat) (shmem : Nat → α) : Nat → α :=
  if inRange max bid bsize 0 && decide (1 < s) && decide (s % 2 ≠ 0) then
    Function.update shmem 0 (op (shmem 0) (shmem (s - 1)))
  else shmem

/-- The loop `for (unsigned int s = ...; s > 0; s >>= 1)` from the value `s`. -/
def reduceLoop (op : α → α → α) (max bid bsize : Nat) (s : Nat) (shmem : Nat → α) : Nat → α :=
  if h : s = 0 then shmem
  else
    reduceLoop op max bid bsize (s / 2)
      (oddLeftoverStep op max bid bsize s (combineStep op max bid bsize s shmem))
termination_by s
decreasing_by exact Nat.div_lt_self (Nat.pos_of_ne_zero h) (by decide)

/-- The block `if (tid == 0) ...` that ends the core: fold in `shmem[max - 1]`
when the block size is odd, store `shmem[0]` in `partialTotals[bid]`, and, when
the output parameter is an input (`outIsIn`), fold `*output` into that slot if
the grid has a single block. -/
def writePartialTotal (op : α → α → α) (outIsIn : Bool) (output : α)
    (gridSize max bid bsize : Nat) (shmem : Nat → α) (partialTotals : Nat → α) : Nat → α :=
  if inRange max bid bsize 0 then
    let shmem1 :=
      if bsize % 2 ≠ 0 then Function.update shmem 0 (op (shmem 0) (shmem (max - 1))) else shmem
    let partialTotals1 := Function.update partialTotals bid (shmem1 0)
    if outIsIn && decide (gridSize = 1) then
      Function.update partialTotals1 bid (op (partialTotals1 bid) output)
    else partialTotals1
  else partialTotals

/-- Device buffers the Reduce kernel touches. -/
structure DeviceMemory (α : Type) where
  /-- Buffer of the input vector parameter. -/
  inputVector : Nat → α
  /-- Buffer of `gspar_partial_reductions`. -/
  partialTotals : Nat → α
  /-- Device copy of the output parameter, `*total`. -/
  output : α

/-- Which buffer `Reduce::run` binds to the kernel's vector argument
(`inputMemoryObject`). -/
inductive VectorArg where
  | inputVector
  | partialTotals
deriving DecidableEq, Repr

/-- Content of the buffer bound to the vector argument. -/
def vectorOf (arg : VectorArg) (mem : DeviceMemory α) : Nat → α :=
  match arg with
  | .inputVector => mem.inputVector
  | .partialTotals => mem.partialTotals

/-- One block of the kernel; `uninit` is the content of the block's shared
buffer when the block starts. -/
def runBlock (op : α → α → α) (outIsIn : Bool) (gridSize bsize max : Nat) (arg : VectorArg)
    (uninit : Nat → α) (bid : Nat) (mem : DeviceMemory α) : DeviceMemory α :=
  { mem with
    partialTotals :=
      writePartialTotal op outIsIn mem.output gridSize max bid bsize
        (reduceLoop op max bid bsize (bsize / 2)
          (loadShared (vectorOf arg mem) max bid bsize uninit))
        mem.partialTotals }

/-- One kernel launch with grid size `gridSize` and block size `bsize`: the blocks
`0 .. gridSize - 1` one after another in block-index order. -/
def launch (op : α → α → α) (outIsIn : Bool) (gridSize bsize max : Nat) (arg : VectorArg)
    (uninit : Nat → Nat → α) (mem : DeviceMemory α) : DeviceMemory α :=
  (List.range gridSize).foldl
    (fun m bid => runBlock op outIsIn gridSize bsize max arg (uninit bid) bid m) mem

/-- The loop `while (true)` of `Reduce::run` with `fuel` bounding the number of
passes; the result is the device memory and the number of launches, `none` when
the fuel runs out.  `numThreads`, `maxThreadsPerBlock` and `limits` are what
`kernel->getNumBlocksAndThreadsFor` passes to `getNumBlocksAndThreads`;
`uninit l b` is the content of the shared buffer of block `b` when launch
number `l` starts.  `kernel->runAsync(dimsToRun)` starts the grid `launchGrid`
of the mapping; the exit test and the next extent read the mapping itself. -/
def hostLoop (op : α → α → α) (outIsIn : Bool) (numThreads : Dimensions)
    (maxThreadsPerBlock : Nat) (limits : ThreadLimits) (uninit : Nat → Nat → Nat → α) :
    Nat → Nat → Dimensions → VectorArg → DeviceMemory α →
      Except String (Option (DeviceMemory α × Nat))
  | 0, _, _, _, _ => .ok none
  | fuel + 1, launches, dimsToRun, arg, mem =>
    match getNumBlocksAndThreads numThreads dimsToRun maxThreadsPerBlock limits with
    | .error e => .error e
    | .ok blocksAndThreads =>
      let mem1 := launch op outIsIn (launchGrid blocksAndThreads).1
        (launchGrid blocksAndThreads).2 dimsToRun.x.max arg (uninit launches) mem
      if blocksAndThreads.x.min = 1 then .ok (some (mem1, launches + 1))
      else
        hostLoop op outIsIn numThreads maxThreadsPerBlock limits uninit fuel (launches + 1)
          (Dimensions.ofMax blocksAndThreads.x.min 0 0) .partialTotals mem1

/-- Data path of `Reduce::run(dimsToUse)`: the dimensionality check, the host
loop starting on the input vector, and the value copied from slot 0 of the
partial totals to the caller's output pointer. -/
def run (op : α → α → α) (outIsIn : Bool) (numThreads : Dimensions)
    (maxThreadsPerBlock : Nat) (limits : ThreadLimits) (uninit : Nat → Nat → Nat → α)
    (fuel : Nat) (dimsToUse : Dimensions) (mem : DeviceMemory α) :
    Except String (Option α) :=
  if dimsToUse.y.toBool || dimsToUse.z.toBool then
    .error "Reduce pattern currently does not support multi-dimensional kernels"
  else
    match hostLoop op outIsIn numThreads maxThreadsPerBlock limits uninit fuel 0 dimsToUse
        .inputVector mem with
    | .error e => .error e
    | .ok none => .ok none
    | .ok (some (mem1, _)) => .ok (some (mem1.partialTotals 0))

/-- Sequential fold `v[lo] op v[lo + 1] op ... op v[lo + n]` of the `n + 1`
elements from index `lo`, as the loop of `reduce_vector` computes it. -/
def seqFold (op : α → α → α) (v : Nat → α) (lo : Nat) : Nat → α
  | 0 => v lo
  | n + 1 => op (seqFold op v lo n) (v (lo + n + 1))

end Reduce

/-! ### Control flow and driver calls of `Reduce::run`

The values the kernel computes are the subject of `Reduce.run` above; the functions
here follow the statements of `Reduce::run` and record the driver calls. -/

namespace BaseParameter

/-- Source `bindTo(hostPtr, size)` applied to the object `getMemoryObject()` returns. -/
def bindMemoryObjectTo (p : BaseParameter) (hasHostPointer : Bool) (size : Nat) :
    BaseParameter :=
  match p.userMemoryObject with
  | some m =>
    { p with userMemoryObject := some { m with hasHostPointer := hasHostPointer, size := size } }
  | none =>
    { p with memoryObject :=
        p.memoryObject.map fun m => { m with hasHostPointer := hasHostPointer, size := size } }

end BaseParameter

namespace Reduce

/-- Member `vectorName` of a Reduce. -/
def vectorName (p : BaseParallelPattern) : String :=
  match p.kind with
  | .reduce vectorName _ _ => vectorName
  | .map => ""

/-- Member `outputParameterName` of a Reduce. -/
def outputParameterName (p : BaseParallelPattern) : String :=
  match p.kind with
  | .reduce _ _ outputParameterName => outputParameterName
  | .map => ""

/-- Source `Reduce::run<TDriverInstance>(dimsToUse)` up to the call of
`mallocParametersInGpu`: the pattern and backend at that point, or the state in which
the run ended before. -/
def runUntilAllocation (p : BaseParallelPattern) (b : Backend) (dimsToUse : Dimensions) :
    Except RunResult (BaseParallelPattern × Backend) :=
  if dimsToUse.y.toBool || dimsToUse.z.toBool then
    .error { pattern := p, backend := b,
             exception := some "Reduce pattern currently does not support multi-dimensional kernels" }
  else
    match p.compile b dimsToUse with
    | .error e => .error { pattern := p, backend := b, exception := some e }
    | .ok (p1, b1) =>
      match p1.compiledKernel with
      | none => .error { pattern := p1, backend := b1, exception := some nullPointerDereference }
      | some kernel =>
        match p1.callbackBeforeAllocatingMemoryOnGpu b1 dimsToUse kernel with
        | .error e => .error { pattern := p1, backend := b1, exception := some e }
        | .ok p2 => .ok (p2, b1)

/-- The arguments one round of the `while` loop binds: the dimension arguments, then
for every name either the current input memory object (for `vectorName`) or
`setParameterInKernel`.  Fails where the source dereferences a null pointer. -/
def bindLoopParameters (p : BaseParallelPattern) (dimsToRun : Dimensions)
    (inputMemoryObject : Option MemoryObject) : Except String (List KernelArg) :=
  let args := p.setDimsParametersInKernel dimsToRun ++
    p.paramsOrder.flatMap fun paramName =>
      if paramName = vectorName p then [KernelArg.memoryObject paramName inputMemoryObject]
      else
        match p.getParameter paramName with
        | some param => BaseParallelPattern.setParameterInKernel param
        | none => []
  if p.paramsOrder.any (fun paramName =>
      paramName != vectorName p && (p.getParameter paramName).isNone) then
    .error nullPointerDereference
  else if args.any KernelArg.isNullMemoryObject then .error nullPointerDereference
  else .ok args

/-- The `while (true)` loop of `Reduce::run`, at most `fuel` rounds; `none` when the
loop has not ended after `fuel` rounds. -/
def hostLoopCalls : Nat → BaseParallelPattern → Backend → Dimensions → Option MemoryObject →
    Option RunResult
  | 0, _, _, _, _ => none
  | fuel + 1, p, b, dimsToRun, inputMemoryObject =>
    match p.compiledKernel with
    | none => some { pattern := p, backend := b, exception := some nullPointerDereference }
    | some kernel =>
      match Kernel.getNumBlocksAndThreadsFor b kernel dimsToRun with
      | .error e => some { pattern := p, backend := b, exception := some e }
      | .ok blocksAndThreads =>
        match p.setSharedMemoryInKernel b dimsToRun kernel with
        | .error e => some { pattern := p, backend := b, exception := some e }
        | .ok (p1, b1) =>
          match bindLoopParameters p1 dimsToRun inputMemoryObject with
          | .error e => some { pattern := p1, backend := b1, exception := some e }
          | .ok args =>
            match p1.compiledKernel with
            | none =>
              some { pattern := p1, backend := b1, exception := some nullPointerDereference }
            | some kernel1 =>
              match Kernel.runAsync b1 kernel1 dimsToRun args with
              | .error e => some { pattern := p1, backend := b1, exception := some e }
              | .ok b2 =>
                let b3 := { b2 with events := b2.events ++ [Event.waitAsync kernel1] }
                if blocksAndThreads.x.min = 1 then some { pattern := p1, backend := b3 }
                else
                  hostLoopCalls fuel p1 b3 (Dimensions.ofMax blocksAndThreads.x.min 0 0)
                    (((p1.getParameter partialTotalsParamName).bind
                      BaseParameter.getMemoryObject).filter fun m => m.chunks.isNone)

/-- The statements of `Reduce::run` after the loop: the copy of the partial totals
into the caller's output pointer, `outParam->direction = GSPAR_PARAM_NONE`, and
`copyParametersFromGpuToHostAsync`. -/
def copyResult (p : BaseParallelPattern) (b : Backend) : RunResult :=
  match p.getOutputParameter (outputParameterName p) with
  | .error e => { pattern := p, backend := b, exception := some e }
  | .ok outParam =>
    match p.getParameter partialTotalsParamName with
    | none => { pattern := p, backend := b, exception := some nullPointerDereference }
    | some partialTotals =>
      match partialTotals.getMemoryObject.filter fun m => m.chunks.isNone with
      | none => { pattern := p, backend := b, exception := some nullPointerDereference }
      | some _ =>
        let partialTotals1 := partialTotals.bindMemoryObjectTo outParam.hasValue outParam.size
        let p1 := { p with params := mapAssign p.params partialTotalsParamName partialTotals1 }
        let b1 := { b with events := b.events ++ [Event.copyOut partialTotalsParamName none] }
        match p1.getParameter (outputParameterName p) with
        | none => { pattern := p1, backend := b1, exception := some nullPointerDereference }
        | some outParam1 =>
          let outParam2 := { outParam1 with direction := .GSPAR_PARAM_NONE }
          let p2 := { p1 with params := mapAssign p1.params (outputParameterName p) outParam2 }
          match p2.copyParametersFromGpuToHostAsync with
          | .error e => { pattern := p2, backend := b1, exception := some e }
          | .ok copies => { pattern := p2, backend := { b1 with events := b1.events ++ copies } }

/-- Source `Reduce::run<TDriverInstance>(dimsToUse)` from the call of
`mallocParametersInGpu` to the end. -/
def runFromAllocation (fuel : Nat) (p : BaseParallelPattern) (b : Backend)
    (dimsToUse : Dimensions) : Option RunResult :=
  let r := p.mallocParametersInGpu b
  match r.exception with
  | some _ => some r
  | none =>
    match r.pattern.copyParametersFromHostToGpuAsync with
    | .error e => some { r with exception := some e }
    | .ok copies =>
      let b1 := { r.backend with events := r.backend.events ++ copies }
      match r.pattern.getParameter (vectorName p) with
      | none =>
        some { pattern := r.pattern, backend := b1,
               exception := some ("Could not find input parameter with name '" ++ vectorName p ++
                 "' in Reduce pattern") }
      | some inputVector =>
        match r.pattern.getParameter partialTotalsParamName with
        | none =>
          some { pattern := r.pattern, backend := b1,
                 exception := some ("Could not find partial totals parameter with name '" ++
                   partialTotalsParamName ++ "' in Reduce pattern") }
        | some _ =>
          match hostLoopCalls fuel r.pattern b1 dimsToUse
              (inputVector.getMemoryObject.filter fun m => m.chunks.isNone) with
          | none => none
          | some r1 =>
            match r1.exception with
            | some _ => some r1
            | none => some (copyResult r1.pattern r1.backend)

/-- Source `Reduce::run<TDriverInstance>(dimsToUse)`: its control flow and driver calls,
with at most `fuel` rounds of the host loop. -/
def runCalls (fuel : Nat) (p : BaseParallelPattern) (b : Backend) (dimsToUse : Dimensions) :
    Option RunResult :=
  match runUntilAllocation p b dimsToUse with
  | .error r => some r
  | .ok (p1, b1) => runFromAllocation fuel p1 b1 dimsToUse

end Reduce

/-! ### Pattern composition

The members of a composition are pointers to patterns owned by the caller.  They are
taken to be pairwise distinct objects: the vector `patterns` and the map
`patternsTypes`, keyed by these pointers, become one list of members, each with the
state of its pattern and the type recorded for it. -/

/-- Source `enum PatternType`. -/
inductive PatternType where
  | GSPAR_PATTERN_MAP
  | GSPAR_PATTERN_REDUCE
deriving DecidableEq, Repr

/-- The class `T` of the pointer `T*` under which a pattern is handed to a composition;
every such class derives from `BaseParallelPattern`. -/
inductive PatternClass where
  | BaseParallelPattern
  | Map
  | Reduce
deriving DecidableEq, Repr

namespace PatternClass

/-- Source `instanceof<Pattern::Map>(pattern)`, which is
`std::is_base_of<Pattern::Map, T>::value`: decided by the class of the pointer, not by
the object. -/
def instanceofMap : PatternClass → Bool
  | .Map => true
  | _ => false

/-- The pointer has the class of the object it points to, `Map*` for a Map and
`Reduce*` for a Reduce. -/
def isClassOf (T : PatternClass) (pattern : Pattern.BaseParallelPattern) : Bool :=
  match T, pattern.kind with
  | .Map, .map => true
  | .Reduce, .reduce _ _ _ => true
  | _, _ => false

end PatternClass

/-- One entry of `patterns` with its entry of `patternsTypes`. -/
structure Member where
  pattern : BaseParallelPattern
  patternType : PatternType
deriving DecidableEq, Repr

/-- The type recorded for a member and the class of the object it points to. -/
def Member.shape (m : Member) : PatternType × PatternKind := (m.patternType, m.pattern.kind)

/-- Data members of `class PatternComposition`. -/
structure PatternComposition where
  built : Bool := false
  extraKernelCode : String := ""
  stdVarNames : String × String × String := ("", "", "")
  patterns : List Member := []
  compiledPatternsDimension : Dimensions := Dimensions.ofMax 0 0 0
deriving DecidableEq, Repr

/-- Stands for the exception slot of a call that ended by using a pattern through a
pointer of a class the object does not have (`static_cast<Reduce*>` on a Map). -/
def invalidDowncast : String := "invalid static_cast"

/-- Source `virtual unsigned int getGpuIndex()`. -/
def BaseParallelPattern.getGpuIndex (p : BaseParallelPattern) : Nat := p.gpuIndex

/-- State in which a call on a composition ends: the composition, the backend with the
calls made, and the message of the exception that ended the call, if any. -/
structure CompositionResult where
  composition : PatternComposition
  backend : Backend
  exception : Option String := none

namespace PatternComposition

/-- The type `addPattern` and `addPatternInverseOrder` record for a pointer of class
`T`. -/
def typeOf (T : PatternClass) : PatternType :=
  if T.instanceofMap then .GSPAR_PATTERN_MAP else .GSPAR_PATTERN_REDUCE

/-- Source `addPattern(T* pattern)`: `patterns.push_back(pattern)`.  The check
`assertValidParallelPattern` passes for every class deriving from `BaseParallelPattern`. -/
def addPattern (c : PatternComposition) (T : PatternClass) (pattern : BaseParallelPattern) :
    PatternComposition :=
  { c with patterns := c.patterns ++ [{ pattern := pattern, patternType := typeOf T }] }

/-- Source `addPatternInverseOrder(T* pattern)`:
`patterns.insert(patterns.begin(), 1, pattern)`. -/
def addPatternInverseOrder (c : PatternComposition) (T : PatternClass)
    (pattern : BaseParallelPattern) : PatternComposition :=
  { c with patterns := { pattern := pattern, patternType := typeOf T } :: c.patterns }

/-- Source `PatternComposition(TFirst pattern, TArgs... args) : PatternComposition(args...)`,
whose body is `addPatternInverseOrder(pattern)`; without arguments it is the default
constructor. -/
def ofArguments : List (PatternClass × BaseParallelPattern) → PatternComposition
  | [] => {}
  | (T, pattern) :: args => (ofArguments args).addPatternInverseOrder T pattern

/-- Source `PatternComposition(std::initializer_list<T*> patterns)`. -/
def ofInitializerList (T : PatternClass) (patterns : List BaseParallelPattern) :
    PatternComposition :=
  patterns.foldl (fun c p => c.addPattern T p) {}

/-- Source `getPattern(size_t index)`: `patterns[index]`, defined for an index below
the size. -/
def getPattern (c : PatternComposition) (index : Nat) : Option BaseParallelPattern :=
  (c.patterns[index]?).map fun m => m.pattern

/-- The call `static_cast<Map*>(pattern)->clone()` or
`static_cast<Reduce*>(pattern)->clone()` that `clone` makes for a member. -/
def cloneMember (m : Member) : Except String BaseParallelPattern :=
  match m.patternType, m.pattern.kind with
  | .GSPAR_PATTERN_MAP, .map => .ok m.pattern.clone
  | .GSPAR_PATTERN_REDUCE, .reduce _ _ _ => .ok m.pattern.clone
  | _, _ => .error invalidDowncast

/-- The loop of `clone`: each member is cloned under its recorded type and added to
`other` with `addPattern`. -/
def cloneMembers : List Member → PatternComposition → Except String PatternComposition
  | [], other => .ok other
  | m :: rest, other =>
    match cloneMember m with
    | .error e => .error e
    | .ok p =>
      cloneMembers rest
        (match m.patternType with
         | .GSPAR_PATTERN_MAP => other.addPattern .Map p
         | .GSPAR_PATTERN_REDUCE => other.addPattern .Reduce p)

/-- Source `PatternComposition::clone<TDriverInstance>()`. -/
def clone (c : PatternComposition) : Except String PatternComposition :=
  match cloneMembers c.patterns {} with
  | .error e => .error e
  | .ok other =>
    let other1 := { other with built := c.built, extraKernelCode := c.extraKernelCode,
                               stdVarNames := c.stdVarNames }
    .ok (if c.compiledPatternsDimension.getCount ≠ 0 then
      { other1 with compiledPatternsDimension := c.compiledPatternsDimension }
    else other1)

/-- Source `addExtraKernelCode(extraKernelCode)` of the composition. -/
def addExtraKernelCode (c : PatternComposition) (extraKernelCode : String) :
    PatternComposition :=
  { c with extraKernelCode := c.extraKernelCode ++ extraKernelCode }

/-- Source `isAllPatternsCompiledFor(dims)`. -/
def isAllPatternsCompiledFor (c : PatternComposition) (dims : Dimensions) : Bool :=
  if !(c.compiledPatternsDimension.eq dims) then false
  else c.patterns.all fun m => m.pattern.isKernelCompiledFor dims

/-- The loop of `PatternComposition::generateKernelSource` over the members: the text
added to `kernelSource`, the flag `addedKernel`, and the members and the backend after
the calls of `callbackBeforeGeneratingKernelSource` and `generateKernelSource`. -/
def generateMembersSource (dims : Dimensions) (gpuIndex : Nat) :
    List Member → Backend → Except String (String × Bool × List Member × Backend)
  | [], b => .ok ("", false, [], b)
  | m :: rest, b =>
    if m.pattern.getGpuIndex ≠ gpuIndex then
      match generateMembersSource dims gpuIndex rest b with
      | .error e => .error e
      | .ok (text, added, rest1, b1) => .ok (text, added, m :: rest1, b1)
    else
      match m.pattern.callbackBeforeGeneratingKernelSource with
      | .error e => .error e
      | .ok p1 =>
        match p1.generateKernelSource b dims with
        | .error e => .error e
        | .ok (text, p2, b2) =>
          match generateMembersSource dims gpuIndex rest b2 with
          | .error e => .error e
          | .ok (text1, _, rest1, b3) =>
            .ok (text ++ "\n" ++ text1, true, { m with pattern := p2 } :: rest1, b3)

/-- Source `PatternComposition::generateKernelSource<TDriverInstance>(max, gpuIndex)`. -/
def generateKernelSource (c : PatternComposition) (b : Backend) (max : Dimensions)
    (gpuIndex : Nat) : Except String (String × PatternComposition × Backend) :=
  match generateMembersSource max gpuIndex c.patterns b with
  | .error e => .error e
  | .ok (text, addedKernel, members, b1) =>
    let kernelSource :=
      (if !c.extraKernelCode.isEmpty then c.extraKernelCode ++ "\n" else c.extraKernelCode)
        ++ text
    .ok (if addedKernel then kernelSource else "", { c with patterns := members }, b1)

/-- The loop of `compilePatterns` that collects `pattern->getKernelName()` of the
members assigned to `gpuIndex`. -/
def kernelNamesOn (gpuIndex : Nat) : List Member → Backend → List String × List Member × Backend
  | [], b => ([], [], b)
  | m :: rest, b =>
    if m.pattern.getGpuIndex ≠ gpuIndex then
      let r := kernelNamesOn gpuIndex rest b
      (r.1, m :: r.2.1, r.2.2)
    else
      let n := m.pattern.getKernelName b
      let r := kernelNamesOn gpuIndex rest n.2.2
      (n.1 :: r.1, { m with pattern := n.2.1 } :: r.2.1, r.2.2)

/-- Number of kernels a device has prepared so far through `prepareKernels`. -/
def preparedTogetherOn (b : Backend) (device : Nat) : Nat :=
  (b.events.map fun e =>
    match e with
    | .prepareKernels d _ kernelNames => if d = device then kernelNames.length else 0
    | _ => 0).sum

/-- The loop of `compilePatterns` that hands `kernels.at(patternIndex)` to the members
assigned to `gpuIndex`; `kernels.at(i)` is the kernel number `first + i` of the device. -/
def assignKernels (dims : Dimensions) (gpuIndex device first : Nat) :
    List Member → Nat → List Member
  | [], _ => []
  | m :: rest, patternIndex =>
    if m.pattern.getGpuIndex ≠ gpuIndex then
      m :: assignKernels dims gpuIndex device first rest patternIndex
    else
      { m with pattern :=
          m.pattern.setCompiledKernel { device := device, id := first + patternIndex } dims } ::
        assignKernels dims gpuIndex device first rest (patternIndex + 1)

/-- The loop `for (const auto& gpu : gpus)` of `compilePatterns` over the remaining
devices, with the counter `gpuIndex`.  The statement `continue` taken for an empty
kernel source skips `gpuIndex++`.  An exception thrown by `Device::prepareKernels`
(the native build log) is the error `"Kernel compilation failed"`. -/
def compileOnGpus (dims : Dimensions) :
    List Nat → Nat → PatternComposition → Backend → CompositionResult
  | [], _, c, b => { composition := c, backend := b }
  | gpu :: gpus, gpuIndex, c, b =>
    match c.generateKernelSource b dims gpuIndex with
    | .error e => { composition := c, backend := b, exception := some e }
    | .ok (kernelSource, c1, b1) =>
      if kernelSource.isEmpty then compileOnGpus dims gpus gpuIndex c1 b1
      else
        let names := kernelNamesOn gpuIndex c1.patterns b1
        let c2 := { c1 with patterns := names.2.1 }
        let b2 := names.2.2
        if names.1.isEmpty then compileOnGpus dims gpus (gpuIndex + 1) c2 b2
        else if names.1.all fun kernelName => b2.compiles gpu kernelSource kernelName then
          let first := BaseParallelPattern.preparedOn b2 gpu + preparedTogetherOn b2 gpu
          let b3 := { b2 with events := b2.events ++ [Event.prepareKernels gpu kernelSource names.1] }
          let c3 := { c2 with patterns := assignKernels dims gpuIndex gpu first c2.patterns 0 }
          compileOnGpus dims gpus (gpuIndex + 1) c3 b3
        else
          { composition := c2, backend := b2, exception := some "Kernel compilation failed" }

/-- Source `compilePatterns<TDriverInstance>(dims)`; `driver->getGpuList()` holds the
devices `0 .. getGpuCount() - 1`. -/
def compilePatterns (c : PatternComposition) (b : Backend) (dims : Dimensions) :
    CompositionResult :=
  if c.patterns.isEmpty then
    { composition := c, backend := b,
      exception := some "No patterns added in composition, interrupting" }
  else if c.isAllPatternsCompiledFor dims then { composition := c, backend := b }
  else if b.gpuCount = 0 then
    { composition := c, backend := b, exception := some "No GPU found, interrupting" }
  else
    let r := compileOnGpus dims (List.range b.gpuCount) 0 c b
    match r.exception with
    | some _ => r
    | none => { r with composition := { r.composition with compiledPatternsDimension := dims } }

/-- The call `static_cast<Map*>(pattern)->run<TDriverInstance>(dims)` or
`static_cast<Reduce*>(pattern)->run<TDriverInstance>(dims)` that `run` makes for a
member; `none` when the host loop of a Reduce has not ended after `fuel` rounds. -/
def runMember (fuel : Nat) (dims : Dimensions) (m : Member) (b : Backend) :
    Option (Member × Backend × Option String) :=
  match m.patternType, m.pattern.kind with
  | .GSPAR_PATTERN_MAP, .map =>
    let r := m.pattern.run b dims false
    some ({ m with pattern := r.pattern }, r.backend, r.exception)
  | .GSPAR_PATTERN_REDUCE, .reduce _ _ _ =>
    match Reduce.runCalls fuel m.pattern b dims with
    | none => none
    | some r => some ({ m with pattern := r.pattern }, r.backend, r.exception)
  | _, _ => some (m, b, some invalidDowncast)

/-- The loop `for (const auto& pattern : this->patterns)` of `run`. -/
def runMembers (fuel : Nat) (dims : Dimensions) :
    List Member → Backend → Option (List Member × Backend × Option String)
  | [], b => some ([], b, none)
  | m :: rest, b =>
    match runMember fuel dims m b with
    | none => none
    | some (m1, b1, some e) => some (m1 :: rest, b1, some e)
    | some (m1, b1, none) =>
      match runMembers fuel dims rest b1 with
      | none => none
      | some (rest1, b2, e) => some (m1 :: rest1, b2, e)

/-- Source `PatternComposition::run<TDriverInstance>(pDims, useCompiledDim)`. -/
def run (fuel : Nat) (c : PatternComposition) (b : Backend) (pDims : Dimensions)
    (useCompiledDim : Bool) : Option CompositionResult :=
  if c.patterns.isEmpty then
    some { composition := c, backend := b,
           exception := some "No patterns added in composition, interrupting" }
  else
    let dims := if useCompiledDim then c.compiledPatternsDimension else pDims
    if dims.getCount = 0 then
      some { composition := c, backend := b,
             exception := some "No dimensions set to run the pattern composition" }
    else
      let r := c.compilePatterns b dims
      match r.exception with
      | some _ => some r
      | none =>
        match runMembers fuel dims r.composition.patterns r.backend with
        | none => none
        | some (members, b1, e) =>
          some { composition := { r.composition with patterns := members }, backend := b1,
                 exception := e }

end PatternComposition

/-- Every name of the parameter order has an entry in the parameter map: the invariant
that `setParameter`, the only writer of both, maintains. -/
def BaseParallelPattern.registryComplete (p : BaseParallelPattern) : Prop :=
  ∀ k ∈ p.paramsOrder, (p.getParameter k).isSome = true

/-! ### Telling the exceptions apart -/

/-- First character of a message. -/
def firstChar (s : String) : Option Char := s.data.head?

/-- First characters of the messages, other than the two below, with which a run can
end: `No ...`, `Kernel compilation failed`, `Could not find ...`, the null-pointer
mark, `3-dimensional ...`, `A memory object ...`, `The first dimension ...`.  The
placeholder message starts with `P`, the multi-dimensional message of Reduce with
`R`. -/
def otherInitials : List (Option Char) :=
  [some 'N', some 'K', some 'C', some 'n', some '3', some 'A', some 'T']

/-- The call is a kernel launch. -/
def Event.isRunAsync : Event → Bool
  | .runAsync _ _ _ _ => true
  | _ => false

/-- Number of kernel launches among the calls. -/
def launches (es : List Event) : Nat := (es.filter Event.isRunAsync).length

/-- The slots bound at each kernel launch among the calls, in launch order. -/
def launchSlots (es : List Event) : List (List ParameterSlot) :=
  es.filterMap fun e =>
    match e with
    | .runAsync _ _ _ args => some (args.map KernelArg.slot)
    | _ => none

/-- Extent of the X axis, threads (`max`) and blocks (`min`) of the X axis, and
shared-memory bytes set on the kernel, for each kernel launch among the calls. -/
def launchShapes (es : List Event) : List (Nat × SingleDimension × Nat) :=
  es.filterMap fun e =>
    match e with
    | .runAsync kernel dims blocksAndThreads _ =>
      some (dims.x.max, blocksAndThreads.x, kernel.sharedMemoryBytes)
    | _ => none

/-- Sizes in bytes of the device buffers allocated for parameter `name` among the
calls, in order. -/
def allocations (es : List Event) (name : String) : List Nat :=
  es.filterMap fun e =>
    match e with
    | .malloc _ parameter memoryObject => if parameter = name then some memoryObject.size else none
    | _ => none

/-- Names of the parameters whose memory object is copied from the device to the host
among the calls, in order. -/
def copiesOut (es : List Event) : List String :=
  es.filterMap fun e =>
    match e with
    | .copyOut parameter _ => some parameter
    | _ => none

/-- Names of the parameters whose memory object is copied from the host to the device
among the calls, in order. -/
def copiesIn (es : List Event) : List String :=
  es.filterMap fun e =>
    match e with
    | .copyInAsync parameter _ => some parameter
    | _ => none

/-! ### The argument order in the words of the specification -/

/-- A backend with one GPU that accepts every kernel; the generator fragments are
those of an unbatched 1-D CUDA kernel without standard parameters. -/
def sampleBackend : Backend :=
  { gpuCount := 1
    kernelGenerator :=
      { getKernelPrefix := "extern \"C\" __global__ void"
        generateParams := fun _ _ => "const unsigned long gspar_max_x"
        generateInitKernel := fun _ _ => ""
        generateStdVariables := fun _ _ => "size_t x = gspar_get_global_id(0); \n"
        generateBatchedParametersInitialization := fun _ _ => "" }
    compiles := fun _ _ _ => true
    randomString := fun n _ => "k" ++ toString n }

/-- A CUDA backend with one GPU that accepts every kernel. -/
def cudaBackend : Backend :=
  { gpuCount := 1
    kernelGenerator := CUDA.kernelGenerator
    compiles := fun _ _ _ => true
    randomString := fun n _ => "k" ++ toString n }

/-- A CUDA backend with two GPUs that accept every kernel. -/
def twoGpuBackend : Backend :=
  { gpuCount := 2
    kernelGenerator := CUDA.kernelGenerator
    compiles := fun _ _ _ => true
    randomString := fun n _ => "k" ++ toString n }

/-- The Map of `vector_sum_map.cpp` with its three parameters registered for
vectors of 20 `unsigned int`. -/
def sampleMap : BaseParallelPattern :=
  (((Map.new "result[x] = a[x] + b[x];").setParameter
      (PointerParameter.mk "a" { name := "unsigned int*", isPointer := true } 80 true
        .GSPAR_PARAM_IN false)).setParameter
      (PointerParameter.mk "b" { name := "unsigned int*", isPointer := true } 80 true
        .GSPAR_PARAM_IN false)).setParameter
      (PointerParameter.mk "result" { name := "unsigned int*", isPointer := true } 80 true
        .GSPAR_PARAM_OUT false)

/-- The Reduce of `reduce_sample.cpp` with its two parameters registered for a
vector of 100 `int`. -/
def sampleReduce : BaseParallelPattern :=
  ((Reduce.new "in_vector" "+" "total").setParameter
      (PointerParameter.mk "in_vector" { name := "int*", isPointer := true } 400 true
        .GSPAR_PARAM_IN false)).setParameter
      (PointerParameter.mk "total" { name := "int*", isPointer := true } 4 true .GSPAR_PARAM_OUT
        false)

/-- Registers, on a Reduce like `sampleReduce`, an input vector of 5000 `int` and the
output `total` again, as a caller does before reducing another vector. -/
def registerLargerVector (p : BaseParallelPattern) : BaseParallelPattern :=
  (p.setParameter
      (PointerParameter.mk "in_vector" { name := "int*", isPointer := true } 20000 true
        .GSPAR_PARAM_IN false)).setParameter
      (PointerParameter.mk "total" { name := "int*", isPointer := true } 4 true .GSPAR_PARAM_OUT
        false)

/-- The Map of `vector_sum_map.cpp` whose vector `b` is already on the device: it is
registered through a memory object of the caller with direction
`GSPAR_PARAM_PRESENT`. -/
def samplePresentMap : BaseParallelPattern :=
  (sampleMap.setParameterMemoryObject "b" { name := "unsigned int*", isPointer := true }
    { size := 80 } .GSPAR_PARAM_PRESENT).pattern

end Pattern

end GSPar

/-! ## Theorems -/

namespace GSPar

open Driver Pattern

/-! ### The `double` computation of the number of blocks -/

theorem log2Step_spec (n k : Nat) (p : Nat × Nat) (h1 : p.1 = n / 2 ^ p.2) (h2 : 1 ≤ p.1)
    (h3 : p.1 < 2 ^ (2 * k)) :
    (log2Step k p).1 = n / 2 ^ (log2Step k p).2 ∧ 1 ≤ (log2Step k p).1 ∧
      (log2Step k p).1 < 2 ^ k := by
  unfold log2Step
  by_cases h : 2 ^ k ≤ p.1
  · simp only [h, if_true]
    refine ⟨?_, ?_, ?_⟩
    · rw [h1, Nat.div_div_eq_div_mul, ← Nat.pow_add]
    · exact Nat.div_pos h (Nat.two_pow_pos _)
    · rw [Nat.div_lt_iff_lt_mul (Nat.two_pow_pos _), ← Nat.pow_add]
      rw [show k + k = 2 * k by omega]
      exact h3
  · simp only [h, if_false]
    exact ⟨h1, h2, by omega⟩

theorem log2Floor_spec (n : Nat) (h0 : 1 ≤ n) (h : n < 2 ^ 256) :
    2 ^ log2Floor n ≤ n ∧ n < 2 ^ (log2Floor n + 1) := by
  have s0 : ((n, 0) : Nat × Nat).1 = n / 2 ^ ((n, 0) : Nat × Nat).2 := by simp
  have s128 := log2Step_spec n 128 (n, 0) s0 h0 h
  obtain ⟨a1, b1, c1⟩ := s128
  obtain ⟨a2, b2, c2⟩ := log2Step_spec n 64 _ a1 b1 c1
  obtain ⟨a3, b3, c3⟩ := log2Step_spec n 32 _ a2 b2 c2
  obtain ⟨a4, b4, c4⟩ := log2Step_spec n 16 _ a3 b3 c3
  obtain ⟨a5, b5, c5⟩ := log2Step_spec n 8 _ a4 b4 c4
  obtain ⟨a6, b6, c6⟩ := log2Step_spec n 4 _ a5 b5 c5
  obtain ⟨a7, b7, c7⟩ := log2Step_spec n 2 _ a6 b6 c6
  obtain ⟨a8, b8, c8⟩ := log2Step_spec n 1 _ a7 b7 c7
  have hdef : log2Floor n = (log2Step 1 (log2Step 2 (log2Step 4 (log2Step 8 (log2Step 16
      (log2Step 32 (log2Step 64 (log2Step 128 (n, 0))))))))).2 := rfl
  rw [← hdef] at a8
  generalize (log2Step 1 (log2Step 2 (log2Step 4 (log2Step 8 (log2Step 16
      (log2Step 32 (log2Step 64 (log2Step 128 (n, 0))))))))).1 = v at a8 b8 c8
  have hv : v = 1 := by omega
  subst hv
  have hpos : 0 < 2 ^ log2Floor n := Nat.two_pow_pos _
  have h1 := Nat.div_add_mod n (2 ^ log2Floor n)
  have h2 := Nat.mod_lt n hpos
  rw [← a8] at h1
  rw [Nat.pow_succ]
  omega

theorem log2Floor_lt (n k : Nat) (h0 : 1 ≤ n) (h : n < 2 ^ k) (hk : k ≤ 256) :
    log2Floor n < k := by
  have h256 : n < 2 ^ 256 := lt_of_lt_of_le h (Nat.pow_le_pow_right (by decide) hk)
  have := (log2Floor_spec n h0 h256).1
  by_contra hc
  have : 2 ^ k ≤ 2 ^ log2Floor n := Nat.pow_le_pow_right (by decide) (by omega)
  omega

theorem le_log2Floor (n k : Nat) (h : 2 ^ k ≤ n) (h256 : n < 2 ^ 256) : k ≤ log2Floor n := by
  have h0 : 1 ≤ n := le_trans (Nat.one_le_two_pow) h
  have := (log2Floor_spec n h0 h256).2
  by_contra hc
  have : 2 ^ (log2Floor n + 1) ≤ 2 ^ k := Nat.pow_le_pow_right (by decide) (by omega)
  omega

theorem toDouble_of_lt (n : Nat) (h : n < 2 ^ 53) : toDouble n = n := by
  have he : log2Floor n - 52 = 0 := by
    rcases Nat.eq_zero_or_pos n with rfl | hpos
    · decide
    · have := log2Floor_lt n 53 hpos h (by decide)
      omega
  simp [toDouble, he]
  omega

theorem ceilOfQuotient_exact (a b : Nat) (ha1 : 1 ≤ a) (ha : a < 2 ^ 53) (hb1 : 1 ≤ b)
    (hb : b < 2 ^ 53) : ceilOfQuotient a b = (a + b - 1) / b := by
  have hab : ¬ (a = 0 ∨ b = 0) := by omega
  have h53 : (2 : Nat) ^ 53 = 9007199254740992 := by norm_num
  have h54 : (2 : Nat) ^ 54 = 18014398509481984 := by norm_num
  have h52 : (2 : Nat) ^ 52 = 4503599627370496 := by norm_num
  obtain ⟨hE1, hE2⟩ := log2Floor_spec b hb1 (lt_trans hb (by decide))
  have hlb : log2Floor b ≤ 52 := by
    have := log2Floor_lt b 53 hb1 hb (by decide)
    omega
  simp only [ceilOfQuotient, hab, if_false]
  generalize log2Floor b = lb at hE1 hE2 hlb ⊢
  have hEle : 2 ^ lb ≤ 2 ^ 52 := Nat.pow_le_pow_right (by decide) hlb
  have hW : 2 ^ (lb + 54) = 2 ^ lb * 2 ^ 54 := Nat.pow_add 2 lb 54
  rw [Nat.pow_succ] at hE2
  generalize 2 ^ lb = E at hE1 hE2 hEle hW
  -- the scaled quotient
  have hdm := Nat.div_add_mod (a * 2 ^ (lb + 54)) b
  have hRlt := Nat.mod_lt (a * 2 ^ (lb + 54)) (show b > 0 by omega)
  have hQ1 : 2 ^ 53 ≤ a * 2 ^ (lb + 54) / b := by
    rw [Nat.le_div_iff_mul_le (by omega)]
    have : 2 ^ (lb + 54) ≤ a * 2 ^ (lb + 54) := Nat.le_mul_of_pos_left _ (by omega)
    omega
  have hQ2 : a * 2 ^ (lb + 54) / b < 2 ^ 107 := by
    rw [Nat.div_lt_iff_lt_mul (by omega)]
    have h1 : a * 2 ^ (lb + 54) ≤ (2 ^ 53 - 1) * 2 ^ (lb + 54) :=
      Nat.mul_le_mul_right _ (by omega)
    have h107 : (2 : Nat) ^ 107 = 2 ^ 53 * 2 ^ 54 := by norm_num
    rw [h107]
    have h2 : (2 ^ 53 - 1) * 2 ^ (lb + 54) < 2 ^ 53 * 2 ^ 54 * b := by
      rw [hW, h53, h54]
      omega
    omega
  have hWpos : 2 ^ 53 * b < 2 ^ (lb + 54) := by omega
  generalize a * 2 ^ (lb + 54) % b = R at hdm hRlt ⊢
  generalize a * 2 ^ (lb + 54) / b = Q at hdm hQ1 hQ2 ⊢
  have hL1 : 53 ≤ log2Floor Q := le_log2Floor Q 53 hQ1 (lt_trans hQ2 (by decide))
  have hL2 : log2Floor Q < 107 := log2Floor_lt Q 107 (by omega) hQ2 (by decide)
  generalize log2Floor Q = L at hL1 hL2 ⊢
  obtain ⟨d, hd⟩ : ∃ d, d = L - 52 := ⟨_, rfl⟩
  rw [← hd]
  have hd1 : 1 ≤ d := by omega
  have hd2 : d ≤ 54 := by omega
  have hDpos : 0 < 2 ^ d := Nat.two_pow_pos _
  have hhalf : 2 ^ d = 2 * 2 ^ (d - 1) := by
    obtain ⟨e, rfl⟩ : ∃ e, d = e + 1 := ⟨d - 1, by omega⟩
    rw [Nat.pow_succ, Nat.add_sub_cancel, Nat.mul_comm]
  have hhalfle : 2 ^ (d - 1) ≤ 2 ^ 53 := Nat.pow_le_pow_right (by decide) (by omega)
  have hhalfpos : 0 < 2 ^ (d - 1) := Nat.two_pow_pos _
  have hmr := Nat.div_add_mod Q (2 ^ d)
  have hremlt := Nat.mod_lt Q hDpos
  by_cases hKd : lb + 54 ≤ d
  · -- the divisor is 1
    have hlb0 : lb = 0 := by omega
    have hd54 : d = 54 := by omega
    subst hlb0
    subst hd54
    have hb1' : b = 1 := by
      simp at hW
      omega
    subst hb1'
    simp only [Nat.zero_add, Nat.mul_one, Nat.mod_one, Nat.div_one] at hdm hmr hremlt ⊢
    have hQa : Q = a * 2 ^ 54 := by omega
    subst hQa
    have hm : a * 2 ^ 54 / 2 ^ 54 = a := Nat.mul_div_cancel _ (by norm_num)
    have hr : a * 2 ^ 54 % 2 ^ 54 = 0 := Nat.mul_mod_left _ _
    simp only [hm, hr, Nat.sub_self, Nat.pow_zero, Nat.mul_one, le_refl, if_true]
    have hne : ¬ (2 : Nat) ^ (54 - 1) < 0 := by omega
    have hne2 : ¬ (0 : Nat) = 2 ^ (54 - 1) := by
      have := Nat.two_pow_pos (54 - 1)
      omega
    simp [hne2]
  · have hKd' : d < lb + 54 := by omega
    simp only [if_neg hKd]
    obtain ⟨s, hs⟩ : ∃ s, s = lb + 54 - d := ⟨_, rfl⟩
    rw [← hs]
    have hSD : 2 ^ (lb + 54) = 2 ^ s * 2 ^ d := by
      have hsum : lb + 54 = s + d := by omega
      rw [hsum, Nat.pow_add]
    have hSpos : 0 < 2 ^ s := Nat.two_pow_pos _
    generalize 2 ^ s = S at hSD hSpos ⊢
    generalize 2 ^ (d - 1) = half at hhalf hhalfle hhalfpos ⊢
    generalize 2 ^ d = D at hDpos hhalf hmr hremlt hSD ⊢
    generalize 2 ^ (lb + 54) = W at hW hdm hWpos hSD
    -- the exact ceiling
    have hcm := Nat.div_add_mod (a + b - 1) b
    have hcr := Nat.mod_lt (a + b - 1) (show b > 0 by omega)
    generalize (a + b - 1) % b = r0 at hcm hcr
    generalize (a + b - 1) / b = c at hcm ⊢
    have hc1 : 1 ≤ c := by
      rcases Nat.eq_zero_or_pos c with h0 | h0
      · subst h0
        omega
      · exact h0
    obtain ⟨c', rfl⟩ : ∃ c', c = c' + 1 := ⟨c - 1, by omega⟩
    have hbc : b * (c' + 1) = b * c' + b := Nat.mul_succ b c'
    have hle : a ≤ b * (c' + 1) := by omega
    have hge : b * c' + 1 ≤ a := by omega
    -- upper bound on the scaled quotient
    have hQup : Q ≤ (c' + 1) * W := by
      have h1 : a * W ≤ b * (c' + 1) * W := Nat.mul_le_mul_right W hle
      have h2 : b * Q ≤ b * ((c' + 1) * W) := by
        rw [← Nat.mul_assoc]
        omega
      exact Nat.le_of_mul_le_mul_left h2 (by omega)
    have hQlo : c' * W < Q := by
      have h1 : (b * c' + 1) * W ≤ a * W := Nat.mul_le_mul_right W hge
      have h2 : (b * c' + 1) * W = b * (c' * W) + W := by ring
      have h3 : b * (c' * W) < b * Q := by omega
      exact Nat.lt_of_mul_lt_mul_left h3
    have hmant_def : D * (Q / D) ≤ Q := Nat.mul_div_le Q D
    generalize Q % D = rem at hmr hremlt ⊢
    generalize Q / D = mant at hmr hmant_def ⊢
    have hWc : (c' + 1) * W = D * ((c' + 1) * S) := by rw [hSD]; ring
    have hWc' : c' * W = D * (c' * S) := by rw [hSD]; ring
    have hmant_up : mant ≤ (c' + 1) * S := by
      have : D * mant ≤ D * ((c' + 1) * S) := by omega
      exact Nat.le_of_mul_le_mul_left this hDpos
    have hmant_lo : c' * S ≤ mant := by
      by_contra hc
      have h1 : mant + 1 ≤ c' * S := by omega
      have h2 : D * (mant + 1) ≤ D * (c' * S) := Nat.mul_le_mul_left D h1
      have h3 : D * (mant + 1) = D * mant + D := Nat.mul_succ D mant
      omega
    have hcS : (c' + 1) * S = c' * S + S := Nat.succ_mul c' S
    -- the rounded significand lies in the same unit interval
    have hround :
        c' * S + 1 ≤ (if (decide (half < rem) ||
            (decide (rem = half) && (decide (R ≠ 0) || decide (mant % 2 = 1)))) = true
          then mant + 1 else mant) ∧
        (if (decide (half < rem) ||
            (decide (rem = half) && (decide (R ≠ 0) || decide (mant % 2 = 1)))) = true
          then mant + 1 else mant) ≤ (c' + 1) * S := by
      by_cases hup : (decide (half < rem) ||
            (decide (rem = half) && (decide (R ≠ 0) || decide (mant % 2 = 1)))) = true
      · rw [if_pos hup]
        refine ⟨by omega, ?_⟩
        by_contra hc
        have hm : mant = (c' + 1) * S := by omega
        have hD : D * mant = (c' + 1) * W := by rw [hm, hWc]
        have hrem0 : rem = 0 := by omega
        subst hrem0
        simp at hup
        omega
      · rw [if_neg hup]
        refine ⟨?_, hmant_up⟩
        by_contra hc
        have hm : mant = c' * S := by omega
        have hD : D * mant = c' * W := by rw [hm, hWc']
        have hQ : Q = c' * W + rem := by omega
        have h1 : (b * c' + 1) * W ≤ a * W := Nat.mul_le_mul_right W hge
        have h2 : (b * c' + 1) * W = b * (c' * W) + W := by ring
        have h3 : b * Q = b * (c' * W) + b * rem := by rw [hQ, Nat.mul_add]
        have h4 : W ≤ b * rem + R := by omega
        have hremgt : 2 ^ 53 < rem := by
          by_contra hr
          have h5 : b * rem ≤ b * 2 ^ 53 := Nat.mul_le_mul_left b (by omega)
          omega
        apply hup
        have : half < rem := by omega
        simp [this]
    generalize (if (decide (half < rem) ||
            (decide (rem = half) && (decide (R ≠ 0) || decide (mant % 2 = 1)))) = true
          then mant + 1 else mant) = mant1 at hround ⊢
    apply Nat.div_eq_of_lt_le
    · omega
    · have : (c' + 1 + 1) * S = c' * S + S + S := by ring
      show mant1 + S - 1 < (c' + 1 + 1) * S
      omega

/-- Below `2 ^ 53` the double computation gives the exact ceiling. -/
theorem ceilDouble_exact (delta m : Nat) (hd1 : 1 ≤ delta) (hd : delta < 2 ^ 53) (hm1 : 1 ≤ m)
    (hm : m < 2 ^ 53) : ceilDouble delta m = ceilDiv delta m := by
  unfold ceilDouble ceilDiv
  rw [toDouble_of_lt delta hd, toDouble_of_lt m hm, ceilOfQuotient_exact delta m hd1 hd hm1 hm]
  apply Nat.mod_eq_of_lt
  have h1 : (delta + m - 1) / m ≤ delta + m - 1 := Nat.div_le_self _ _
  have h2 : (delta + m - 1) / m ≤ delta := by
    rw [show delta + m - 1 = (delta - 1) + m by omega, Nat.add_div_right _ (by omega)]
    have := Nat.div_le_self (delta - 1) m
    omega
  have : delta < ULONG_MOD := lt_trans hd (by decide)
  omega

/-- Below `2 ^ 53` the number of blocks of an axis whose extent exceeds the limit is the
exact ceiling. -/
theorem ceilDouble_eq_ceilDiv (n m : Nat) (hn : n < 2 ^ 53) (hmn : m < n) :
    ceilDouble n m = ceilDiv n m := by
  rcases Nat.eq_zero_or_pos m with rfl | hm
  · have h0 : toDouble 0 = 0 := by decide
    simp [ceilDouble, ceilDiv, h0, ceilOfQuotient]
  · exact ceilDouble_exact n m (by omega) hn hm (by omega)

/-! ### Block/thread mapping -/

theorem ceilDiv_eq_ceil (a b : Nat) (hb : 1 ≤ b) : ceilDiv a b = ⌈(a : ℚ) / b⌉₊ := by
  have hb0 : (0 : ℚ) < b := by exact_mod_cast hb
  unfold ceilDiv
  symm
  rcases Nat.eq_zero_or_pos a with rfl | ha
  · simp only [Nat.zero_add, Nat.cast_zero, zero_div, Nat.ceil_zero]
    exact (Nat.div_eq_of_lt (by omega)).symm
  have hq : 1 ≤ (a + b - 1) / b := by
    rw [Nat.le_div_iff_mul_le (by omega)]
    omega
  rw [Nat.ceil_eq_iff (by omega)]
  have h1 := Nat.div_add_mod (a + b - 1) b
  have h2 := Nat.mod_lt (a + b - 1) (show b > 0 by omega)
  have h3 : b * ((a + b - 1) / b - 1) = b * ((a + b - 1) / b) - b := by
    rw [Nat.mul_sub, Nat.mul_one]
  have h4 : b ≤ b * ((a + b - 1) / b) := Nat.le_mul_of_pos_right b hq
  constructor
  · rw [lt_div_iff₀ hb0]
    have : ((a + b - 1) / b - 1) * b < a := by
      rw [Nat.mul_comm, h3]
      omega
    exact_mod_cast this
  · rw [div_le_iff₀ hb0]
    have : a ≤ (a + b - 1) / b * b := by
      rw [Nat.mul_comm]
      omega
    exact_mod_cast this

theorem ceilDiv_mul_ge (a b : Nat) (hb : 1 ≤ b) : a ≤ ceilDiv a b * b := by
  unfold ceilDiv
  have h1 := Nat.div_add_mod (a + b - 1) b
  have h2 := Nat.mod_lt (a + b - 1) (show b > 0 by omega)
  rw [Nat.mul_comm]
  omega

/-- The per-axis rule for extents below `2 ^ 53`: whenever `getNumBlocksAndThreads`
does not reject the request (Y and Z are not both active) it returns a mapping in
which an inactive axis gets one block of one thread, and an active axis with extent
`e = delta()` and effective per-axis maximum `m ≥ 1` gets one block of `e` threads when
`e ≤ m` and, when `m < e < 2 ^ 53`, `ceil(e / m)` blocks of `m` threads.  For any
extent above `m` the number of blocks is `ceilDouble e m`. -/
theorem getNumBlocksAndThreads_axis_exact (numThreads dims : Dimensions) (maxThreadsPerBlock : Nat)
    (limits : ThreadLimits) (d : Nat) (hd : d < 3)
    (h3 : ¬ (dims.y.toBool = true ∧ dims.z.toBool = true)) :
    ∃ bt, getNumBlocksAndThreads numThreads dims maxThreadsPerBlock limits = .ok bt ∧
      (dims.is d = false → bt.get d = ⟨1, 1⟩) ∧
      (dims.is d = true →
        1 ≤ effectiveMax numThreads dims maxThreadsPerBlock limits d →
        ((dims.get d).delta ≤ effectiveMax numThreads dims maxThreadsPerBlock limits d →
          (bt.get d).min = 1 ∧ (bt.get d).max = (dims.get d).delta) ∧
        (effectiveMax numThreads dims maxThreadsPerBlock limits d < (dims.get d).delta →
          (bt.get d).min
            = ceilDouble (dims.get d).delta
                (effectiveMax numThreads dims maxThreadsPerBlock limits d) ∧
          ((dims.get d).delta < 2 ^ 53 →
            (bt.get d).min =
              ⌈((dims.get d).delta : ℚ) /
                effectiveMax numThreads dims maxThreadsPerBlock limits d⌉₊) ∧
          (bt.get d).max = effectiveMax numThreads dims maxThreadsPerBlock limits d)) := by
  have hne : (dims.y.toBool && dims.z.toBool) = false := by
    cases hy : dims.y.toBool <;> cases hz : dims.z.toBool <;> simp_all
  refine ⟨_, by simp only [getNumBlocksAndThreads, hne]; rfl, ?_, ?_⟩
  · intro hoff
    have hoff1 : (dims.get d).toBool = false := hoff
    interval_cases d <;> simp [Dimensions.get, axisBlocksAndThreads] at hoff1 ⊢ <;> simp [hoff1]
  · intro hon hm
    have hon1 : (dims.get d).toBool = true := hon
    have key : (({ x := axisBlocksAndThreads (dims.get 0) (numThreads.get 0)
                      ((adjustLimits2D dims maxThreadsPerBlock limits).get 0),
                   y := axisBlocksAndThreads (dims.get 1) (numThreads.get 1)
                      ((adjustLimits2D dims maxThreadsPerBlock limits).get 1),
                   z := axisBlocksAndThreads (dims.get 2) (numThreads.get 2)
                      ((adjustLimits2D dims maxThreadsPerBlock limits).get 2) } : Dimensions).get d)
        = axisBlocksAndThreads (dims.get d) (numThreads.get d)
            ((adjustLimits2D dims maxThreadsPerBlock limits).get d) := by
      interval_cases d <;> rfl
    rw [key]
    have hax : axisBlocksAndThreads (dims.get d) (numThreads.get d)
          ((adjustLimits2D dims maxThreadsPerBlock limits).get d)
        = if (dims.get d).delta ≤ effectiveMax numThreads dims maxThreadsPerBlock limits d
          then ⟨(dims.get d).delta, 1⟩
          else ⟨effectiveMax numThreads dims maxThreadsPerBlock limits d,
                ceilDouble (dims.get d).delta
                  (effectiveMax numThreads dims maxThreadsPerBlock limits d)⟩ := by
      simp only [axisBlocksAndThreads, hon1, if_true, effectiveMax]
    rw [hax]
    constructor
    · intro hle
      simp [hle]
    · intro hlt
      have : ¬ (dims.get d).delta ≤ effectiveMax numThreads dims maxThreadsPerBlock limits d := by
        omega
      simp only [this, if_false]
      refine ⟨trivial, fun h53 => ?_, trivial⟩
      rw [ceilDouble_exact _ _ (by omega) h53 hm (by omega)]
      exact ceilDiv_eq_ceil _ _ hm

theorem getNumBlocksAndThreads_axis_exact_witness :
    ∃ bt, getNumBlocksAndThreads (Dimensions.ofMax 5 0 0) (Dimensions.ofMax 20 0 0) 1024
        ⟨1024, 1024, 64⟩ = .ok bt ∧ (bt.get 0).min = 4 ∧ (bt.get 0).max = 5 := by
  obtain ⟨bt, hbt, -, hon⟩ :=
    getNumBlocksAndThreads_axis_exact (Dimensions.ofMax 5 0 0) (Dimensions.ofMax 20 0 0) 1024
      ⟨1024, 1024, 64⟩ 0 (by decide) (by decide)
  have he : effectiveMax (Dimensions.ofMax 5 0 0) (Dimensions.ofMax 20 0 0) 1024
      ⟨1024, 1024, 64⟩ 0 = 5 := by decide
  have hdl : ((Dimensions.ofMax 20 0 0).get 0).delta = 20 := by decide
  have h := (hon (by decide) (by decide)).2 (by decide)
  rw [he, hdl] at h
  refine ⟨bt, hbt, ?_, h.2.2⟩
  rw [h.2.1 (by norm_num)]
  norm_num

/-- C6, evaluated at the failing input: a 1-D request of extent `2 ^ 53 + 1` with the
per-axis limit 1024 (no override).  `(double)(2 ^ 53 + 1)` is `2 ^ 53`, so
`getNumBlocksAndThreads` returns `2 ^ 43` blocks of 1024 threads, one block fewer than
`ceil((2 ^ 53 + 1) / 1024) = 2 ^ 43 + 1`: the blocks cover `2 ^ 53` indices and leave
out the last one.  With the per-axis limit 2 it returns `2 ^ 52` blocks where the
ceiling is `2 ^ 52 + 1`. -/
theorem getNumBlocksAndThreads_blocks_rounded_down :
    ((Dimensions.ofMax (2 ^ 53 + 1) 0 0).get 0).delta = 2 ^ 53 + 1 ∧
    effectiveMax (Dimensions.ofMax 0 0 0) (Dimensions.ofMax (2 ^ 53 + 1) 0 0) 1024
      ⟨1024, 1024, 64⟩ 0 = 1024 ∧
    getNumBlocksAndThreads (Dimensions.ofMax 0 0 0) (Dimensions.ofMax (2 ^ 53 + 1) 0 0) 1024
      ⟨1024, 1024, 64⟩ = .ok ⟨⟨1024, 2 ^ 43⟩, ⟨1, 1⟩, ⟨1, 1⟩⟩ ∧
    ⌈((2 ^ 53 + 1 : ℕ) : ℚ) / (1024 : ℕ)⌉₊ = 2 ^ 43 + 1 ∧
    2 ^ 43 * 1024 < 2 ^ 53 + 1 ∧
    effectiveMax (Dimensions.ofMax 0 0 0) (Dimensions.ofMax (2 ^ 53 + 1) 0 0) 1024
      ⟨2, 1024, 64⟩ 0 = 2 ∧
    getNumBlocksAndThreads (Dimensions.ofMax 0 0 0) (Dimensions.ofMax (2 ^ 53 + 1) 0 0) 1024
      ⟨2, 1024, 64⟩ = .ok ⟨⟨2, 2 ^ 52⟩, ⟨1, 1⟩, ⟨1, 1⟩⟩ ∧
    ⌈((2 ^ 53 + 1 : ℕ) : ℚ) / (2 : ℕ)⌉₊ = 2 ^ 52 + 1 := by
  refine ⟨by decide, by decide, rfl, ?_, by decide, by decide, rfl, ?_⟩
  · rw [← ceilDiv_eq_ceil _ _ (by decide)]
    decide
  · rw [← ceilDiv_eq_ceil _ _ (by decide)]
    decide

/-- What the 1-D mapping does guarantee: the threads per block of an active
axis never exceed the per-axis device limit `maxThreadsDimension[d]` nor a
non-zero override `numThreadsPerBlock[d]`. -/
theorem axisBlocksAndThreads_threads_le (dim numThreads : SingleDimension) (maxThreads : Nat)
    (hon : dim.toBool = true) :
    (axisBlocksAndThreads dim numThreads maxThreads).max ≤ maxThreads ∧
    (numThreads.max ≠ 0 → (axisBlocksAndThreads dim numThreads maxThreads).max ≤ numThreads.max) := by
  have hm : (if numThreads.toBool && decide (numThreads.max < maxThreads) then numThreads.max
      else maxThreads) ≤ maxThreads ∧
      (numThreads.max ≠ 0 → (if numThreads.toBool && decide (numThreads.max < maxThreads)
        then numThreads.max else maxThreads) ≤ numThreads.max) := by
    simp only [SingleDimension.toBool]
    by_cases h0 : 0 < numThreads.max <;> by_cases h1 : numThreads.max < maxThreads <;>
      simp [h0, h1] <;> omega
  generalize hmdef : (if numThreads.toBool && decide (numThreads.max < maxThreads)
    then numThreads.max else maxThreads) = m at hm
  have hax : axisBlocksAndThreads dim numThreads maxThreads
      = if dim.delta ≤ m then ⟨dim.delta, 1⟩ else ⟨m, ceilDouble dim.delta m⟩ := by
    simp only [axisBlocksAndThreads, hon, if_true, hmdef]
  rw [hax]
  by_cases h : dim.delta ≤ m
  · simp only [h, if_true]
    exact ⟨by omega, fun hn => by have := hm.2 hn; omega⟩
  · simp only [h, if_false]
    exact hm

/-- C7, evaluated at the failing input: a 1-D request of extent 1024 on a device
with 1024 threads per block, 1024 threads per X axis and 65536 registers per
block, for a kernel whose scaled register count is 128.  The register ceiling
is 512 and the limit passed down is `min(1024, 512) = 512`, yet the mapping
returns one block of 1024 threads. -/
theorem getNumBlocksAndThreadsFor_exceeds_register_ceiling :
    regsMaxThreadsPerBlock ⟨1024, 65536, ⟨1024, 1024, 64⟩⟩ 128 = 512 ∧
    actualMaxThreadsPerBlock ⟨1024, 65536, ⟨1024, 1024, 64⟩⟩ 128 = 512 ∧
    getNumBlocksAndThreadsFor ⟨1024, 65536, ⟨1024, 1024, 64⟩⟩ 128 (Dimensions.ofMax 0 0 0)
      (Dimensions.ofMax 1024 0 0) = .ok ⟨⟨1024, 1⟩, ⟨1, 1⟩, ⟨1, 1⟩⟩ := by
  refine ⟨by decide, by decide, ?_⟩
  rfl

/-! ### Map launch -/

theorem gspar_get_global_id_lt (b threads t : Nat) : gspar_get_global_id b threads t < UINT_MOD :=
  Nat.mod_lt _ (by decide)

theorem gspar_get_global_id_eq (b threads t : Nat) (h : b * threads + t < UINT_MOD) :
    gspar_get_global_id b threads t = b * threads + t :=
  Nat.mod_eq_of_lt h

/-- While the grid holds at most `2 ^ 32` threads the global ids are `0, 1, 2, ...`. -/
theorem globalIds_eq_range (blocks threads : Nat) (h : blocks * threads ≤ UINT_MOD) :
    globalIds blocks threads = List.range (blocks * threads) := by
  unfold globalIds
  induction blocks with
  | zero => simp
  | succ n ih =>
    have hexp : (n + 1) * threads = n * threads + threads := by ring
    rw [List.range_succ, List.flatMap_append, ih (by omega)]
    rw [hexp, List.range_add]
    simp only [List.flatMap_cons, List.flatMap_nil, List.append_nil]
    congr 1
    apply List.map_congr_left
    intro t ht
    exact gspar_get_global_id_eq n threads t (by have := List.mem_range.mp ht; omega)

theorem mem_globalIds_lt (blocks threads g : Nat) (h : g ∈ globalIds blocks threads) :
    g < UINT_MOD := by
  unfold globalIds at h
  obtain ⟨b, -, hb⟩ := List.mem_flatMap.mp h
  obtain ⟨t, -, rfl⟩ := List.mem_map.mp hb
  exact gspar_get_global_id_lt b threads t

theorem mem_globalIds (blocks threads b t : Nat) (hb : b < blocks) (ht : t < threads) :
    gspar_get_global_id b threads t ∈ globalIds blocks threads := by
  unfold globalIds
  exact List.mem_flatMap.mpr ⟨b, List.mem_range.mpr hb,
    List.mem_map.mpr ⟨t, List.mem_range.mpr ht, rfl⟩⟩

theorem globalIds_succ (blocks threads : Nat) :
    globalIds (blocks + 1) threads
      = globalIds blocks threads
          ++ (List.range threads).map fun t => gspar_get_global_id blocks threads t := by
  unfold globalIds
  rw [List.range_succ, List.flatMap_append]
  simp

theorem stdVariable_eq (dim : SingleDimension) (gid : Nat) (h : gid + dim.min < ULONG_MOD) :
    stdVariable dim gid = gid + dim.min := by
  unfold stdVariable
  split
  · exact Nat.mod_eq_of_lt h
  · omega

theorem filterMap_guard_range (n k m0 : Nat) (hk : k ≤ n) :
    (List.range n).filterMap (fun g => if g < k then some (g + m0) else none)
      = (List.range k).map (fun g => g + m0) := by
  obtain ⟨j, rfl⟩ := Nat.exists_eq_add_of_le hk
  rw [List.range_add, List.filterMap_append]
  have h1 : (List.range k).filterMap (fun g => if g < k then some (g + m0) else none)
      = (List.range k).map (fun g => g + m0) := by
    rw [← List.filterMap_eq_map]
    apply List.filterMap_congr
    intro g hg
    simp [List.mem_range.mp hg]
  have h2 : (List.map (fun x => k + x) (List.range j)).filterMap
      (fun g => if g < k then some (g + m0) else none) = [] := by
    rw [List.filterMap_eq_nil_iff]
    intro g hg
    obtain ⟨x, -, rfl⟩ := List.mem_map.mp hg
    simp
  rw [h1, h2, List.append_nil]

theorem foldl_update_apply (f : Nat → Nat) (xs : List Nat) (r : Nat → Nat) (i : Nat) :
    xs.foldl (fun r x => Function.update r x (f x)) r i = if i ∈ xs then f i else r i := by
  induction xs generalizing r with
  | nil => simp
  | cons x xs ih =>
    rw [List.foldl_cons, ih]
    by_cases hi : i ∈ xs
    · simp [hi]
    · by_cases hx : i = x
      · subst hx
        simp [hi]
      · simp [hi, hx, Function.update_noteq hx]

/-- The mapping of one axis in terms of the limit in force `m`. -/
theorem axisBlocksAndThreads_eq (dim numThreads : SingleDimension) (maxThreads m : Nat)
    (hon : dim.toBool = true)
    (hmdef : (if numThreads.toBool && decide (numThreads.max < maxThreads) then numThreads.max
      else maxThreads) = m) :
    axisBlocksAndThreads dim numThreads maxThreads
      = if dim.delta ≤ m then ⟨dim.delta, 1⟩ else ⟨m, ceilDouble dim.delta m⟩ := by
  simp only [axisBlocksAndThreads, hon, if_true, hmdef]

/-- Blocks times threads of the X axis cover an extent below `2 ^ 53`, with less than
one block to spare. -/
theorem axisBlocksAndThreads_cover (dim numThreads : SingleDimension) (maxThreads : Nat)
    (hon : dim.toBool = true)
    (hm : 1 ≤ (if numThreads.toBool && decide (numThreads.max < maxThreads) then numThreads.max
      else maxThreads))
    (h53 : dim.delta < 2 ^ 53) :
    dim.delta ≤ (axisBlocksAndThreads dim numThreads maxThreads).min *
      (axisBlocksAndThreads dim numThreads maxThreads).max ∧
    ((axisBlocksAndThreads dim numThreads maxThreads).min *
      (axisBlocksAndThreads dim numThreads maxThreads).max
        < dim.delta + (if numThreads.toBool && decide (numThreads.max < maxThreads)
            then numThreads.max else maxThreads)) ∧
    (axisBlocksAndThreads dim numThreads maxThreads).min ≤ Nat.max dim.delta 1 ∧
    (axisBlocksAndThreads dim numThreads maxThreads).max
      ≤ (if numThreads.toBool && decide (numThreads.max < maxThreads) then numThreads.max
          else maxThreads) := by
  generalize hmdef : (if numThreads.toBool && decide (numThreads.max < maxThreads)
    then numThreads.max else maxThreads) = m at hm
  rw [axisBlocksAndThreads_eq dim numThreads maxThreads m hon hmdef]
  by_cases h : dim.delta ≤ m
  · simp only [h, if_true, Nat.one_mul]
    refine ⟨le_refl _, by omega, ?_, trivial⟩
    exact Nat.le_max_right _ _
  · simp only [h, if_false]
    rw [ceilDouble_exact _ _ (by omega) h53 hm (by omega)]
    refine ⟨ceilDiv_mul_ge _ _ hm, ?_, ?_, le_refl _⟩
    · unfold ceilDiv
      have h1 := Nat.div_mul_le_self (dim.delta + m - 1) m
      omega
    · unfold ceilDiv
      have h2 : (dim.delta + m - 1) / m ≤ dim.delta := by
        rw [show dim.delta + m - 1 = (dim.delta - 1) + m by omega, Nat.add_div_right _ (by omega)]
        have := Nat.div_le_self (dim.delta - 1) m
        omega
      exact le_trans h2 (Nat.le_max_left _ _)

/-- A 1-D unbatched launch over `[x.min, x.max)` whose grid stays within `unsigned int`
runs the core at exactly these indices, in increasing order. -/
theorem mapLaunch_eq_range (numThreads dims : Dimensions) (maxThreadsPerBlock : Nat)
    (limits : ThreadLimits) (hlt : dims.x.min < dims.x.max) (hy : dims.y.max = 0)
    (ht : 1 ≤ effectiveMax numThreads dims maxThreadsPerBlock limits 0)
    (hsmall : dims.x.max + effectiveMax numThreads dims maxThreadsPerBlock limits 0 ≤ UINT_MOD) :
    mapLaunch numThreads dims maxThreadsPerBlock limits
      = .ok ((List.range (dims.x.max - dims.x.min)).map (fun g => g + dims.x.min)) := by
  have hU : UINT_MOD = 4294967296 := by decide
  have hL : ULONG_MOD = 18446744073709551616 := by decide
  have hyb : dims.y.toBool = false := by simp [SingleDimension.toBool, hy]
  have hxb : dims.x.toBool = true := by simp [SingleDimension.toBool]; omega
  have hdelta : dims.x.delta = dims.x.max - dims.x.min := by
    unfold SingleDimension.delta
    have : dims.x.max + ULONG_MOD - dims.x.min = (dims.x.max - dims.x.min) + ULONG_MOD := by omega
    rw [this, Nat.add_mod_right, Nat.mod_eq_of_lt (by omega)]
  have hadj : adjustLimits2D dims maxThreadsPerBlock limits = limits := by
    simp [adjustLimits2D, hyb]
  have hbt : getNumBlocksAndThreads numThreads dims maxThreadsPerBlock limits
      = .ok ⟨axisBlocksAndThreads dims.x (numThreads.get 0) (limits.get 0),
             axisBlocksAndThreads (dims.get 1) (numThreads.get 1) (limits.get 1),
             axisBlocksAndThreads (dims.get 2) (numThreads.get 2) (limits.get 2)⟩ := by
    simp only [getNumBlocksAndThreads, hyb, Bool.false_and, hadj]
    rfl
  have hem : effectiveMax numThreads dims maxThreadsPerBlock limits 0
      = (if (numThreads.get 0).toBool && decide ((numThreads.get 0).max < limits.get 0)
          then (numThreads.get 0).max else limits.get 0) := by
    simp [effectiveMax, hadj]
  rw [hem] at ht hsmall
  obtain ⟨hcover, hspare, hblocks, hthreads⟩ :=
    axisBlocksAndThreads_cover dims.x (numThreads.get 0) (limits.get 0) hxb ht
      (by rw [hdelta]; have : (2 : Nat) ^ 53 = 9007199254740992 := by norm_num
          omega)
  generalize (if (numThreads.get 0).toBool && decide ((numThreads.get 0).max < limits.get 0)
      then (numThreads.get 0).max else limits.get 0) = m at ht hsmall hspare hthreads
  generalize axisBlocksAndThreads dims.x (numThreads.get 0) (limits.get 0) = btx
    at hbt hcover hspare hblocks hthreads
  have hmaxle : Nat.max dims.x.delta 1 ≤ dims.x.delta := by
    rw [hdelta]
    exact Nat.max_le.mpr ⟨le_refl _, by omega⟩
  have hgrid : launchGrid ⟨btx, axisBlocksAndThreads (dims.get 1) (numThreads.get 1) (limits.get 1),
      axisBlocksAndThreads (dims.get 2) (numThreads.get 2) (limits.get 2)⟩
        = (btx.min, btx.max) := by
    unfold launchGrid
    simp only
    rw [Nat.mod_eq_of_lt (by omega), Nat.mod_eq_of_lt (by omega)]
  have hexec : coreExecutions dims
      ⟨btx, axisBlocksAndThreads (dims.get 1) (numThreads.get 1) (limits.get 1),
       axisBlocksAndThreads (dims.get 2) (numThreads.get 2) (limits.get 2)⟩
      = (List.range (dims.x.max - dims.x.min)).map (fun g => g + dims.x.min) := by
    unfold coreExecutions
    rw [hgrid]
    simp only
    rw [globalIds_eq_range _ _ (by omega), ← filterMap_guard_range _ _ _ (hdelta ▸ hcover)]
    apply List.filterMap_congr
    intro g hg
    have hg1 := List.mem_range.mp hg
    simp only [defaultControlIf, stdVariable_eq dims.x g (by omega), decide_eq_true_eq]
    by_cases hg : g < dims.x.max - dims.x.min
    · simp [hg, show g + dims.x.min < dims.x.max by omega]
    · simp [hg, show ¬ g + dims.x.min < dims.x.max by omega]
  have hcount : dims.getCount ≠ 0 := by
    simp only [Dimensions.getCount, hxb, Bool.toNat_true]
    omega
  simp only [mapLaunch, if_neg hcount, hxb, Bool.not_true, Bool.false_eq_true, if_false, hbt,
    hexec]

/-- The unbatched Map launch while the grid stays within `unsigned int`: for a 1-D
`Dimensions` with `x.min < x.max` (Y and Z unused) whose `x.max` plus the per-axis
thread limit in force does not exceed `2 ^ 32`, the launch runs the user core exactly
once at every index of `[x.min, x.max)` and at no other index; with the core
`result[x] = a[x] + b[x]` the buffer `result` holds `a[i] + b[i]` at those indices and
is untouched elsewhere. -/
theorem map_launch_exactly_once_small (numThreads dims : Dimensions) (maxThreadsPerBlock : Nat)
    (limits : ThreadLimits) (a b result : Nat → Nat)
    (hlt : dims.x.min < dims.x.max)
    (hy : dims.y.max = 0) (_hz : dims.z.max = 0)
    (ht : 1 ≤ effectiveMax numThreads dims maxThreadsPerBlock limits 0)
    (hsmall : dims.x.max + effectiveMax numThreads dims maxThreadsPerBlock limits 0 ≤ UINT_MOD) :
    (∃ xs, mapLaunch numThreads dims maxThreadsPerBlock limits = .ok xs ∧
      ∀ x, xs.count x = if dims.x.min ≤ x ∧ x < dims.x.max then 1 else 0) ∧
    (∃ out, vectorSumMap a b result numThreads dims maxThreadsPerBlock limits = .ok out ∧
      ∀ i, out i = if dims.x.min ≤ i ∧ i < dims.x.max then a i + b i else result i) := by
  have hml := mapLaunch_eq_range numThreads dims maxThreadsPerBlock limits hlt hy ht hsmall
  have hmem : ∀ x, x ∈ (List.range (dims.x.max - dims.x.min)).map (fun g => g + dims.x.min)
      ↔ dims.x.min ≤ x ∧ x < dims.x.max := by
    intro x
    simp only [List.mem_map, List.mem_range]
    constructor
    · rintro ⟨g, hg, rfl⟩
      omega
    · rintro ⟨h1, h2⟩
      exact ⟨x - dims.x.min, by omega, by omega⟩
  have hnodup : ((List.range (dims.x.max - dims.x.min)).map (fun g => g + dims.x.min)).Nodup :=
    (List.nodup_range _).map (fun p q h => by simpa using h)
  constructor
  · refine ⟨_, hml, fun x => ?_⟩
    simp only [List.count_eq_of_nodup hnodup, hmem]
  · refine ⟨_, by simp only [vectorSumMap, hml]; rfl, fun i => ?_⟩
    have := foldl_update_apply (fun x => a x + b x)
      ((List.range (dims.x.max - dims.x.min)).map (fun g => g + dims.x.min)) result i
    simp only [vectorSumCore]
    simp only [this, hmem]

theorem map_launch_exactly_once_small_witness :
    ∃ out, vectorSumMap (fun i => i) (fun i => i + 1) (fun _ => 0) (Dimensions.ofMax 0 0 0)
        (Dimensions.ofMax 20 0 0) 1024 ⟨1024, 1024, 64⟩ = .ok out ∧
      (List.range 20).map out
        = [1, 3, 5, 7, 9, 11, 13, 15, 17, 19, 21, 23, 25, 27, 29, 31, 33, 35, 37, 39] := by
  obtain ⟨out, hout, hval⟩ :=
    (map_launch_exactly_once_small (Dimensions.ofMax 0 0 0) (Dimensions.ofMax 20 0 0) 1024
      ⟨1024, 1024, 64⟩ (fun i => i) (fun i => i + 1) (fun _ => 0)
      (by decide) rfl rfl (by decide) (by decide)).2
  refine ⟨out, hout, ?_⟩
  have : out = fun i => if 0 ≤ i ∧ i < 20 then i + (i + 1) else 0 := funext hval
  subst this
  decide

/-- C1, evaluated at the failing input: the Map of `vector_sum_map.cpp` over
`Dimensions(2 ^ 32 + 1, 0, 0)` on a device with 1024 threads per block.  The mapping is
`2 ^ 22 + 1` blocks of 1024 threads.  In block `2 ^ 22` the product
`blockIdx.x * blockDim.x` is `2 ^ 32`, which is 0 in `unsigned int`, so thread 0 of that
block has the global id 0, as thread 0 of block 0 has: the core runs at least twice at
index 0 and never at index `2 ^ 32`, and `result[2 ^ 32]` keeps its previous content. -/
theorem map_launch_wraps_global_id :
    getNumBlocksAndThreads (Dimensions.ofMax 0 0 0) (Dimensions.ofMax (2 ^ 32 + 1) 0 0) 1024
      ⟨1024, 1024, 64⟩ = .ok ⟨⟨1024, 2 ^ 22 + 1⟩, ⟨1, 1⟩, ⟨1, 1⟩⟩ ∧
    gspar_get_global_id (2 ^ 22) 1024 0 = gspar_get_global_id 0 1024 0 ∧
    (∃ xs, mapLaunch (Dimensions.ofMax 0 0 0) (Dimensions.ofMax (2 ^ 32 + 1) 0 0) 1024
        ⟨1024, 1024, 64⟩ = .ok xs ∧ 2 ≤ xs.count 0 ∧ xs.count (2 ^ 32) = 0) ∧
    ∀ a b result : Nat → Nat,
      ∃ out, vectorSumMap a b result (Dimensions.ofMax 0 0 0) (Dimensions.ofMax (2 ^ 32 + 1) 0 0)
          1024 ⟨1024, 1024, 64⟩ = .ok out ∧ out (2 ^ 32) = result (2 ^ 32) := by
  have hbt : getNumBlocksAndThreads (Dimensions.ofMax 0 0 0) (Dimensions.ofMax (2 ^ 32 + 1) 0 0)
      1024 ⟨1024, 1024, 64⟩ = .ok ⟨⟨1024, 2 ^ 22 + 1⟩, ⟨1, 1⟩, ⟨1, 1⟩⟩ := rfl
  have hgrid : launchGrid ⟨⟨1024, 2 ^ 22 + 1⟩, ⟨1, 1⟩, ⟨1, 1⟩⟩ = (2 ^ 22 + 1, 1024) := by decide
  have hml : mapLaunch (Dimensions.ofMax 0 0 0) (Dimensions.ofMax (2 ^ 32 + 1) 0 0) 1024
      ⟨1024, 1024, 64⟩
      = .ok ((globalIds (2 ^ 22 + 1) 1024).filterMap fun gid =>
          if gid < 2 ^ 32 + 1 then some gid else none) := by
    have hc : (Dimensions.ofMax (2 ^ 32 + 1) 0 0).getCount ≠ 0 := by decide
    have hx : (Dimensions.ofMax (2 ^ 32 + 1) 0 0).x.toBool = true := by decide
    have hf : (fun gid =>
        if defaultControlIf (Dimensions.ofMax (2 ^ 32 + 1) 0 0).x
            (stdVariable (Dimensions.ofMax (2 ^ 32 + 1) 0 0).x gid) = true
        then some (stdVariable (Dimensions.ofMax (2 ^ 32 + 1) 0 0).x gid) else none)
        = fun gid => if gid < 2 ^ 32 + 1 then some gid else none := by
      funext g
      have hmin : (Dimensions.ofMax (2 ^ 32 + 1) 0 0).x.min = 0 := rfl
      have hmax : (Dimensions.ofMax (2 ^ 32 + 1) 0 0).x.max = 2 ^ 32 + 1 := rfl
      simp only [defaultControlIf, stdVariable, hmin, hmax, ne_eq, not_true_eq_false, if_false,
        decide_eq_true_eq]
    unfold mapLaunch
    rw [if_neg hc, hx, hbt]
    simp only [Bool.not_true, Bool.false_eq_true, if_false, coreExecutions, hgrid, hf]
  have hmem : ∀ x, x ∈ (globalIds (2 ^ 22 + 1) 1024).filterMap
      (fun gid => if gid < 2 ^ 32 + 1 then some gid else none) → x < UINT_MOD := by
    intro x hx
    obtain ⟨g, hg, hgx⟩ := List.mem_filterMap.mp hx
    have := mem_globalIds_lt _ _ _ hg
    split at hgx
    · cases hgx
      exact this
    · cases hgx
  have hnot : (2 : Nat) ^ 32 ∉ (globalIds (2 ^ 22 + 1) 1024).filterMap
      (fun gid => if gid < 2 ^ 32 + 1 then some gid else none) := by
    intro h
    have := hmem _ h
    exact absurd this (by decide)
  refine ⟨hbt, by decide, ⟨_, hml, ?_, List.count_eq_zero.mpr hnot⟩, fun a b result => ?_⟩
  · rw [globalIds_succ, List.filterMap_append, List.count_append]
    have h1 : 0 ∈ (globalIds (2 ^ 22) 1024).filterMap
        (fun gid => if gid < 2 ^ 32 + 1 then some gid else none) := by
      refine List.mem_filterMap.mpr ⟨0, ?_, by decide⟩
      have := mem_globalIds (2 ^ 22) 1024 0 0 (by decide) (by decide)
      exact this
    have h2 : 0 ∈ ((List.range 1024).map fun t => gspar_get_global_id (2 ^ 22) 1024 t).filterMap
        (fun gid => if gid < 2 ^ 32 + 1 then some gid else none) := by
      refine List.mem_filterMap.mpr ⟨0, ?_, by decide⟩
      exact List.mem_map.mpr ⟨0, List.mem_range.mpr (by decide), by decide⟩
    have c1 := List.count_pos_iff.mpr h1
    have c2 := List.count_pos_iff.mpr h2
    omega
  · refine ⟨_, by simp only [vectorSumMap, hml]; rfl, ?_⟩
    have := foldl_update_apply (fun x => a x + b x)
      ((globalIds (2 ^ 22 + 1) 1024).filterMap
        (fun gid => if gid < 2 ^ 32 + 1 then some gid else none)) result (2 ^ 32)
    simp only [vectorSumCore]
    rw [this, if_neg hnot]

/-! ### Compile cache -/

theorem SingleDimension_eq_iff (a b : SingleDimension) : a.eq b = true ↔ a = b := by
  cases a; cases b
  simp [SingleDimension.eq]

theorem Dimensions_eq_self (d : Dimensions) : d.eq d = true := by
  simp [Dimensions.eq, SingleDimension.eq]

theorem Dimensions_eq_imp (a b : Dimensions) (h : a.eq b = true) : a = b := by
  cases a; cases b
  simp only [Dimensions.eq, Dimensions.get, Bool.and_eq_true, SingleDimension_eq_iff] at h
  simp_all

theorem compile_cases (p : BaseParallelPattern) (b : Backend) (dims : Dimensions)
    (p1 : BaseParallelPattern) (b1 : Backend)
    (h : p.compile b dims = .ok (p1, b1)) :
    (p.isKernelCompiledFor dims = true ∧ p1 = p ∧ b1 = b) ∨
    (∃ (p4 : BaseParallelPattern) (k : KernelHandle),
      p1 = { p4 with compiledKernel := some k, compiledKernelDimension := dims,
                     _isKernelCompiled := true, isKernelStale := false }) := by
  unfold BaseParallelPattern.compile at h
  split at h
  · left
    rename_i hc
    simp only [Except.ok.injEq, Prod.mk.injEq] at h
    exact ⟨hc, h.1.symm, h.2.symm⟩
  · right
    split at h
    · exact absurd h (by simp)
    · simp only at h
      split at h
      · exact absurd h (by simp)
      · split at h
        · exact absurd h (by simp)
        · split at h
          · simp only [Except.ok.injEq, Prod.mk.injEq] at h
            exact ⟨_, _, h.1.symm⟩
          · exact absurd h (by simp)

theorem isKernelCompiledFor_of_stale (p : BaseParallelPattern) (d : Dimensions)
    (h : p.isKernelStale = true) : p.isKernelCompiledFor d = false := by
  unfold BaseParallelPattern.isKernelCompiledFor
  cases p.kind <;> simp [h]

theorem isKernelCompiledFor_fresh (p4 : BaseParallelPattern) (k : KernelHandle)
    (dims : Dimensions) :
    ({ p4 with compiledKernel := some k, compiledKernelDimension := dims,
               _isKernelCompiled := true, isKernelStale := false } :
      BaseParallelPattern).isKernelCompiledFor dims = true := by
  unfold BaseParallelPattern.isKernelCompiledFor
  cases p4.kind <;> simp [Dimensions_eq_self]

theorem compile_isKernelCompiledFor (p : BaseParallelPattern) (b : Backend) (dims : Dimensions)
    (p1 : BaseParallelPattern) (b1 : Backend)
    (h : p.compile b dims = .ok (p1, b1)) : p1.isKernelCompiledFor dims = true := by
  rcases compile_cases p b dims p1 b1 h with ⟨h1, h2, -⟩ | ⟨p4, k, h2⟩
  · rw [h2]; exact h1
  · rw [h2]; exact isKernelCompiledFor_fresh p4 k dims

/-- C8: after a successful `compile(dims)` the pattern satisfies
`isKernelCompiledFor(dims)`, and a second `compile(dims)` returns the same
pattern and the same backend state: no kernel source is generated and no device
call is made (the event log is unchanged), and the compiled kernel, the compiled
`Dimensions` and both flags keep their values. -/
theorem compile_idempotent (p : BaseParallelPattern) (b : Backend) (dims : Dimensions)
    (p1 : BaseParallelPattern) (b1 : Backend)
    (h : p.compile b dims = .ok (p1, b1)) :
    p1.isKernelCompiledFor dims = true ∧
    ∃ p2 b2, p1.compile b1 dims = .ok (p2, b2) ∧
      b2.events = b1.events ∧ b2.randomDraws = b1.randomDraws ∧
      p2.compiledKernel = p1.compiledKernel ∧
      p2.compiledKernelDimension = p1.compiledKernelDimension ∧
      p2._isKernelCompiled = p1._isKernelCompiled ∧
      p2.isKernelStale = p1.isKernelStale ∧ p2 = p1 := by
  have hc : p1.isKernelCompiledFor dims = true := compile_isKernelCompiledFor p b dims p1 b1 h
  refine ⟨hc, p1, b1, ?_, rfl, rfl, rfl, rfl, rfl, rfl, rfl⟩
  unfold BaseParallelPattern.compile
  simp [hc]

theorem mutation_keeps_stale (p : BaseParallelPattern) (m : Mutation)
    (h : p.isKernelStale = true) : (Mutation.apply p m).isKernelStale = true := by
  cases m <;>
    simp only [Mutation.apply, BaseParallelPattern.setParameter, BaseParallelPattern.setBatchSize,
      BaseParallelPattern.setGpuIndex, BaseParallelPattern.addExtraKernelCode,
      BaseParallelPattern.setStdVarNames, BaseParallelPattern.setKernelName,
      BaseParallelPattern.setNumThreadsPerBlock, BaseParallelPattern.markBatched] <;>
    (repeat' split) <;> simp_all

theorem mutations_keep_stale (ms : List Mutation) (p : BaseParallelPattern)
    (h : p.isKernelStale = true) : (Mutation.applyAll p ms).isKernelStale = true := by
  induction ms generalizing p with
  | nil => exact h
  | cons m ms ih =>
    unfold Mutation.applyAll
    rw [List.foldl_cons]
    exact ih _ (mutation_keeps_stale p m h)

theorem compile_idempotent_witness :
    ∃ p1 b1, sampleMap.compile sampleBackend (Dimensions.ofMax 20 0 0) = .ok (p1, b1) ∧
      p1.isKernelCompiledFor (Dimensions.ofMax 20 0 0) = true ∧
      ∃ p2 b2, p1.compile b1 (Dimensions.ofMax 20 0 0) = .ok (p2, b2) ∧
        b2.events = b1.events ∧ p2.compiledKernel = p1.compiledKernel ∧ p2 = p1 := by
  refine ⟨_, _, rfl, ?_⟩
  obtain ⟨h1, p2, b2, h2, h3, -, h4, -, -, -, h5⟩ :=
    compile_idempotent sampleMap sampleBackend (Dimensions.ofMax 20 0 0) _ _ rfl
  exact ⟨h1, p2, b2, h2, h3, h4, h5⟩

/-- C9: on a pattern just compiled for `dims` (so that `isKernelCompiledFor(dims)`
holds), registering a parameter under a new name, `addExtraKernelCode`,
`setStdVarNames`, a `setBatchSize` that switches between batched and unbatched,
and `setGpuIndex` with another index each make `isKernelCompiledFor` false, and
it stays false under every further sequence `ms` of non-compiling operations. -/
theorem mutation_invalidates_compiled_kernel (p0 : BaseParallelPattern) (b : Backend)
    (dims : Dimensions) (p : BaseParallelPattern) (b1 : Backend)
    (hc : p0.compile b dims = .ok (p, b1)) (ms : List Mutation) :
    p.isKernelCompiledFor dims = true ∧
    (∀ parameter : BaseParameter, parameter.name ∉ p.paramsOrder →
      (Mutation.applyAll (p.setParameter parameter) ms).isKernelCompiledFor dims = false) ∧
    (∀ code : String,
      (Mutation.applyAll (p.addExtraKernelCode code) ms).isKernelCompiledFor dims = false) ∧
    (∀ names : String × String × String,
      (Mutation.applyAll (p.setStdVarNames names) ms).isKernelCompiledFor dims = false) ∧
    (∀ batchSize : Nat, (decide (batchSize ≠ 0)) ≠ p.isBatched →
      (Mutation.applyAll (p.setBatchSize batchSize) ms).isKernelCompiledFor dims = false) ∧
    (∀ index : Nat, index ≠ p.gpuIndex →
      (Mutation.applyAll (p.setGpuIndex index) ms).isKernelCompiledFor dims = false) := by
  refine ⟨compile_isKernelCompiledFor p0 b dims p b1 hc, ?_, ?_, ?_, ?_, ?_⟩
  · intro parameter hnew
    apply isKernelCompiledFor_of_stale
    apply mutations_keep_stale
    simp [BaseParallelPattern.setParameter, hnew]
  · intro code
    apply isKernelCompiledFor_of_stale
    apply mutations_keep_stale
    rfl
  · intro names
    apply isKernelCompiledFor_of_stale
    apply mutations_keep_stale
    rfl
  · intro batchSize hsw
    apply isKernelCompiledFor_of_stale
    apply mutations_keep_stale
    unfold BaseParallelPattern.setBatchSize
    by_cases h0 : batchSize = 0
    · cases hb : p.isBatched <;> simp_all
    · cases hb : p.isBatched <;> simp_all
  · intro index hne
    apply isKernelCompiledFor_of_stale
    apply mutations_keep_stale
    simp [BaseParallelPattern.setGpuIndex, Ne.symm hne]

theorem mutation_invalidates_compiled_kernel_witness :
    ∃ p b1, sampleMap.compile sampleBackend (Dimensions.ofMax 20 0 0) = .ok (p, b1) ∧
      p.isKernelCompiledFor (Dimensions.ofMax 20 0 0) = true ∧
      ((p.setBatchSize 4).setKernelName "k").isKernelCompiledFor (Dimensions.ofMax 20 0 0)
        = false ∧
      ((p.setGpuIndex 1).setNumThreadsPerBlock 5 0 0).isKernelCompiledFor (Dimensions.ofMax 20 0 0)
        = false := by
  refine ⟨_, _, rfl, ?_⟩
  have h1 := mutation_invalidates_compiled_kernel sampleMap sampleBackend (Dimensions.ofMax 20 0 0)
    _ _ rfl [Mutation.setKernelName "k"]
  have h2 := mutation_invalidates_compiled_kernel sampleMap sampleBackend (Dimensions.ofMax 20 0 0)
    _ _ rfl [Mutation.setNumThreadsPerBlock 5 0 0]
  exact ⟨h1.1, h1.2.2.2.2.1 4 (by decide), h2.2.2.2.2.2 1 (by decide)⟩

theorem getGpu_kind (p : BaseParallelPattern) (b : Backend) : (p.getGpu b).2.kind = p.kind := by
  unfold BaseParallelPattern.getGpu
  repeat' split
  all_goals rfl

theorem getKernelName_kind (p : BaseParallelPattern) (b : Backend) :
    (p.getKernelName b).2.1.kind = p.kind := by
  unfold BaseParallelPattern.getKernelName
  split <;> rfl

theorem setParameter_kind (p : BaseParallelPattern) (q : BaseParameter) :
    (p.setParameter q).kind = p.kind := by
  unfold BaseParallelPattern.setParameter
  split <;> rfl

theorem callback_kind (p p1 : BaseParallelPattern)
    (h : p.callbackBeforeGeneratingKernelSource = .ok p1) : p1.kind = p.kind := by
  unfold BaseParallelPattern.callbackBeforeGeneratingKernelSource at h
  split at h
  · cases h; rfl
  · split at h
    · cases h; rfl
    · split at h
      · cases h
      · unfold BaseParallelPattern.setPointerParameter at h
        simp only [reduceCtorEq, if_false, Except.ok.injEq] at h
        rw [← h, setParameter_kind]

theorem getSharedMemoryParameter_kind (p : BaseParallelPattern) (b : Backend)
    (r : Option BaseParameter × BaseParallelPattern × Backend)
    (h : p.getSharedMemoryParameter b = .ok r) : r.2.1.kind = p.kind := by
  unfold BaseParallelPattern.getSharedMemoryParameter at h
  split at h
  · cases h; rfl
  · split at h
    · cases h; rfl
    · split at h
      · cases h
      · cases h; rfl

theorem getKernelCore_kind (p : BaseParallelPattern) (b : Backend) (dims : Dimensions)
    (names : String × String × String) (r : String × BaseParallelPattern × Backend)
    (h : p.getKernelCore b dims names = .ok r) : r.2.1.kind = p.kind := by
  unfold BaseParallelPattern.getKernelCore at h
  split at h
  · cases h; rfl
  · split at h
    · cases h
    · split at h
      · cases h
      · split at h
        · cases h
        · rename_i hs
          have hr := Except.ok.inj h
          rw [← hr]
          exact getSharedMemoryParameter_kind _ _ _ hs

theorem generateKernelSource_kind (p : BaseParallelPattern) (b : Backend) (dims : Dimensions)
    (r : String × BaseParallelPattern × Backend)
    (h : p.generateKernelSource b dims = .ok r) : r.2.1.kind = p.kind := by
  unfold BaseParallelPattern.generateKernelSource at h
  simp only at h
  split at h
  · cases h
  · rename_i hk
    have hr := Except.ok.inj h
    rw [← hr]
    show _ = p.kind
    rw [getKernelCore_kind _ _ _ _ _ hk, getKernelName_kind]

theorem compile_kind (p : BaseParallelPattern) (b : Backend) (dims : Dimensions)
    (p1 : BaseParallelPattern) (b1 : Backend)
    (h : p.compile b dims = .ok (p1, b1)) : p1.kind = p.kind := by
  unfold BaseParallelPattern.compile at h
  split at h
  · cases h; rfl
  · split at h
    · cases h
    · rename_i gpu pg hg
      simp only at h
      split at h
      · cases h
      · rename_i p3 hcb
        split at h
        · cases h
        · rename_i src p4 b4 hgen
          split at h
          · have hr := Except.ok.inj h
            rw [← (Prod.mk.inj hr).1]
            show p4.kind = p.kind
            have h1 := generateKernelSource_kind _ _ _ _ hgen
            have h2 := callback_kind _ _ hcb
            have h3 := getKernelName_kind pg b
            have h4 := getGpu_kind p b
            rw [hg] at h4
            simp only at h1 h4
            rw [h1, h2, h3, h4]
          · cases h

/-- C10 as stated fails for Reduce: the Reduce of `reduce_sample.cpp` compiled for
`Dimensions(100, 0, 0)` still reports `isKernelCompiledFor` for the different
`Dimensions(200, 0, 0)`. -/
theorem reduce_isKernelCompiledFor_other_dims :
    ¬ (∀ (p0 : BaseParallelPattern) (b : Backend) (d : Dimensions) (p : BaseParallelPattern)
        (b1 : Backend) (d1 : Dimensions),
        p0.compile b d = .ok (p, b1) → d1 ≠ d → p.isKernelCompiledFor d1 = false) := by
  intro h
  have := h sampleReduce sampleBackend (Dimensions.ofMax 100 0 0) _ _ (Dimensions.ofMax 200 0 0)
    rfl (by decide)
  exact absurd this (by decide)

/-- C10, amended: a Map compiled for `d` reports `isKernelCompiledFor(d1)` false for
every `d1` different from `d`; a Reduce compiled for `d` reports it true exactly
for the `d1` with as many active axes as `d`. -/
theorem isKernelCompiledFor_other_dims (p0 : BaseParallelPattern) (b : Backend)
    (d : Dimensions) (p : BaseParallelPattern) (b1 : Backend)
    (hc : p0.compile b d = .ok (p, b1)) (d1 : Dimensions) :
    (p0.kind = .map → d1 ≠ d → p.isKernelCompiledFor d1 = false) ∧
    (∀ v op out, p0.kind = .reduce v op out →
      p.isKernelCompiledFor d1 = decide (d1.getCount = d.getCount)) := by
  have hk := compile_kind p0 b d p b1 hc
  rcases compile_cases p0 b d p b1 hc with ⟨h1, h2, -⟩ | ⟨p4, k, h2⟩
  · subst h2
    constructor
    · intro hmap hne
      unfold BaseParallelPattern.isKernelCompiledFor at h1 ⊢
      rw [hmap] at h1 ⊢
      simp only [Bool.and_eq_true] at h1
      have hd := Dimensions_eq_imp _ _ h1.2
      rw [hd]
      cases hq : d.eq d1
      · simp
      · exact absurd (Dimensions_eq_imp _ _ hq).symm hne
    · intro v op out hred
      unfold BaseParallelPattern.isKernelCompiledFor at h1 ⊢
      rw [hred] at h1 ⊢
      simp only [Bool.and_eq_true, beq_iff_eq] at h1
      rw [h1.1.1, h1.1.2, h1.2]
      by_cases hcount : d1.getCount = d.getCount
      · simp [hcount]
      · simp [hcount, Ne.symm hcount]
  · have hk4 : p4.kind = p0.kind := by rw [← hk, h2]
    subst h2
    constructor
    · intro hmap hne
      unfold BaseParallelPattern.isKernelCompiledFor
      simp only [hk4, hmap]
      cases hq : d.eq d1
      · simp
      · exact absurd (Dimensions_eq_imp _ _ hq).symm hne
    · intro v op out hred
      unfold BaseParallelPattern.isKernelCompiledFor
      simp only [hk4, hred]
      by_cases hcount : d1.getCount = d.getCount
      · simp [hcount]
      · simp [hcount, Ne.symm hcount]

theorem isKernelCompiledFor_other_dims_witness :
    ∃ p b1, sampleReduce.compile sampleBackend (Dimensions.ofMax 100 0 0) = .ok (p, b1) ∧
      p.isKernelCompiledFor (Dimensions.ofMax 200 0 0) = true ∧
      p.isKernelCompiledFor ⟨⟨100, 0⟩, ⟨2, 0⟩, ⟨0, 0⟩⟩ = false := by
  refine ⟨_, _, rfl, ?_⟩
  have h1 := (isKernelCompiledFor_other_dims sampleReduce sampleBackend (Dimensions.ofMax 100 0 0)
    _ _ rfl (Dimensions.ofMax 200 0 0)).2 _ _ _ rfl
  have h2 := (isKernelCompiledFor_other_dims sampleReduce sampleBackend (Dimensions.ofMax 100 0 0)
    _ _ rfl ⟨⟨100, 0⟩, ⟨2, 0⟩, ⟨0, 0⟩⟩).2 _ _ _ rfl
  exact ⟨h1, h2⟩


/-! ### The Reduce kernel -/

open Reduce

theorem coe_seqFold {α : Type} [CommSemigroup α] (v : Nat → α) (lo n : Nat) :
    ((seqFold (fun a b => a * b) v lo n : α) : WithOne α)
      = ∏ i ∈ Finset.range (n + 1), (v (lo + i) : WithOne α) := by
  induction n with
  | zero => simp [seqFold]
  | succ n ih =>
    rw [Finset.prod_range_succ, ← ih]
    simp only [seqFold, WithOne.coe_mul]
    rfl

theorem seqFold_congr {α : Type} (op : α → α → α) (v w : Nat → α) (lo n : Nat)
    (h : ∀ i, i ≤ n → v (lo + i) = w (lo + i)) : seqFold op v lo n = seqFold op w lo n := by
  induction n with
  | zero => simpa [seqFold] using h 0 (Nat.le_refl 0)
  | succ n ih =>
    simp only [seqFold]
    rw [ih (fun i hi => h i (Nat.le_succ_of_le hi))]
    have := h (n + 1) (Nat.le_refl _)
    rw [show lo + n + 1 = lo + (n + 1) by omega, this]

/-- A block without wrap-around inside it: its threads have the consecutive global ids
`g0, g0 + 1, ...`.  Without wrap-around at all `g0` is `bid * bsize`. -/
theorem global_id_of_block (gridSize bsize bid : Nat) (hw : gridSize * bsize ≤ UINT_MOD)
    (hb : bid < gridSize) :
    ∀ t, t < bsize → gspar_get_global_id bid bsize t = bid * bsize + t := by
  intro t ht
  apply gspar_get_global_id_eq
  have h1 : (bid + 1) * bsize ≤ gridSize * bsize := Nat.mul_le_mul_right bsize hb
  have h2 : (bid + 1) * bsize = bid * bsize + bsize := Nat.succ_mul bid bsize
  omega

theorem inRange_iff (max bid bsize g0 tid : Nat) (hg : ∀ t, t < bsize → gspar_get_global_id bid bsize t = g0 + t) :
    inRange max bid bsize tid = true ↔ tid < bsize ∧ g0 + tid < max := by
  unfold inRange defaultControlIf
  by_cases ht : tid < bsize
  · simp [ht, hg tid ht]
  · simp [ht]

theorem combineStep_apply {α : Type} (op : α → α → α) (max bid bsize g0 s : Nat)
    (hg : ∀ t, t < bsize → gspar_get_global_id bid bsize t = g0 + t)
    (hs : 2 * s ≤ bsize) (sh : Nat → α) (i : Nat) :
    combineStep op max bid bsize s sh i
      = if i < s ∧ i + s < max - g0 then op (sh i) (sh (i + s)) else sh i := by
  unfold combineStep
  by_cases h : i < s ∧ i + s < max - g0
  · have h1 : inRange max bid bsize i = true :=
      (inRange_iff _ _ _ g0 _ hg).2 ⟨by omega, by omega⟩
    have h2 : gspar_get_global_id bid bsize i + s < max := by
      rw [hg i (by omega)]
      omega
    simp [h, h1, h.1, h2]
  · rw [if_neg h]
    have : ¬ ((inRange max bid bsize i && decide (i < s) &&
        decide (gspar_get_global_id bid bsize i + s < max)) = true) := by
      simp only [Bool.and_eq_true, decide_eq_true_eq, not_and]
      intro hh h3
      have hi := ((inRange_iff _ _ _ g0 _ hg).1 hh.1).1
      rw [hg i hi] at h3
      exact h ⟨hh.2, by omega⟩
    rw [if_neg this]

theorem prod_combineStep {α : Type} [CommSemigroup α] (s R : Nat) (sh sh1 : Nat → α)
    (h1 : ∀ i, sh1 i = if i < s ∧ i + s < R then sh i * sh (i + s) else sh i) :
    ∏ i ∈ Finset.range (min s R), (sh1 i : WithOne α)
      = ∏ i ∈ Finset.range (min (2 * s) R), (sh i : WithOne α) := by
  rcases Nat.le_total R s with hRs | hsR
  · have e1 : min s R = R := by omega
    have e2 : min (2 * s) R = R := by omega
    rw [e1, e2]
    apply Finset.prod_congr rfl
    intro i hi
    have hi1 := Finset.mem_range.mp hi
    rw [h1 i, if_neg (by omega)]
  · have e1 : min s R = s := by omega
    rw [e1]
    have hlift : ∀ i ∈ Finset.range s, (sh1 i : WithOne α)
        = (sh i : WithOne α) * (if i + s < R then (sh (i + s) : WithOne α) else 1) := by
      intro i hi
      have hi1 := Finset.mem_range.mp hi
      rw [h1 i]
      by_cases hi2 : i + s < R
      · rw [if_pos ⟨hi1, hi2⟩, if_pos hi2, WithOne.coe_mul]
      · rw [if_neg (fun hh => hi2 hh.2), if_neg hi2, mul_one]
    rw [Finset.prod_congr rfl hlift, Finset.prod_mul_distrib]
    obtain ⟨t, ht⟩ : ∃ t, t = min s (R - s) := ⟨_, rfl⟩
    have e2 : min (2 * s) R = s + t := by omega
    have key := Finset.prod_range_add
      (fun x => if x + s < R then (sh (x + s) : WithOne α) else 1) t (s - t)
    rw [show t + (s - t) = s by omega] at key
    rw [e2, Finset.prod_range_add, key]
    congr 1
    have hA : ∏ x ∈ Finset.range t, (if x + s < R then (sh (x + s) : WithOne α) else 1)
        = ∏ x ∈ Finset.range t, (sh (s + x) : WithOne α) := by
      apply Finset.prod_congr rfl
      intro i hi
      have hi1 := Finset.mem_range.mp hi
      rw [if_pos (by omega), Nat.add_comm]
    have hB : ∏ x ∈ Finset.range (s - t),
        (if t + x + s < R then (sh (t + x + s) : WithOne α) else 1) = 1 := by
      apply Finset.prod_eq_one
      intro i hi
      have hi1 := Finset.mem_range.mp hi
      rw [if_neg (by omega)]
    rw [hA, hB, mul_one]

theorem oddLeftoverStep_eq {α : Type} (op : α → α → α) (max bid bsize g0 s : Nat)
    (hg : ∀ t, t < bsize → gspar_get_global_id bid bsize t = g0 + t)
    (hb : g0 < max) (hbs : 0 < bsize) (sh : Nat → α) :
    oddLeftoverStep op max bid bsize s sh
      = if 1 < s ∧ s % 2 ≠ 0 then Function.update sh 0 (op (sh 0) (sh (s - 1))) else sh := by
  have h0 : inRange max bid bsize 0 = true := (inRange_iff _ _ _ g0 _ hg).2 ⟨hbs, by omega⟩
  unfold oddLeftoverStep
  by_cases h : 1 < s ∧ s % 2 ≠ 0
  · simp [h0, h.1, h.2]
  · rw [if_neg h, if_neg]
    simp only [h0, Bool.true_and, Bool.and_eq_true, decide_eq_true_eq]
    exact h

theorem pow_two_odd (k : Nat) (h : 2 ^ k % 2 ≠ 0) : 2 ^ k = 1 := by
  cases k with
  | zero => rfl
  | succ k =>
    rw [Nat.pow_succ] at h
    omega

theorem reduceLoop_spec {α : Type} [CommSemigroup α] (max bid bsize g0 : Nat)
    (hg : ∀ t, t < bsize → gspar_get_global_id bid bsize t = g0 + t)
    (hb : g0 < max) (hbs : 0 < bsize) :
    ∀ (s : Nat) (sh : Nat → α), 1 ≤ s → 2 * s ≤ bsize →
      (2 * s ≤ max - g0 ∨ ∃ k, s = 2 ^ k) →
      ((reduceLoop (fun a b => a * b) max bid bsize s sh 0 : α) : WithOne α)
          = ∏ i ∈ Finset.range (min (2 * s) (max - g0)), (sh i : WithOne α) ∧
      ∀ j, s ≤ j → reduceLoop (fun a b => a * b) max bid bsize s sh j = sh j := by
  intro s
  induction s using Nat.strong_induction_on with
  | _ s ih =>
    intro sh hs1 hs2 hC
    have hsh1 := combineStep_apply (fun a b : α => a * b) max bid bsize g0 s hg hs2 sh
    have hprod := prod_combineStep s (max - g0) sh
      (combineStep (fun a b => a * b) max bid bsize s sh) hsh1
    have hframe1 : ∀ j, s ≤ j → combineStep (fun a b => a * b) max bid bsize s sh j = sh j := by
      intro j hj
      rw [hsh1 j, if_neg (by omega)]
    rw [reduceLoop, dif_neg (by omega), oddLeftoverStep_eq _ _ _ _ g0 _ hg hb hbs]
    generalize combineStep (fun a b => a * b) max bid bsize s sh = sh1 at hsh1 hprod hframe1 ⊢
    rcases Nat.lt_or_ge 1 s with hgt | hle
    · by_cases hodd : s % 2 ≠ 0
      · -- odd s ≥ 3: the leftover element sh1[s - 1] is folded into sh1[0]
        have hR : 2 * s ≤ max - g0 := by
          rcases hC with h | ⟨k, hk⟩
          · exact h
          · rw [hk] at hodd
            have := pow_two_odd k hodd
            omega
        rw [if_pos ⟨hgt, hodd⟩]
        obtain ⟨ih1, ih2⟩ := ih (s / 2) (by omega)
          (Function.update sh1 0 (sh1 0 * sh1 (s - 1))) (by omega) (by omega) (Or.inl (by omega))
        constructor
        · rw [ih1, ← hprod]
          have e1 : min (2 * (s / 2)) (max - g0) = (s - 2) + 1 := by omega
          have e2 : min s (max - g0) = (s - 2) + 1 + 1 := by omega
          rw [e1, e2, Finset.prod_range_succ', Finset.prod_range_succ, Finset.prod_range_succ']
          have hs : s - 2 + 1 = s - 1 := by omega
          have hupd : ∀ i, Function.update sh1 0 (sh1 0 * sh1 (s - 1)) (i + 1) = sh1 (i + 1) := by
            intro i
            exact Function.update_noteq (by omega) _ _
          simp only [hupd, Function.update_same, WithOne.coe_mul, hs]
          rw [mul_assoc]
        · intro j hj
          rw [ih2 j (by omega), Function.update_noteq (by omega), hframe1 j hj]
      · -- even s ≥ 2
        rw [if_neg (fun h => hodd h.2)]
        have hev : 2 * (s / 2) = s := by omega
        have hC2 : 2 * (s / 2) ≤ max - g0 ∨ ∃ k, s / 2 = 2 ^ k := by
          rcases hC with h | ⟨k, hk⟩
          · exact Or.inl (by omega)
          · right
            cases k with
            | zero => simp at hk; omega
            | succ k =>
              refine ⟨k, ?_⟩
              rw [hk, Nat.pow_succ, Nat.mul_div_cancel _ (by decide)]
        obtain ⟨ih1, ih2⟩ := ih (s / 2) (by omega) sh1 (by omega) (by omega) hC2
        constructor
        · rw [ih1, hev, hprod]
        · intro j hj
          rw [ih2 j (by omega), hframe1 j hj]
    · -- s = 1: the loop ends after this iteration
      have hs : s = 1 := by omega
      subst hs
      rw [if_neg (by omega), reduceLoop, dif_pos (by decide)]
      constructor
      · rw [← hprod]
        have e1 : min 1 (max - g0) = 1 := by omega
        rw [e1, Finset.prod_range_one]
      · intro j hj
        exact hframe1 j hj

theorem loadShared_apply {α : Type} (vector : Nat → α) (max bid bsize g0 : Nat)
    (hg : ∀ t, t < bsize → gspar_get_global_id bid bsize t = g0 + t) (uninit : Nat → α)
    (i : Nat) (hi : i < min bsize (max - g0)) :
    loadShared vector max bid bsize uninit i = vector (g0 + i) := by
  unfold loadShared
  rw [if_pos ((inRange_iff _ _ _ g0 _ hg).2 ⟨by omega, by omega⟩), hg i (by omega)]

/-- Value that thread 0 of a block stores: the sequential fold of the elements at the
global ids of the block's threads. -/
theorem blockValue_spec {α : Type} [CommSemigroup α] (vector : Nat → α) (max bid bsize g0 : Nat)
    (hg : ∀ t, t < bsize → gspar_get_global_id bid bsize t = g0 + t)
    (uninit : Nat → α) (h2 : 2 ≤ bsize) (hb : g0 < max)
    (hodd : bsize % 2 ≠ 0 → g0 = 0 ∧ max = bsize)
    (hC : 2 * (bsize / 2) ≤ max - g0 ∨ ∃ k, bsize / 2 = 2 ^ k) :
    (if bsize % 2 ≠ 0 then
        Function.update
          (reduceLoop (fun a b => a * b) max bid bsize (bsize / 2)
            (loadShared vector max bid bsize uninit)) 0
          (reduceLoop (fun a b => a * b) max bid bsize (bsize / 2)
              (loadShared vector max bid bsize uninit) 0 *
            reduceLoop (fun a b => a * b) max bid bsize (bsize / 2)
              (loadShared vector max bid bsize uninit) (max - 1))
      else
        reduceLoop (fun a b => a * b) max bid bsize (bsize / 2)
          (loadShared vector max bid bsize uninit)) 0
      = seqFold (fun a b => a * b) vector g0 (min bsize (max - g0) - 1) := by
  obtain ⟨hL, hF⟩ := reduceLoop_spec max bid bsize g0 hg hb (by omega) (bsize / 2)
    (loadShared vector max bid bsize uninit) (by omega) (by omega) hC
  apply WithOne.coe_inj.mp
  rw [coe_seqFold]
  have hcount : min bsize (max - g0) - 1 + 1 = min bsize (max - g0) := by omega
  rw [hcount]
  by_cases hpar : bsize % 2 ≠ 0
  · obtain ⟨hg0, hmax⟩ := hodd hpar
    subst hg0
    subst hmax
    rw [if_pos hpar, Function.update_same, WithOne.coe_mul, hL, hF (max - 1) (by omega),
      loadShared_apply _ _ _ _ 0 hg _ _ (by omega)]
    have e1 : min (2 * (max / 2)) (max - 0) = max - 1 := by omega
    have e2 : min max (max - 0) = (max - 1) + 1 := by omega
    rw [e1, e2, Finset.prod_range_succ]
    congr 1
    apply Finset.prod_congr rfl
    intro i hi
    have hi1 := Finset.mem_range.mp hi
    rw [loadShared_apply _ _ _ _ 0 hg _ _ (by omega)]
  · rw [if_neg hpar, hL]
    have e1 : min (2 * (bsize / 2)) (max - g0) = min bsize (max - g0) := by
      omega
    rw [e1]
    apply Finset.prod_congr rfl
    intro i hi
    have hi1 := Finset.mem_range.mp hi
    rw [loadShared_apply _ _ _ _ g0 hg _ _ hi1]

theorem runBlock_spec {α : Type} [CommSemigroup α] (outIsIn : Bool) (gridSize bsize max : Nat)
    (arg : VectorArg) (uninit : Nat → α) (bid g0 : Nat) (mem : DeviceMemory α)
    (hg : ∀ t, t < bsize → gspar_get_global_id bid bsize t = g0 + t)
    (h2 : 2 ≤ bsize) (hb : g0 < max)
    (hodd : bsize % 2 ≠ 0 → g0 = 0 ∧ max = bsize)
    (hC : 2 * (bsize / 2) ≤ max - g0 ∨ ∃ k, bsize / 2 = 2 ^ k) :
    (runBlock (fun a b => a * b) outIsIn gridSize bsize max arg uninit bid mem).partialTotals
      = Function.update mem.partialTotals bid
          (if outIsIn && decide (gridSize = 1) then
            seqFold (fun a b => a * b) (vectorOf arg mem) g0
              (min bsize (max - g0) - 1) * mem.output
          else
            seqFold (fun a b => a * b) (vectorOf arg mem) g0
              (min bsize (max - g0) - 1)) := by
  have h0 : inRange max bid bsize 0 = true :=
    (inRange_iff _ _ _ g0 _ hg).2 ⟨by omega, by omega⟩
  have hv := blockValue_spec (vectorOf arg mem) max bid bsize g0 hg uninit h2 hb hodd hC
  simp only [runBlock, writePartialTotal, h0, if_true]
  rw [hv]
  by_cases hseed : (outIsIn && decide (gridSize = 1)) = true
  · rw [if_pos hseed, if_pos hseed, Function.update_same, Function.update_idem]
  · rw [if_neg hseed, if_neg hseed]

/-- Value stored in slot `bid` by a launch whose vector argument holds `v`. -/
theorem launch_spec {α : Type} [CommSemigroup α] (outIsIn : Bool) (gridSize bsize max : Nat)
    (arg : VectorArg) (uninit : Nat → Nat → α) (mem : DeviceMemory α) (h2 : 2 ≤ bsize)
    (hw : gridSize * bsize ≤ UINT_MOD)
    (hb : ∀ b, b < gridSize → b * bsize < max)
    (hodd : bsize % 2 ≠ 0 → gridSize = 1 ∧ max = bsize)
    (hC : ∀ b, b < gridSize → 2 * (bsize / 2) ≤ max - b * bsize ∨ ∃ k, bsize / 2 = 2 ^ k) :
    (launch (fun a b => a * b) outIsIn gridSize bsize max arg uninit mem).partialTotals
      = (fun j => if j < gridSize then
          (if outIsIn && decide (gridSize = 1) then
            seqFold (fun a b => a * b) (vectorOf arg mem) (j * bsize)
              (min bsize (max - j * bsize) - 1) * mem.output
          else
            seqFold (fun a b => a * b) (vectorOf arg mem) (j * bsize)
              (min bsize (max - j * bsize) - 1))
        else mem.partialTotals j) ∧
    (launch (fun a b => a * b) outIsIn gridSize bsize max arg uninit mem).inputVector
      = mem.inputVector ∧
    (launch (fun a b => a * b) outIsIn gridSize bsize max arg uninit mem).output = mem.output := by
  unfold launch
  have key : ∀ n, n ≤ gridSize →
      ((List.range n).foldl
          (fun m bid => runBlock (fun a b => a * b) outIsIn gridSize bsize max arg (uninit bid) bid m)
          mem).partialTotals
        = (fun j => if j < n then
            (if outIsIn && decide (gridSize = 1) then
              seqFold (fun a b => a * b) (vectorOf arg mem) (j * bsize)
                (min bsize (max - j * bsize) - 1) * mem.output
            else
              seqFold (fun a b => a * b) (vectorOf arg mem) (j * bsize)
                (min bsize (max - j * bsize) - 1))
          else mem.partialTotals j) ∧
      ((List.range n).foldl
          (fun m bid => runBlock (fun a b => a * b) outIsIn gridSize bsize max arg (uninit bid) bid m)
          mem).inputVector = mem.inputVector ∧
      ((List.range n).foldl
          (fun m bid => runBlock (fun a b => a * b) outIsIn gridSize bsize max arg (uninit bid) bid m)
          mem).output = mem.output := by
    intro n
    induction n with
    | zero =>
      intro _
      simp
    | succ n ih =>
      intro hn
      obtain ⟨ihP, ihV, ihO⟩ := ih (by omega)
      rw [List.range_succ, List.foldl_append, List.foldl_cons, List.foldl_nil]
      generalize (List.range n).foldl
        (fun m bid => runBlock (fun a b => a * b) outIsIn gridSize bsize max arg (uninit bid) bid m)
        mem = memn at ihP ihV ihO
      refine ⟨?_, ihV, ihO⟩
      have hoddn : bsize % 2 ≠ 0 → n * bsize = 0 ∧ max = bsize := by
        intro h
        obtain ⟨hg, hm⟩ := hodd h
        have hn0 : n = 0 := by omega
        exact ⟨by rw [hn0, Nat.zero_mul], hm⟩
      rw [runBlock_spec outIsIn gridSize bsize max arg (uninit n) n (n * bsize) memn
        (global_id_of_block gridSize bsize n hw (by omega)) h2 (hb n (by omega)) hoddn
        (hC n (by omega))]
      have hvec : seqFold (fun a b => a * b) (vectorOf arg memn) (n * bsize)
            (min bsize (max - n * bsize) - 1)
          = seqFold (fun a b => a * b) (vectorOf arg mem) (n * bsize)
            (min bsize (max - n * bsize) - 1) := by
        apply seqFold_congr
        intro i _
        cases arg with
        | inputVector => simp only [vectorOf, ihV]
        | partialTotals =>
          simp only [vectorOf, ihP]
          have : n ≤ n * bsize := Nat.le_mul_of_pos_right n (by omega)
          rw [if_neg (by omega)]
      rw [hvec, ihO, ihP]
      funext j
      rw [Function.update_apply]
      by_cases hj : j = n
      · subst hj
        simp only [if_true, Nat.lt_succ_self]
      · have hiff : j < n + 1 ↔ j < n := by omega
        simp only [hj, if_false, hiff]
  exact key gridSize (Nat.le_refl _)

theorem lt_ceilDiv_mul (n m b : Nat) (hm : 1 ≤ m) (hb : b < ceilDiv n m) : b * m < n := by
  unfold ceilDiv at hb
  have h1 : b + 1 ≤ (n + m - 1) / m := hb
  rw [Nat.le_div_iff_mul_le (by omega)] at h1
  have : (b + 1) * m = b * m + m := by ring
  omega

/-- Folding the per-block folds of a vector gives the fold of the whole vector. -/
theorem prod_blocks {β : Type} [CommMonoid β] (f : Nat → β) (n m : Nat) (hm : 1 ≤ m) :
    ∏ b ∈ Finset.range (ceilDiv n m), ∏ i ∈ Finset.range (min m (n - b * m)), f (b * m + i)
      = ∏ i ∈ Finset.range n, f i := by
  have key : ∀ k, k ≤ ceilDiv n m →
      ∏ b ∈ Finset.range k, ∏ i ∈ Finset.range (min m (n - b * m)), f (b * m + i)
        = ∏ i ∈ Finset.range (min (k * m) n), f i := by
    intro k
    induction k with
    | zero => intro _; simp
    | succ k ih =>
      intro hk
      have hlt := lt_ceilDiv_mul n m k hm (by omega)
      rw [Finset.prod_range_succ, ih (by omega)]
      have e1 : min (k * m) n = k * m := by omega
      have e2 : min ((k + 1) * m) n = k * m + min m (n - k * m) := by
        have : (k + 1) * m = k * m + m := by ring
        omega
      rw [e1, e2, Finset.prod_range_add]
  rw [key _ (Nat.le_refl _)]
  have := ceilDiv_mul_ge n m hm
  rw [show min (ceilDiv n m * m) n = n by omega]

theorem effectiveMax_1d (numThreads dims dims1 : Dimensions) (maxThreadsPerBlock : Nat)
    (limits : ThreadLimits) (hy : dims.y.max = 0) (hy1 : dims1.y.max = 0) :
    effectiveMax numThreads dims maxThreadsPerBlock limits 0
      = effectiveMax numThreads dims1 maxThreadsPerBlock limits 0 := by
  simp [effectiveMax, adjustLimits2D, SingleDimension.toBool, hy, hy1]

/-- The mapping of a 1-D request `Dimensions(n, 0, 0)`. -/
theorem mapping_1d_double (numThreads dims : Dimensions) (maxThreadsPerBlock : Nat)
    (limits : ThreadLimits) (n : Nat) (hx : dims.x = ⟨n, 0⟩) (hy : dims.y.max = 0)
    (hn : 1 ≤ n) (hN : n < ULONG_MOD) :
    ∃ bt, getNumBlocksAndThreads numThreads dims maxThreadsPerBlock limits = .ok bt ∧
      bt.x = (if n ≤ effectiveMax numThreads dims maxThreadsPerBlock limits 0 then ⟨n, 1⟩
        else ⟨effectiveMax numThreads dims maxThreadsPerBlock limits 0,
              ceilDouble n (effectiveMax numThreads dims maxThreadsPerBlock limits 0)⟩) := by
  have hyb : dims.y.toBool = false := by simp [SingleDimension.toBool, hy]
  have hxb : (dims.get 0).toBool = true := by
    simp [Dimensions.get, SingleDimension.toBool, hx]; omega
  have hdelta : (dims.get 0).delta = n := by
    simp only [Dimensions.get, if_true, hx, SingleDimension.delta, Nat.sub_zero]
    rw [Nat.add_mod_right, Nat.mod_eq_of_lt hN]
  refine ⟨_, by simp only [getNumBlocksAndThreads, hyb, Bool.false_and]; rfl, ?_⟩
  simp only [axisBlocksAndThreads, hxb, if_true, hdelta, effectiveMax]

/-- The mapping of a 1-D request `Dimensions(n, 0, 0)` with `n < 2 ^ 53`, where the
number of blocks is the exact ceiling. -/
theorem mapping_1d (numThreads dims : Dimensions) (maxThreadsPerBlock : Nat)
    (limits : ThreadLimits) (n : Nat) (hx : dims.x = ⟨n, 0⟩) (hy : dims.y.max = 0)
    (hn : 1 ≤ n) (hN : n < 2 ^ 53) :
    ∃ bt, getNumBlocksAndThreads numThreads dims maxThreadsPerBlock limits = .ok bt ∧
      bt.x = (if n ≤ effectiveMax numThreads dims maxThreadsPerBlock limits 0 then ⟨n, 1⟩
        else ⟨effectiveMax numThreads dims maxThreadsPerBlock limits 0,
              ceilDiv n (effectiveMax numThreads dims maxThreadsPerBlock limits 0)⟩) := by
  obtain ⟨bt, hbt, hbtx⟩ := mapping_1d_double numThreads dims maxThreadsPerBlock limits n hx hy hn
    (lt_trans hN (by decide))
  refine ⟨bt, hbt, ?_⟩
  rw [hbtx]
  by_cases hle : n ≤ effectiveMax numThreads dims maxThreadsPerBlock limits 0
  · rw [if_pos hle, if_pos hle]
  · rw [if_neg hle, if_neg hle, ceilDouble_eq_ceilDiv n _ hN (by omega)]

theorem ceilDiv_mul_lt (n m : Nat) (hm : 1 ≤ m) : ceilDiv n m * m < n + m := by
  unfold ceilDiv
  have h1 := Nat.div_mul_le_self (n + m - 1) m
  omega

theorem ceilDiv_le_self (n m : Nat) (hn : 1 ≤ n) (hm : 1 ≤ m) : ceilDiv n m ≤ n := by
  unfold ceilDiv
  rw [show n + m - 1 = (n - 1) + m by omega, Nat.add_div_right _ (by omega)]
  have := Nat.div_le_self (n - 1) m
  omega

theorem launchGrid_eq (bt : Dimensions) (hb : bt.x.min < UINT_MOD) (ht : bt.x.max < UINT_MOD) :
    launchGrid bt = (bt.x.min, bt.x.max) := by
  unfold launchGrid
  rw [Nat.mod_eq_of_lt hb, Nat.mod_eq_of_lt ht]

theorem ceilDiv_lt_self (n m : Nat) (hm : 2 ≤ m) (hn : 2 ≤ n) : ceilDiv n m < n := by
  unfold ceilDiv
  rw [Nat.div_lt_iff_lt_mul (by omega)]
  have h1 : n * 2 ≤ n * m := Nat.mul_le_mul_left n hm
  have h2 : 2 * m ≤ n * m := Nat.mul_le_mul_right m hn
  omega

theorem two_le_ceilDiv (n m : Nat) (hm : 1 ≤ m) (hn : m < n) : 2 ≤ ceilDiv n m := by
  unfold ceilDiv
  rw [Nat.le_div_iff_mul_le (by omega)]
  omega

/-- The host loop of `Reduce::run` under a power-of-two thread limit `2 ^ k`
with `k ≥ 1`: from any extent `n ≥ 2` it ends with the fold of the first `n`
elements of the vector argument in slot 0, the seed being folded in when the
output parameter is an input. -/
theorem hostLoop_spec {α : Type} [CommSemigroup α] (outIsIn : Bool) (numThreads : Dimensions)
    (maxThreadsPerBlock : Nat) (limits : ThreadLimits) (uninit : Nat → Nat → Nat → α)
    (k : Nat) (hk : 1 ≤ k)
    (hm : effectiveMax numThreads (Dimensions.ofMax 0 0 0) maxThreadsPerBlock limits 0 = 2 ^ k) :
    ∀ (n fuel launches : Nat) (dims : Dimensions) (arg : VectorArg) (mem : DeviceMemory α),
      dims.x = ⟨n, 0⟩ → dims.y.max = 0 → 2 ≤ n → n + 2 ^ k ≤ UINT_MOD → n ≤ fuel →
      ∃ mem1 count,
        hostLoop (fun a b => a * b) outIsIn numThreads maxThreadsPerBlock limits uninit fuel
          launches dims arg mem = .ok (some (mem1, count)) ∧
        mem1.partialTotals 0
          = (if outIsIn then seqFold (fun a b => a * b) (vectorOf arg mem) 0 (n - 1) * mem.output
             else seqFold (fun a b => a * b) (vectorOf arg mem) 0 (n - 1)) := by
  have hpow : 2 ≤ 2 ^ k := by
    calc 2 = 2 ^ 1 := rfl
      _ ≤ 2 ^ k := Nat.pow_le_pow_right (by decide) hk
  have hU : UINT_MOD = 4294967296 := by decide
  have h53 : (2 : Nat) ^ 53 = 9007199254740992 := by norm_num
  intro n
  induction n using Nat.strong_induction_on with
  | _ n ih =>
    intro fuel launches dims arg mem hx hy hn hN hfuel
    obtain ⟨fuel, rfl⟩ : ∃ f, fuel = f + 1 := ⟨fuel - 1, by omega⟩
    obtain ⟨bt, hbt, hbtx⟩ := mapping_1d numThreads dims maxThreadsPerBlock limits n hx hy
      (by omega) (by omega)
    rw [effectiveMax_1d numThreads dims (Dimensions.ofMax 0 0 0) maxThreadsPerBlock limits hy rfl,
      hm] at hbtx
    have hmaxx : dims.x.max = n := by rw [hx]
    simp only [hostLoop, hbt, hmaxx]
    by_cases hle : n ≤ 2 ^ k
    · -- a single block of n threads: the loop exits after this launch
      rw [if_pos hle] at hbtx
      have hmin : bt.x.min = 1 := by rw [hbtx]
      have hthr : bt.x.max = n := by rw [hbtx]
      rw [launchGrid_eq bt (by omega) (by omega)]
      simp only
      rw [hmin, hthr, if_pos rfl]
      refine ⟨_, _, rfl, ?_⟩
      obtain ⟨hP, -, -⟩ := launch_spec outIsIn 1 n n arg (uninit launches) mem hn (by omega)
        (fun b hb => by have : b = 0 := by omega
                        subst this; omega)
        (fun _ => ⟨rfl, rfl⟩)
        (fun b hb => by have : b = 0 := by omega
                        subst this; left; omega)
      rw [hP]
      simp
    · -- ceilDiv n (2 ^ k) blocks of 2 ^ k threads, then the next pass on the partial totals
      rw [if_neg hle] at hbtx
      have hmin : bt.x.min = ceilDiv n (2 ^ k) := by rw [hbtx]
      have hthr : bt.x.max = 2 ^ k := by rw [hbtx]
      have hG2 := two_le_ceilDiv n (2 ^ k) (by omega) (by omega)
      have hGn := ceilDiv_lt_self n (2 ^ k) hpow hn
      have hGm := ceilDiv_mul_lt n (2 ^ k) (by omega)
      rw [launchGrid_eq bt (by omega) (by omega)]
      simp only
      rw [hmin, hthr, if_neg (by omega)]
      obtain ⟨hP, hV, hO⟩ := launch_spec outIsIn (ceilDiv n (2 ^ k)) (2 ^ k) n arg (uninit launches) mem hpow
        (by omega)
        (fun b hb => lt_ceilDiv_mul n (2 ^ k) b (by omega) hb)
        (fun h => by
          exfalso
          apply h
          obtain ⟨j, rfl⟩ : ∃ j, k = j + 1 := ⟨k - 1, by omega⟩
          rw [Nat.pow_succ]
          omega)
        (fun b _ => by
          right
          obtain ⟨j, rfl⟩ : ∃ j, k = j + 1 := ⟨k - 1, by omega⟩
          exact ⟨j, by rw [Nat.pow_succ, Nat.mul_div_cancel _ (by decide)]⟩)
      obtain ⟨mem1, count, hrun, hval⟩ := ih (ceilDiv n (2 ^ k)) hGn fuel (launches + 1)
        (Dimensions.ofMax (ceilDiv n (2 ^ k)) 0 0) .partialTotals
        (launch (fun a b => a * b) outIsIn (ceilDiv n (2 ^ k)) (2 ^ k) n arg (uninit launches) mem)
        rfl rfl hG2 (by omega) (by omega)
      refine ⟨mem1, count, hrun, ?_⟩
      rw [hval, hO]
      have hfold : seqFold (fun a b => a * b)
            (vectorOf VectorArg.partialTotals
              (launch (fun a b => a * b) outIsIn (ceilDiv n (2 ^ k)) (2 ^ k) n arg (uninit launches) mem))
            0 (ceilDiv n (2 ^ k) - 1)
          = seqFold (fun a b => a * b) (vectorOf arg mem) 0 (n - 1) := by
        apply WithOne.coe_inj.mp
        rw [coe_seqFold, coe_seqFold]
        have hvP : vectorOf VectorArg.partialTotals
            (launch (fun a b => a * b) outIsIn (ceilDiv n (2 ^ k)) (2 ^ k) n arg (uninit launches) mem)
            = _ := hP
        rw [hvP]
        simp only [Nat.zero_add]
        rw [show ceilDiv n (2 ^ k) - 1 + 1 = ceilDiv n (2 ^ k) by omega,
          show n - 1 + 1 = n by omega,
          ← prod_blocks (fun i => ((vectorOf arg mem i : α) : WithOne α)) n (2 ^ k) (by omega)]
        apply Finset.prod_congr rfl
        intro b hb
        have hb1 := Finset.mem_range.mp hb
        have hbn := lt_ceilDiv_mul n (2 ^ k) b (by omega) hb1
        have hseed : (outIsIn && decide (ceilDiv n (2 ^ k) = 1)) = false := by
          have : ¬ ceilDiv n (2 ^ k) = 1 := by omega
          simp [this]
        rw [if_pos hb1, hseed, if_neg (by simp), coe_seqFold,
          show min (2 ^ k) (n - b * 2 ^ k) - 1 + 1 = min (2 ^ k) (n - b * 2 ^ k) by omega]
      rw [hfold]

/-- Blocks and stored values of one pass over an extent `n ≥ 2` under the
power-of-two limit `2 ^ k`. -/
theorem pass_spec {α : Type} [CommSemigroup α] (outIsIn : Bool) (numThreads : Dimensions)
    (maxThreadsPerBlock : Nat) (limits : ThreadLimits) (uninit : Nat → Nat → α)
    (k : Nat) (hk : 1 ≤ k)
    (hm : effectiveMax numThreads (Dimensions.ofMax 0 0 0) maxThreadsPerBlock limits 0 = 2 ^ k)
    (n : Nat) (arg : VectorArg) (mem : DeviceMemory α) (hn : 2 ≤ n)
    (hN : n + 2 ^ k ≤ UINT_MOD) :
    ∃ bt, getNumBlocksAndThreads numThreads (Dimensions.ofMax n 0 0) maxThreadsPerBlock limits
        = .ok bt ∧
      bt.x = (if n ≤ 2 ^ k then ⟨n, 1⟩ else ⟨2 ^ k, ceilDiv n (2 ^ k)⟩) ∧
      launchGrid bt = (bt.x.min, bt.x.max) ∧
      ∀ b, b < bt.x.min →
        (launch (fun a b => a * b) outIsIn bt.x.min bt.x.max n arg uninit mem).partialTotals b
          = (if outIsIn && decide (bt.x.min = 1) then
              seqFold (fun a b => a * b) (vectorOf arg mem) (b * bt.x.max)
                (min n ((b + 1) * bt.x.max) - b * bt.x.max - 1) * mem.output
             else
              seqFold (fun a b => a * b) (vectorOf arg mem) (b * bt.x.max)
                (min n ((b + 1) * bt.x.max) - b * bt.x.max - 1)) := by
  have hpow : 2 ≤ 2 ^ k := by
    calc 2 = 2 ^ 1 := rfl
      _ ≤ 2 ^ k := Nat.pow_le_pow_right (by decide) hk
  have hU : UINT_MOD = 4294967296 := by decide
  have h53 : (2 : Nat) ^ 53 = 9007199254740992 := by norm_num
  obtain ⟨bt, hbt, hbtx⟩ := mapping_1d numThreads (Dimensions.ofMax n 0 0) maxThreadsPerBlock
    limits n rfl rfl (by omega) (by omega)
  rw [effectiveMax_1d numThreads (Dimensions.ofMax n 0 0) (Dimensions.ofMax 0 0 0)
    maxThreadsPerBlock limits rfl rfl, hm] at hbtx
  have hcount : ∀ b m : Nat, min n ((b + 1) * m) - b * m - 1 = min m (n - b * m) - 1 := by
    intro b m
    have : (b + 1) * m = b * m + m := by ring
    omega
  by_cases hle : n ≤ 2 ^ k
  · refine ⟨bt, hbt, hbtx, ?_, ?_⟩
    · rw [if_pos hle] at hbtx
      exact launchGrid_eq bt (by rw [hbtx]; simp only; omega) (by rw [hbtx]; simp only; omega)
    rw [if_pos hle] at hbtx
    have hmin : bt.x.min = 1 := by rw [hbtx]
    have hthr : bt.x.max = n := by rw [hbtx]
    rw [hmin, hthr]
    intro b hb
    obtain ⟨hP, -, -⟩ := launch_spec outIsIn 1 n n arg uninit mem hn (by omega)
      (fun b hb => by have : b = 0 := by omega
                      subst this; omega)
      (fun _ => ⟨rfl, rfl⟩)
      (fun b hb => by have : b = 0 := by omega
                      subst this; left; omega)
    rw [hP, hcount]
    simp only [hb, if_true]
  · have hGm := ceilDiv_mul_lt n (2 ^ k) (by omega)
    have hGn := ceilDiv_le_self n (2 ^ k) (by omega) (by omega)
    refine ⟨bt, hbt, hbtx, ?_, ?_⟩
    · rw [if_neg hle] at hbtx
      exact launchGrid_eq bt (by rw [hbtx]; simp only; omega) (by rw [hbtx]; simp only; omega)
    rw [if_neg hle] at hbtx
    have hmin : bt.x.min = ceilDiv n (2 ^ k) := by rw [hbtx]
    have hthr : bt.x.max = 2 ^ k := by rw [hbtx]
    rw [hmin, hthr]
    intro b hb
    obtain ⟨hP, -, -⟩ := launch_spec outIsIn (ceilDiv n (2 ^ k)) (2 ^ k) n arg uninit mem hpow
      (by omega)
      (fun b hb => lt_ceilDiv_mul n (2 ^ k) b (by omega) hb)
      (fun h => by
        exfalso
        apply h
        obtain ⟨j, rfl⟩ : ∃ j, k = j + 1 := ⟨k - 1, by omega⟩
        rw [Nat.pow_succ]
        omega)
      (fun b _ => by
        right
        obtain ⟨j, rfl⟩ : ∃ j, k = j + 1 := ⟨k - 1, by omega⟩
        exact ⟨j, by rw [Nat.pow_succ, Nat.mul_div_cancel _ (by decide)]⟩)
    rw [hP, hcount]
    simp only [hb, if_true]

/-- The host loop while every launch stays within `unsigned int` (`N + 2 ^ k ≤ 2 ^ 32`)
and for an associative, commutative operator: for a power-of-two per-block thread
limit `2 ^ k ≥ 2` and an extent
`N > 2 ^ k`, with the blocks of a launch run in block-index order: (1) the first
pass launches `ceil(N / 2 ^ k)` blocks of `2 ^ k` threads and block `b` stores the
fold of the input elements `[b * 2 ^ k, min(N, (b + 1) * 2 ^ k))` in slot `b`;
(2) a pass that does not end the loop is followed by a pass over the partial
totals whose extent is the block count just used, and in such a pass over an
extent `n ≥ 2` every block `b` stores the fold of the previous partial totals
`[b * t, min(n, (b + 1) * t))`, `t` being the threads per block (with the seed
folded in only by a single-block launch of a pattern whose output is an input);
(3) with enough fuel the loop ends and slot 0, the value copied to the caller's
output, is the fold of the whole input (followed by the seed when the output
parameter is an input). -/
theorem reduce_run_multi_pass_small {α : Type} (op : α → α → α)
    (hassoc : ∀ a b c, op (op a b) c = op a (op b c)) (hcomm : ∀ a b, op a b = op b a)
    (outIsIn : Bool) (numThreads : Dimensions) (maxThreadsPerBlock : Nat) (limits : ThreadLimits)
    (uninit : Nat → Nat → Nat → α) (k N : Nat) (hk : 1 ≤ k)
    (hm : effectiveMax numThreads (Dimensions.ofMax N 0 0) maxThreadsPerBlock limits 0 = 2 ^ k)
    (hN : 2 ^ k < N) (hN32 : N + 2 ^ k ≤ UINT_MOD) (mem : DeviceMemory α) :
    (∃ bt, getNumBlocksAndThreads numThreads (Dimensions.ofMax N 0 0) maxThreadsPerBlock limits
        = .ok bt ∧
      bt.x.min = ⌈(N : ℚ) / (2 ^ k : ℕ)⌉₊ ∧ bt.x.max = 2 ^ k ∧
      ∀ b, b < bt.x.min →
        (launch op outIsIn bt.x.min bt.x.max N .inputVector (uninit 0) mem).partialTotals b
          = seqFold op mem.inputVector (b * 2 ^ k) (min N ((b + 1) * 2 ^ k) - b * 2 ^ k - 1)) ∧
    (∀ (fuel launches : Nat) (dims : Dimensions) (arg : VectorArg) (mem1 : DeviceMemory α)
        (bt : Dimensions),
      getNumBlocksAndThreads numThreads dims maxThreadsPerBlock limits = .ok bt →
      bt.x.min ≠ 1 →
      hostLoop op outIsIn numThreads maxThreadsPerBlock limits uninit (fuel + 1) launches dims
          arg mem1
        = hostLoop op outIsIn numThreads maxThreadsPerBlock limits uninit fuel (launches + 1)
            (Dimensions.ofMax bt.x.min 0 0) .partialTotals
            (launch op outIsIn (launchGrid bt).1 (launchGrid bt).2 dims.x.max arg
              (uninit launches) mem1)) ∧
    (∀ (n : Nat) (mem1 : DeviceMemory α) (u : Nat → Nat → α), 2 ≤ n → n + 2 ^ k ≤ UINT_MOD →
      ∃ bt, getNumBlocksAndThreads numThreads (Dimensions.ofMax n 0 0) maxThreadsPerBlock limits
          = .ok bt ∧ launchGrid bt = (bt.x.min, bt.x.max) ∧
        ∀ b, b < bt.x.min →
          (launch op outIsIn bt.x.min bt.x.max n .partialTotals u mem1).partialTotals b
            = (if outIsIn && decide (bt.x.min = 1) then
                op (seqFold op mem1.partialTotals (b * bt.x.max)
                  (min n ((b + 1) * bt.x.max) - b * bt.x.max - 1)) mem1.output
               else
                seqFold op mem1.partialTotals (b * bt.x.max)
                  (min n ((b + 1) * bt.x.max) - b * bt.x.max - 1))) ∧
    (∀ fuel, N ≤ fuel →
      run op outIsIn numThreads maxThreadsPerBlock limits uninit fuel (Dimensions.ofMax N 0 0) mem
        = .ok (some (if outIsIn then op (seqFold op mem.inputVector 0 (N - 1)) mem.output
            else seqFold op mem.inputVector 0 (N - 1)))) := by
  letI inst : CommSemigroup α := { mul := op, mul_assoc := hassoc, mul_comm := hcomm }
  have hpow : 2 ≤ 2 ^ k := by
    calc 2 = 2 ^ 1 := rfl
      _ ≤ 2 ^ k := Nat.pow_le_pow_right (by decide) hk
  have hm0 : effectiveMax numThreads (Dimensions.ofMax 0 0 0) maxThreadsPerBlock limits 0 = 2 ^ k := by
    rw [← hm]
    exact effectiveMax_1d _ _ _ _ _ rfl rfl
  refine ⟨?_, ?_, ?_, ?_⟩
  · obtain ⟨bt, hbt, hbtx, -, hval⟩ := pass_spec outIsIn numThreads maxThreadsPerBlock limits
      (uninit 0) k hk hm0 N .inputVector mem (by omega) hN32
    rw [if_neg (by omega)] at hbtx
    have hmin : bt.x.min = ceilDiv N (2 ^ k) := by rw [hbtx]
    have hthr : bt.x.max = 2 ^ k := by rw [hbtx]
    have hG2 := two_le_ceilDiv N (2 ^ k) (by omega) hN
    refine ⟨bt, hbt, ?_, hthr, ?_⟩
    · rw [hmin]
      exact ceilDiv_eq_ceil _ _ (by omega)
    · intro b hb
      have h := hval b hb
      have hseed : (outIsIn && decide (bt.x.min = 1)) = false := by
        have : ¬ bt.x.min = 1 := by omega
        simp [this]
      rw [hseed, if_neg (by simp), hthr] at h
      rw [hthr]
      exact h
  · intro fuel launches dims arg mem1 bt hbt hne
    simp only [hostLoop, hbt, if_neg hne]
  · intro n mem1 u hn hn64
    obtain ⟨bt, hbt, -, hgrid, hval⟩ := pass_spec outIsIn numThreads maxThreadsPerBlock limits u
      k hk hm0 n .partialTotals mem1 hn hn64
    exact ⟨bt, hbt, hgrid, hval⟩
  · intro fuel hfuel
    obtain ⟨mem1, count, hrun, hval⟩ := hostLoop_spec outIsIn numThreads maxThreadsPerBlock limits
      uninit k hk hm0 N fuel 0 (Dimensions.ofMax N 0 0) .inputVector mem rfl rfl (by omega) hN32
      hfuel
    have hrun1 : hostLoop op outIsIn numThreads maxThreadsPerBlock limits uninit fuel 0
        (Dimensions.ofMax N 0 0) .inputVector mem = .ok (some (mem1, count)) := hrun
    have hyz : ((Dimensions.ofMax N 0 0).y.toBool || (Dimensions.ofMax N 0 0).z.toBool) = false :=
      rfl
    simp only [run, hyz, hrun1]
    rw [hval]
    rfl

theorem reduce_run_multi_pass_small_witness :
    run (fun a b => a + b) false (Dimensions.ofMax 0 0 0) 1024 ⟨4, 1024, 64⟩ (fun _ _ _ => 0) 10
      (Dimensions.ofMax 10 0 0) ⟨fun i => i, fun _ => 0, 0⟩ = .ok (some 45) :=
  (reduce_run_multi_pass_small (fun a b => a + b) Nat.add_assoc Nat.add_comm false
    (Dimensions.ofMax 0 0 0) 1024 ⟨4, 1024, 64⟩ (fun _ _ _ => 0) 2 10 (by decide) (by decide)
    (by decide) (by decide) ⟨fun i => i, fun _ => 0, 0⟩).2.2.2 10 (Nat.le_refl _)

theorem foldl_runBlock_frame {α : Type} (op : α → α → α) (outIsIn : Bool)
    (gridSize bsize max : Nat) (arg : VectorArg) (uninit : Nat → Nat → α) (bids : List Nat)
    (mem : DeviceMemory α) :
    (bids.foldl (fun m bid => runBlock op outIsIn gridSize bsize max arg (uninit bid) bid m)
      mem).inputVector = mem.inputVector ∧
    (bids.foldl (fun m bid => runBlock op outIsIn gridSize bsize max arg (uninit bid) bid m)
      mem).output = mem.output := by
  induction bids generalizing mem with
  | nil => exact ⟨rfl, rfl⟩
  | cons b bs ih =>
    rw [List.foldl_cons]
    obtain ⟨h1, h2⟩ := ih (runBlock op outIsIn gridSize bsize max arg (uninit b) b mem)
    exact ⟨h1, h2⟩

theorem launch_succ {α : Type} (op : α → α → α) (outIsIn : Bool) (g bsize max : Nat)
    (arg : VectorArg) (uninit : Nat → Nat → α) (mem : DeviceMemory α) :
    launch op outIsIn (g + 1) bsize max arg uninit mem
      = runBlock op outIsIn (g + 1) bsize max arg (uninit g) g
          ((List.range g).foldl
            (fun m bid => runBlock op outIsIn (g + 1) bsize max arg (uninit bid) bid m) mem) := by
  unfold launch
  rw [List.range_succ, List.foldl_append, List.foldl_cons, List.foldl_nil]

/-- The slot of the last block of a launch over the input vector: the fold of the
elements at the global ids of that block's threads. -/
theorem launch_last_block {α : Type} (op : α → α → α)
    (hassoc : ∀ a b c, op (op a b) c = op a (op b c)) (hcomm : ∀ a b, op a b = op b a)
    (g bsize max g0 : Nat) (uninit : Nat → Nat → α) (mem : DeviceMemory α)
    (hg : ∀ t, t < bsize → gspar_get_global_id g bsize t = g0 + t)
    (h2 : 2 ≤ bsize) (hb : g0 < max) (hodd : bsize % 2 ≠ 0 → g0 = 0 ∧ max = bsize)
    (hC : 2 * (bsize / 2) ≤ max - g0 ∨ ∃ k, bsize / 2 = 2 ^ k) :
    (launch op false (g + 1) bsize max .inputVector uninit mem).partialTotals g
      = seqFold op mem.inputVector g0 (min bsize (max - g0) - 1) := by
  letI inst : CommSemigroup α := { mul := op, mul_assoc := hassoc, mul_comm := hcomm }
  rw [launch_succ]
  obtain ⟨hV, -⟩ := foldl_runBlock_frame op false (g + 1) bsize max .inputVector uninit
    (List.range g) mem
  generalize (List.range g).foldl
    (fun m bid => runBlock op false (g + 1) bsize max .inputVector (uninit bid) bid m) mem
    = memn at hV
  have h := runBlock_spec false (g + 1) bsize max .inputVector (uninit g) g g0 memn hg h2 hb
    hodd hC
  have h1 : (runBlock op false (g + 1) bsize max .inputVector (uninit g) g memn).partialTotals
      = _ := h
  rw [h1, Function.update_same]
  simp only [Bool.false_and, Bool.false_eq_true, if_false, vectorOf, hV]
  rfl

theorem seqFold_const_one (lo n : Nat) :
    seqFold (fun a b => a + b) (fun _ => 1) lo n = n + 1 := by
  induction n with
  | zero => rfl
  | succ n ih => simp only [seqFold, ih]

/-- C4, evaluated at the failing input: a Reduce with operator `+` over
`Dimensions(2 ^ 32 + 1, 0, 0)` under the per-block limit 1024.  The first pass is
launched with `2 ^ 22 + 1` blocks of 1024 threads.  In block `2 ^ 22` the global ids
are `0 .. 1023` again (`2 ^ 22 * 1024` is 0 in `unsigned int`), all below the extent,
so this block stores in slot `2 ^ 22` the fold of the input elements `[0, 1024)`, not
that of `[2 ^ 32, 2 ^ 32 + 1)`: on a vector of ones the slot holds 1024 where the
element `v[2 ^ 32]` is 1. -/
theorem reduce_first_pass_wraps_global_id (uninit : Nat → Nat → Nat)
    (mem : DeviceMemory Nat) :
    getNumBlocksAndThreads (Dimensions.ofMax 0 0 0) (Dimensions.ofMax (2 ^ 32 + 1) 0 0) 1024
      ⟨1024, 1024, 64⟩ = .ok ⟨⟨1024, 2 ^ 22 + 1⟩, ⟨1, 1⟩, ⟨1, 1⟩⟩ ∧
    launchGrid ⟨⟨1024, 2 ^ 22 + 1⟩, ⟨1, 1⟩, ⟨1, 1⟩⟩ = (2 ^ 22 + 1, 1024) ∧
    (∀ t, t < 1024 → gspar_get_global_id (2 ^ 22) 1024 t = t) ∧
    (launch (fun a b => a + b) false (2 ^ 22 + 1) 1024 (2 ^ 32 + 1) .inputVector uninit
        mem).partialTotals (2 ^ 22)
      = seqFold (fun a b => a + b) mem.inputVector 0 1023 ∧
    (launch (fun a b => a + b) false (2 ^ 22 + 1) 1024 (2 ^ 32 + 1) .inputVector uninit
        ⟨fun _ => 1, mem.partialTotals, mem.output⟩).partialTotals (2 ^ 22) = 1024 ∧
    seqFold (fun a b => a + b) (fun _ => 1) (2 ^ 22 * 1024)
      (min (2 ^ 32 + 1) ((2 ^ 22 + 1) * 1024) - 2 ^ 22 * 1024 - 1) = 1 := by
  have hg : ∀ t, t < 1024 → gspar_get_global_id (2 ^ 22) 1024 t = 0 + t := by
    intro t ht
    unfold gspar_get_global_id
    have h : 2 ^ 22 * 1024 = UINT_MOD := by decide
    rw [h, Nat.add_mod_left, Nat.zero_add]
    exact Nat.mod_eq_of_lt (lt_trans ht (by decide))
  have hslot : ∀ m : DeviceMemory Nat,
      (launch (fun a b => a + b) false (2 ^ 22 + 1) 1024 (2 ^ 32 + 1) .inputVector uninit
        m).partialTotals (2 ^ 22) = seqFold (fun a b => a + b) m.inputVector 0 1023 := by
    intro m
    have h := launch_last_block (fun a b : Nat => a + b) Nat.add_assoc Nat.add_comm (2 ^ 22) 1024
      (2 ^ 32 + 1) 0 uninit m hg (by decide) (by decide) (fun h => absurd h (by decide))
      (Or.inr ⟨9, by decide⟩)
    have hm : min 1024 (2 ^ 32 + 1 - 0) - 1 = 1023 := by decide
    rw [h, hm]
  refine ⟨rfl, by decide, fun t ht => by rw [hg t ht, Nat.zero_add], hslot mem, ?_, ?_⟩
  · rw [hslot]
    exact seqFold_const_one 0 1023
  · rw [seqFold_const_one]
    decide

/-- A block of a single thread: the loop body never runs, and the odd-size
branch folds `shmem[max - 1] = shmem[0]` into `shmem[0]` once more. -/
theorem launch_single_thread {α : Type} (op : α → α → α) (outIsIn : Bool) (arg : VectorArg)
    (uninit : Nat → Nat → α) (mem : DeviceMemory α) :
    (launch op outIsIn 1 1 1 arg uninit mem).partialTotals 0
      = (if outIsIn then op (op (vectorOf arg mem 0) (vectorOf arg mem 0)) mem.output
         else op (vectorOf arg mem 0) (vectorOf arg mem 0)) := by
  have h0 : inRange 1 0 1 0 = true := by decide
  have hg0 : gspar_get_global_id 0 1 0 = 0 := by decide
  have hl : loadShared (vectorOf arg mem) 1 0 1 (uninit 0) 0 = vectorOf arg mem 0 := by
    simp [loadShared, h0, hg0]
  simp only [launch, List.range_succ, List.range_zero, List.nil_append, List.foldl_cons,
    List.foldl_nil, runBlock, writePartialTotal, h0, if_true]
  rw [reduceLoop, dif_pos (by decide)]
  cases outIsIn <;> simp [hl]

/-- Running `Reduce::run` over an extent that fits in one block is a single launch. -/
theorem run_single_launch {α : Type} (op : α → α → α) (outIsIn : Bool) (numThreads : Dimensions)
    (maxThreadsPerBlock : Nat) (limits : ThreadLimits) (uninit : Nat → Nat → Nat → α)
    (N fuel : Nat) (hN : 1 ≤ N) (hN32 : N < UINT_MOD) (hfuel : 1 ≤ fuel)
    (hfit : N ≤ effectiveMax numThreads (Dimensions.ofMax N 0 0) maxThreadsPerBlock limits 0)
    (mem : DeviceMemory α) :
    getNumBlocksAndThreads numThreads (Dimensions.ofMax N 0 0) maxThreadsPerBlock limits
      = .ok ⟨⟨N, 1⟩, ⟨1, 1⟩, ⟨1, 1⟩⟩ ∧
    run op outIsIn numThreads maxThreadsPerBlock limits uninit fuel (Dimensions.ofMax N 0 0) mem
      = .ok (some ((launch op outIsIn 1 N N .inputVector (uninit 0) mem).partialTotals 0)) := by
  have hU : UINT_MOD = 4294967296 := by decide
  have hL : ULONG_MOD = 18446744073709551616 := by decide
  obtain ⟨bt, hbt, hbtx⟩ := mapping_1d_double numThreads (Dimensions.ofMax N 0 0)
    maxThreadsPerBlock limits N rfl rfl hN (by omega)
  rw [if_pos hfit] at hbtx
  have hbt2 : getNumBlocksAndThreads numThreads (Dimensions.ofMax N 0 0) maxThreadsPerBlock limits
      = .ok ⟨⟨N, 1⟩, ⟨1, 1⟩, ⟨1, 1⟩⟩ := by
    rw [hbt]
    have hyb : (Dimensions.ofMax N 0 0).y.toBool = false := rfl
    simp only [getNumBlocksAndThreads, hyb, Bool.false_and] at hbt
    have := Except.ok.inj hbt
    rw [← this] at hbtx ⊢
    simp only at hbtx
    rw [hbtx]
    rfl
  refine ⟨hbt2, ?_⟩
  obtain ⟨f, rfl⟩ : ∃ f, fuel = f + 1 := ⟨fuel - 1, by omega⟩
  have hyz : ((Dimensions.ofMax N 0 0).y.toBool || (Dimensions.ofMax N 0 0).z.toBool) = false :=
    rfl
  have hgrid : launchGrid ⟨⟨N, 1⟩, ⟨1, 1⟩, ⟨1, 1⟩⟩ = (1, N) :=
    launchGrid_eq _ (by simp only; omega) hN32
  simp only [run, hyz, hostLoop, hbt2, hgrid]
  rfl

/-- C3, evaluated at the failing input: a Reduce over the one-element vector `[5]`
with operator `+` returns `10`, and over `[3]` with operator `*` returns `9`,
while the sequential folds are `5` and `3`. -/
theorem reduce_single_element_folded_twice :
    run (fun a b => a + b) false (Dimensions.ofMax 0 0 0) 1024 ⟨1024, 1024, 64⟩ (fun _ _ _ => 0) 1
      (Dimensions.ofMax 1 0 0) ⟨fun i => if i = 0 then 5 else 0, fun _ => 0, 0⟩ = .ok (some 10) ∧
    seqFold (fun a b => a + b) (fun i => if i = 0 then 5 else 0) 0 0 = 5 ∧
    run (fun a b => a * b) false (Dimensions.ofMax 0 0 0) 1024 ⟨1024, 1024, 64⟩ (fun _ _ _ => 0) 1
      (Dimensions.ofMax 1 0 0) ⟨fun i => if i = 0 then 3 else 0, fun _ => 0, 0⟩ = .ok (some 9) ∧
    seqFold (fun a b => a * b) (fun i => if i = 0 then 3 else 0) 0 0 = 3 := by
  refine ⟨?_, rfl, ?_, rfl⟩
  · rw [(run_single_launch (fun a b => a + b) false (Dimensions.ofMax 0 0 0) 1024
      ⟨1024, 1024, 64⟩ (fun _ _ _ => 0) 1 1 (by decide) (by decide) (by decide) (by decide) _).2,
      launch_single_thread]
    rfl
  · rw [(run_single_launch (fun a b => a * b) false (Dimensions.ofMax 0 0 0) 1024
      ⟨1024, 1024, 64⟩ (fun _ _ _ => 0) 1 1 (by decide) (by decide) (by decide) (by decide) _).2,
      launch_single_thread]
    rfl

/-- C5, evaluated at the failing input: a Reduce with operator `+` over the
one-element vector `[7]` whose output parameter is `INOUT` and initialised to
`5` returns `19 = 7 + 7 + 5`, while `fold(input) + seed = 12`. -/
theorem reduce_seed_single_element :
    run (fun a b => a + b) true (Dimensions.ofMax 0 0 0) 1024 ⟨1024, 1024, 64⟩ (fun _ _ _ => 0) 1
      (Dimensions.ofMax 1 0 0) ⟨fun i => if i = 0 then 7 else 0, fun _ => 0, 5⟩ = .ok (some 19) ∧
    seqFold (fun a b => a + b) (fun i => if i = 0 then 7 else 0) 0 0 + 5 = 12 := by
  refine ⟨?_, rfl⟩
  rw [(run_single_launch (fun a b => a + b) true (Dimensions.ofMax 0 0 0) 1024
    ⟨1024, 1024, 64⟩ (fun _ _ _ => 0) 1 1 (by decide) (by decide) (by decide) (by decide) _).2,
    launch_single_thread]
  rfl

/-! ### Parameter registry -/

theorem find_mapAssign (m : List (String × BaseParameter)) (name : String) (v : BaseParameter)
    (n : String) :
    ((mapAssign m name v).find? fun kv => kv.1 == n).map Prod.snd
      = if n = name then some v else (m.find? fun kv => kv.1 == n).map Prod.snd := by
  induction m with
  | nil =>
    by_cases h : n = name
    · subst h
      simp [mapAssign]
    · have h2 : ¬ name = n := fun e => h e.symm
      simp [mapAssign, h, h2]
  | cons kw rest ih =>
    obtain ⟨k, w⟩ := kw
    by_cases hk : k = name
    · subst hk
      by_cases h : n = k
      · subst h
        simp [mapAssign]
      · have h2 : ¬ k = n := fun e => h e.symm
        simp [mapAssign, h, h2]
    · by_cases hkn : k = n
      · subst hkn
        simp [mapAssign, hk]
      · have hb : (k == n) = false := by simpa using hkn
        simp only [mapAssign, hk, if_false, List.find?_cons, hb]
        exact ih

theorem getParameter_setParameter (p : BaseParallelPattern) (q : BaseParameter) (n : String) :
    (p.setParameter q).getParameter n = if n = q.name then some q else p.getParameter n := by
  unfold BaseParallelPattern.getParameter BaseParallelPattern.setParameter
  by_cases h : q.name ∈ p.paramsOrder
  · simp only [h, if_true]
    exact find_mapAssign _ _ _ _
  · simp only [h, if_false]
    exact find_mapAssign _ _ _ _

theorem setParameter_paramsOrder (p : BaseParallelPattern) (q : BaseParameter) :
    (p.setParameter q).paramsOrder
      = if q.name ∈ p.paramsOrder then p.paramsOrder else p.paramsOrder ++ [q.name] := by
  unfold BaseParallelPattern.setParameter
  by_cases h : q.name ∈ p.paramsOrder <;> simp [h]

theorem setParameter_isKernelStale (p : BaseParallelPattern) (q : BaseParameter) :
    (p.setParameter q).isKernelStale
      = if q.name ∈ p.paramsOrder then p.isKernelStale else true := by
  unfold BaseParallelPattern.setParameter
  by_cases h : q.name ∈ p.paramsOrder <;> simp [h]

/-- Everything `setParameter` leaves alone. -/
theorem setParameter_frame (p : BaseParallelPattern) (q : BaseParameter) :
    (p.setParameter q).kind = p.kind ∧ (p.setParameter q)._isKernelCompiled = p._isKernelCompiled ∧
    (p.setParameter q).compiledKernelDimension = p.compiledKernelDimension ∧
    (p.setParameter q).compiledKernel = p.compiledKernel ∧
    (p.setParameter q).batched = p.batched ∧ (p.setParameter q).batchSize = p.batchSize := by
  unfold BaseParallelPattern.setParameter
  by_cases h : q.name ∈ p.paramsOrder <;> simp [h]

theorem setParameter_registered_isKernelCompiledFor (p : BaseParallelPattern) (q : BaseParameter)
    (h : q.name ∈ p.paramsOrder) (d : Dimensions) :
    (p.setParameter q).isKernelCompiledFor d = p.isKernelCompiledFor d := by
  obtain ⟨h1, h2, h3, -, -, -⟩ := setParameter_frame p q
  have h4 := setParameter_isKernelStale p q
  rw [if_pos h] at h4
  unfold BaseParallelPattern.isKernelCompiledFor
  rw [h1, h2, h3, h4]

/-- One registration step on the list of names: a name that is not there is appended. -/
theorem eraseDups_loop_eq (l bs : List String) :
    List.eraseDups.loop l bs
      = l.foldl (fun acc n => if n ∈ acc then acc else acc ++ [n]) bs.reverse := by
  induction l generalizing bs with
  | nil => simp [List.eraseDups.loop]
  | cons a l ih =>
    rw [List.eraseDups.loop, List.foldl_cons]
    by_cases h : a ∈ bs
    · have he : List.elem a bs = true := List.elem_eq_true_of_mem h
      simp only [he, ih, List.mem_reverse, h, if_true]
    · have he : List.elem a bs = false := by
        cases hc : List.elem a bs
        · rfl
        · exact absurd (List.mem_of_elem_eq_true hc) h
      simp only [he, ih, List.mem_reverse, h, if_false, List.reverse_cons]

theorem foldl_setParameter_paramsOrder (qs : List BaseParameter) (p0 : BaseParallelPattern) :
    (qs.foldl BaseParallelPattern.setParameter p0).paramsOrder
      = (qs.map fun q => q.name).foldl (fun acc n => if n ∈ acc then acc else acc ++ [n])
          p0.paramsOrder := by
  induction qs generalizing p0 with
  | nil => rfl
  | cons q qs ih =>
    rw [List.foldl_cons, ih, List.map_cons, List.foldl_cons, setParameter_paramsOrder]

theorem foldl_setParameter_getParameter (qs : List BaseParameter) (p0 : BaseParallelPattern)
    (n : String) :
    (qs.foldl BaseParallelPattern.setParameter p0).getParameter n
      = match qs.reverse.find? (fun q => q.name == n) with
        | some q => some q
        | none => p0.getParameter n := by
  induction qs generalizing p0 with
  | nil => rfl
  | cons q qs ih =>
    rw [List.foldl_cons, ih, List.reverse_cons, List.find?_append, getParameter_setParameter]
    cases hf : List.find? (fun q => q.name == n) qs.reverse with
    | some r => simp
    | none =>
      by_cases hn : n = q.name
      · subst hn
        simp
      · have hb : (q.name == n) = false := by
          simpa using fun e : q.name = n => hn e.symm
        simp [hn, hb]

theorem foldl_names_mem (l acc : List String) (n : String) :
    n ∈ l.foldl (fun acc n => if n ∈ acc then acc else acc ++ [n]) acc ↔ n ∈ acc ∨ n ∈ l := by
  induction l generalizing acc with
  | nil => simp
  | cons a l ih =>
    rw [List.foldl_cons, ih]
    by_cases h : a ∈ acc
    · simp only [h, if_true, List.mem_cons]
      constructor
      · rintro (h1 | h1)
        · exact Or.inl h1
        · exact Or.inr (Or.inr h1)
      · rintro (h1 | h1 | h1)
        · exact Or.inl h1
        · exact Or.inl (h1 ▸ h)
        · exact Or.inr h1
    · simp only [h, if_false, List.mem_append, List.mem_singleton, List.mem_cons]
      tauto

theorem foldl_names_nodup (l acc : List String) (h : acc.Nodup) :
    (l.foldl (fun acc n => if n ∈ acc then acc else acc ++ [n]) acc).Nodup := by
  induction l generalizing acc with
  | nil => exact h
  | cons a l ih =>
    rw [List.foldl_cons]
    apply ih
    by_cases ha : a ∈ acc
    · simpa [ha] using h
    · simp only [ha, if_false]
      exact List.Nodup.append h (List.nodup_singleton a) (by simpa using ha)

/-- C12: `setParameter` under a name that is already registered leaves the parameter
order, the staleness flag and `isKernelCompiledFor` as they were, and under a new
name appends the name to the order; in both cases the name then maps to the new
parameter and every other name keeps its entry.  After the calls `qs`, made in turn
on a pattern whose registry is empty, the order holds each distinct name once, in
order of first registration (`eraseDups` keeps first occurrences), and
`getParameterList` holds, per name, the non-null parameter set last under it. -/
theorem setParameter_registry (p : BaseParallelPattern) (q : BaseParameter)
    (p0 : BaseParallelPattern) (qs : List BaseParameter)
    (hfresh : p0.paramsOrder = [] ∧ p0.params = []) :
    (q.name ∈ p.paramsOrder →
      (p.setParameter q).paramsOrder = p.paramsOrder ∧
      (p.setParameter q).isKernelStale = p.isKernelStale ∧
      ∀ d, (p.setParameter q).isKernelCompiledFor d = p.isKernelCompiledFor d) ∧
    (q.name ∉ p.paramsOrder → (p.setParameter q).paramsOrder = p.paramsOrder ++ [q.name]) ∧
    (∀ n, (p.setParameter q).getParameter n = if n = q.name then some q else p.getParameter n) ∧
    (qs.foldl BaseParallelPattern.setParameter p0).paramsOrder
      = (qs.map fun q => q.name).eraseDups ∧
    ((qs.map fun q => q.name).eraseDups).Nodup ∧
    (∀ n, n ∈ (qs.map fun q => q.name).eraseDups ↔ ∃ r ∈ qs, r.name = n) ∧
    (qs.foldl BaseParallelPattern.setParameter p0).getParameterList
      = ((qs.map fun q => q.name).eraseDups).map
          (fun n => qs.reverse.find? fun r => r.name == n) ∧
    ∀ e ∈ (qs.foldl BaseParallelPattern.setParameter p0).getParameterList, e.isSome = true := by
  have hed : (qs.map fun q => q.name).eraseDups
      = (qs.map fun q => q.name).foldl (fun acc n => if n ∈ acc then acc else acc ++ [n]) [] := by
    unfold List.eraseDups
    rw [eraseDups_loop_eq]
    rfl
  have hord : (qs.foldl BaseParallelPattern.setParameter p0).paramsOrder
      = (qs.map fun q => q.name).eraseDups := by
    rw [foldl_setParameter_paramsOrder, hfresh.1, hed]
  have hmem : ∀ n, n ∈ (qs.map fun q => q.name).eraseDups ↔ ∃ r ∈ qs, r.name = n := by
    intro n
    rw [hed, foldl_names_mem]
    simp
  have hget0 : ∀ n, p0.getParameter n = none := by
    intro n
    simp [BaseParallelPattern.getParameter, hfresh.2]
  have hlist : (qs.foldl BaseParallelPattern.setParameter p0).getParameterList
      = ((qs.map fun q => q.name).eraseDups).map
          (fun n => qs.reverse.find? fun r => r.name == n) := by
    unfold BaseParallelPattern.getParameterList
    rw [hord]
    apply List.map_congr_left
    intro n _
    rw [foldl_setParameter_getParameter, hget0]
    cases List.find? (fun q => q.name == n) qs.reverse <;> rfl
  refine ⟨fun h => ⟨?_, ?_, fun d => setParameter_registered_isKernelCompiledFor p q h d⟩,
    fun h => ?_, getParameter_setParameter p q, hord, ?_, hmem, hlist, ?_⟩
  · rw [setParameter_paramsOrder, if_pos h]
  · rw [setParameter_isKernelStale, if_pos h]
  · rw [setParameter_paramsOrder, if_neg h]
  · rw [hed]
    exact foldl_names_nodup _ _ List.nodup_nil
  · intro e he
    rw [hlist, List.mem_map] at he
    obtain ⟨n, hn, rfl⟩ := he
    obtain ⟨r, hr, hrn⟩ := (hmem n).mp hn
    rw [Option.isSome_iff_exists]
    have : (qs.reverse.find? fun r => r.name == n).isSome = true := by
      rw [List.find?_isSome]
      exact ⟨r, List.mem_reverse.mpr hr, by simpa using hrn⟩
    exact Option.isSome_iff_exists.mp this

/-- The calls of `vector_sum_map_parallel.cpp`: placeholders for `a`, `b` and `result`,
then real values for `a` and `b`.  The list has three entries in the order of first
registration; `a` and `b` are the values set last, `result` is still the placeholder. -/
theorem setParameter_registry_witness :
    ([PointerParameter.mk "a" { name := "unsigned int*", isPointer := true } 0 false
        .GSPAR_PARAM_IN false,
      PointerParameter.mk "b" { name := "unsigned int*", isPointer := true } 0 false
        .GSPAR_PARAM_IN false,
      PointerParameter.mk "result" { name := "unsigned int*", isPointer := true } 0 false
        .GSPAR_PARAM_OUT false,
      PointerParameter.mk "a" { name := "unsigned int*", isPointer := true } 80 true
        .GSPAR_PARAM_IN false,
      PointerParameter.mk "b" { name := "unsigned int*", isPointer := true } 80 true
        .GSPAR_PARAM_IN false].foldl BaseParallelPattern.setParameter
        (Map.new "result[x] = a[x] + b[x];")).getParameterList
      = [some (PointerParameter.mk "a" { name := "unsigned int*", isPointer := true } 80 true
          .GSPAR_PARAM_IN false),
         some (PointerParameter.mk "b" { name := "unsigned int*", isPointer := true } 80 true
          .GSPAR_PARAM_IN false),
         some (PointerParameter.mk "result" { name := "unsigned int*", isPointer := true } 0 false
          .GSPAR_PARAM_OUT false)] := by
  rw [(setParameter_registry sampleMap
    (PointerParameter.mk "a" { name := "unsigned int*", isPointer := true } 80 true
      .GSPAR_PARAM_IN false) (Map.new "result[x] = a[x] + b[x];") _ ⟨rfl, rfl⟩).2.2.2.2.2.2.1]
  decide


/-! ### Direction `GSPAR_PARAM_PRESENT` -/

/-- C15: every way of registering a pointer parameter from a raw host pointer - the
public `setParameter(name, size, value, direction)`, a pointer placeholder, and
`setBatchedParameter` - throws for direction `GSPAR_PARAM_PRESENT` and leaves the
parameter registry, the parameter order and the staleness flag as they were (the
first two leave the whole pattern unchanged); `setParameter(name, memoryObject,
GSPAR_PARAM_PRESENT)` throws nothing and registers a complete parameter with that
direction under `name`, which is in the order afterwards. -/
theorem present_needs_memory_object (p : BaseParallelPattern) (name : String)
    (varType : VarType) (size : Nat) (hasValue batched : Bool) (memoryObject : MemoryObject) :
    (p.setParameterPointer name varType size hasValue .GSPAR_PARAM_PRESENT
      = { pattern := p, exception := some ("Pattern parameter \"" ++ name ++
          "\": GSPAR_PARAM_PRESENT is only allowed when a MemoryObject is provided") }) ∧
    (p.setParameterPlaceholder name varType size .GSPAR_PARAM_POINTER .GSPAR_PARAM_PRESENT batched
      = { pattern := p, exception := some ("Pattern parameter \"" ++ name ++
          "\": GSPAR_PARAM_PRESENT is only allowed when a MemoryObject is provided") }) ∧
    ((p.setBatchedParameter name varType size hasValue .GSPAR_PARAM_PRESENT).exception
        = some ("Pattern parameter \"" ++ name ++
          "\": GSPAR_PARAM_PRESENT is only allowed when a MemoryObject is provided") ∧
      (p.setBatchedParameter name varType size hasValue .GSPAR_PARAM_PRESENT).pattern.params
        = p.params ∧
      (p.setBatchedParameter name varType size hasValue .GSPAR_PARAM_PRESENT).pattern.paramsOrder
        = p.paramsOrder ∧
      (p.setBatchedParameter name varType size hasValue .GSPAR_PARAM_PRESENT).pattern.isKernelStale
        = p.isKernelStale) ∧
    ((p.setParameterMemoryObject name varType memoryObject .GSPAR_PARAM_PRESENT).exception = none ∧
      (p.setParameterMemoryObject name varType memoryObject
          .GSPAR_PARAM_PRESENT).pattern.getParameter name
        = some (PointerParameter.ofMemoryObject name varType memoryObject .GSPAR_PARAM_PRESENT
            false) ∧
      (PointerParameter.ofMemoryObject name varType memoryObject .GSPAR_PARAM_PRESENT
          false).direction = .GSPAR_PARAM_PRESENT ∧
      (PointerParameter.ofMemoryObject name varType memoryObject .GSPAR_PARAM_PRESENT
          false).isComplete = true ∧
      (PointerParameter.ofMemoryObject name varType memoryObject .GSPAR_PARAM_PRESENT
          false).getMemoryObject = some memoryObject ∧
      name ∈ (p.setParameterMemoryObject name varType memoryObject
          .GSPAR_PARAM_PRESENT).pattern.paramsOrder) := by
  refine ⟨rfl, rfl, ⟨rfl, rfl, rfl, rfl⟩, rfl, ?_, rfl, rfl, rfl, ?_⟩
  · show (p.setParameter _).getParameter name = _
    rw [getParameter_setParameter]
    exact if_pos rfl
  · show name ∈ (p.setParameter _).paramsOrder
    rw [setParameter_paramsOrder]
    by_cases h : name ∈ p.paramsOrder <;> simp [PointerParameter.ofMemoryObject, h]


/-! ### What `compile` leaves alone on a Map -/

theorem getGpu_frame (p : BaseParallelPattern) (b : Backend) :
    (p.getGpu b).2 = { p with gpuDevice := (p.getGpu b).2.gpuDevice,
                              executionFlow := (p.getGpu b).2.executionFlow } := by
  unfold BaseParallelPattern.getGpu
  repeat' split
  all_goals rfl

theorem getKernelName_frame (p : BaseParallelPattern) (b : Backend) :
    (p.getKernelName b).2.1 = { p with kernelName := (p.getKernelName b).2.1.kernelName } := by
  unfold BaseParallelPattern.getKernelName
  split <;> rfl

theorem generateKernelSource_map (p : BaseParallelPattern) (b : Backend) (dims : Dimensions)
    (r : String × BaseParallelPattern × Backend) (hk : p.kind = .map)
    (h : p.generateKernelSource b dims = .ok r) : r.2.1 = (p.getKernelName b).2.1 := by
  unfold BaseParallelPattern.generateKernelSource at h
  have hkn : (p.getKernelName b).2.1.kind = .map := by rw [getKernelName_kind, hk]
  simp only [BaseParallelPattern.getKernelCore, hkn] at h
  rw [← Except.ok.inj h]

/-- On a Map, `compile` writes only the device, the execution flow, the kernel name
and the four members that describe the compiled kernel. -/
theorem compile_map_frame (p : BaseParallelPattern) (b : Backend) (dims : Dimensions)
    (p1 : BaseParallelPattern) (b1 : Backend) (hk : p.kind = .map)
    (h : p.compile b dims = .ok (p1, b1)) :
    p1 = { p with gpuDevice := p1.gpuDevice, executionFlow := p1.executionFlow,
                  kernelName := p1.kernelName, compiledKernel := p1.compiledKernel,
                  compiledKernelDimension := p1.compiledKernelDimension,
                  _isKernelCompiled := p1._isKernelCompiled,
                  isKernelStale := p1.isKernelStale } := by
  unfold BaseParallelPattern.compile at h
  split at h
  · cases h; rfl
  · split at h
    · cases h
    · rename_i gpu pg hg
      have hpg : pg = (p.getGpu b).2 := by rw [hg]
      have hkg : pg.kind = .map := by rw [hpg, getGpu_kind, hk]
      have hkn : (pg.getKernelName b).2.1.kind = .map := by rw [getKernelName_kind, hkg]
      simp only at h
      split at h
      · cases h
      · rename_i p3 hcb
        simp only [BaseParallelPattern.callbackBeforeGeneratingKernelSource, hkn] at hcb
        have hp3 := Except.ok.inj hcb
        split at h
        · cases h
        · rename_i src p4 b4 hgen
          have hp4 := generateKernelSource_map _ _ _ _ (by rw [← hp3]; exact hkn) hgen
          simp only at hp4
          split at h
          · have hr := (Prod.mk.inj (Except.ok.inj h)).1
            rw [← hr]
            simp only
            rw [hp4, ← hp3, getKernelName_frame, getKernelName_frame, hpg, getGpu_frame]
          · cases h


/-! ### Batching switched on through a registered parameter -/

/-- C11, evaluated at the failing input.  The Map of `vector_sum_map.cpp` is compiled
unbatched for `Dimensions(20, 0, 0)`; its signature has four parameters.  Then
`setBatchedParameter("a", ...)` (or a batched placeholder for `a`) is applied: `a`
is already registered, so `setParameter` does not touch the staleness flag.  The
pattern is now batched, yet not stale: `isKernelCompiledFor` still holds, `compile`
returns without generating or preparing anything, and `setParametersInKernel` binds
five arguments, the batch size among them, for the four-parameter kernel.  The
sibling `setBatchSize(2)` does set the flag. -/
theorem batched_parameter_keeps_unbatched_kernel :
    ∃ p1 b1, sampleMap.compile cudaBackend (Dimensions.ofMax 20 0 0) = .ok (p1, b1) ∧
      p1.isBatched = false ∧ p1.isKernelCompiledFor (Dimensions.ofMax 20 0 0) = true ∧
      (CUDA.generateParamsDeclarations p1 (Dimensions.ofMax 20 0 0)).map (fun d => d.slot)
        = [.dimensionMax 0, .parameter "a", .parameter "b", .parameter "result"] ∧
      (p1.setBatchedParameter "a" { name := "unsigned int**", isPointer := true } 80 true
        .GSPAR_PARAM_IN).exception = none ∧
      (p1.setBatchedParameter "a" { name := "unsigned int**", isPointer := true } 80 true
        .GSPAR_PARAM_IN).pattern.isBatched = true ∧
      (p1.setBatchedParameter "a" { name := "unsigned int**", isPointer := true } 80 true
        .GSPAR_PARAM_IN).pattern.isKernelStale = false ∧
      (p1.setBatchedParameter "a" { name := "unsigned int**", isPointer := true } 80 true
        .GSPAR_PARAM_IN).pattern.isKernelCompiledFor (Dimensions.ofMax 20 0 0) = true ∧
      (p1.setBatchedParameter "a" { name := "unsigned int**", isPointer := true } 80 true
        .GSPAR_PARAM_IN).pattern.compile b1 (Dimensions.ofMax 20 0 0)
        = .ok ((p1.setBatchedParameter "a" { name := "unsigned int**", isPointer := true } 80
            true .GSPAR_PARAM_IN).pattern, b1) ∧
      ((p1.setBatchedParameter "a" { name := "unsigned int**", isPointer := true } 80 true
        .GSPAR_PARAM_IN).pattern.setParametersInKernel (Dimensions.ofMax 20 0 0)).map
          KernelArg.slot
        = [.dimensionMax 0, .batchSize, .parameter "a", .parameter "b", .parameter "result"] ∧
      (p1.setParameterPlaceholder "a" { name := "unsigned int*", isPointer := true } 8
        .GSPAR_PARAM_POINTER .GSPAR_PARAM_IN true).pattern.isBatched = true ∧
      (p1.setParameterPlaceholder "a" { name := "unsigned int*", isPointer := true } 8
        .GSPAR_PARAM_POINTER .GSPAR_PARAM_IN true).pattern.isKernelCompiledFor
          (Dimensions.ofMax 20 0 0) = true ∧
      (p1.setBatchSize 2).isBatched = true ∧ (p1.setBatchSize 2).isKernelStale = true := by
  refine ⟨_, _, rfl, ?_⟩
  refine ⟨rfl, rfl, ?_, rfl, rfl, rfl, rfl, ?_, ?_, rfl, rfl, rfl, rfl⟩
  · decide
  · rfl
  · decide


/-! ### Kernel arguments and parameter declarations -/

theorem dims_arguments_contiguous {β : Type} (dims : Dimensions) (F : Nat → List β)
    (hc : dims.isContiguous = true) :
    (List.range dims.getCount).flatMap (fun d => if dims.is d then F d else [])
      = ((List.range 3).filter fun d => dims.is d).flatMap F := by
  obtain ⟨⟨xm, xn⟩, ⟨ym, yn⟩, ⟨zm, zn⟩⟩ := dims
  have h3 : List.range 3 = [0, 1, 2] := rfl
  by_cases hx : 0 < xm <;> by_cases hy : 0 < ym <;> by_cases hz : 0 < zm <;>
    simp [Dimensions.isContiguous, Dimensions.getCount, Dimensions.is, Dimensions.get,
      SingleDimension.toBool, hx, hy, hz, h3, List.range_succ, List.filter] at hc ⊢

/-- For a batched pointer parameter `PointerParameter::malloc` yields a chunked memory
object that is neither read-only nor write-only, whatever the direction. -/
theorem malloc_batched_flags (param : BaseParameter) (batchSize : Nat)
    (hb : param.isBatched = true) :
    ∃ m, PointerParameter.malloc param batchSize = .ok { param with memoryObject := some m } ∧
      m.chunks = some batchSize ∧ m.isReadOnly = false ∧ m.isWriteOnly = false := by
  refine ⟨BaseChunkedMemoryObject.new batchSize param.size
    (param.direction == .GSPAR_PARAM_IN) (param.direction == .GSPAR_PARAM_OUT), ?_, rfl, ?_, ?_⟩
  · simp [PointerParameter.malloc, hb, Device.mallocChunked]
  · simp only [MemoryObject.isReadOnly, BaseChunkedMemoryObject.new]
    decide
  · simp only [MemoryObject.isWriteOnly, BaseChunkedMemoryObject.new]
    decide

/-- For a pointer parameter that is not batched `PointerParameter::malloc` yields a
memory object that is read-only exactly for direction IN and write-only exactly for
direction OUT, never both. -/
theorem malloc_single_flags (param : BaseParameter) (batchSize : Nat)
    (hb : param.isBatched = false) :
    ∃ m, PointerParameter.malloc param batchSize = .ok { param with memoryObject := some m } ∧
      m.chunks = none ∧
      (m.isReadOnly = true ↔ param.direction = .GSPAR_PARAM_IN) ∧
      (m.isWriteOnly = true ↔ param.direction = .GSPAR_PARAM_OUT) ∧
      ¬ (m.isReadOnly = true ∧ m.isWriteOnly = true) := by
  unfold PointerParameter.malloc Device.malloc BaseMemoryObject.new
  rw [hb]
  cases hd : param.direction <;>
    simp [MemoryObject.isReadOnly, MemoryObject.isWriteOnly, clearFlag, CAN_READ_FLAG,
      CAN_WRITE_FLAG] <;> decide

/-- C17, evaluated at the failing input: the batched pointer parameter `a` of
`vector_sum_map_batch.cpp` (direction IN, batch of 2 chunks of 80 bytes) is
allocated as a chunked memory object whose flags are `CAN_READ | CAN_WRITE`: it is
not read-only; a batched parameter of direction OUT is not write-only.  The same
parameters unbatched get a read-only and a write-only memory object. -/
theorem chunked_memory_object_ignores_direction :
    PointerParameter.malloc
        (PointerParameter.mk "a" { name := "unsigned int*", isPointer := true } 80 true
          .GSPAR_PARAM_IN true) 2
      = .ok { PointerParameter.mk "a" { name := "unsigned int*", isPointer := true } 80 true
                .GSPAR_PARAM_IN true with
              memoryObject := some { size := 80, hasHostPointer := false, flags := 3,
                                     chunks := some 2 } } ∧
    MemoryObject.isReadOnly { size := 80, hasHostPointer := false, flags := 3, chunks := some 2 }
      = false ∧
    PointerParameter.malloc
        (PointerParameter.mk "result" { name := "unsigned int*", isPointer := true } 80 true
          .GSPAR_PARAM_OUT true) 2
      = .ok { PointerParameter.mk "result" { name := "unsigned int*", isPointer := true } 80 true
                .GSPAR_PARAM_OUT true with
              memoryObject := some { size := 80, hasHostPointer := false, flags := 3,
                                     chunks := some 2 } } ∧
    MemoryObject.isWriteOnly { size := 80, hasHostPointer := false, flags := 3, chunks := some 2 }
      = false ∧
    PointerParameter.malloc
        (PointerParameter.mk "a" { name := "unsigned int*", isPointer := true } 80 true
          .GSPAR_PARAM_IN false) 2
      = .ok { PointerParameter.mk "a" { name := "unsigned int*", isPointer := true } 80 true
                .GSPAR_PARAM_IN false with
              memoryObject := some { size := 80, flags := 1 } } ∧
    MemoryObject.isReadOnly { size := 80, flags := 1 } = true ∧
    PointerParameter.malloc
        (PointerParameter.mk "result" { name := "unsigned int*", isPointer := true } 80 true
          .GSPAR_PARAM_OUT false) 2
      = .ok { PointerParameter.mk "result" { name := "unsigned int*", isPointer := true } 80 true
                .GSPAR_PARAM_OUT false with
              memoryObject := some { size := 80, flags := 2 } } ∧
    MemoryObject.isWriteOnly { size := 80, flags := 2 } = true := by
  refine ⟨rfl, by decide, rfl, by decide, rfl, by decide, rfl, by decide⟩


/-! ### `clone` -/

theorem setGpu_frame (p : BaseParallelPattern) (device : Option Nat) :
    p.setGpu device = { p with gpuDevice := (p.setGpu device).gpuDevice,
                               executionFlow := (p.setGpu device).executionFlow } := by
  unfold BaseParallelPattern.setGpu
  split <;> rfl

theorem firstChar_append (a b : String) :
    firstChar (a ++ b) = match firstChar a with
      | some c => some c
      | none => firstChar b := by
  unfold firstChar
  rw [String.data_append]
  cases h : a.data <;> simp

theorem firstChar_placeholderMessage (name : String) :
    firstChar (BaseParallelPattern.placeholderMessage name) = some 'P' := by
  unfold BaseParallelPattern.placeholderMessage
  rw [String.append_assoc, firstChar_append]
  rfl

theorem getOutputParameter_error (p : BaseParallelPattern) (n e : String)
    (h : p.getOutputParameter n = .error e) : firstChar e = some 'C' := by
  unfold BaseParallelPattern.getOutputParameter at h
  split at h
  · have := Except.error.inj h
    rw [← this, String.append_assoc, firstChar_append]
    rfl
  · cases h

theorem getNumBlocksAndThreads_error (n dims : Dimensions) (m : Nat) (l : ThreadLimits)
    (e : String) (h : getNumBlocksAndThreads n dims m l = .error e) :
    firstChar e = some '3' ∧ dims.y.toBool = true := by
  unfold getNumBlocksAndThreads at h
  split at h
  · rename_i hc
    have := Except.error.inj h
    rw [← this]
    simp only [Bool.and_eq_true] at hc
    exact ⟨rfl, hc.1⟩
  · cases h

theorem getSharedMemoryParameter_error (p : BaseParallelPattern) (b : Backend) (e : String)
    (h : p.getSharedMemoryParameter b = .error e) : firstChar e = some 'C' := by
  unfold BaseParallelPattern.getSharedMemoryParameter at h
  split at h
  · cases h
  · split at h
    · cases h
    · split at h
      · rename_i he
        rw [← Except.error.inj h]
        exact getOutputParameter_error _ _ _ he
      · cases h

theorem getSharedMemoryParameter_events (p : BaseParallelPattern) (b : Backend)
    (r : Option BaseParameter × BaseParallelPattern × Backend)
    (h : p.getSharedMemoryParameter b = .ok r) : r.2.2.events = b.events := by
  unfold BaseParallelPattern.getSharedMemoryParameter at h
  split at h
  · cases h; rfl
  · split at h
    · cases h; rfl
    · split at h
      · cases h
      · cases h; rfl

theorem getKernelCore_error (p : BaseParallelPattern) (b : Backend) (dims : Dimensions)
    (names : String × String × String) (e : String)
    (h : p.getKernelCore b dims names = .error e) :
    firstChar e = some 'C' ∨
      (e = "Reduce pattern currently does not support multi-dimensional kernels" ∧
        (dims.y.toBool || dims.z.toBool) = true) := by
  unfold BaseParallelPattern.getKernelCore at h
  split at h
  · cases h
  · split at h
    · rename_i hc
      exact Or.inr ⟨(Except.error.inj h).symm, hc⟩
    · split at h
      · rename_i he
        rw [← Except.error.inj h]
        exact Or.inl (getOutputParameter_error _ _ _ he)
      · split at h
        · rename_i he
          rw [← Except.error.inj h]
          exact Or.inl (getSharedMemoryParameter_error _ _ _ he)
        · cases h

theorem getKernelCore_events (p : BaseParallelPattern) (b : Backend) (dims : Dimensions)
    (names : String × String × String) (r : String × BaseParallelPattern × Backend)
    (h : p.getKernelCore b dims names = .ok r) : r.2.2.events = b.events := by
  unfold BaseParallelPattern.getKernelCore at h
  split at h
  · cases h; rfl
  · split at h
    · cases h
    · split at h
      · cases h
      · split at h
        · cases h
        · rename_i hs
          rw [← Except.ok.inj h]
          exact getSharedMemoryParameter_events _ _ _ hs

theorem callbackBeforeGeneratingKernelSource_error (p : BaseParallelPattern) (e : String)
    (h : p.callbackBeforeGeneratingKernelSource = .error e) : firstChar e = some 'C' := by
  unfold BaseParallelPattern.callbackBeforeGeneratingKernelSource at h
  split at h
  · cases h
  · split at h
    · cases h
    · split at h
      · rename_i he
        rw [← Except.error.inj h]
        exact getOutputParameter_error _ _ _ he
      · unfold BaseParallelPattern.setPointerParameter at h
        simp only [reduceCtorEq, if_false] at h

theorem getKernelName_events (p : BaseParallelPattern) (b : Backend) :
    (p.getKernelName b).2.2.events = b.events := by
  unfold BaseParallelPattern.getKernelName
  split <;> rfl

theorem generateKernelSource_error (p : BaseParallelPattern) (b : Backend) (dims : Dimensions)
    (e : String) (h : p.generateKernelSource b dims = .error e) :
    firstChar e = some 'C' ∨
      (e = "Reduce pattern currently does not support multi-dimensional kernels" ∧
        (dims.y.toBool || dims.z.toBool) = true) := by
  unfold BaseParallelPattern.generateKernelSource at h
  simp only at h
  split at h
  · rename_i he
    rw [← Except.error.inj h]
    exact getKernelCore_error _ _ _ _ _ he
  · cases h

theorem generateKernelSource_events (p : BaseParallelPattern) (b : Backend) (dims : Dimensions)
    (r : String × BaseParallelPattern × Backend)
    (h : p.generateKernelSource b dims = .ok r) :
    ∃ n, r.2.2.events = b.events ++ [Event.generatedKernelSource n] := by
  unfold BaseParallelPattern.generateKernelSource at h
  simp only at h
  split at h
  · cases h
  · rename_i core p1 b1 hk
    have hr := Except.ok.inj h
    rw [← hr]
    refine ⟨(p.getKernelName b).1, ?_⟩
    show b1.events ++ _ = _
    have h1 := getKernelCore_events _ _ _ _ _ hk
    simp only at h1
    rw [h1, getKernelName_events]

/-- Every exception of `compile` other than the multi-dimensional one of Reduce starts
with `N`, `K` or `C`. -/
theorem compile_error (p : BaseParallelPattern) (b : Backend) (dims : Dimensions) (e : String)
    (h : p.compile b dims = .error e) :
    firstChar e ∈ otherInitials ∨
      (e = "Reduce pattern currently does not support multi-dimensional kernels" ∧
        (dims.y.toBool || dims.z.toBool) = true) := by
  unfold BaseParallelPattern.compile at h
  split at h
  · cases h
  · split at h
    · rw [← Except.error.inj h]
      exact Or.inl (by decide)
    · simp only at h
      split at h
      · rename_i he
        rw [← Except.error.inj h, callbackBeforeGeneratingKernelSource_error _ _ he]
        exact Or.inl (by decide)
      · split at h
        · rename_i he
          rw [← Except.error.inj h]
          rcases generateKernelSource_error _ _ _ _ he with h1 | h1
          · rw [h1]
            exact Or.inl (by decide)
          · exact Or.inr h1
        · split at h
          · cases h
          · rw [← Except.error.inj h]
            exact Or.inl (by decide)

/-- The calls `compile` adds are source generations and kernel preparations. -/
theorem compile_events (p : BaseParallelPattern) (b : Backend) (dims : Dimensions)
    (p1 : BaseParallelPattern) (b1 : Backend) (h : p.compile b dims = .ok (p1, b1)) :
    launches b1.events = launches b.events := by
  unfold BaseParallelPattern.compile at h
  split at h
  · cases h; rfl
  · split at h
    · cases h
    · simp only at h
      split at h
      · cases h
      · split at h
        · cases h
        · rename_i src p4 b4 hgen
          split at h
          · have hr := (Prod.mk.inj (Except.ok.inj h)).2
            obtain ⟨n, hn⟩ := generateKernelSource_events _ _ _ _ hgen
            simp only at hn
            rw [← hr]
            show launches (b4.events ++ _) = _
            rw [hn, getKernelName_events]
            simp [launches, List.filter_append, Event.isRunAsync]
          · cases h


theorem Kernel_getNumBlocksAndThreadsFor_error (b : Backend) (k : KernelHandle)
    (dims : Dimensions) (e : String) (h : Kernel.getNumBlocksAndThreadsFor b k dims = .error e) :
    firstChar e = some '3' ∧ dims.y.toBool = true :=
  getNumBlocksAndThreads_error _ _ _ _ _ h

theorem Kernel_runAsync_error (b : Backend) (k : KernelHandle) (dims : Dimensions)
    (args : List KernelArg) (e : String) (h : Kernel.runAsync b k dims args = .error e) :
    firstChar e ∈ otherInitials := by
  unfold Kernel.runAsync at h
  split at h
  · rw [← Except.error.inj h]
    decide
  · split at h
    · rename_i he
      rw [← Except.error.inj h, (Kernel_getNumBlocksAndThreadsFor_error _ _ _ _ he).1]
      decide
    · cases h

theorem Kernel_runAsync_events (b : Backend) (k : KernelHandle) (dims : Dimensions)
    (args : List KernelArg) (b1 : Backend) (h : Kernel.runAsync b k dims args = .ok b1) :
    launches b1.events = launches b.events + 1 := by
  unfold Kernel.runAsync at h
  split at h
  · cases h
  · split at h
    · cases h
    · rw [← Except.ok.inj h]
      simp [launches, List.filter_append, Event.isRunAsync]

theorem callbackBeforeAllocatingMemoryOnGpu_error (p : BaseParallelPattern) (b : Backend)
    (dims : Dimensions) (k : KernelHandle) (e : String)
    (h : p.callbackBeforeAllocatingMemoryOnGpu b dims k = .error e) :
    firstChar e ∈ otherInitials := by
  unfold BaseParallelPattern.callbackBeforeAllocatingMemoryOnGpu at h
  split at h
  · cases h
  · simp only at h
    split at h
    · split at h
      · rename_i he
        rw [← Except.error.inj h, (Kernel_getNumBlocksAndThreadsFor_error _ _ _ _ he).1]
        decide
      · split at h
        · rename_i he
          rw [← Except.error.inj h, getOutputParameter_error _ _ _ he]
          decide
        · unfold BaseParallelPattern.setPointerParameter at h
          simp only [reduceCtorEq, if_false] at h
    · cases h

theorem PointerParameter_malloc_ok (param : BaseParameter) (batchSize : Nat) :
    ∃ m, PointerParameter.malloc param batchSize = .ok { param with memoryObject := some m } := by
  cases hb : param.isBatched
  · obtain ⟨m, hm, -⟩ := malloc_single_flags param batchSize hb
    exact ⟨m, hm⟩
  · obtain ⟨m, hm, -⟩ := malloc_batched_flags param batchSize hb
    exact ⟨m, hm⟩

theorem ValueParameter_malloc_ok (param : BaseParameter) (batchSize : Nat) :
    ∃ m, ValueParameter.malloc param batchSize = .ok { param with memoryObject := m } := by
  unfold ValueParameter.malloc Device.malloc BaseMemoryObject.new
  cases hb : param.isBatched
  · exact ⟨param.memoryObject, rfl⟩
  · exact ⟨_, rfl⟩

/-- One round of the allocation loop: it ends the run exactly for a name without
parameter (null pointer) or an incomplete parameter (placeholder message); otherwise
it changes at most the memory object of that parameter and adds no launch. -/
theorem mallocParameter_cases (device : Nat) (p : BaseParallelPattern) (b : Backend)
    (n : String) :
    (p.getParameter n = none ∧
      BaseParallelPattern.mallocParameter device p b n = .error nullPointerDereference) ∨
    (∃ q, p.getParameter n = some q ∧ q.isComplete = false ∧
      BaseParallelPattern.mallocParameter device p b n
        = .error (BaseParallelPattern.placeholderMessage q.name)) ∨
    (∃ q m p1 b1, p.getParameter n = some q ∧ q.isComplete = true ∧
      BaseParallelPattern.mallocParameter device p b n = .ok (p1, b1) ∧
      p1 = { p with params := p1.params } ∧
      (∃ es, b1 = { b with events := b.events ++ es } ∧
        ∀ e ∈ es, (∃ d m1, e = Event.malloc d n m1) ∨ e = Event.pinHostMemory n) ∧
      ∀ k, p1.getParameter k
        = if k = n then some { q with memoryObject := m } else p.getParameter k) := by
  unfold BaseParallelPattern.mallocParameter
  cases hq : p.getParameter n with
  | none => exact Or.inl ⟨rfl, rfl⟩
  | some q =>
    right
    cases hc : q.isComplete
    · exact Or.inl ⟨q, rfl, hc, by simp [hc]⟩
    · right
      simp only [hc, Bool.not_true, Bool.false_eq_true, if_false]
      cases hmo : q.getMemoryObject with
      | some mo =>
        refine ⟨q, q.memoryObject, p, b, rfl, hc, ?_, rfl, ⟨[], by simp, by simp⟩, fun k => ?_⟩
        · cases q.paramValueType <;> rfl
        · by_cases hk : k = n
          · subst hk
            simp [hq]
          · simp [hk]
      | none =>
        cases ht : q.paramValueType with
        | GSPAR_PARAM_POINTER =>
          obtain ⟨m, hm⟩ := PointerParameter_malloc_ok q p.batchSize
          simp only [hm]
          refine ⟨q, (if (q.direction == .GSPAR_PARAM_INOUT || q.direction == .GSPAR_PARAM_OUT)
            then Option.map MemoryObject.pinHostMemory (some m) else some m), _, _, rfl, hc, rfl,
            rfl, ⟨_, by rw [List.append_assoc], ?_⟩, fun k => ?_⟩
          · intro e he
            simp only [List.mem_append, List.mem_singleton] at he
            rcases he with he | he
            · exact Or.inl ⟨_, _, he⟩
            · split at he
              · exact Or.inr (List.mem_singleton.mp he)
              · cases he
          · show ((mapAssign p.params n _).find? _).map _ = _
            rw [find_mapAssign]
            by_cases hk : k = n
            · simp only [hk, if_true]
              split <;> rfl
            · simp only [hk, if_false]
              rfl
        | GSPAR_PARAM_VALUE =>
          obtain ⟨m, hm⟩ := ValueParameter_malloc_ok q p.batchSize
          simp only [hm]
          refine ⟨q, m, _, _, rfl, hc, rfl, rfl, ⟨_, rfl, ?_⟩, fun k => ?_⟩
          · intro e he
            split at he
            · exact Or.inl ⟨_, _, List.mem_singleton.mp he⟩
            · cases he
          · show ((mapAssign p.params n _).find? _).map _ = _
            rw [find_mapAssign]
            by_cases hk : k = n
            · simp only [hk, if_true]
            · simp only [hk, if_false]
              rfl


theorem placeholder_ne_null (name : String) :
    BaseParallelPattern.placeholderMessage name ≠ nullPointerDereference := by
  intro h
  have h1 := congrArg firstChar h
  rw [firstChar_placeholderMessage] at h1
  exact absurd h1 (by decide)

theorem getParameter_frame_refl (p : BaseParallelPattern) (k : String) :
    ∃ m, p.getParameter k = (p.getParameter k).map fun q => { q with memoryObject := m } := by
  cases h : p.getParameter k with
  | none => exact ⟨none, rfl⟩
  | some q => exact ⟨q.memoryObject, rfl⟩

/-- The allocation loop writes only the parameter map, changing at most the memory
objects of the parameters, and its calls are allocations and pinnings.  It ends with
the null-pointer mark, with the placeholder message of an incomplete parameter, or
without exception. -/
theorem mallocLoop_frame (device : Nat) (names : List String) (p : BaseParallelPattern)
    (b : Backend) :
    (∃ es, (BaseParallelPattern.mallocLoop device names p b).backend
        = { b with events := b.events ++ es } ∧
      ∀ e ∈ es, (∃ d n m, e = Event.malloc d n m) ∨ ∃ n, e = Event.pinHostMemory n) ∧
    (BaseParallelPattern.mallocLoop device names p b).pattern
      = { p with params := (BaseParallelPattern.mallocLoop device names p b).pattern.params } ∧
    (∀ k, ∃ m, (BaseParallelPattern.mallocLoop device names p b).pattern.getParameter k
      = (p.getParameter k).map fun q => { q with memoryObject := m }) ∧
    ((BaseParallelPattern.mallocLoop device names p b).exception = none ∨
      (BaseParallelPattern.mallocLoop device names p b).exception
        = some nullPointerDereference ∨
      ∃ k q, k ∈ names ∧ p.getParameter k = some q ∧ q.isComplete = false ∧
        (BaseParallelPattern.mallocLoop device names p b).exception
          = some (BaseParallelPattern.placeholderMessage q.name)) := by
  induction names generalizing p b with
  | nil =>
    exact ⟨⟨[], by simp [BaseParallelPattern.mallocLoop], by simp⟩, rfl,
      fun k => getParameter_frame_refl p k, Or.inl rfl⟩
  | cons n rest ih =>
    unfold BaseParallelPattern.mallocLoop
    rcases mallocParameter_cases device p b n with ⟨_, h⟩ | ⟨q, hq, hc, h⟩ |
      ⟨q, m, p1, b1, hq, hc, h, hp1, ⟨es1, hes1, hall1⟩, hg⟩
    · rw [h]
      exact ⟨⟨[], by simp, by simp⟩, rfl, fun k => getParameter_frame_refl p k,
        Or.inr (Or.inl rfl)⟩
    · rw [h]
      exact ⟨⟨[], by simp, by simp⟩, rfl, fun k => getParameter_frame_refl p k,
        Or.inr (Or.inr ⟨n, q, List.mem_cons_self _ _, hq, hc, rfl⟩)⟩
    · rw [h]
      obtain ⟨⟨es, hes, hall⟩, i2, i4, i5⟩ := ih p1 b1
      refine ⟨⟨es1 ++ es, ?_, ?_⟩, ?_, fun k => ?_, ?_⟩
      · show (BaseParallelPattern.mallocLoop device rest p1 b1).backend = _
        rw [hes, hes1]
        simp [List.append_assoc]
      · intro e he
        rcases List.mem_append.mp he with h1 | h1
        · rcases hall1 e h1 with ⟨d, m1, h2⟩ | h2
          · exact Or.inl ⟨d, n, m1, h2⟩
          · exact Or.inr ⟨n, h2⟩
        · exact hall e h1
      · show (BaseParallelPattern.mallocLoop device rest p1 b1).pattern = _
        rw [i2, hp1]
      · obtain ⟨m1, hm1⟩ := i4 k
        change ∃ m, (BaseParallelPattern.mallocLoop device rest p1 b1).pattern.getParameter k = _
        rw [hm1, hg k]
        by_cases hk : k = n
        · subst hk
          rw [if_pos rfl, hq]
          exact ⟨m1, rfl⟩
        · rw [if_neg hk]
          exact ⟨m1, rfl⟩
      · rcases i5 with h5 | h5 | ⟨k, q1, hk, hq1, hc1, h5⟩
        · exact Or.inl h5
        · exact Or.inr (Or.inl h5)
        · right; right
          rw [hg k] at hq1
          by_cases hkn : k = n
          · rw [if_pos hkn] at hq1
            have := Option.some.inj hq1
            rw [← this] at hc1
            exact absurd hc (by simpa [BaseParameter.isComplete] using hc1)
          · rw [if_neg hkn] at hq1
            exact ⟨k, q1, List.mem_cons_of_mem _ hk, hq1, hc1, h5⟩

/-- With every name registered, the allocation loop ends with the placeholder message
exactly when some parameter is incomplete, and without exception otherwise. -/
theorem mallocLoop_placeholder (device : Nat) (names : List String) (p : BaseParallelPattern)
    (b : Backend) (hwf : ∀ k ∈ names, (p.getParameter k).isSome = true) :
    ((∃ k q, k ∈ names ∧ p.getParameter k = some q ∧ q.isComplete = false) →
      ∃ name, (BaseParallelPattern.mallocLoop device names p b).exception
        = some (BaseParallelPattern.placeholderMessage name)) ∧
    ((¬ ∃ k q, k ∈ names ∧ p.getParameter k = some q ∧ q.isComplete = false) →
      (BaseParallelPattern.mallocLoop device names p b).exception = none) := by
  induction names generalizing p b with
  | nil =>
    refine ⟨?_, fun _ => rfl⟩
    rintro ⟨k, q, hk, -⟩
    cases hk
  | cons n rest ih =>
    unfold BaseParallelPattern.mallocLoop
    rcases mallocParameter_cases device p b n with ⟨hn, _⟩ | ⟨q, hq, hc, h⟩ |
      ⟨q, m, p1, b1, hq, hc, h, -, -, hg⟩
    · have := hwf n (List.mem_cons_self _ _)
      rw [hn] at this
      cases this
    · rw [h]
      exact ⟨fun _ => ⟨q.name, rfl⟩, fun hno => absurd ⟨n, q, List.mem_cons_self _ _, hq, hc⟩ hno⟩
    · rw [h]
      have hwf1 : ∀ k ∈ rest, (p1.getParameter k).isSome = true := by
        intro k hk
        rw [hg k]
        by_cases hkn : k = n
        · rw [if_pos hkn]; rfl
        · rw [if_neg hkn]
          exact hwf k (List.mem_cons_of_mem _ hk)
      obtain ⟨ih1, ih2⟩ := ih p1 b1 hwf1
      have key : (∃ k q, k ∈ n :: rest ∧ p.getParameter k = some q ∧ q.isComplete = false) ↔
          ∃ k q, k ∈ rest ∧ p1.getParameter k = some q ∧ q.isComplete = false := by
        constructor
        · rintro ⟨k, q1, hk, hq1, hc1⟩
          have hkn : k ≠ n := by
            rintro rfl
            rw [hq] at hq1
            rw [Option.some.inj hq1] at hc
            rw [hc] at hc1
            cases hc1
          refine ⟨k, q1, ?_, ?_, hc1⟩
          · rcases List.mem_cons.mp hk with h1 | h1
            · exact absurd h1 hkn
            · exact h1
          · rw [hg k, if_neg hkn]
            exact hq1
        · rintro ⟨k, q1, hk, hq1, hc1⟩
          rw [hg k] at hq1
          by_cases hkn : k = n
          · rw [if_pos hkn] at hq1
            rw [← Option.some.inj hq1] at hc1
            exact absurd hc (by simpa [BaseParameter.isComplete] using hc1)
          · rw [if_neg hkn] at hq1
            exact ⟨k, q1, List.mem_cons_of_mem _ hk, hq1, hc1⟩
      exact ⟨fun hex => ih1 (key.mp hex), fun hno => ih2 (fun hex => hno (key.mpr hex))⟩


theorem getGpu_getParameter (p : BaseParallelPattern) (b : Backend) (k : String) :
    (p.getGpu b).2.getParameter k = p.getParameter k := by
  rw [getGpu_frame]
  rfl

theorem getGpu_paramsOrder (p : BaseParallelPattern) (b : Backend) :
    (p.getGpu b).2.paramsOrder = p.paramsOrder := by
  rw [getGpu_frame]

theorem device_frame (p q : BaseParallelPattern)
    (h : q = { p with gpuDevice := q.gpuDevice, executionFlow := q.executionFlow }) :
    q = { p with params := q.params, gpuDevice := q.gpuDevice,
                 executionFlow := q.executionFlow } := by
  have hpar : q.params = p.params := by rw [h]
  rw [hpar]
  exact h

/-- Source-level summary of `mallocParametersInGpu`: its calls are allocations and
pinnings, it writes only the parameter map (memory objects) and the device members,
and it ends without exception, with the no-GPU message, with the null-pointer mark, or
with the placeholder message of an incomplete registered parameter. -/
theorem mallocParametersInGpu_frame (p : BaseParallelPattern) (b : Backend) :
    (∃ es, (p.mallocParametersInGpu b).backend = { b with events := b.events ++ es } ∧
      ∀ e ∈ es, (∃ d n m, e = Event.malloc d n m) ∨ ∃ n, e = Event.pinHostMemory n) ∧
    (p.mallocParametersInGpu b).pattern
      = { p with params := (p.mallocParametersInGpu b).pattern.params,
                 gpuDevice := (p.mallocParametersInGpu b).pattern.gpuDevice,
                 executionFlow := (p.mallocParametersInGpu b).pattern.executionFlow } ∧
    (∀ k, ∃ m, (p.mallocParametersInGpu b).pattern.getParameter k
      = (p.getParameter k).map fun q => { q with memoryObject := m }) ∧
    ((p.mallocParametersInGpu b).exception = none ∨
      (p.mallocParametersInGpu b).exception
        = some "No GPU found to allocate memory for parameters for Pattern" ∨
      (p.mallocParametersInGpu b).exception = some nullPointerDereference ∨
      ∃ k q, k ∈ p.paramsOrder ∧ p.getParameter k = some q ∧ q.isComplete = false ∧
        (p.mallocParametersInGpu b).exception
          = some (BaseParallelPattern.placeholderMessage q.name)) := by
  unfold BaseParallelPattern.mallocParametersInGpu
  split
  · rename_i p1 hg
    have hp1 : p1 = (p.getGpu b).2 := by rw [hg]
    subst hp1
    refine ⟨⟨[], by simp, by simp⟩, device_frame p _ (getGpu_frame p b), fun k => ?_,
      Or.inr (Or.inl rfl)⟩
    change ∃ m, (p.getGpu b).2.getParameter k = _
    rw [getGpu_getParameter]
    exact getParameter_frame_refl p k
  · rename_i device p1 hg
    have hp1 : p1 = (p.getGpu b).2 := by rw [hg]
    subst hp1
    obtain ⟨h1, h2, h3, h4⟩ := mallocLoop_frame device (p.getGpu b).2.paramsOrder (p.getGpu b).2 b
    refine ⟨h1, ?_, fun k => ?_, ?_⟩
    · generalize BaseParallelPattern.mallocLoop device (p.getGpu b).2.paramsOrder
        (p.getGpu b).2 b = r at h2 ⊢
      rw [h2, getGpu_frame]
    · obtain ⟨m, hm⟩ := h3 k
      rw [getGpu_getParameter] at hm
      exact ⟨m, hm⟩
    · rcases h4 with h | h | ⟨k, q, hk, hq, hc, h⟩
      · exact Or.inl h
      · exact Or.inr (Or.inr (Or.inl h))
      · rw [getGpu_paramsOrder] at hk
        rw [getGpu_getParameter] at hq
        exact Or.inr (Or.inr (Or.inr ⟨k, q, hk, hq, hc, h⟩))

/-- With a device available and every name registered, `mallocParametersInGpu` ends
with the placeholder message exactly when a registered parameter is incomplete. -/
theorem mallocParametersInGpu_placeholder (p : BaseParallelPattern) (b : Backend)
    (hdev : (p.getGpu b).1.isSome = true)
    (hwf : ∀ k ∈ p.paramsOrder, (p.getParameter k).isSome = true) :
    ((∃ k q, k ∈ p.paramsOrder ∧ p.getParameter k = some q ∧ q.isComplete = false) →
      ∃ name, (p.mallocParametersInGpu b).exception
        = some (BaseParallelPattern.placeholderMessage name)) ∧
    ((¬ ∃ k q, k ∈ p.paramsOrder ∧ p.getParameter k = some q ∧ q.isComplete = false) →
      (p.mallocParametersInGpu b).exception = none) := by
  unfold BaseParallelPattern.mallocParametersInGpu
  split
  · rename_i p1 hg
    rw [hg] at hdev
    cases hdev
  · rename_i device p1 hg
    have hp1 : p1 = (p.getGpu b).2 := by rw [hg]
    have hwf1 : ∀ k ∈ p1.paramsOrder, (p1.getParameter k).isSome = true := by
      intro k hk
      rw [hp1, getGpu_paramsOrder] at hk
      rw [hp1, getGpu_getParameter]
      exact hwf k hk
    obtain ⟨h1, h2⟩ := mallocLoop_placeholder device p1.paramsOrder p1 b hwf1
    have key : (∃ k q, k ∈ p.paramsOrder ∧ p.getParameter k = some q ∧ q.isComplete = false) ↔
        ∃ k q, k ∈ p1.paramsOrder ∧ p1.getParameter k = some q ∧ q.isComplete = false := by
      rw [hp1]
      simp only [getGpu_paramsOrder, getGpu_getParameter]
    exact ⟨fun h => h1 (key.mp h), fun h => h2 (fun h3 => h (key.mpr h3))⟩


theorem forEachParameter_error (f : String → Except String (List Event)) (names : List String)
    (e : String) (hf : ∀ n e1, f n = .error e1 → e1 = nullPointerDereference)
    (h : BaseParallelPattern.forEachParameter f names = .error e) :
    e = nullPointerDereference := by
  induction names generalizing e with
  | nil => cases h
  | cons n rest ih =>
    unfold BaseParallelPattern.forEachParameter at h
    split at h
    · rename_i e1 he
      rw [← Except.error.inj h]
      exact hf n e1 he
    · split at h
      · rename_i e1 he
        rw [← Except.error.inj h]
        exact ih e1 he
      · cases h

theorem copyParameterIn_error (p : BaseParallelPattern) (n e : String)
    (h : p.copyParameterIn n = .error e) : e = nullPointerDereference := by
  unfold BaseParallelPattern.copyParameterIn at h
  repeat' split at h
  all_goals first
    | exact (Except.error.inj h).symm
    | cases h

theorem copyParameterOut_error (p : BaseParallelPattern) (n e : String)
    (h : p.copyParameterOut n = .error e) : e = nullPointerDereference := by
  unfold BaseParallelPattern.copyParameterOut at h
  repeat' split at h
  all_goals first
    | exact (Except.error.inj h).symm
    | cases h

theorem copyParametersFromHostToGpuAsync_error (p : BaseParallelPattern) (e : String)
    (h : p.copyParametersFromHostToGpuAsync = .error e) : e = nullPointerDereference :=
  forEachParameter_error _ _ _ (copyParameterIn_error p) h

theorem copyParametersFromGpuToHostAsync_error (p : BaseParallelPattern) (e : String)
    (h : p.copyParametersFromGpuToHostAsync = .error e) : e = nullPointerDereference :=
  forEachParameter_error _ _ _ (copyParameterOut_error p) h

theorem bindParameters_error (p : BaseParallelPattern) (dims : Dimensions) (e : String)
    (h : p.bindParameters dims = .error e) : e = nullPointerDereference := by
  unfold BaseParallelPattern.bindParameters at h
  repeat' split at h
  all_goals first
    | exact (Except.error.inj h).symm
    | cases h

theorem bindLoopParameters_error (p : BaseParallelPattern) (dims : Dimensions)
    (m : Option MemoryObject) (e : String)
    (h : Reduce.bindLoopParameters p dims m = .error e) : e = nullPointerDereference := by
  unfold Reduce.bindLoopParameters at h
  simp only at h
  repeat' split at h
  all_goals first
    | exact (Except.error.inj h).symm
    | cases h

theorem generateSharedMemoryParameter_error (p : BaseParallelPattern) (b : Backend)
    (dims : Dimensions) (k : KernelHandle) (e : String)
    (h : p.generateSharedMemoryParameter b dims k = .error e) :
    firstChar e ∈ otherInitials ∨
      (e = "Reduce pattern currently does not support multi-dimensional kernels" ∧
        (dims.y.toBool || dims.z.toBool) = true) := by
  unfold BaseParallelPattern.generateSharedMemoryParameter at h
  simp only at h
  repeat' split at h
  all_goals first
    | exact Except.noConfusion h
    | (rename_i hc
       exact Or.inr ⟨(Except.error.inj h).symm, hc⟩)
    | (rename_i he
       rw [← Except.error.inj h, getSharedMemoryParameter_error _ _ _ he]
       exact Or.inl (by decide))
    | (rename_i he
       rw [← Except.error.inj h, (Kernel_getNumBlocksAndThreadsFor_error _ _ _ _ he).1]
       exact Or.inl (by decide))
    | (rename_i he
       rw [← Except.error.inj h, getOutputParameter_error _ _ _ he]
       exact Or.inl (by decide))
    | (rw [← Except.error.inj h]
       exact Or.inl (by decide))

theorem setSharedMemoryInKernel_error (p : BaseParallelPattern) (b : Backend)
    (dims : Dimensions) (k : KernelHandle) (e : String)
    (h : p.setSharedMemoryInKernel b dims k = .error e) :
    firstChar e ∈ otherInitials ∨
      (e = "Reduce pattern currently does not support multi-dimensional kernels" ∧
        (dims.y.toBool || dims.z.toBool) = true) := by
  unfold BaseParallelPattern.setSharedMemoryInKernel at h
  split at h
  · cases h
  · split at h
    · rename_i he
      rw [← Except.error.inj h]
      exact generateSharedMemoryParameter_error _ _ _ _ _ he
    · rw [← Except.error.inj h]
      exact Or.inl (by decide)
    · cases h


/-! ### The registry invariant along a run -/

theorem setParameter_registryComplete (p : BaseParallelPattern) (q : BaseParameter)
    (h : p.registryComplete) : (p.setParameter q).registryComplete := by
  intro k hk
  rw [getParameter_setParameter]
  by_cases hkq : k = q.name
  · rw [if_pos hkq]; rfl
  · rw [if_neg hkq]
    rw [setParameter_paramsOrder] at hk
    by_cases hq : q.name ∈ p.paramsOrder
    · rw [if_pos hq] at hk
      exact h k hk
    · rw [if_neg hq] at hk
      rcases List.mem_append.mp hk with h1 | h1
      · exact h k h1
      · exact absurd (List.mem_singleton.mp h1) hkq

theorem registryComplete_of_same (p q : BaseParallelPattern) (h1 : q.params = p.params)
    (h2 : q.paramsOrder = p.paramsOrder) (h : p.registryComplete) : q.registryComplete := by
  intro k hk
  rw [h2] at hk
  have := h k hk
  unfold BaseParallelPattern.getParameter at this ⊢
  rw [h1]
  exact this

theorem initial_registryComplete (p : BaseParallelPattern) (h : p.paramsOrder = []) :
    p.registryComplete := by
  intro k hk
  rw [h] at hk
  cases hk

theorem getSharedMemoryParameter_registry (p : BaseParallelPattern) (b : Backend)
    (r : Option BaseParameter × BaseParallelPattern × Backend)
    (h : p.getSharedMemoryParameter b = .ok r) :
    r.2.1.params = p.params ∧ r.2.1.paramsOrder = p.paramsOrder := by
  unfold BaseParallelPattern.getSharedMemoryParameter at h
  repeat' split at h
  all_goals first
    | exact Except.noConfusion h
    | (rw [← Except.ok.inj h]
       exact ⟨rfl, rfl⟩)

theorem getKernelCore_registry (p : BaseParallelPattern) (b : Backend) (dims : Dimensions)
    (names : String × String × String) (r : String × BaseParallelPattern × Backend)
    (h : p.getKernelCore b dims names = .ok r) :
    r.2.1.params = p.params ∧ r.2.1.paramsOrder = p.paramsOrder := by
  unfold BaseParallelPattern.getKernelCore at h
  split at h
  · rw [← Except.ok.inj h]
    exact ⟨rfl, rfl⟩
  · split at h
    · cases h
    · split at h
      · cases h
      · split at h
        · cases h
        · rename_i hs
          rw [← Except.ok.inj h]
          exact getSharedMemoryParameter_registry _ _ _ hs

theorem getKernelName_registry (p : BaseParallelPattern) (b : Backend) :
    (p.getKernelName b).2.1.params = p.params ∧
    (p.getKernelName b).2.1.paramsOrder = p.paramsOrder := by
  rw [getKernelName_frame]
  exact ⟨rfl, rfl⟩

theorem generateKernelSource_registry (p : BaseParallelPattern) (b : Backend) (dims : Dimensions)
    (r : String × BaseParallelPattern × Backend)
    (h : p.generateKernelSource b dims = .ok r) :
    r.2.1.params = p.params ∧ r.2.1.paramsOrder = p.paramsOrder := by
  unfold BaseParallelPattern.generateKernelSource at h
  simp only at h
  split at h
  · cases h
  · rename_i hk
    have hr := Except.ok.inj h
    rw [← hr]
    have h1 := getKernelCore_registry _ _ _ _ _ hk
    have h2 := getKernelName_registry p b
    simp only at h1
    exact ⟨h1.1.trans h2.1, h1.2.trans h2.2⟩

theorem callbackBeforeGeneratingKernelSource_registryComplete (p p1 : BaseParallelPattern)
    (h : p.callbackBeforeGeneratingKernelSource = .ok p1) (hw : p.registryComplete) :
    p1.registryComplete := by
  unfold BaseParallelPattern.callbackBeforeGeneratingKernelSource at h
  split at h
  · rw [← Except.ok.inj h]; exact hw
  · split at h
    · rw [← Except.ok.inj h]; exact hw
    · split at h
      · cases h
      · unfold BaseParallelPattern.setPointerParameter at h
        simp only [reduceCtorEq, if_false, Except.ok.injEq] at h
        rw [← h]
        exact setParameter_registryComplete _ _ hw

theorem compile_registryComplete (p : BaseParallelPattern) (b : Backend) (dims : Dimensions)
    (p1 : BaseParallelPattern) (b1 : Backend) (h : p.compile b dims = .ok (p1, b1))
    (hw : p.registryComplete) : p1.registryComplete := by
  unfold BaseParallelPattern.compile at h
  split at h
  · rw [← (Prod.mk.inj (Except.ok.inj h)).1]; exact hw
  · split at h
    · cases h
    · rename_i gpu pg hg
      have hpg : pg = (p.getGpu b).2 := by rw [hg]
      simp only at h
      split at h
      · cases h
      · rename_i p3 hcb
        split at h
        · cases h
        · rename_i src p4 b4 hgen
          split at h
          · rw [← (Prod.mk.inj (Except.ok.inj h)).1]
            have h4 := generateKernelSource_registry _ _ _ _ hgen
            simp only at h4
            have hw1 : pg.registryComplete :=
              registryComplete_of_same p pg (by rw [hpg, getGpu_frame]) (by rw [hpg, getGpu_frame]) hw
            have hw2 : (pg.getKernelName b).2.1.registryComplete :=
              registryComplete_of_same _ _ (getKernelName_registry pg b).1
                (getKernelName_registry pg b).2 hw1
            have hw3 := callbackBeforeGeneratingKernelSource_registryComplete _ _ hcb hw2
            exact registryComplete_of_same p3 _ h4.1 h4.2 hw3
          · cases h

theorem callbackBeforeAllocatingMemoryOnGpu_registryComplete (p : BaseParallelPattern)
    (b : Backend) (dims : Dimensions) (k : KernelHandle) (p1 : BaseParallelPattern)
    (h : p.callbackBeforeAllocatingMemoryOnGpu b dims k = .ok p1) (hw : p.registryComplete) :
    p1.registryComplete := by
  unfold BaseParallelPattern.callbackBeforeAllocatingMemoryOnGpu at h
  split at h
  · rw [← Except.ok.inj h]; exact hw
  · simp only at h
    split at h
    · split at h
      · cases h
      · split at h
        · cases h
        · unfold BaseParallelPattern.setPointerParameter at h
          simp only [reduceCtorEq, if_false, Except.ok.injEq] at h
          rw [← h]
          exact setParameter_registryComplete _ _ hw
    · rw [← Except.ok.inj h]; exact hw


/-! ### Reduce and multi-dimensional requests -/

theorem firstChar_append_of (a b : String) (c : Char) (h : firstChar a = some c) :
    firstChar (a ++ b) = some c := by
  rw [firstChar_append, h]

theorem other_ne_multiDimensional (e : String) (h : firstChar e ∈ otherInitials) :
    e ≠ "Reduce pattern currently does not support multi-dimensional kernels" := by
  rintro rfl
  revert h
  decide

theorem mallocParametersInGpu_not_multiDimensional (p : BaseParallelPattern) (b : Backend)
    (e : String) (h : (p.mallocParametersInGpu b).exception = some e) :
    firstChar e ∈ otherInitials ∨ firstChar e = some 'P' := by
  rcases (mallocParametersInGpu_frame p b).2.2.2 with h1 | h1 | h1 | ⟨k, q, -, -, -, h1⟩
  · rw [h1] at h; cases h
  · rw [h1] at h
    rw [← Option.some.inj h]
    exact Or.inl (by decide)
  · rw [h1] at h
    rw [← Option.some.inj h]
    exact Or.inl (by decide)
  · rw [h1] at h
    rw [← Option.some.inj h]
    exact Or.inr (firstChar_placeholderMessage _)

/-- The rounds of the host loop never end with the multi-dimensional message when the
extent they start from has no Y and no Z axis. -/
theorem hostLoopCalls_exception (fuel : Nat) (p : BaseParallelPattern) (b : Backend)
    (dims : Dimensions) (m : Option MemoryObject) (r : RunResult) (e : String)
    (hyz : (dims.y.toBool || dims.z.toBool) = false)
    (h : Reduce.hostLoopCalls fuel p b dims m = some r) (he : r.exception = some e) :
    firstChar e ∈ otherInitials := by
  induction fuel generalizing p b dims m with
  | zero => cases h
  | succ fuel ih =>
    unfold Reduce.hostLoopCalls at h
    split at h
    · rw [← Option.some.inj h] at he
      rw [← Option.some.inj he]
      decide
    · split at h
      · rename_i hb
        rw [← Option.some.inj h] at he
        rw [← Option.some.inj he, (Kernel_getNumBlocksAndThreadsFor_error _ _ _ _ hb).1]
        decide
      · split at h
        · rename_i hs
          rw [← Option.some.inj h] at he
          rw [← Option.some.inj he]
          rcases setSharedMemoryInKernel_error _ _ _ _ _ hs with h1 | ⟨-, h1⟩
          · exact h1
          · rw [hyz] at h1; cases h1
        · split at h
          · rename_i hbind
            rw [← Option.some.inj h] at he
            rw [← Option.some.inj he, bindLoopParameters_error _ _ _ _ hbind]
            decide
          · split at h
            · rw [← Option.some.inj h] at he
              rw [← Option.some.inj he]
              decide
            · split at h
              · rename_i hrun
                rw [← Option.some.inj h] at he
                rw [← Option.some.inj he]
                exact Kernel_runAsync_error _ _ _ _ _ hrun
              · simp only at h
                split at h
                · rw [← Option.some.inj h] at he
                  cases he
                · refine ih _ _ _ _ ?_ h
                  rfl

theorem copyResult_exception (p : BaseParallelPattern) (b : Backend) (e : String)
    (h : (Reduce.copyResult p b).exception = some e) : firstChar e ∈ otherInitials := by
  unfold Reduce.copyResult at h
  split at h
  · rename_i ho
    rw [← Option.some.inj h, getOutputParameter_error _ _ _ ho]
    decide
  · split at h
    · rw [← Option.some.inj h]; decide
    · split at h
      · rw [← Option.some.inj h]; decide
      · simp only at h
        split at h
        · rw [← Option.some.inj h]; decide
        · split at h
          · rename_i hc
            rw [← Option.some.inj h, copyParametersFromGpuToHostAsync_error _ _ hc]
            decide
          · cases h

theorem Reduce_runFromAllocation_exception (fuel : Nat) (p : BaseParallelPattern) (b : Backend)
    (dims : Dimensions) (r : RunResult) (e : String)
    (hyz : (dims.y.toBool || dims.z.toBool) = false)
    (h : Reduce.runFromAllocation fuel p b dims = some r) (he : r.exception = some e) :
    (firstChar e ∈ otherInitials ∧ ¬ (p.mallocParametersInGpu b).exception = some e) ∨
      (p.mallocParametersInGpu b).exception = some e := by
  unfold Reduce.runFromAllocation at h
  simp only at h
  split at h
  · rw [← Option.some.inj h] at he
    exact Or.inr he
  · rename_i hnone
    have hne : ¬ (p.mallocParametersInGpu b).exception = some e := by
      rw [hnone]; intro hh; cases hh
    refine Or.inl ⟨?_, hne⟩
    split at h
    · rename_i hc
      rw [← Option.some.inj h] at he
      rw [← Option.some.inj he, copyParametersFromHostToGpuAsync_error _ _ hc]
      decide
    · split at h
      · rw [← Option.some.inj h] at he
        rw [← Option.some.inj he, String.append_assoc,
          firstChar_append_of "Could not find input parameter with name '" _ 'C' rfl]
        decide
      · split at h
        · rw [← Option.some.inj h] at he
          rw [← Option.some.inj he, String.append_assoc,
            firstChar_append_of "Could not find partial totals parameter with name '" _ 'C' rfl]
          decide
        · split at h
          · cases h
          · rename_i r1 hloop
            split at h
            · rename_i e1 he1
              rw [← Option.some.inj h] at he
              rw [he1] at he
              exact hostLoopCalls_exception _ _ _ _ _ _ _ hyz hloop (he ▸ he1)
            · rw [← Option.some.inj h] at he
              exact copyResult_exception _ _ _ he


theorem Reduce_runUntilAllocation_error (p : BaseParallelPattern) (b : Backend)
    (dims : Dimensions) (r : RunResult) (h : Reduce.runUntilAllocation p b dims = .error r) :
    launches r.backend.events = launches b.events ∧
    ∃ e, r.exception = some e ∧
      (firstChar e ∈ otherInitials ∨
        (e = "Reduce pattern currently does not support multi-dimensional kernels" ∧
          (dims.y.toBool || dims.z.toBool) = true)) := by
  unfold Reduce.runUntilAllocation at h
  split at h
  · rename_i hc
    rw [← Except.error.inj h]
    exact ⟨rfl, _, rfl, Or.inr ⟨rfl, hc⟩⟩
  · split at h
    · rename_i e hce
      rw [← Except.error.inj h]
      exact ⟨rfl, e, rfl, compile_error _ _ _ _ hce⟩
    · rename_i p1 b1 hco
      have hl := compile_events _ _ _ _ _ hco
      split at h
      · rw [← Except.error.inj h]
        exact ⟨hl, _, rfl, Or.inl (by decide)⟩
      · split at h
        · rename_i e hcb
          rw [← Except.error.inj h]
          exact ⟨hl, e, rfl, Or.inl (callbackBeforeAllocatingMemoryOnGpu_error _ _ _ _ _ hcb)⟩
        · cases h

theorem Reduce_runUntilAllocation_ok (p : BaseParallelPattern) (b : Backend) (dims : Dimensions)
    (pa : BaseParallelPattern) (ba : Backend)
    (h : Reduce.runUntilAllocation p b dims = .ok (pa, ba)) :
    launches ba.events = launches b.events ∧ (dims.y.toBool || dims.z.toBool) = false ∧
    (p.registryComplete → pa.registryComplete) := by
  unfold Reduce.runUntilAllocation at h
  split at h
  · cases h
  · rename_i hyz
    split at h
    · cases h
    · rename_i p1 b1 hco
      split at h
      · cases h
      · split at h
        · cases h
        · rename_i p2 hcb
          have hr := Prod.mk.inj (Except.ok.inj h)
          rw [← hr.1, ← hr.2]
          refine ⟨compile_events _ _ _ _ _ hco, by simpa using hyz, fun hw => ?_⟩
          exact callbackBeforeAllocatingMemoryOnGpu_registryComplete _ _ _ _ _ hcb
            (compile_registryComplete _ _ _ _ _ hco hw)

/-- C20: for a `Dimensions` with an active Y or Z axis `Reduce::run` ends with the
multi-dimensional exception in its first statement - the pattern and the backend are
those of the call, so nothing was compiled, allocated or launched - and
`Reduce::getKernelCore` and `Reduce::generateSharedMemoryParameter` throw the same
exception.  With Y and Z unused, no run (whatever the number of rounds of the host
loop) ends with that exception, and neither of the two functions throws it. -/
theorem reduce_rejects_multi_dimensional (fuel : Nat) (p : BaseParallelPattern) (b : Backend)
    (dims : Dimensions) (names : String × String × String) (kernel : KernelHandle)
    (vectorName binaryOperation outputParameterName : String)
    (hk : p.kind = .reduce vectorName binaryOperation outputParameterName) :
    ((dims.y.toBool || dims.z.toBool) = true →
      Reduce.runCalls fuel p b dims
        = some { pattern := p, backend := b,
                 exception := some
                   "Reduce pattern currently does not support multi-dimensional kernels" } ∧
      p.getKernelCore b dims names
        = .error "Reduce pattern currently does not support multi-dimensional kernels" ∧
      p.generateSharedMemoryParameter b dims kernel
        = .error "Reduce pattern currently does not support multi-dimensional kernels") ∧
    ((dims.y.toBool || dims.z.toBool) = false →
      (∀ r, Reduce.runCalls fuel p b dims = some r → r.exception
        ≠ some "Reduce pattern currently does not support multi-dimensional kernels") ∧
      p.getKernelCore b dims names
        ≠ .error "Reduce pattern currently does not support multi-dimensional kernels" ∧
      p.generateSharedMemoryParameter b dims kernel
        ≠ .error "Reduce pattern currently does not support multi-dimensional kernels") := by
  constructor
  · intro hyz
    refine ⟨?_, ?_, ?_⟩
    · simp [Reduce.runCalls, Reduce.runUntilAllocation, hyz]
    · simp [BaseParallelPattern.getKernelCore, hk, hyz]
    · simp [BaseParallelPattern.generateSharedMemoryParameter, hk, hyz]
  · intro hyz
    refine ⟨fun r hr he => ?_, fun h => ?_, fun h => ?_⟩
    · unfold Reduce.runCalls at hr
      split at hr
      · rename_i r1 hu
        rw [← Option.some.inj hr] at he
        obtain ⟨-, e, he1, h1 | ⟨-, h1⟩⟩ := Reduce_runUntilAllocation_error _ _ _ _ hu
        · rw [he1] at he
          exact other_ne_multiDimensional e h1 (Option.some.inj he)
        · rw [hyz] at h1; cases h1
      · rename_i pa ba hu
        rcases Reduce_runFromAllocation_exception fuel pa ba dims r _ hyz hr he with
          ⟨h1, -⟩ | h1
        · exact other_ne_multiDimensional _ h1 rfl
        · rcases mallocParametersInGpu_not_multiDimensional _ _ _ h1 with h2 | h2
          · exact other_ne_multiDimensional _ h2 rfl
          · revert h2; decide
    · rcases getKernelCore_error _ _ _ _ _ h with h1 | ⟨-, h1⟩
      · revert h1; decide
      · rw [hyz] at h1; cases h1
    · rcases generateSharedMemoryParameter_error _ _ _ _ _ h with h1 | ⟨-, h1⟩
      · exact other_ne_multiDimensional _ h1 rfl
      · rw [hyz] at h1; cases h1

/-- The Reduce of `reduce_sample.cpp` asked to run over `Dimensions(100, 2, 0)`: the
run ends with the exception and has made no driver call. -/
theorem reduce_rejects_multi_dimensional_witness :
    (Reduce.runCalls 5 sampleReduce cudaBackend (Dimensions.ofMax 100 2 0)).map
        (fun r => (r.exception, r.backend.events))
      = some (some "Reduce pattern currently does not support multi-dimensional kernels", []) := by
  rw [((reduce_rejects_multi_dimensional 5 sampleReduce cudaBackend (Dimensions.ofMax 100 2 0)
    ("x", "y", "z") { device := 0, id := 0 } "in_vector" "+" "total" rfl).1 rfl).1]
  rfl


/-! ### The placeholder exception -/

theorem not_placeholder_of_other (e name : String)
    (h : firstChar e ∈ otherInitials ∨
      e = "Reduce pattern currently does not support multi-dimensional kernels") :
    e ≠ BaseParallelPattern.placeholderMessage name := by
  rintro rfl
  rw [firstChar_placeholderMessage] at h
  rcases h with h | h
  · revert h; decide
  · have := congrArg firstChar h
    rw [firstChar_placeholderMessage] at this
    revert this; decide

theorem runUntilAllocation_error (p : BaseParallelPattern) (b : Backend) (pDims : Dimensions)
    (u : Bool) (r : RunResult) (h : p.runUntilAllocation b pDims u = .error r) :
    launches r.backend.events = launches b.events ∧
    ∃ e, r.exception = some e ∧
      (firstChar e ∈ otherInitials ∨
        e = "Reduce pattern currently does not support multi-dimensional kernels") := by
  unfold BaseParallelPattern.runUntilAllocation at h
  simp only at h
  generalize (if u = true then p.compiledKernelDimension else pDims) = du0 at h
  split at h
  · rw [← Except.error.inj h]
    exact ⟨rfl, _, rfl, Or.inl (by decide)⟩
  · split at h
    · rename_i e hce
      rw [← Except.error.inj h]
      refine ⟨rfl, e, rfl, ?_⟩
      rcases compile_error _ _ _ _ hce with h1 | ⟨h1, -⟩
      · exact Or.inl h1
      · exact Or.inr h1
    · rename_i p1 b1 hco
      have hl := compile_events _ _ _ _ _ hco
      split at h
      · rw [← Except.error.inj h]
        exact ⟨hl, _, rfl, Or.inl (by decide)⟩
      · split at h
        · rename_i e hcb
          rw [← Except.error.inj h]
          exact ⟨hl, e, rfl, Or.inl (callbackBeforeAllocatingMemoryOnGpu_error _ _ _ _ _ hcb)⟩
        · cases h

theorem runUntilAllocation_ok (p : BaseParallelPattern) (b : Backend) (pDims : Dimensions)
    (u : Bool) (pa : BaseParallelPattern) (ba : Backend) (du dr : Dimensions)
    (h : p.runUntilAllocation b pDims u = .ok (pa, ba, du, dr)) :
    launches ba.events = launches b.events ∧ (p.registryComplete → pa.registryComplete) ∧
    (p.kind = .map → pa.params = p.params ∧ pa.paramsOrder = p.paramsOrder ∧
      pa.batchSize = p.batchSize ∧ pa.kind = .map ∧
      du = (if u then p.compiledKernelDimension else pDims) ∧
      dr = (if p.isBatched then du.mulAssign p.batchSize else du)) := by
  unfold BaseParallelPattern.runUntilAllocation at h
  simp only at h
  generalize hdu0 : (if u = true then p.compiledKernelDimension else pDims) = du0 at h
  split at h
  · cases h
  · split at h
    · cases h
    · rename_i p1 b1 hco
      split at h
      · cases h
      · rename_i kernel hker
        split at h
        · cases h
        · rename_i p3 hcb
          have hr := Prod.mk.inj (Except.ok.inj h)
          have hr2 := Prod.mk.inj hr.2
          have hr3 := Prod.mk.inj hr2.2
          rw [← hr.1, ← hr2.1]
          refine ⟨compile_events _ _ _ _ _ hco, fun hw => ?_, fun hk => ?_⟩
          · refine callbackBeforeAllocatingMemoryOnGpu_registryComplete _ _ _ _ _ hcb ?_
            exact registryComplete_of_same p1 _ rfl rfl (compile_registryComplete _ _ _ _ _ hco hw)
          · have hf := compile_map_frame _ _ _ _ _ hk hco
            have hk1 : p1.kind = .map := by rw [compile_kind _ _ _ _ _ hco, hk]
            simp only [BaseParallelPattern.callbackBeforeAllocatingMemoryOnGpu, hk1] at hcb
            rw [← Except.ok.inj hcb]
            refine ⟨?_, ?_, ?_, rfl, by rw [← hr3.1, ← hdu0], ?_⟩
            · show p1.params = p.params
              rw [hf]
            · show p1.paramsOrder = p.paramsOrder
              rw [hf]
            · show p1.batchSize = p.batchSize
              rw [hf]
            · rw [← hr3.2, ← hr3.1]

theorem runFromAllocation_of_malloc_exception (p : BaseParallelPattern) (b : Backend)
    (du dr : Dimensions) (e : String) (h : (p.mallocParametersInGpu b).exception = some e) :
    p.runFromAllocation b du dr = p.mallocParametersInGpu b := by
  unfold BaseParallelPattern.runFromAllocation
  simp only [h]

theorem Reduce_runFromAllocation_of_malloc_exception (fuel : Nat) (p : BaseParallelPattern)
    (b : Backend) (du : Dimensions) (e : String)
    (h : (p.mallocParametersInGpu b).exception = some e) :
    Reduce.runFromAllocation fuel p b du = some (p.mallocParametersInGpu b) := by
  unfold Reduce.runFromAllocation
  simp only [h]

theorem runFromAllocation_exception (p : BaseParallelPattern) (b : Backend)
    (du dr : Dimensions) (e : String) (he : (p.runFromAllocation b du dr).exception = some e) :
    (p.mallocParametersInGpu b).exception = some e ∨
      firstChar e ∈ otherInitials ∨
      e = "Reduce pattern currently does not support multi-dimensional kernels" := by
  unfold BaseParallelPattern.runFromAllocation at he
  simp only at he
  split at he
  · exact Or.inl he
  · right
    split at he
    · rename_i hc
      rw [← Option.some.inj he, copyParametersFromHostToGpuAsync_error _ _ hc]
      exact Or.inl (by decide)
    · split at he
      · rw [← Option.some.inj he]
        exact Or.inl (by decide)
      · split at he
        · rename_i hs
          rw [← Option.some.inj he]
          rcases setSharedMemoryInKernel_error _ _ _ _ _ hs with h1 | ⟨h1, -⟩
          · exact Or.inl h1
          · exact Or.inr h1
        · split at he
          · rename_i hb
            rw [← Option.some.inj he, bindParameters_error _ _ _ hb]
            exact Or.inl (by decide)
          · split at he
            · rw [← Option.some.inj he]
              exact Or.inl (by decide)
            · split at he
              · rename_i hr
                rw [← Option.some.inj he]
                exact Or.inl (Kernel_runAsync_error _ _ _ _ _ hr)
              · split at he
                · rename_i hc
                  rw [← Option.some.inj he, copyParametersFromGpuToHostAsync_error _ _ hc]
                  exact Or.inl (by decide)
                · cases he

/-- C14: a run ends with the placeholder exception exactly when it reaches the
allocation of the parameters with a device and some registered parameter is
incomplete at that point; the run has then launched no kernel.  This holds for
`BaseParallelPattern::run` (the run of Map, where the parameters at that point are
those registered at the call) and for `Reduce::run`, for every pattern whose names
all have an entry in the parameter map.  A parameter is incomplete exactly when it
was constructed from a null value; one constructed from a value or from a memory
object is complete. -/
theorem placeholder_exception_iff (fuel : Nat) (p : BaseParallelPattern) (b : Backend)
    (dims : Dimensions) (useCompiledDim : Bool) (hw : p.registryComplete) :
    (((∃ name, (p.run b dims useCompiledDim).exception
          = some (BaseParallelPattern.placeholderMessage name)) ↔
        ∃ pa ba du dr, p.runUntilAllocation b dims useCompiledDim = .ok (pa, ba, du, dr) ∧
          (pa.getGpu ba).1.isSome = true ∧
          ∃ k q, k ∈ pa.paramsOrder ∧ pa.getParameter k = some q ∧ q.isComplete = false) ∧
      ((∃ name, (p.run b dims useCompiledDim).exception
          = some (BaseParallelPattern.placeholderMessage name)) →
        launches (p.run b dims useCompiledDim).backend.events = launches b.events) ∧
      (p.kind = .map → ∀ pa ba du dr,
        p.runUntilAllocation b dims useCompiledDim = .ok (pa, ba, du, dr) →
        pa.params = p.params ∧ pa.paramsOrder = p.paramsOrder)) ∧
    (((∃ name r, Reduce.runCalls fuel p b dims = some r ∧
          r.exception = some (BaseParallelPattern.placeholderMessage name)) ↔
        ∃ pa ba, Reduce.runUntilAllocation p b dims = .ok (pa, ba) ∧
          (pa.getGpu ba).1.isSome = true ∧
          ∃ k q, k ∈ pa.paramsOrder ∧ pa.getParameter k = some q ∧ q.isComplete = false) ∧
      (∀ name r, Reduce.runCalls fuel p b dims = some r →
        r.exception = some (BaseParallelPattern.placeholderMessage name) →
        launches r.backend.events = launches b.events)) ∧
    (∀ n t s d bt, (PointerParameter.mk n t s false d bt).isComplete = false ∧
      (PointerParameter.mk n t s true d bt).isComplete = true ∧
      (ValueParameter.mk n t s false d bt).isComplete = false ∧
      (ValueParameter.mk n t s true d bt).isComplete = true) ∧
    (∀ n t m d bt, (PointerParameter.ofMemoryObject n t m d bt).isComplete = true) := by
  have hdev : ∀ (pa : BaseParallelPattern) (ba : Backend) (name : String),
      (pa.mallocParametersInGpu ba).exception
        = some (BaseParallelPattern.placeholderMessage name) →
      (pa.getGpu ba).1.isSome = true ∧
        ∃ k q, k ∈ pa.paramsOrder ∧ pa.getParameter k = some q ∧ q.isComplete = false := by
    intro pa ba name h
    constructor
    · cases hg : (pa.getGpu ba).1 with
      | some d => rfl
      | none =>
        exfalso
        unfold BaseParallelPattern.mallocParametersInGpu at h
        split at h
        · have := congrArg firstChar (Option.some.inj h)
          rw [firstChar_placeholderMessage] at this
          revert this; decide
        · rename_i hg2
          rw [hg2] at hg
          cases hg
    · rcases (mallocParametersInGpu_frame pa ba).2.2.2 with h1 | h1 | h1 | ⟨k, q, hk, hq, hc, -⟩
      · rw [h1] at h; cases h
      · rw [h1] at h
        have := congrArg firstChar (Option.some.inj h)
        rw [firstChar_placeholderMessage] at this
        exact absurd this (by decide)
      · rw [h1] at h
        exact absurd (Option.some.inj h).symm (placeholder_ne_null name)
      · exact ⟨k, q, hk, hq, hc⟩
  have hlaunch : ∀ (pa : BaseParallelPattern) (ba : Backend),
      launches (pa.mallocParametersInGpu ba).backend.events = launches ba.events := by
    intro pa ba
    obtain ⟨es, hes, hall⟩ := (mallocParametersInGpu_frame pa ba).1
    rw [hes]
    simp only [launches, List.filter_append, List.length_append]
    have : es.filter Event.isRunAsync = [] := by
      rw [List.filter_eq_nil_iff]
      intro e he
      rcases hall e he with ⟨d, n, m, h1⟩ | ⟨n, h1⟩ <;> rw [h1] <;> simp [Event.isRunAsync]
    rw [this]
    rfl
  refine ⟨⟨⟨?_, ?_⟩, ?_, ?_⟩, ⟨⟨?_, ?_⟩, ?_⟩, ?_, ?_⟩
  · rintro ⟨name, h⟩
    unfold BaseParallelPattern.run at h
    split at h
    · rename_i r hu
      obtain ⟨-, e, he, h1⟩ := runUntilAllocation_error _ _ _ _ _ hu
      rw [he] at h
      exact absurd (Option.some.inj h) (not_placeholder_of_other e name h1)
    · rename_i pa ba du dr hu
      rcases runFromAllocation_exception _ _ _ _ _ h with h1 | h1
      · exact ⟨pa, ba, du, dr, hu, hdev pa ba name h1⟩
      · exact absurd rfl (not_placeholder_of_other _ name h1)
  · rintro ⟨pa, ba, du, dr, hu, hd, hinc⟩
    have hwa := (runUntilAllocation_ok _ _ _ _ _ _ _ _ hu).2.1 hw
    obtain ⟨name, hn⟩ := (mallocParametersInGpu_placeholder pa ba hd hwa).1 hinc
    refine ⟨name, ?_⟩
    unfold BaseParallelPattern.run
    rw [hu]
    simp only
    rw [runFromAllocation_of_malloc_exception _ _ _ _ _ hn]
    exact hn
  · rintro ⟨name, h⟩
    unfold BaseParallelPattern.run at h ⊢
    split at h
    · rename_i r hu
      obtain ⟨-, e, he, h1⟩ := runUntilAllocation_error _ _ _ _ _ hu
      rw [he] at h
      exact absurd (Option.some.inj h) (not_placeholder_of_other e name h1)
    · rename_i pa ba du dr hu
      rcases runFromAllocation_exception _ _ _ _ _ h with h1 | h1
      · rw [runFromAllocation_of_malloc_exception _ _ _ _ _ h1, hlaunch]
        exact (runUntilAllocation_ok _ _ _ _ _ _ _ _ hu).1
      · exact absurd rfl (not_placeholder_of_other _ name h1)
  · intro hk pa ba du dr hu
    have := (runUntilAllocation_ok _ _ _ _ _ _ _ _ hu).2.2 hk
    exact ⟨this.1, this.2.1⟩
  · rintro ⟨name, r, hr, h⟩
    unfold Reduce.runCalls at hr
    split at hr
    · rename_i r1 hu
      obtain ⟨-, e, he, h1⟩ := Reduce_runUntilAllocation_error _ _ _ _ hu
      rw [← Option.some.inj hr, he] at h
      refine absurd (Option.some.inj h) (not_placeholder_of_other e name ?_)
      rcases h1 with h1 | ⟨h1, -⟩
      · exact Or.inl h1
      · exact Or.inr h1
    · rename_i pa ba hu
      have hyz := (Reduce_runUntilAllocation_ok _ _ _ _ _ hu).2.1
      rcases Reduce_runFromAllocation_exception fuel pa ba dims r _ hyz hr h with ⟨h1, -⟩ | h1
      · exact absurd rfl (not_placeholder_of_other _ name (Or.inl h1))
      · exact ⟨pa, ba, hu, hdev pa ba name h1⟩
  · rintro ⟨pa, ba, hu, hd, hinc⟩
    have hwa := (Reduce_runUntilAllocation_ok _ _ _ _ _ hu).2.2 hw
    obtain ⟨name, hn⟩ := (mallocParametersInGpu_placeholder pa ba hd hwa).1 hinc
    refine ⟨name, pa.mallocParametersInGpu ba, ?_, hn⟩
    unfold Reduce.runCalls
    rw [hu]
    exact Reduce_runFromAllocation_of_malloc_exception _ _ _ _ _ hn
  · intro name r hr h
    unfold Reduce.runCalls at hr
    split at hr
    · rename_i r1 hu
      obtain ⟨-, e, he, h1⟩ := Reduce_runUntilAllocation_error _ _ _ _ hu
      rw [← Option.some.inj hr, he] at h
      refine absurd (Option.some.inj h) (not_placeholder_of_other e name ?_)
      rcases h1 with h1 | ⟨h1, -⟩
      · exact Or.inl h1
      · exact Or.inr h1
    · rename_i pa ba hu
      obtain ⟨hl, hyz, -⟩ := Reduce_runUntilAllocation_ok _ _ _ _ _ hu
      rcases Reduce_runFromAllocation_exception fuel pa ba dims r _ hyz hr h with ⟨h1, -⟩ | h1
      · exact absurd rfl (not_placeholder_of_other _ name (Or.inl h1))
      · rw [Reduce_runFromAllocation_of_malloc_exception _ _ _ _ _ h1] at hr
        rw [← Option.some.inj hr, hlaunch]
        exact hl
  · intro n t s d bt
    exact ⟨rfl, rfl, rfl, rfl⟩
  · intro n t m d bt
    rfl

theorem sampleMap_registryComplete : sampleMap.registryComplete :=
  setParameter_registryComplete _ _ (setParameter_registryComplete _ _
    (setParameter_registryComplete _ _ (initial_registryComplete _ rfl)))

/-- The Map of `vector_sum_map.cpp` with `b` replaced by a placeholder: the run ends
with the placeholder exception. -/
theorem placeholder_exception_iff_witness :
    ∃ name, ((sampleMap.setParameter
        (PointerParameter.mk "b" { name := "unsigned int*", isPointer := true } 0 false
          .GSPAR_PARAM_IN false)).run cudaBackend (Dimensions.ofMax 20 0 0) false).exception
      = some (BaseParallelPattern.placeholderMessage name) :=
  ((placeholder_exception_iff 0 _ cudaBackend (Dimensions.ofMax 20 0 0) false
    (setParameter_registryComplete _ _ sampleMap_registryComplete)).1.1).mpr
    ⟨_, _, _, _, rfl, rfl, "b", _, by decide, rfl, rfl⟩


/-! ### Copies between host and device -/

theorem forEachParameter_mem (f : String → Except String (List Event)) (names : List String)
    (es : List Event) (h : BaseParallelPattern.forEachParameter f names = .ok es) (e : Event) :
    e ∈ es ↔ ∃ n ∈ names, ∃ esn, f n = .ok esn ∧ e ∈ esn := by
  induction names generalizing es with
  | nil =>
    rw [← Except.ok.inj h]
    simp
  | cons n rest ih =>
    unfold BaseParallelPattern.forEachParameter at h
    split at h
    · cases h
    · rename_i es0 h0
      split at h
      · cases h
      · rename_i es1 h1
        rw [← Except.ok.inj h, List.mem_append, ih es1 h1]
        constructor
        · rintro (he | ⟨k, hk, esn, hf, he⟩)
          · exact ⟨n, List.mem_cons_self _ _, es0, h0, he⟩
          · exact ⟨k, List.mem_cons_of_mem _ hk, esn, hf, he⟩
        · rintro ⟨k, hk, esn, hf, he⟩
          rcases List.mem_cons.mp hk with rfl | hk1
          · rw [h0] at hf
            rw [Except.ok.inj hf]
            exact Or.inl he
          · exact Or.inr ⟨k, hk1, esn, hf, he⟩

/-- The `copyInAsync` calls made for one name: all on that name, and at least one
exactly when the name has a parameter that is IN or INOUT and is a pointer or batched
(given a batch size of at least 1). -/
theorem copyParameterIn_ok (p : BaseParallelPattern) (n : String) (es : List Event)
    (h : p.copyParameterIn n = .ok es) (hB : 1 ≤ p.batchSize) :
    (∀ e ∈ es, ∃ c, e = Event.copyInAsync n c) ∧
    ((∃ e, e ∈ es) ↔ ∃ q, p.getParameter n = some q ∧ q.isIn = true ∧
      (q.paramValueType = .GSPAR_PARAM_POINTER ∨ q.isBatched = true)) := by
  unfold BaseParallelPattern.copyParameterIn at h
  cases hq : p.getParameter n with
  | none =>
    simp only [hq] at h
    rw [← Except.ok.inj h]
    simp
  | some q =>
    simp only [hq] at h
    cases hin : q.isIn
    · simp only [hin, Bool.false_eq_true, if_false] at h
      rw [← Except.ok.inj h]
      simp [hin]
    · simp only [hin, if_true] at h
      cases ht : q.paramValueType <;> cases hb : q.isBatched <;>
        simp only [ht, hb, Bool.false_eq_true, if_false, if_true] at h
      · rw [← Except.ok.inj h]
        simp [hin, ht, hb]
      · repeat' split at h
        all_goals first
          | exact Except.noConfusion h
          | (rw [← Except.ok.inj h]
             simp [hin, ht, hb])
      · repeat' split at h
        all_goals first
          | exact Except.noConfusion h
          | (rw [← Except.ok.inj h]
             simp [hin, ht, hb])
      · repeat' split at h
        all_goals first
          | exact Except.noConfusion h
          | (rw [← Except.ok.inj h]
             simp [hin, ht, hb]
             done)
          | (rw [← Except.ok.inj h]
             refine ⟨by simp, ?_⟩
             simp only [List.mem_map, List.mem_range, Option.some.injEq, exists_eq_left', true_and,
               reduceCtorEq, or_true, and_self, iff_true, hin, ht, hb]
             exact ⟨_, 0, by omega, rfl⟩)

/-- The `copyOut` calls made for one name: all on that name, and at least one exactly
when the name has a pointer parameter that is OUT or INOUT and whose memory object is
of the class its batching asks for (given a batch size of at least 1). -/
theorem copyParameterOut_ok (p : BaseParallelPattern) (n : String) (es : List Event)
    (h : p.copyParameterOut n = .ok es) (hB : 1 ≤ p.batchSize) :
    (∀ e ∈ es, ∃ c, e = Event.copyOut n c) ∧
    ((∃ e, e ∈ es) ↔ ∃ q, p.getParameter n = some q ∧ q.isOut = true ∧
      q.paramValueType = .GSPAR_PARAM_POINTER ∧
      (q.isBatched = false → ∃ m, q.getMemoryObject = some m ∧ m.chunks = none)) := by
  unfold BaseParallelPattern.copyParameterOut at h
  cases hq : p.getParameter n with
  | none =>
    simp only [hq] at h
    rw [← Except.ok.inj h]
    simp
  | some q =>
    simp only [hq] at h
    cases hout : q.isOut
    · simp only [hout, Bool.false_and, Bool.false_eq_true, if_false] at h
      rw [← Except.ok.inj h]
      simp [hout]
    · cases ht : q.paramValueType
      · simp only [hout, ht, Bool.true_and, beq_iff_eq, reduceCtorEq, if_false] at h
        rw [← Except.ok.inj h]
        simp [hout, ht]
      · simp only [hout, ht, Bool.true_and, beq_self_eq_true, if_true] at h
        cases hb : q.isBatched <;> simp only [hb, Bool.false_eq_true, if_false, if_true] at h
        · cases hm : q.getMemoryObject with
          | none =>
            simp only [hm] at h
            rw [← Except.ok.inj h]
            simp [hout, ht, hb, hm]
          | some m =>
            simp only [hm] at h
            cases hc : m.chunks with
            | none =>
              simp only [hc] at h
              rw [← Except.ok.inj h]
              simp [hout, ht, hb, hm, hc]
            | some c =>
              simp only [hc] at h
              rw [← Except.ok.inj h]
              simp [hout, ht, hb, hm, hc]
        · repeat' split at h
          all_goals first
            | exact Except.noConfusion h
            | (rw [← Except.ok.inj h]
               simp [hout, ht, hb]
               done)
            | (rw [← Except.ok.inj h]
               refine ⟨by simp, ?_⟩
               simp only [List.mem_map, List.mem_range, Option.some.injEq, exists_eq_left',
                 true_and, reduceCtorEq, or_true, and_self, iff_true, hout, ht, hb,
                 Bool.true_eq_false, false_implies]
               exact ⟨_, 0, by omega, rfl⟩)

/-- When `bindParameters` succeeds, every name has a parameter, and a pointer parameter
that is not batched and has a direction other than NONE has a single memory object. -/
theorem bindParameters_ok (p : BaseParallelPattern) (dims : Dimensions) (args : List KernelArg)
    (h : p.bindParameters dims = .ok args) :
    args = p.setParametersInKernel dims ∧
    ∀ n ∈ p.paramsOrder, ∃ q, p.getParameter n = some q ∧
      (q.direction ≠ .GSPAR_PARAM_NONE → q.paramValueType = .GSPAR_PARAM_POINTER →
        q.isBatched = false → ∃ m, q.getMemoryObject = some m ∧ m.chunks = none) := by
  unfold BaseParallelPattern.bindParameters at h
  split at h
  · cases h
  · rename_i hall
    split at h
    · cases h
    · rename_i hnull
      refine ⟨(Except.ok.inj h).symm, fun n hn => ?_⟩
      simp only [List.any_eq_true, not_exists, not_and, Bool.not_eq_true] at hall hnull
      cases hq : p.getParameter n with
      | none =>
        have := hall n hn
        rw [hq] at this
        cases this
      | some q =>
        refine ⟨q, rfl, fun hd ht hb => ?_⟩
        have hmem : KernelArg.memoryObject q.name
            (q.getMemoryObject.filter fun m => m.chunks.isNone)
            ∈ p.setParametersInKernel dims := by
          unfold BaseParallelPattern.setParametersInKernel
          apply List.mem_append_right
          rw [List.mem_flatMap]
          refine ⟨n, hn, ?_⟩
          simp [hq, BaseParallelPattern.setParameterInKernel, hd, ht, hb]
        have := hnull _ hmem
        cases hm : q.getMemoryObject with
        | none =>
          rw [hm] at this
          cases this
        | some m =>
          rw [hm] at this
          cases hc : m.chunks with
          | none => exact ⟨m, rfl, hc⟩
          | some c =>
            simp [Option.filter, hc, KernelArg.isNullMemoryObject] at this


theorem setSharedMemoryInKernel_map (p : BaseParallelPattern) (b : Backend) (dims : Dimensions)
    (k : KernelHandle) (p2 : BaseParallelPattern) (b2 : Backend) (hk : p.kind = .map)
    (h : p.setSharedMemoryInKernel b dims k = .ok (p2, b2)) :
    b2 = b ∧ p2 = { p with compiledKernel := p2.compiledKernel } := by
  unfold BaseParallelPattern.setSharedMemoryInKernel at h
  split at h
  · have := Prod.mk.inj (Except.ok.inj h)
    rw [← this.1, ← this.2]
    exact ⟨rfl, rfl⟩
  · simp only [BaseParallelPattern.generateSharedMemoryParameter, hk] at h
    split at h
    · cases h
    · cases h
    · rename_i sh p1 b1 heq
      have h1 := Prod.mk.inj (Except.ok.inj heq)
      have h2 := Prod.mk.inj h1.2
      have := Prod.mk.inj (Except.ok.inj h)
      rw [← this.1, ← this.2, ← h2.1, ← h2.2]
      exact ⟨rfl, rfl⟩

/-- The phases of a run that ends without exception, from the allocation on. -/
theorem runFromAllocation_ok (p : BaseParallelPattern) (b : Backend) (du dr : Dimensions)
    (hok : (p.runFromAllocation b du dr).exception = none) :
    ∃ copies kernel0 p2 b2 args kernel bt outs,
      (p.mallocParametersInGpu b).exception = none ∧
      (p.mallocParametersInGpu b).pattern.copyParametersFromHostToGpuAsync = .ok copies ∧
      (p.mallocParametersInGpu b).pattern.setSharedMemoryInKernel
        { (p.mallocParametersInGpu b).backend with
          events := (p.mallocParametersInGpu b).backend.events ++ copies } du kernel0
        = .ok (p2, b2) ∧
      p2.bindParameters du = .ok args ∧
      p2.copyParametersFromGpuToHostAsync = .ok outs ∧
      (p.runFromAllocation b du dr).backend.events
        = b2.events ++ [Event.runAsync kernel dr bt args, Event.waitAsync kernel] ++ outs := by
  unfold BaseParallelPattern.runFromAllocation at hok
  simp only at hok
  split at hok
  · rename_i e he
    rw [he] at hok
    cases hok
  · rename_i hnone
    split at hok
    · cases hok
    · rename_i copies hc
      split at hok
      · cases hok
      · rename_i kernel0 hk0
        split at hok
        · cases hok
        · rename_i p2 b2 hs
          split at hok
          · cases hok
          · rename_i args hb
            split at hok
            · cases hok
            · rename_i kernel hk2
              split at hok
              · cases hok
              · rename_i b3 hr
                split at hok
                · cases hok
                · rename_i outs ho
                  have hr0 := hr
                  unfold Kernel.runAsync at hr
                  split at hr
                  · cases hr
                  · split at hr
                    · cases hr
                    · rename_i bt hbt
                      refine ⟨copies, kernel0, p2, b2, args, kernel, bt, outs, hnone, hc, hs, hb,
                        ho, ?_⟩
                      unfold BaseParallelPattern.runFromAllocation
                      simp only [hnone, hc, hk0, hs, hb, hk2, hr0, ho]
                      rw [← Except.ok.inj hr]
                      simp [List.append_assoc]


theorem forEachParameter_all_ok (f : String → Except String (List Event)) (names : List String)
    (es : List Event) (h : BaseParallelPattern.forEachParameter f names = .ok es) :
    ∀ n ∈ names, ∃ esn, f n = .ok esn := by
  induction names generalizing es with
  | nil => intro n hn; cases hn
  | cons k rest ih =>
    unfold BaseParallelPattern.forEachParameter at h
    split at h
    · cases h
    · rename_i es0 h0
      split at h
      · cases h
      · rename_i es1 h1
        intro n hn
        rcases List.mem_cons.mp hn with rfl | hn1
        · exact ⟨es0, h0⟩
        · exact ih es1 h1 n hn1

/-- The calls of `copyParametersFromHostToGpuAsync`, when it meets no null pointer and
the batch size is at least 1: only `copyInAsync` calls, and one or more for a name
exactly when the name is registered with a parameter that is IN or INOUT and is a
pointer or batched. -/
theorem copyParametersFromHostToGpuAsync_names (p : BaseParallelPattern) (copies : List Event)
    (h : p.copyParametersFromHostToGpuAsync = .ok copies) (hB : 1 ≤ p.batchSize) :
    (∀ e ∈ copies, ∃ n c, e = Event.copyInAsync n c) ∧
    ∀ n, (∃ c, Event.copyInAsync n c ∈ copies) ↔
      n ∈ p.paramsOrder ∧ ∃ q, p.getParameter n = some q ∧ q.isIn = true ∧
        (q.paramValueType = .GSPAR_PARAM_POINTER ∨ q.isBatched = true) := by
  unfold BaseParallelPattern.copyParametersFromHostToGpuAsync at h
  have hmem := forEachParameter_mem _ _ _ h
  have hall := forEachParameter_all_ok _ _ _ h
  constructor
  · intro e he
    obtain ⟨n, -, esn, hf, hen⟩ := (hmem e).mp he
    obtain ⟨c, hc⟩ := (copyParameterIn_ok p n esn hf hB).1 e hen
    exact ⟨n, c, hc⟩
  · intro n
    constructor
    · rintro ⟨c, hc⟩
      obtain ⟨k, hk, esn, hf, hen⟩ := (hmem _).mp hc
      obtain ⟨c1, hc1⟩ := (copyParameterIn_ok p k esn hf hB).1 _ hen
      have hkn : n = k := by
        injection hc1
      subst hkn
      exact ⟨hk, ((copyParameterIn_ok p n esn hf hB).2).mp ⟨_, hen⟩⟩
    · rintro ⟨hn, hq⟩
      obtain ⟨esn, hf⟩ := hall n hn
      obtain ⟨e, he⟩ := ((copyParameterIn_ok p n esn hf hB).2).mpr hq
      obtain ⟨c, hc⟩ := (copyParameterIn_ok p n esn hf hB).1 e he
      exact ⟨c, (hmem _).mpr ⟨n, hn, esn, hf, hc ▸ he⟩⟩

/-- The calls of `copyParametersFromGpuToHostAsync`, when it meets no null pointer and
the batch size is at least 1: only `copyOut` calls, and one or more for a name exactly
when the name is registered with a pointer parameter that is OUT or INOUT and whose
memory object is of the class its batching asks for. -/
theorem copyParametersFromGpuToHostAsync_names (p : BaseParallelPattern) (outs : List Event)
    (h : p.copyParametersFromGpuToHostAsync = .ok outs) (hB : 1 ≤ p.batchSize) :
    (∀ e ∈ outs, ∃ n c, e = Event.copyOut n c) ∧
    ∀ n, (∃ c, Event.copyOut n c ∈ outs) ↔
      n ∈ p.paramsOrder ∧ ∃ q, p.getParameter n = some q ∧ q.isOut = true ∧
        q.paramValueType = .GSPAR_PARAM_POINTER ∧
        (q.isBatched = false → ∃ m, q.getMemoryObject = some m ∧ m.chunks = none) := by
  unfold BaseParallelPattern.copyParametersFromGpuToHostAsync at h
  have hmem := forEachParameter_mem _ _ _ h
  have hall := forEachParameter_all_ok _ _ _ h
  constructor
  · intro e he
    obtain ⟨n, -, esn, hf, hen⟩ := (hmem e).mp he
    obtain ⟨c, hc⟩ := (copyParameterOut_ok p n esn hf hB).1 e hen
    exact ⟨n, c, hc⟩
  · intro n
    constructor
    · rintro ⟨c, hc⟩
      obtain ⟨k, hk, esn, hf, hen⟩ := (hmem _).mp hc
      obtain ⟨c1, hc1⟩ := (copyParameterOut_ok p k esn hf hB).1 _ hen
      have hkn : n = k := by
        injection hc1
      subst hkn
      exact ⟨hk, ((copyParameterOut_ok p n esn hf hB).2).mp ⟨_, hen⟩⟩
    · rintro ⟨hn, hq⟩
      obtain ⟨esn, hf⟩ := hall n hn
      obtain ⟨e, he⟩ := ((copyParameterOut_ok p n esn hf hB).2).mpr hq
      obtain ⟨c, hc⟩ := (copyParameterOut_ok p n esn hf hB).1 e he
      exact ⟨c, (hmem _).mpr ⟨n, hn, esn, hf, hc ▸ he⟩⟩

/-- A registered parameter whose direction is not NONE fills a slot of the argument
list. -/
theorem parameter_bound (p : BaseParallelPattern) (dims : Dimensions) (n : String)
    (q : BaseParameter) (hn : n ∈ p.paramsOrder) (hq : p.getParameter n = some q)
    (hd : q.direction ≠ .GSPAR_PARAM_NONE) :
    ParameterSlot.parameter q.name ∈ (p.setParametersInKernel dims).map KernelArg.slot := by
  unfold BaseParallelPattern.setParametersInKernel
  rw [List.map_append, List.mem_append]
  right
  rw [List.mem_map]
  have : ∃ a, a ∈ BaseParallelPattern.setParameterInKernel q ∧ a.slot = .parameter q.name := by
    unfold BaseParallelPattern.setParameterInKernel
    rw [if_neg hd]
    cases q.paramValueType <;> cases q.isBatched <;> exact ⟨_, List.mem_singleton.mpr rfl, rfl⟩
  obtain ⟨a, ha, hs⟩ := this
  refine ⟨a, ?_, hs⟩
  rw [List.mem_flatMap]
  exact ⟨n, hn, by rw [hq]; exact ha⟩


theorem runUntilAllocation_compile (p : BaseParallelPattern) (b : Backend) (pDims : Dimensions)
    (u : Bool) (pa : BaseParallelPattern) (ba : Backend) (du dr : Dimensions)
    (h : p.runUntilAllocation b pDims u = .ok (pa, ba, du, dr)) :
    ∃ p1, p.compile b (if u then p.compiledKernelDimension else pDims) = .ok (p1, ba) := by
  unfold BaseParallelPattern.runUntilAllocation at h
  simp only at h
  generalize (if u = true then p.compiledKernelDimension else pDims) = du0 at h ⊢
  split at h
  · cases h
  · split at h
    · cases h
    · rename_i p1 b1 hco
      split at h
      · cases h
      · split at h
        · cases h
        · have hr := Prod.mk.inj (Except.ok.inj h)
          have hr2 := Prod.mk.inj hr.2
          rw [← hr2.1]
          exact ⟨p1, hco⟩

theorem isIn_of_frame (q : BaseParameter) (m : Option MemoryObject) :
    ({ q with memoryObject := m } : BaseParameter).isIn = q.isIn ∧
    ({ q with memoryObject := m } : BaseParameter).isOut = q.isOut ∧
    ({ q with memoryObject := m } : BaseParameter).isBatched = q.isBatched :=
  ⟨rfl, rfl, rfl⟩

theorem getGpu_batchSize (p : BaseParallelPattern) (b : Backend) :
    (p.getGpu b).2.batchSize = p.batchSize := by
  unfold BaseParallelPattern.getGpu
  repeat' split
  all_goals rfl

theorem getKernelName_batchSize (p : BaseParallelPattern) (b : Backend) :
    (p.getKernelName b).2.1.batchSize = p.batchSize := by
  unfold BaseParallelPattern.getKernelName
  split <;> rfl

theorem setParameter_batchSize (p : BaseParallelPattern) (q : BaseParameter) :
    (p.setParameter q).batchSize = p.batchSize := by
  unfold BaseParallelPattern.setParameter
  split <;> rfl

theorem callback_batchSize (p p1 : BaseParallelPattern)
    (h : p.callbackBeforeGeneratingKernelSource = .ok p1) : p1.batchSize = p.batchSize := by
  unfold BaseParallelPattern.callbackBeforeGeneratingKernelSource at h
  split at h
  · cases h; rfl
  · split at h
    · cases h; rfl
    · split at h
      · cases h
      · unfold BaseParallelPattern.setPointerParameter at h
        simp only [reduceCtorEq, if_false, Except.ok.injEq] at h
        rw [← h, setParameter_batchSize]

theorem getSharedMemoryParameter_batchSize (p : BaseParallelPattern) (b : Backend)
    (r : Option BaseParameter × BaseParallelPattern × Backend)
    (h : p.getSharedMemoryParameter b = .ok r) : r.2.1.batchSize = p.batchSize := by
  unfold BaseParallelPattern.getSharedMemoryParameter at h
  split at h
  · cases h; rfl
  · split at h
    · cases h; rfl
    · split at h
      · cases h
      · cases h; rfl

theorem getKernelCore_batchSize (p : BaseParallelPattern) (b : Backend) (dims : Dimensions)
    (names : String × String × String) (r : String × BaseParallelPattern × Backend)
    (h : p.getKernelCore b dims names = .ok r) : r.2.1.batchSize = p.batchSize := by
  unfold BaseParallelPattern.getKernelCore at h
  split at h
  · cases h; rfl
  · split at h
    · cases h
    · split at h
      · cases h
      · split at h
        · cases h
        · rename_i hs
          have hr := Except.ok.inj h
          rw [← hr]
          exact getSharedMemoryParameter_batchSize _ _ _ hs

theorem generateKernelSource_batchSize (p : BaseParallelPattern) (b : Backend)
    (dims : Dimensions) (r : String × BaseParallelPattern × Backend)
    (h : p.generateKernelSource b dims = .ok r) : r.2.1.batchSize = p.batchSize := by
  unfold BaseParallelPattern.generateKernelSource at h
  simp only at h
  split at h
  · cases h
  · rename_i hk
    have hr := Except.ok.inj h
    rw [← hr]
    show _ = p.batchSize
    rw [getKernelCore_batchSize _ _ _ _ _ hk, getKernelName_batchSize]

theorem compile_batchSize (p : BaseParallelPattern) (b : Backend) (dims : Dimensions)
    (p1 : BaseParallelPattern) (b1 : Backend)
    (h : p.compile b dims = .ok (p1, b1)) : p1.batchSize = p.batchSize := by
  unfold BaseParallelPattern.compile at h
  split at h
  · cases h; rfl
  · split at h
    · cases h
    · rename_i gpu pg hg
      simp only at h
      split at h
      · cases h
      · rename_i p3 hcb
        split at h
        · cases h
        · rename_i src p4 b4 hgen
          split at h
          · have hr := Except.ok.inj h
            rw [← (Prod.mk.inj hr).1]
            show p4.batchSize = p.batchSize
            have h1 := generateKernelSource_batchSize _ _ _ _ hgen
            have h2 := callback_batchSize _ _ hcb
            have h3 := getKernelName_batchSize pg b
            have h4 := getGpu_batchSize p b
            rw [hg] at h4
            simp only at h1 h4
            rw [h1, h2, h3, h4]
          · cases h

theorem callbackBeforeAllocatingMemoryOnGpu_batchSize (p : BaseParallelPattern) (b : Backend)
    (dims : Dimensions) (k : KernelHandle) (p1 : BaseParallelPattern)
    (h : p.callbackBeforeAllocatingMemoryOnGpu b dims k = .ok p1) :
    p1.batchSize = p.batchSize := by
  unfold BaseParallelPattern.callbackBeforeAllocatingMemoryOnGpu at h
  split at h
  · cases h; rfl
  · simp only at h
    split at h
    · split at h
      · cases h
      · split at h
        · cases h
        · unfold BaseParallelPattern.setPointerParameter at h
          simp only [reduceCtorEq, if_false, Except.ok.injEq] at h
          rw [← h, setParameter_batchSize]
    · cases h; rfl

theorem Reduce_runUntilAllocation_batchSize (p : BaseParallelPattern) (b : Backend)
    (dims : Dimensions) (pa : BaseParallelPattern) (ba : Backend)
    (h : Reduce.runUntilAllocation p b dims = .ok (pa, ba)) : pa.batchSize = p.batchSize := by
  unfold Reduce.runUntilAllocation at h
  split at h
  · cases h
  · split at h
    · cases h
    · rename_i p1 b1 hco
      split at h
      · cases h
      · rename_i kernel hk
        split at h
        · cases h
        · rename_i p2 hcb
          have hr := Prod.mk.inj (Except.ok.inj h)
          rw [← hr.1, callbackBeforeAllocatingMemoryOnGpu_batchSize _ _ _ _ _ hcb,
            compile_batchSize _ _ _ _ _ hco]

/-- What `setSharedMemoryInKernel` leaves alone: the registry, the batch size and the
calls made so far. -/
theorem setSharedMemoryInKernel_frame (p : BaseParallelPattern) (b : Backend) (dims : Dimensions)
    (k : KernelHandle) (p2 : BaseParallelPattern) (b2 : Backend)
    (h : p.setSharedMemoryInKernel b dims k = .ok (p2, b2)) :
    p2.params = p.params ∧ p2.paramsOrder = p.paramsOrder ∧ p2.batchSize = p.batchSize ∧
    b2.events = b.events := by
  unfold BaseParallelPattern.setSharedMemoryInKernel at h
  split at h
  · have := Prod.mk.inj (Except.ok.inj h)
    rw [← this.1, ← this.2]
    exact ⟨rfl, rfl, rfl, rfl⟩
  · split at h
    · cases h
    · cases h
    · rename_i sh p1 b1 hgen
      have hr := Prod.mk.inj (Except.ok.inj h)
      rw [← hr.1, ← hr.2]
      show p1.params = p.params ∧ p1.paramsOrder = p.paramsOrder ∧ p1.batchSize = p.batchSize ∧
        b1.events = b.events
      unfold BaseParallelPattern.generateSharedMemoryParameter at hgen
      split at hgen
      · have h1 := Prod.mk.inj (Except.ok.inj hgen)
        have h2 := Prod.mk.inj h1.2
        rw [← h2.1, ← h2.2]
        exact ⟨rfl, rfl, rfl, rfl⟩
      · split at hgen
        · cases hgen
        · split at hgen
          · cases hgen
          · cases hgen
          · rename_i sh0 p0 b0 hs
            have hreg := getSharedMemoryParameter_registry _ _ _ hs
            have hbs := getSharedMemoryParameter_batchSize _ _ _ hs
            have hev := getSharedMemoryParameter_events _ _ _ hs
            simp only at hreg hbs hev
            split at hgen
            · split at hgen
              · cases hgen
              · simp only at hgen
                split at hgen
                · cases hgen
                · have h1 := Prod.mk.inj (Except.ok.inj hgen)
                  have h2 := Prod.mk.inj h1.2
                  rw [← h2.1, ← h2.2]
                  exact ⟨hreg.1, hreg.2, hbs, hev⟩
            · have h1 := Prod.mk.inj (Except.ok.inj hgen)
              have h2 := Prod.mk.inj h1.2
              rw [← h2.1, ← h2.2]
              exact ⟨hreg.1, hreg.2, hbs, hev⟩

/-- The host loop of `Reduce::run`, when it ends without exception, leaves the registry and
the batch size alone and makes only `runAsync` and `waitAsync` calls. -/
theorem hostLoopCalls_frame (fuel : Nat) (p : BaseParallelPattern) (b : Backend)
    (dims : Dimensions) (m : Option MemoryObject) (r : RunResult)
    (h : Reduce.hostLoopCalls fuel p b dims m = some r) (hok : r.exception = none) :
    r.pattern.params = p.params ∧ r.pattern.paramsOrder = p.paramsOrder ∧
    r.pattern.batchSize = p.batchSize ∧
    ∃ loop, r.backend.events = b.events ++ loop ∧
      ∀ e ∈ loop, (∃ k d bt args, e = Event.runAsync k d bt args) ∨ ∃ k, e = Event.waitAsync k := by
  induction fuel generalizing p b dims m with
  | zero => cases h
  | succ fuel ih =>
    unfold Reduce.hostLoopCalls at h
    split at h
    · rw [← Option.some.inj h] at hok
      cases hok
    · split at h
      · rw [← Option.some.inj h] at hok
        cases hok
      · split at h
        · rw [← Option.some.inj h] at hok
          cases hok
        · rename_i p1 b1 hs
          obtain ⟨hp, ho, hbs, hev⟩ := setSharedMemoryInKernel_frame _ _ _ _ _ _ hs
          split at h
          · rw [← Option.some.inj h] at hok
            cases hok
          · split at h
            · rw [← Option.some.inj h] at hok
              cases hok
            · split at h
              · rw [← Option.some.inj h] at hok
                cases hok
              · rename_i _ args hbind _ kernel1 hk1 _ b2 hrun
                have hb2 : ∃ bt, b2.events
                    = b1.events ++ [Event.runAsync kernel1 dims bt args] := by
                  unfold Kernel.runAsync at hrun
                  split at hrun
                  · cases hrun
                  · split at hrun
                    · cases hrun
                    · rename_i bt hbt
                      rw [← Except.ok.inj hrun]
                      exact ⟨bt, rfl⟩
                obtain ⟨bt, hb2⟩ := hb2
                simp only at h
                split at h
                · rw [← Option.some.inj h]
                  refine ⟨hp, ho, hbs, [Event.runAsync kernel1 dims bt args,
                    Event.waitAsync kernel1], ?_, ?_⟩
                  · show b2.events ++ [Event.waitAsync kernel1] = _
                    rw [hb2, hev]
                    simp
                  · intro e he
                    simp only [List.mem_cons, List.mem_singleton, List.not_mem_nil, or_false] at he
                    rcases he with rfl | rfl
                    · exact Or.inl ⟨_, _, _, _, rfl⟩
                    · exact Or.inr ⟨_, rfl⟩
                · obtain ⟨hp1, ho1, hbs1, loop, hl, hall⟩ := ih _ _ _ _ h
                  refine ⟨hp1.trans hp, ho1.trans ho, hbs1.trans hbs,
                    [Event.runAsync kernel1 dims bt args, Event.waitAsync kernel1] ++ loop, ?_, ?_⟩
                  · rw [hl]
                    show (b2.events ++ [Event.waitAsync kernel1]) ++ loop = _
                    rw [hb2, hev]
                    simp
                  · intro e he
                    rcases List.mem_append.mp he with he | he
                    · simp only [List.mem_cons, List.mem_singleton, List.not_mem_nil,
                        or_false] at he
                      rcases he with rfl | rfl
                      · exact Or.inl ⟨_, _, _, _, rfl⟩
                      · exact Or.inr ⟨_, rfl⟩
                    · exact hall e he

theorem getParameter_mapAssign_same (p : BaseParallelPattern) (n : String) (v : BaseParameter) :
    ({ p with params := mapAssign p.params n v } : BaseParallelPattern).getParameter n
      = some v := by
  unfold BaseParallelPattern.getParameter
  simp only
  rw [find_mapAssign]
  simp

/-- The statements of `Reduce::run` after the loop, when they end without exception: the
partial totals are copied out, the output parameter gets the direction
`GSPAR_PARAM_NONE`, and `copyParametersFromGpuToHostAsync` runs on that state. -/
theorem copyResult_ok (p : BaseParallelPattern) (b : Backend)
    (hok : (Reduce.copyResult p b).exception = none) :
    ∃ outs, (Reduce.copyResult p b).pattern.copyParametersFromGpuToHostAsync = .ok outs ∧
      (Reduce.copyResult p b).backend.events
        = b.events ++ [Event.copyOut partialTotalsParamName none] ++ outs ∧
      ((Reduce.copyResult p b).pattern.getParameter (Reduce.outputParameterName p)).map
        (fun q => q.direction) = some .GSPAR_PARAM_NONE ∧
      (Reduce.copyResult p b).pattern.paramsOrder = p.paramsOrder ∧
      (Reduce.copyResult p b).pattern.batchSize = p.batchSize := by
  unfold Reduce.copyResult at hok ⊢
  split at hok
  · cases hok
  · rename_i outParam ho
    split at hok
    · cases hok
    · rename_i partialTotals hpt
      split at hok
      · cases hok
      · rename_i mo hmo
        simp only at hok
        split at hok
        · cases hok
        · rename_i outParam1 ho1
          split at hok
          · cases hok
          · rename_i outs hc
            simp only [ho, hpt, hmo, ho1, hc]
            refine ⟨outs, rfl, rfl, ?_, trivial, trivial⟩
            have hget := getParameter_mapAssign_same
              { p with params := (mapAssign p.params partialTotalsParamName
                  (partialTotals.bindMemoryObjectTo outParam.hasValue outParam.size)) }
              (Reduce.outputParameterName p) { outParam1 with direction := .GSPAR_PARAM_NONE }
            simp only at hget
            rw [hget]
            rfl

theorem callbackBeforeAllocatingMemoryOnGpu_kind (p : BaseParallelPattern) (b : Backend)
    (dims : Dimensions) (k : KernelHandle) (p1 : BaseParallelPattern)
    (h : p.callbackBeforeAllocatingMemoryOnGpu b dims k = .ok p1) :
    p1.kind = p.kind := by
  unfold BaseParallelPattern.callbackBeforeAllocatingMemoryOnGpu at h
  split at h
  · cases h; rfl
  · simp only at h
    split at h
    · split at h
      · cases h
      · split at h
        · cases h
        · unfold BaseParallelPattern.setPointerParameter at h
          simp only [reduceCtorEq, if_false, Except.ok.injEq] at h
          rw [← h, setParameter_kind]
    · cases h; rfl

theorem Reduce_runUntilAllocation_kind (p : BaseParallelPattern) (b : Backend)
    (dims : Dimensions) (pa : BaseParallelPattern) (ba : Backend)
    (h : Reduce.runUntilAllocation p b dims = .ok (pa, ba)) : pa.kind = p.kind := by
  unfold Reduce.runUntilAllocation at h
  split at h
  · cases h
  · split at h
    · cases h
    · rename_i p1 b1 hco
      split at h
      · cases h
      · rename_i kernel hk
        split at h
        · cases h
        · rename_i p2 hcb
          have hr := Prod.mk.inj (Except.ok.inj h)
          rw [← hr.1, callbackBeforeAllocatingMemoryOnGpu_kind _ _ _ _ _ hcb,
            compile_kind _ _ _ _ _ hco]

theorem setSharedMemoryInKernel_kind (p : BaseParallelPattern) (b : Backend) (dims : Dimensions)
    (k : KernelHandle) (p2 : BaseParallelPattern) (b2 : Backend)
    (h : p.setSharedMemoryInKernel b dims k = .ok (p2, b2)) : p2.kind = p.kind := by
  unfold BaseParallelPattern.setSharedMemoryInKernel at h
  split at h
  · have := Prod.mk.inj (Except.ok.inj h)
    rw [← this.1]
  · split at h
    · cases h
    · cases h
    · rename_i sh p1 b1 hgen
      have hr := Prod.mk.inj (Except.ok.inj h)
      rw [← hr.1]
      show p1.kind = p.kind
      unfold BaseParallelPattern.generateSharedMemoryParameter at hgen
      split at hgen
      · have h1 := Prod.mk.inj (Except.ok.inj hgen)
        have h2 := Prod.mk.inj h1.2
        rw [← h2.1]
      · split at hgen
        · cases hgen
        · split at hgen
          · cases hgen
          · cases hgen
          · rename_i sh0 p0 b0 hs
            have hkind := getSharedMemoryParameter_kind _ _ _ hs
            simp only at hkind
            split at hgen
            · split at hgen
              · cases hgen
              · simp only at hgen
                split at hgen
                · cases hgen
                · have h1 := Prod.mk.inj (Except.ok.inj hgen)
                  have h2 := Prod.mk.inj h1.2
                  rw [← h2.1]
                  exact hkind
            · have h1 := Prod.mk.inj (Except.ok.inj hgen)
              have h2 := Prod.mk.inj h1.2
              rw [← h2.1]
              exact hkind

theorem hostLoopCalls_kind (fuel : Nat) (p : BaseParallelPattern) (b : Backend)
    (dims : Dimensions) (m : Option MemoryObject) (r : RunResult)
    (h : Reduce.hostLoopCalls fuel p b dims m = some r) (hok : r.exception = none) :
    r.pattern.kind = p.kind := by
  induction fuel generalizing p b dims m with
  | zero => cases h
  | succ fuel ih =>
    unfold Reduce.hostLoopCalls at h
    split at h
    · rw [← Option.some.inj h] at hok
      cases hok
    · split at h
      · rw [← Option.some.inj h] at hok
        cases hok
      · split at h
        · rw [← Option.some.inj h] at hok
          cases hok
        · rename_i p1 b1 hs
          have hk := setSharedMemoryInKernel_kind _ _ _ _ _ _ hs
          split at h
          · rw [← Option.some.inj h] at hok
            cases hok
          · split at h
            · rw [← Option.some.inj h] at hok
              cases hok
            · split at h
              · rw [← Option.some.inj h] at hok
                cases hok
              · simp only at h
                split at h
                · rw [← Option.some.inj h]
                  exact hk
                · exact (ih _ _ _ _ h).trans hk

/-- The calls of a `Reduce::run` that ends without exception (batch size at least 1):
compilation, allocations, host-to-device copies, the launches of the host loop, the copy
of the partial totals, and the device-to-host copies of `copyParametersFromGpuToHostAsync`,
made when the output parameter has the direction `GSPAR_PARAM_NONE`. -/
theorem reduce_run_copies (fuel : Nat) (p : BaseParallelPattern) (b : Backend)
    (dims : Dimensions) (r : RunResult) (hB : 1 ≤ p.batchSize)
    (h : Reduce.runCalls fuel p b dims = some r) (hok : r.exception = none) :
    ∃ pa ba allocs copies loop outs,
      Reduce.runUntilAllocation p b dims = .ok (pa, ba) ∧
      r.backend.events
        = ba.events ++ allocs ++ copies ++ loop ++
            [Event.copyOut partialTotalsParamName none] ++ outs ∧
      (∀ e ∈ allocs, (∃ d n m, e = Event.malloc d n m) ∨ ∃ n, e = Event.pinHostMemory n) ∧
      (∀ e ∈ copies, ∃ n c, e = Event.copyInAsync n c) ∧
      (∀ n, (∃ c, Event.copyInAsync n c ∈ copies) ↔
        n ∈ pa.paramsOrder ∧ ∃ q, pa.getParameter n = some q ∧ q.isIn = true ∧
          (q.paramValueType = .GSPAR_PARAM_POINTER ∨ q.isBatched = true)) ∧
      (∀ e ∈ loop, (∃ k d bt args, e = Event.runAsync k d bt args) ∨
        ∃ k, e = Event.waitAsync k) ∧
      (∀ e ∈ outs, ∃ n c, e = Event.copyOut n c) ∧
      (∀ n, (∃ c, Event.copyOut n c ∈ outs) ↔
        n ∈ r.pattern.paramsOrder ∧ ∃ q, r.pattern.getParameter n = some q ∧ q.isOut = true ∧
          q.paramValueType = .GSPAR_PARAM_POINTER ∧
          (q.isBatched = false → ∃ m, q.getMemoryObject = some m ∧ m.chunks = none)) ∧
      (r.pattern.getParameter (Reduce.outputParameterName p)).map (fun q => q.direction)
        = some .GSPAR_PARAM_NONE ∧
      ∀ c, Event.copyOut (Reduce.outputParameterName p) c ∉ outs := by
  unfold Reduce.runCalls at h
  split at h
  · rename_i r1 hu
    obtain ⟨-, e, he, -⟩ := Reduce_runUntilAllocation_error _ _ _ _ hu
    rw [← Option.some.inj h, he] at hok
    cases hok
  · rename_i pa ba hu
    have hbsa := Reduce_runUntilAllocation_batchSize _ _ _ _ _ hu
    have hka := Reduce_runUntilAllocation_kind _ _ _ _ _ hu
    obtain ⟨⟨allocs, hallocs, hall⟩, hfr, hget, -⟩ := mallocParametersInGpu_frame pa ba
    unfold Reduce.runFromAllocation at h
    simp only at h
    generalize pa.mallocParametersInGpu ba = r0 at h hallocs hfr hget
    have hk0 : r0.pattern.kind = pa.kind := by rw [hfr]
    have hord0 : r0.pattern.paramsOrder = pa.paramsOrder := by rw [hfr]
    have hbs0 : r0.pattern.batchSize = pa.batchSize := by rw [hfr]
    split at h
    · rename_i e he
      rw [← Option.some.inj h, he] at hok
      cases hok
    · split at h
      · rw [← Option.some.inj h] at hok
        cases hok
      · rename_i copies hci
        split at h
        · rw [← Option.some.inj h] at hok
          cases hok
        · split at h
          · rw [← Option.some.inj h] at hok
            cases hok
          · split at h
            · cases h
            · rename_i r1 hloop
              split at h
              · rename_i e he
                rw [← Option.some.inj h, he] at hok
                cases hok
              · rename_i hr1
                have hr := Option.some.inj h
                obtain ⟨hp1, ho1, hbs1, loop, hl, hloopall⟩ := hostLoopCalls_frame _ _ _ _ _ _ hloop hr1
                have hk1 := hostLoopCalls_kind _ _ _ _ _ _ hloop hr1
                have hname : Reduce.outputParameterName r1.pattern = Reduce.outputParameterName p := by
                  unfold Reduce.outputParameterName
                  rw [hk1, hk0, hka]
                rw [← hr] at hok ⊢
                obtain ⟨outs, hcout, hev, hdir, hord2, hbs2⟩ := copyResult_ok _ _ hok
                obtain ⟨hin1, hin2⟩ := copyParametersFromHostToGpuAsync_names _ _ hci
                  (by rw [hbs0, hbsa]; exact hB)
                obtain ⟨hout1, hout2⟩ := copyParametersFromGpuToHostAsync_names _ _ hcout
                  (by rw [hbs2, hbs1, hbs0, hbsa]; exact hB)
                have hinIff : ∀ n, (∃ c, Event.copyInAsync n c ∈ copies) ↔
                    n ∈ pa.paramsOrder ∧ ∃ q, pa.getParameter n = some q ∧ q.isIn = true ∧
                      (q.paramValueType = .GSPAR_PARAM_POINTER ∨ q.isBatched = true) := by
                  intro n
                  rw [hin2 n, hord0]
                  obtain ⟨m, hm⟩ := hget n
                  rw [hm]
                  cases hq : pa.getParameter n with
                  | none => simp
                  | some q =>
                    simp only [Option.map_some', Option.some.injEq, exists_eq_left']
                    rfl
                rw [hname] at hdir
                refine ⟨pa, ba, allocs, copies, loop, outs, hu, ?_, hall, hin1, hinIff, hloopall,
                  hout1, hout2, hdir, fun c hc => ?_⟩
                · rw [hev, hl]
                  simp only [hallocs, List.append_assoc]
                · obtain ⟨-, q, hq, ho, -⟩ := (hout2 _).mp ⟨c, hc⟩
                  cases hq2 : (Reduce.copyResult r1.pattern r1.backend).pattern.getParameter
                      (Reduce.outputParameterName p) with
                  | none => rw [hq2] at hq; cases hq
                  | some q2 =>
                    rw [hq2] at hq hdir
                    have hd : q2.direction = .GSPAR_PARAM_NONE := Option.some.inj hdir
                    rw [← Option.some.inj hq] at ho
                    simp [BaseParameter.isOut, hd] at ho

/-- A run of a Map that ends without exception (batch size at least 1) consists
of the compilation, the allocations, the host-to-device copies, the launch, the wait
and the device-to-host copies, in this order.  A host-to-device copy is issued for a
name exactly when it is registered with a parameter that is IN or INOUT and is a
pointer or batched; a device-to-host copy exactly when it is registered with a
pointer parameter that is OUT or INOUT.  A parameter of direction
`GSPAR_PARAM_PRESENT` gets no copy in either direction and fills a slot of the
argument list of the launch. -/
theorem map_run_copies (p : BaseParallelPattern) (b : Backend) (dims : Dimensions) (u : Bool)
    (hk : p.kind = .map) (hB : 1 ≤ p.batchSize) (hok : (p.run b dims u).exception = none) :
    ∃ p1 b1 allocs copies kernel dr bt args outs,
      p.compile b (if u then p.compiledKernelDimension else dims) = .ok (p1, b1) ∧
      (p.run b dims u).backend.events
        = b1.events ++ allocs ++ copies ++
            [Event.runAsync kernel dr bt args, Event.waitAsync kernel] ++ outs ∧
      (∀ e ∈ allocs, (∃ d n m, e = Event.malloc d n m) ∨ ∃ n, e = Event.pinHostMemory n) ∧
      (∀ e ∈ copies, ∃ n c, e = Event.copyInAsync n c) ∧
      (∀ n, (∃ c, Event.copyInAsync n c ∈ copies) ↔
        n ∈ p.paramsOrder ∧ ∃ q, p.getParameter n = some q ∧ q.isIn = true ∧
          (q.paramValueType = .GSPAR_PARAM_POINTER ∨ q.isBatched = true)) ∧
      (∀ e ∈ outs, ∃ n c, e = Event.copyOut n c) ∧
      (∀ n, (∃ c, Event.copyOut n c ∈ outs) ↔
        n ∈ p.paramsOrder ∧ ∃ q, p.getParameter n = some q ∧ q.isOut = true ∧
          q.paramValueType = .GSPAR_PARAM_POINTER) ∧
      (∀ n q, n ∈ p.paramsOrder → p.getParameter n = some q →
        q.direction = .GSPAR_PARAM_PRESENT →
        (∀ c, Event.copyInAsync n c ∉ copies) ∧ (∀ c, Event.copyOut n c ∉ outs) ∧
        ParameterSlot.parameter q.name ∈ args.map KernelArg.slot) := by
  unfold BaseParallelPattern.run at hok
  split at hok
  · rename_i r hu
    obtain ⟨-, e, he, -⟩ := runUntilAllocation_error _ _ _ _ _ hu
    rw [he] at hok
    cases hok
  · rename_i pa ba du dr hu
    have hrun : p.run b dims u = pa.runFromAllocation ba du dr := by
      unfold BaseParallelPattern.run
      rw [hu]
    obtain ⟨p1, hco⟩ := runUntilAllocation_compile _ _ _ _ _ _ _ _ hu
    obtain ⟨-, -, hmap⟩ := runUntilAllocation_ok _ _ _ _ _ _ _ _ hu
    obtain ⟨hpar, hord, hbs, hka, -, -⟩ := hmap hk
    obtain ⟨copies, kernel0, p2, b2, args, kernel, bt, outs, hm0, hci, hs, hbind, hcout, hev⟩ :=
      runFromAllocation_ok pa ba du dr hok
    obtain ⟨⟨allocs, hallocs, hall⟩, hfr, hget, -⟩ := mallocParametersInGpu_frame pa ba
    generalize pa.mallocParametersInGpu ba = r0 at hm0 hci hs hallocs hfr hget
    have hk0 : r0.pattern.kind = .map := by rw [hfr]; exact hka
    have hord0 : r0.pattern.paramsOrder = p.paramsOrder := by rw [hfr]; exact hord
    have hbs0 : r0.pattern.batchSize = p.batchSize := by rw [hfr]; exact hbs
    obtain ⟨hb2, hp2⟩ := setSharedMemoryInKernel_map _ _ _ _ _ _ hk0 hs
    have hget0 : ∀ k, ∃ m, r0.pattern.getParameter k
        = (p.getParameter k).map fun q => { q with memoryObject := m } := by
      intro k
      obtain ⟨m, hm⟩ := hget k
      refine ⟨m, ?_⟩
      rw [hm]
      unfold BaseParallelPattern.getParameter
      rw [hpar]
    have hget2 : ∀ k, p2.getParameter k = r0.pattern.getParameter k := by
      intro k
      rw [hp2]
      rfl
    have hord2 : p2.paramsOrder = p.paramsOrder := by rw [hp2]; exact hord0
    have hbs2 : p2.batchSize = p.batchSize := by rw [hp2]; exact hbs0
    obtain ⟨hin1, hin2⟩ := copyParametersFromHostToGpuAsync_names _ _ hci (by rw [hbs0]; exact hB)
    obtain ⟨hout1, hout2⟩ :=
      copyParametersFromGpuToHostAsync_names _ _ hcout (by rw [hbs2]; exact hB)
    obtain ⟨hargs, hmo⟩ := bindParameters_ok _ _ _ hbind
    have hinIff : ∀ n, (∃ c, Event.copyInAsync n c ∈ copies) ↔
        n ∈ p.paramsOrder ∧ ∃ q, p.getParameter n = some q ∧ q.isIn = true ∧
          (q.paramValueType = .GSPAR_PARAM_POINTER ∨ q.isBatched = true) := by
      intro n
      rw [hin2 n, hord0]
      obtain ⟨m, hm⟩ := hget0 n
      rw [hm]
      cases hq : p.getParameter n with
      | none => simp
      | some q =>
        simp only [Option.map_some', Option.some.injEq, exists_eq_left']
        rfl
    have houtIff : ∀ n, (∃ c, Event.copyOut n c ∈ outs) ↔
        n ∈ p.paramsOrder ∧ ∃ q, p.getParameter n = some q ∧ q.isOut = true ∧
          q.paramValueType = .GSPAR_PARAM_POINTER := by
      intro n
      rw [hout2 n, hord2]
      constructor
      · rintro ⟨hn, q2, hq2, ho, ht, -⟩
        refine ⟨hn, ?_⟩
        rw [hget2] at hq2
        obtain ⟨m, hm⟩ := hget0 n
        rw [hm] at hq2
        cases hq : p.getParameter n with
        | none => rw [hq] at hq2; cases hq2
        | some q =>
          rw [hq] at hq2
          have := Option.some.inj hq2
          rw [← this] at ho ht
          exact ⟨q, rfl, ho, ht⟩
      · rintro ⟨hn, q, hq, ho, ht⟩
        refine ⟨hn, ?_⟩
        obtain ⟨q2, hq2, hcast⟩ := hmo n (by rw [hord2]; exact hn)
        have hq2' := hq2
        rw [hget2] at hq2'
        obtain ⟨m, hm⟩ := hget0 n
        rw [hm, hq] at hq2'
        have heq := Option.some.inj hq2'
        have ho2 : q2.isOut = true := by rw [← heq]; exact ho
        have ht2 : q2.paramValueType = .GSPAR_PARAM_POINTER := by rw [← heq]; exact ht
        refine ⟨q2, hq2, ho2, ht2, fun hb => hcast ?_ ht2 hb⟩
        intro hnone
        simp [BaseParameter.isOut, hnone] at ho2
    refine ⟨p1, ba, allocs, copies, kernel, dr, bt, args, outs, hco, ?_, hall, hin1, hinIff,
      hout1, houtIff, fun n q hn hq hd => ⟨fun c hc => ?_, fun c hc => ?_, ?_⟩⟩
    · rw [hrun, hev, hb2, hallocs]
    · obtain ⟨-, q1, hq1, hi, -⟩ := (hinIff n).mp ⟨c, hc⟩
      rw [hq] at hq1
      rw [← Option.some.inj hq1] at hi
      simp [BaseParameter.isIn, hd] at hi
    · obtain ⟨-, q1, hq1, ho, -⟩ := (houtIff n).mp ⟨c, hc⟩
      rw [hq] at hq1
      rw [← Option.some.inj hq1] at ho
      simp [BaseParameter.isOut, hd] at ho
    · rw [hargs]
      obtain ⟨m, hm⟩ := hget0 n
      rw [hq] at hm
      have hq2 : p2.getParameter n = some { q with memoryObject := m } := by
        rw [hget2, hm]
        rfl
      have := parameter_bound p2 du n _ (by rw [hord2]; exact hn) hq2
        (by show q.direction ≠ _; rw [hd]; decide)
      exact this

/-- C16 as stated fails for Reduce: in the run of the Reduce of `reduce_sample.cpp` for
`Dimensions(100, 0, 0)`, which ends without exception, the pointer parameter `total` is
registered with direction OUT, yet no device-to-host copy is issued for it: the two
copies made are those of the partial totals. -/
theorem reduce_output_not_copied_out :
    ¬ (∀ (fuel : Nat) (p : BaseParallelPattern) (b : Backend) (dims : Dimensions)
        (r : RunResult) (n : String) (q : BaseParameter),
        Reduce.runCalls fuel p b dims = some r → r.exception = none →
        p.getParameter n = some q → q.paramValueType = .GSPAR_PARAM_POINTER →
        q.isOut = true → n ∈ copiesOut r.backend.events) := by
  intro h
  have hr : ∃ r, Reduce.runCalls 5 sampleReduce cudaBackend (Dimensions.ofMax 100 0 0) = some r ∧
      r.exception = none ∧
      copiesOut r.backend.events = [partialTotalsParamName, partialTotalsParamName] :=
    ⟨_, rfl, rfl, rfl⟩
  obtain ⟨r, h1, h2, h3⟩ := hr
  have := h 5 sampleReduce cudaBackend _ r "total" _ h1 h2 rfl rfl rfl
  rw [h3] at this
  exact absurd this (by decide)

/-- C16, amended: let the batch size be at least 1.  A run of a Map that ends without
exception consists of the compilation, the allocations, the host-to-device copies, the
launch, the wait and the device-to-host copies, in this order; a host-to-device copy is
issued for a name exactly when it is registered with a parameter that is IN or INOUT and
is a pointer or batched, a device-to-host copy exactly when it is registered with a
pointer parameter that is OUT or INOUT, and a parameter of direction
`GSPAR_PARAM_PRESENT` gets no copy in either direction and fills a slot of the argument
list of the launch.  A run of a Reduce that ends without exception consists of the
compilation, the allocations, the host-to-device copies (for the same parameters, of
the registry as it is when memory is allocated), the launches and waits of the host
loop, the copy of the partial totals to the host, and then the device-to-host copies for
the pointer parameters that are OUT or INOUT at that point; the output parameter has the
direction `GSPAR_PARAM_NONE` by then and gets no copy of its own. -/
theorem run_copies (p : BaseParallelPattern) (b : Backend) (dims : Dimensions)
    (hB : 1 ≤ p.batchSize) :
    (∀ u, p.kind = .map → (p.run b dims u).exception = none →
      ∃ p1 b1 allocs copies kernel dr bt args outs,
        p.compile b (if u then p.compiledKernelDimension else dims) = .ok (p1, b1) ∧
        (p.run b dims u).backend.events
          = b1.events ++ allocs ++ copies ++
              [Event.runAsync kernel dr bt args, Event.waitAsync kernel] ++ outs ∧
        (∀ e ∈ allocs, (∃ d n m, e = Event.malloc d n m) ∨ ∃ n, e = Event.pinHostMemory n) ∧
        (∀ e ∈ copies, ∃ n c, e = Event.copyInAsync n c) ∧
        (∀ n, (∃ c, Event.copyInAsync n c ∈ copies) ↔
          n ∈ p.paramsOrder ∧ ∃ q, p.getParameter n = some q ∧ q.isIn = true ∧
            (q.paramValueType = .GSPAR_PARAM_POINTER ∨ q.isBatched = true)) ∧
        (∀ e ∈ outs, ∃ n c, e = Event.copyOut n c) ∧
        (∀ n, (∃ c, Event.copyOut n c ∈ outs) ↔
          n ∈ p.paramsOrder ∧ ∃ q, p.getParameter n = some q ∧ q.isOut = true ∧
            q.paramValueType = .GSPAR_PARAM_POINTER) ∧
        (∀ n q, n ∈ p.paramsOrder → p.getParameter n = some q →
          q.direction = .GSPAR_PARAM_PRESENT →
          (∀ c, Event.copyInAsync n c ∉ copies) ∧ (∀ c, Event.copyOut n c ∉ outs) ∧
          ParameterSlot.parameter q.name ∈ args.map KernelArg.slot)) ∧
    (∀ vectorName op out fuel r, p.kind = .reduce vectorName op out →
      Reduce.runCalls fuel p b dims = some r → r.exception = none →
      ∃ pa ba allocs copies loop outs,
        Reduce.runUntilAllocation p b dims = .ok (pa, ba) ∧
        r.backend.events
          = ba.events ++ allocs ++ copies ++ loop ++
              [Event.copyOut partialTotalsParamName none] ++ outs ∧
        (∀ e ∈ allocs, (∃ d n m, e = Event.malloc d n m) ∨ ∃ n, e = Event.pinHostMemory n) ∧
        (∀ e ∈ copies, ∃ n c, e = Event.copyInAsync n c) ∧
        (∀ n, (∃ c, Event.copyInAsync n c ∈ copies) ↔
          n ∈ pa.paramsOrder ∧ ∃ q, pa.getParameter n = some q ∧ q.isIn = true ∧
            (q.paramValueType = .GSPAR_PARAM_POINTER ∨ q.isBatched = true)) ∧
        (∀ e ∈ loop, (∃ k d bt args, e = Event.runAsync k d bt args) ∨
          ∃ k, e = Event.waitAsync k) ∧
        (∀ e ∈ outs, ∃ n c, e = Event.copyOut n c) ∧
        (∀ n, (∃ c, Event.copyOut n c ∈ outs) ↔
          n ∈ r.pattern.paramsOrder ∧ ∃ q, r.pattern.getParameter n = some q ∧
            q.isOut = true ∧ q.paramValueType = .GSPAR_PARAM_POINTER ∧
            (q.isBatched = false → ∃ m, q.getMemoryObject = some m ∧ m.chunks = none)) ∧
        (r.pattern.getParameter out).map (fun q => q.direction) = some .GSPAR_PARAM_NONE ∧
        ∀ c, Event.copyOut out c ∉ outs) := by
  refine ⟨fun u hk hok => map_run_copies p b dims u hk hB hok,
    fun vectorName op out fuel r hk h hok => ?_⟩
  have hn : Reduce.outputParameterName p = out := by
    simp [Reduce.outputParameterName, hk]
  have := reduce_run_copies fuel p b dims r hB h hok
  rw [hn] at this
  exact this

/-- The Map of `vector_sum_map.cpp` with `b` already on the device, and the Reduce of
`reduce_sample.cpp`, whose run copies `in_vector` to the device and the partial totals
(twice) to the host. -/
theorem run_copies_witness :
    (samplePresentMap.run cudaBackend (Dimensions.ofMax 20 0 0) false).exception = none ∧
    (∃ (copies outs : List Event) (args : List KernelArg),
      (∃ c, Event.copyInAsync "a" c ∈ copies) ∧ (∃ c, Event.copyOut "result" c ∈ outs) ∧
      (∀ c, Event.copyInAsync "b" c ∉ copies) ∧ (∀ c, Event.copyOut "b" c ∉ outs) ∧
      (∀ c, Event.copyOut "a" c ∉ outs) ∧
      ParameterSlot.parameter "b" ∈ args.map KernelArg.slot) ∧
    copiesIn (samplePresentMap.run cudaBackend (Dimensions.ofMax 20 0 0) false).backend.events
      = ["a"] ∧
    copiesOut (samplePresentMap.run cudaBackend (Dimensions.ofMax 20 0 0) false).backend.events
      = ["result"] ∧
    ∃ r, Reduce.runCalls 5 sampleReduce cudaBackend (Dimensions.ofMax 100 0 0) = some r ∧
      r.exception = none ∧ copiesIn r.backend.events = ["in_vector"] ∧
      copiesOut r.backend.events = [partialTotalsParamName, partialTotalsParamName] ∧
      (r.pattern.getParameter "total").map (fun q => q.direction) = some .GSPAR_PARAM_NONE := by
  obtain ⟨_, _, _, copies, _, _, _, args, outs, -, -, -, -, hin, -, hout, hpres⟩ :=
    (run_copies samplePresentMap cudaBackend (Dimensions.ofMax 20 0 0) (by decide)).1 false rfl rfl
  have hb := hpres "b" _ (by decide) rfl rfl
  refine ⟨rfl, ⟨copies, outs, args, (hin "a").mpr ⟨by decide, _, rfl, rfl, Or.inl rfl⟩,
    (hout "result").mpr ⟨by decide, _, rfl, rfl, rfl⟩, hb.1, hb.2.1, ?_, hb.2.2⟩, rfl, rfl,
    ⟨_, rfl, rfl, rfl, rfl, rfl⟩⟩
  rintro c hc
  obtain ⟨-, q, hq, ho, -⟩ := (hout "a").mp ⟨c, hc⟩
  have hq2 : q = PointerParameter.mk "a" { name := "unsigned int*", isPointer := true } 80 true
      .GSPAR_PARAM_IN false := (Option.some.inj hq).symm
  rw [hq2] at ho
  exact absurd ho (by decide)


/-! ### Batched Map launch -/

theorem filterMap_range_prefix {β : Type} (f : Nat → Option β) (g : Nat → β) (n k : Nat)
    (hk : k ≤ n) (h1 : ∀ i, i < k → f i = some (g i)) (h2 : ∀ i, k ≤ i → f i = none) :
    (List.range n).filterMap f = (List.range k).map g := by
  obtain ⟨j, rfl⟩ := Nat.exists_eq_add_of_le hk
  rw [List.range_add, List.filterMap_append]
  have e1 : (List.range k).filterMap f = (List.range k).map g := by
    rw [← List.filterMap_eq_map]
    apply List.filterMap_congr
    intro i hi
    exact h1 i (List.mem_range.mp hi)
  have e2 : (List.map (fun x => k + x) (List.range j)).filterMap f = [] := by
    rw [List.filterMap_eq_nil_iff]
    intro i hi
    obtain ⟨x, -, rfl⟩ := List.mem_map.mp hi
    exact h2 _ (by omega)
  rw [e1, e2, List.append_nil]

theorem effectiveMax_of_y_off (numThreads dims : Dimensions) (maxThreadsPerBlock : Nat)
    (limits : ThreadLimits) (hy : dims.y.max = 0) :
    adjustLimits2D dims maxThreadsPerBlock limits = limits ∧
    effectiveMax numThreads dims maxThreadsPerBlock limits 0
      = if (numThreads.get 0).toBool && decide ((numThreads.get 0).max < limits.get 0)
          then (numThreads.get 0).max else limits.get 0 := by
  have hyb : dims.y.toBool = false := by simp [SingleDimension.toBool, hy]
  have hadj : adjustLimits2D dims maxThreadsPerBlock limits = limits := by
    simp [adjustLimits2D, hyb]
  exact ⟨hadj, by simp only [effectiveMax, hadj]⟩

theorem mulAssign_1d (dims : Dimensions) (batchSize : Nat) (hM : 1 ≤ dims.x.max)
    (hmin : dims.x.min = 0) (hy : dims.y.max = 0) (hz : dims.z.max = 0) (hB : 1 ≤ batchSize)
    (hno : dims.x.max * batchSize < ULONG_MOD) :
    dims.mulAssign batchSize = { dims with x := ⟨dims.x.max * batchSize, 0⟩ } := by
  have hxb : dims.x.toBool = true := by simp [SingleDimension.toBool]; omega
  have hyb : dims.y.toBool = false := by simp [SingleDimension.toBool, hy]
  have hzb : dims.z.toBool = false := by simp [SingleDimension.toBool, hz]
  have hpos : 0 < dims.x.max * batchSize := Nat.mul_pos hM hB
  have hx1 : (dims.get 0).mulAssign batchSize = ⟨dims.x.max * batchSize, 0⟩ := by
    simp [Dimensions.get, SingleDimension.mulAssign, hmin, Nat.mod_eq_of_lt hno]
  have hc : dims.getCount = 1 := by simp [Dimensions.getCount, hxb, hyb, hzb]
  have hset : dims.set 0 ⟨dims.x.max * batchSize, 0⟩
      = { dims with x := ⟨dims.x.max * batchSize, 0⟩ } := by simp [Dimensions.set]
  have hc1 : ({ dims with x := ⟨dims.x.max * batchSize, 0⟩ } : Dimensions).getCount = 1 := by
    simp only [Dimensions.getCount, hyb, hzb]
    simp [SingleDimension.toBool, hpos]
  unfold Dimensions.mulAssign
  simp only [hc, hx1, hset, hc1]
  simp

theorem batchedStdVariables_lt (M B g : Nat) (hno : M * B < ULONG_MOD) (hg : g < M * B) :
    batchedStdVariables M g = ⟨g, g / M, g / M * M, g % M⟩ := by
  have hle : g / M * M ≤ g := Nat.div_mul_le_self g M
  have h1 : (g / M * M) % ULONG_MOD = g / M * M := Nat.mod_eq_of_lt (by omega)
  have h2 : g - g / M * M = g % M := by
    have := Nat.div_add_mod g M
    rw [Nat.mul_comm] at this
    omega
  have h3 : (g + ULONG_MOD - g / M * M) % ULONG_MOD = g % M := by
    have : g + ULONG_MOD - g / M * M = (g - g / M * M) + ULONG_MOD := by omega
    rw [this, Nat.add_mod_right, Nat.mod_eq_of_lt (by omega), h2]
  simp only [batchedStdVariables, h1, h3]

theorem batchedControlIf_lt (M B g : Nat) (hM : 1 ≤ M) (hno : M * B < ULONG_MOD)
    (hg : g < M * B) :
    g / M < B ∧ g % M < M ∧ batchedControlIf M B (batchedStdVariables M g) = true := by
  have hb : g / M < B := by
    rw [Nat.div_lt_iff_lt_mul (by omega), Nat.mul_comm]
    exact hg
  have hx : g % M < M := Nat.mod_lt _ (by omega)
  refine ⟨hb, hx, ?_⟩
  rw [batchedStdVariables_lt M B g hno hg]
  simp [batchedControlIf, hb, hx]

theorem batchedControlIf_ge (M B g : Nat) (hM : 1 ≤ M) (hg : M * B ≤ g) :
    batchedControlIf M B (batchedStdVariables M g) = false := by
  have hb : B ≤ g / M := by
    rw [Nat.le_div_iff_mul_le (by omega), Nat.mul_comm]
    exact hg
  simp only [batchedControlIf, batchedStdVariables, Bool.and_eq_false_imp, decide_eq_true_eq,
    decide_eq_false_iff_not]
  intro h
  omega

theorem foldl_batchedVectorSumCore (a b : Nat → Nat) (vs : List BatchedVariables)
    (r : Nat → Nat) :
    vs.foldl (fun r v => batchedVectorSumCore a b v r) r
      = (vs.map fun v => v.gspar_offset + v.x).foldl
          (fun r x => Function.update r x (a x + b x)) r := by
  rw [List.foldl_map]
  rfl


/-- The batched 1-D launch whose grid stays within `unsigned int` runs the core once
per global id below `M * B`, in increasing order, with the variables
`(g, g / M, g / M * M, g % M)`. -/
theorem batchedMapLaunch_eq_range (numThreads dims : Dimensions)
    (batchSize maxThreadsPerBlock : Nat) (limits : ThreadLimits)
    (hM : 1 ≤ dims.x.max) (hmin : dims.x.min = 0) (hy : dims.y.max = 0) (hz : dims.z.max = 0)
    (hB : 1 ≤ batchSize)
    (ht : 1 ≤ effectiveMax numThreads dims maxThreadsPerBlock limits 0)
    (hsmall : dims.x.max * batchSize + effectiveMax numThreads dims maxThreadsPerBlock limits 0
      ≤ UINT_MOD) :
    ∃ bt, getNumBlocksAndThreads numThreads (dims.mulAssign batchSize) maxThreadsPerBlock limits
        = .ok bt ∧
      launchGrid bt = (bt.x.min, bt.x.max) ∧
      dims.x.max * batchSize ≤ bt.x.min * bt.x.max ∧
      bt.x.min * bt.x.max ≤ UINT_MOD ∧
      batchedMapLaunch numThreads dims batchSize maxThreadsPerBlock limits
        = .ok ((List.range (dims.x.max * batchSize)).map fun g =>
            ⟨g, g / dims.x.max, g / dims.x.max * dims.x.max, g % dims.x.max⟩) := by
  have hU : UINT_MOD = 4294967296 := by decide
  have hL : ULONG_MOD = 18446744073709551616 := by decide
  have h53 : (2 : Nat) ^ 53 = 9007199254740992 := by norm_num
  have hno : dims.x.max * batchSize < ULONG_MOD := by omega
  have hmul := mulAssign_1d dims batchSize hM hmin hy hz hB hno
  have hpos : 0 < dims.x.max * batchSize := Nat.mul_pos hM hB
  generalize hrun : dims.mulAssign batchSize = dimsToRun at hmul
  have hrx : dimsToRun.x = ⟨dims.x.max * batchSize, 0⟩ := by rw [hmul]
  have hry : dimsToRun.y.max = 0 := by rw [hmul]; exact hy
  have hyb : dimsToRun.y.toBool = false := by simp [SingleDimension.toBool, hry]
  have hxb : dimsToRun.x.toBool = true := by simp [SingleDimension.toBool, hrx, hpos]
  have hdelta : dimsToRun.x.delta = dims.x.max * batchSize := by
    rw [hrx]
    simp only [SingleDimension.delta, Nat.sub_zero, Nat.add_mod_right]
    exact Nat.mod_eq_of_lt hno
  obtain ⟨hadj, heff⟩ := effectiveMax_of_y_off numThreads dimsToRun maxThreadsPerBlock limits hry
  obtain ⟨-, heff0⟩ := effectiveMax_of_y_off numThreads dims maxThreadsPerBlock limits hy
  have hbt : getNumBlocksAndThreads numThreads dimsToRun maxThreadsPerBlock limits
      = .ok ⟨axisBlocksAndThreads dimsToRun.x (numThreads.get 0) (limits.get 0),
             axisBlocksAndThreads (dimsToRun.get 1) (numThreads.get 1) (limits.get 1),
             axisBlocksAndThreads (dimsToRun.get 2) (numThreads.get 2) (limits.get 2)⟩ := by
    simp only [getNumBlocksAndThreads, hyb, Bool.false_and, hadj]
    rfl
  rw [heff0] at ht hsmall
  obtain ⟨hcover, hspare, hblocks, hthreads⟩ :=
    axisBlocksAndThreads_cover dimsToRun.x (numThreads.get 0) (limits.get 0) hxb ht
      (by rw [hdelta]; omega)
  rw [hdelta] at hcover hspare hblocks
  generalize (if (numThreads.get 0).toBool && decide ((numThreads.get 0).max < limits.get 0)
      then (numThreads.get 0).max else limits.get 0) = m at ht hsmall hspare hthreads
  generalize axisBlocksAndThreads dimsToRun.x (numThreads.get 0) (limits.get 0) = btx
    at hbt hcover hspare hblocks hthreads
  have hmaxle : Nat.max (dims.x.max * batchSize) 1 ≤ dims.x.max * batchSize :=
    Nat.max_le.mpr ⟨le_refl _, hpos⟩
  have hgrid : launchGrid ⟨btx,
      axisBlocksAndThreads (dimsToRun.get 1) (numThreads.get 1) (limits.get 1),
      axisBlocksAndThreads (dimsToRun.get 2) (numThreads.get 2) (limits.get 2)⟩
        = (btx.min, btx.max) := by
    unfold launchGrid
    simp only
    rw [Nat.mod_eq_of_lt (by omega), Nat.mod_eq_of_lt (by omega)]
  have hle : btx.min * btx.max ≤ UINT_MOD := by omega
  refine ⟨_, hbt, hgrid, hcover, hle, ?_⟩
  have hexec : batchedCoreExecutions dims batchSize
      ⟨btx, axisBlocksAndThreads (dimsToRun.get 1) (numThreads.get 1) (limits.get 1),
       axisBlocksAndThreads (dimsToRun.get 2) (numThreads.get 2) (limits.get 2)⟩
      = (List.range (dims.x.max * batchSize)).map fun g =>
          ⟨g, g / dims.x.max, g / dims.x.max * dims.x.max, g % dims.x.max⟩ := by
    unfold batchedCoreExecutions
    rw [hgrid]
    simp only
    rw [globalIds_eq_range _ _ hle]
    apply filterMap_range_prefix _ _ _ _ hcover
    · intro g hg
      rw [if_pos (batchedControlIf_lt _ _ g hM hno hg).2.2, batchedStdVariables_lt _ _ g hno hg]
    · intro g hg
      rw [batchedControlIf_ge _ _ g hM hg]
      rfl
  have hcount : dims.getCount ≠ 0 := by
    have : dims.x.toBool = true := by simp [SingleDimension.toBool]; omega
    simp only [Dimensions.getCount, this, Bool.toNat_true]
    omega
  simp only [batchedMapLaunch, if_neg hcount, hrun, hxb, Bool.not_true, Bool.false_eq_true,
    if_false, hbt, hexec]

theorem count_of_nodup_lawful {α : Type} [BEq α] [LawfulBEq α] (l : List α) (h : l.Nodup)
    (p : α) : l.count p = if p ∈ l then 1 else 0 := by
  induction l with
  | nil => simp
  | cons q l ih =>
    obtain ⟨hq, hl⟩ := List.nodup_cons.mp h
    rw [List.count_cons, ih hl]
    by_cases hqp : q = p
    · subst hqp
      simp [hq]
    · have hpq : ¬ p = q := fun e => hqp e.symm
      simp [hqp, hpq]

/-- The batched Map launch while the grid stays within `unsigned int`: a batched 1-D Map
with extent `M ≥ 1` (min 0), batch size `B ≥ 1` and a thread limit in force `t ≥ 1` with
`M * B + t ≤ 2 ^ 32` is launched for the extent `M * B`, and the blocks and threads
cover every global id below `M * B`.  The
generated variables of a global id `g < M * B` are the batch index `g / M < B`, the
offset `(g / M) * M` and `x = g % M < M`, and the guard lets it pass; no global id
from `M * B` on passes the guard.  Every pair `(batch, x)` with `batch < B` and
`x < M` runs the core exactly once, no other pair does, and each execution uses the
offset `batch * M`, which is where chunk `batch` of a batched parameter with chunks of
`M` elements starts.  With the core `result[x] = a[x] + b[x]`, chunk `c < B` of
`result` holds afterwards what an unbatched launch over chunk `c` of `a`, `b` and
`result` leaves in its first `M` elements, and nothing beyond the `B` chunks is
written. -/
theorem batched_map_launch_small (numThreads dims : Dimensions)
    (batchSize maxThreadsPerBlock : Nat)
    (limits : ThreadLimits) (a b result : Nat → Nat)
    (hM : 1 ≤ dims.x.max) (hmin : dims.x.min = 0) (hy : dims.y.max = 0) (hz : dims.z.max = 0)
    (hB : 1 ≤ batchSize)
    (ht : 1 ≤ effectiveMax numThreads dims maxThreadsPerBlock limits 0)
    (hsmall : dims.x.max * batchSize + effectiveMax numThreads dims maxThreadsPerBlock limits 0
      ≤ UINT_MOD) :
    (dims.mulAssign batchSize).x = ⟨dims.x.max * batchSize, 0⟩ ∧
    (∃ bt, getNumBlocksAndThreads numThreads (dims.mulAssign batchSize) maxThreadsPerBlock
        limits = .ok bt ∧
      ∀ g, g < dims.x.max * batchSize →
        g ∈ globalIds (launchGrid bt).1 (launchGrid bt).2) ∧
    (∀ g, g < dims.x.max * batchSize →
      batchedStdVariables dims.x.max g
        = ⟨g, g / dims.x.max, g / dims.x.max * dims.x.max, g % dims.x.max⟩ ∧
      g / dims.x.max < batchSize ∧ g % dims.x.max < dims.x.max ∧
      batchedControlIf dims.x.max batchSize (batchedStdVariables dims.x.max g) = true) ∧
    (∀ g, dims.x.max * batchSize ≤ g →
      batchedControlIf dims.x.max batchSize (batchedStdVariables dims.x.max g) = false) ∧
    (∃ vs, batchedMapLaunch numThreads dims batchSize maxThreadsPerBlock limits = .ok vs ∧
      (∀ batch x, (vs.map fun v => (v.gspar_batch, v.x)).count (batch, x)
        = if batch < batchSize ∧ x < dims.x.max then 1 else 0) ∧
      ∀ v ∈ vs, v.gspar_offset = v.gspar_batch * dims.x.max) ∧
    (∃ out, batchedVectorSumMap a b result numThreads dims batchSize maxThreadsPerBlock limits
        = .ok out ∧
      (∀ c, c < batchSize →
        ∃ outc, vectorSumMap (chunkOf dims.x.max a c) (chunkOf dims.x.max b c)
            (chunkOf dims.x.max result c) numThreads dims maxThreadsPerBlock limits = .ok outc ∧
          ∀ i, i < dims.x.max → chunkOf dims.x.max out c i = outc i) ∧
      ∀ j, dims.x.max * batchSize ≤ j → out j = result j) := by
  have hU : UINT_MOD = 4294967296 := by decide
  have hL : ULONG_MOD = 18446744073709551616 := by decide
  have hno : dims.x.max * batchSize < ULONG_MOD := by omega
  obtain ⟨bt, hbt, hgrid, hcover, hle, hml⟩ := batchedMapLaunch_eq_range numThreads dims batchSize
    maxThreadsPerBlock limits hM hmin hy hz hB ht hsmall
  have hsmall1 : dims.x.max + effectiveMax numThreads dims maxThreadsPerBlock limits 0
      ≤ UINT_MOD := le_trans (Nat.add_le_add_right (Nat.le_mul_of_pos_right _ hB) _) hsmall
  have hlaunch := mapLaunch_eq_range numThreads dims maxThreadsPerBlock limits
    (by omega) hy ht hsmall1
  clear hsmall hsmall1 ht
  generalize hMdef : dims.x.max = M at *
  have hidx : ((List.range (M * batchSize)).map fun g =>
      (⟨g, g / M, g / M * M, g % M⟩ : BatchedVariables)).map (fun v => v.gspar_offset + v.x)
      = List.range (M * batchSize) := by
    rw [List.map_map]
    conv_rhs => rw [← List.map_id (List.range (M * batchSize))]
    apply List.map_congr_left
    intro g _
    have := Nat.div_add_mod g M
    rw [Nat.mul_comm] at this
    simpa using this
  have hpairs : ((List.range (M * batchSize)).map fun g =>
      (⟨g, g / M, g / M * M, g % M⟩ : BatchedVariables)).map (fun v => (v.gspar_batch, v.x))
      = (List.range (M * batchSize)).map fun g => (g / M, g % M) := by
    rw [List.map_map]
    rfl
  have hnodup : ((List.range (M * batchSize)).map fun g => (g / M, g % M)).Nodup := by
    refine (List.nodup_range _).map ?_
    intro p q h
    have h1 : p / M = q / M := congrArg Prod.fst h
    have h2 : p % M = q % M := congrArg Prod.snd h
    rw [← Nat.div_add_mod p M, ← Nat.div_add_mod q M, h1, h2]
  have hmem : ∀ batch x, (batch, x) ∈ ((List.range (M * batchSize)).map fun g => (g / M, g % M))
      ↔ batch < batchSize ∧ x < M := by
    intro batch x
    simp only [List.mem_map, List.mem_range, Prod.mk.injEq]
    constructor
    · rintro ⟨g, hg, rfl, rfl⟩
      exact ⟨by rw [Nat.div_lt_iff_lt_mul (by omega), Nat.mul_comm]; exact hg,
        Nat.mod_lt _ (by omega)⟩
    · rintro ⟨h1, h2⟩
      refine ⟨M * batch + x, ?_, ?_, ?_⟩
      · calc M * batch + x < M * batch + M := by omega
          _ = M * (batch + 1) := by ring
          _ ≤ M * batchSize := Nat.mul_le_mul_left _ h1
      · rw [Nat.mul_add_div (by omega), Nat.div_eq_of_lt h2, Nat.add_zero]
      · rw [Nat.mul_add_mod, Nat.mod_eq_of_lt h2]
  have hout : batchedVectorSumMap a b result numThreads dims batchSize maxThreadsPerBlock limits
      = .ok ((List.range (M * batchSize)).foldl
          (fun r x => Function.update r x (a x + b x)) result) := by
    simp only [batchedVectorSumMap, hml, foldl_batchedVectorSumCore, hidx]
  have houtv : ∀ j, (List.range (M * batchSize)).foldl
      (fun r x => Function.update r x (a x + b x)) result j
      = if j < M * batchSize then a j + b j else result j := by
    intro j
    rw [foldl_update_apply (fun x => a x + b x)]
    simp only [List.mem_range]
  refine ⟨?_, ⟨bt, hbt, fun g hg => ?_⟩, fun g hg => ?_, fun g hg => ?_, ⟨_, hml, ?_, ?_⟩,
    ⟨_, hout, fun c hc => ?_, fun j hj => ?_⟩⟩
  · rw [mulAssign_1d dims batchSize (by omega) hmin hy hz hB (by rw [hMdef]; exact hno), hMdef]
  · rw [hgrid]
    simp only
    rw [globalIds_eq_range _ _ hle, List.mem_range]
    omega
  · exact ⟨batchedStdVariables_lt M batchSize g hno hg, batchedControlIf_lt M batchSize g hM hno hg⟩
  · exact batchedControlIf_ge M batchSize g hM hg
  · intro batch x
    rw [hpairs, count_of_nodup_lawful _ hnodup]
    simp only [hmem]
  · intro v hv
    obtain ⟨g, -, rfl⟩ := List.mem_map.mp hv
    rfl
  · rw [hmin] at hlaunch
    refine ⟨_, by simp only [vectorSumMap, hlaunch]; rfl, fun i hi => ?_⟩
    have hci : c * M + i < M * batchSize := by
      calc c * M + i < c * M + M := by omega
        _ = M * (c + 1) := by ring
        _ ≤ M * batchSize := Nat.mul_le_mul_left _ hc
    have h2 := foldl_update_apply
      (fun x => chunkOf M a c x + chunkOf M b c x)
      ((List.range (M - 0)).map (fun g => g + 0)) (chunkOf M result c) i
    simp only [vectorSumCore]
    rw [h2]
    simp only [chunkOf, houtv, if_pos hci]
    rw [if_pos]
    simp only [Nat.sub_zero, Nat.add_zero, List.map_id', List.mem_range]
    exact hi
  · rw [houtv, if_neg (by omega)]


theorem batched_map_launch_small_witness :
    CUDA.generateStdVariables (sampleMap.setBatchSize 2) (Dimensions.ofMax 5 0 0)
      = "size_t gspar_global_x = gspar_get_global_id(0); \n" ++
        "size_t gspar_batch_x = ((size_t)(gspar_global_x / gspar_max_x)); \n" ++
        "size_t gspar_offset_x = gspar_batch_x * gspar_max_x; \n" ++
        "size_t x = gspar_global_x - gspar_offset_x; \n" ∧
    ((sampleMap.setBatchSize 2).generateDefaultControlIf (Dimensions.ofMax 5 0 0)
        ("x", "y", "z")).1
      = "if ((gspar_batch_x < gspar_batch_size)&&(x < gspar_max_x)) \x7b\n" ∧
    batchedStdVariables 5 7 = ⟨7, 1, 5, 2⟩ ∧
    batchedControlIf 5 2 (batchedStdVariables 5 10) = false ∧
    ∃ out, batchedVectorSumMap (fun i => i) (fun i => i + 1) (fun _ => 0)
        (Dimensions.ofMax 0 0 0) (Dimensions.ofMax 5 0 0) 2 1024 ⟨1024, 1024, 64⟩ = .ok out ∧
      (List.range 12).map out = [1, 3, 5, 7, 9, 11, 13, 15, 17, 19, 0, 0] ∧
      ∀ j, 10 ≤ j → out j = 0 := by
  obtain ⟨-, -, hv, hg, -, out, hout, hchunks, hrest⟩ :=
    batched_map_launch_small (Dimensions.ofMax 0 0 0) (Dimensions.ofMax 5 0 0) 2 1024
      ⟨1024, 1024, 64⟩ (fun i => i) (fun i => i + 1) (fun _ => 0)
      (by decide) rfl rfl rfl (by decide) (by decide) (by decide)
  refine ⟨rfl, rfl, (hv 7 (by decide)).1, hg 10 (by decide), out, hout, ?_, hrest⟩
  rw [Except.ok.inj (hout.symm.trans (by rfl))]
  decide


/-- C18, evaluated at the failing input: the batched Map of `vector_sum_map_batch.cpp`
with extent `M = 1024` and batch size `B = 2 ^ 22 + 1` on a device with 1024 threads per
block.  The launch is computed for the extent `M * B = 2 ^ 32 + 1024`: `2 ^ 22 + 1`
blocks of 1024 threads.  In block `2 ^ 22` the product `blockIdx.x * blockDim.x` is 0 in
`unsigned int`, so the threads of that block get the global ids `0 .. 1023` of block 0:
no thread has a global id from `2 ^ 32` on, the pair `(batch, x) = (0, 0)` runs the
core at least twice and no pair of batch `2 ^ 22` runs it.  Element 0 of chunk `2 ^ 22`
of `result` keeps its previous content, where the unbatched launch on that chunk
stores the sum. -/
theorem batched_map_launch_wraps_global_id :
    (Dimensions.ofMax 1024 0 0).mulAssign (2 ^ 22 + 1) = Dimensions.ofMax (2 ^ 32 + 1024) 0 0 ∧
    getNumBlocksAndThreads (Dimensions.ofMax 0 0 0) (Dimensions.ofMax (2 ^ 32 + 1024) 0 0) 1024
      ⟨1024, 1024, 64⟩ = .ok ⟨⟨1024, 2 ^ 22 + 1⟩, ⟨1, 1⟩, ⟨1, 1⟩⟩ ∧
    (∀ t, t < 1024 → gspar_get_global_id (2 ^ 22) 1024 t = gspar_get_global_id 0 1024 t) ∧
    (∀ b t, gspar_get_global_id b 1024 t < 2 ^ 32) ∧
    (∃ vs, batchedMapLaunch (Dimensions.ofMax 0 0 0) (Dimensions.ofMax 1024 0 0) (2 ^ 22 + 1)
        1024 ⟨1024, 1024, 64⟩ = .ok vs ∧
      2 ≤ (vs.map fun v => (v.gspar_batch, v.x)).count (0, 0) ∧
      ∀ x, (vs.map fun v => (v.gspar_batch, v.x)).count (2 ^ 22, x) = 0) ∧
    ∀ a b result : Nat → Nat,
      (∃ out, batchedVectorSumMap a b result (Dimensions.ofMax 0 0 0) (Dimensions.ofMax 1024 0 0)
          (2 ^ 22 + 1) 1024 ⟨1024, 1024, 64⟩ = .ok out ∧
        chunkOf 1024 out (2 ^ 22) 0 = chunkOf 1024 result (2 ^ 22) 0) ∧
      ∃ outc, vectorSumMap (chunkOf 1024 a (2 ^ 22)) (chunkOf 1024 b (2 ^ 22))
          (chunkOf 1024 result (2 ^ 22)) (Dimensions.ofMax 0 0 0) (Dimensions.ofMax 1024 0 0)
          1024 ⟨1024, 1024, 64⟩ = .ok outc ∧
        outc 0 = chunkOf 1024 a (2 ^ 22) 0 + chunkOf 1024 b (2 ^ 22) 0 := by
  have hU : UINT_MOD = 4294967296 := by decide
  have hL : ULONG_MOD = 18446744073709551616 := by decide
  have hmul : (Dimensions.ofMax 1024 0 0).mulAssign (2 ^ 22 + 1)
      = Dimensions.ofMax (2 ^ 32 + 1024) 0 0 := by decide
  have hbt : getNumBlocksAndThreads (Dimensions.ofMax 0 0 0)
      (Dimensions.ofMax (2 ^ 32 + 1024) 0 0) 1024 ⟨1024, 1024, 64⟩
      = .ok ⟨⟨1024, 2 ^ 22 + 1⟩, ⟨1, 1⟩, ⟨1, 1⟩⟩ := rfl
  have hgrid : launchGrid ⟨⟨1024, 2 ^ 22 + 1⟩, ⟨1, 1⟩, ⟨1, 1⟩⟩ = (2 ^ 22 + 1, 1024) := by decide
  have hwrap : ∀ t, t < 1024 →
      gspar_get_global_id (2 ^ 22) 1024 t = gspar_get_global_id 0 1024 t := by
    intro t ht
    unfold gspar_get_global_id
    have h : 2 ^ 22 * 1024 = UINT_MOD := by decide
    rw [h, Nat.add_mod_left, Nat.zero_mul, Nat.zero_add]
  have hml : batchedMapLaunch (Dimensions.ofMax 0 0 0) (Dimensions.ofMax 1024 0 0) (2 ^ 22 + 1)
      1024 ⟨1024, 1024, 64⟩
      = .ok ((globalIds (2 ^ 22 + 1) 1024).filterMap fun gid =>
          if batchedControlIf 1024 (2 ^ 22 + 1) (batchedStdVariables 1024 gid) = true then
            some (batchedStdVariables 1024 gid)
          else none) := by
    have hc : (Dimensions.ofMax 1024 0 0).getCount ≠ 0 := by decide
    have hx : (Dimensions.ofMax (2 ^ 32 + 1024) 0 0).x.toBool = true := by decide
    have hm : (Dimensions.ofMax 1024 0 0).x.max = 1024 := rfl
    unfold batchedMapLaunch
    rw [if_neg hc]
    simp only [hmul, hx, hbt, Bool.not_true, Bool.false_eq_true, if_false, batchedCoreExecutions,
      hgrid, hm]
  have hvars : ∀ v, v ∈ (globalIds (2 ^ 22 + 1) 1024).filterMap
      (fun gid =>
        if batchedControlIf 1024 (2 ^ 22 + 1) (batchedStdVariables 1024 gid) = true then
          some (batchedStdVariables 1024 gid)
        else none) →
      v.gspar_batch < 2 ^ 22 ∧ v.gspar_offset + v.x < 2 ^ 32 := by
    intro v hv
    obtain ⟨g, hg, hgv⟩ := List.mem_filterMap.mp hv
    have hlt := mem_globalIds_lt _ _ _ hg
    split at hgv
    · cases hgv
      rw [batchedStdVariables_lt 1024 (2 ^ 22 + 1) g (by decide)
        (lt_trans hlt (by decide))]
      simp only
      have h2 : (2 : Nat) ^ 22 = 4194304 := by norm_num
      have h3 : (2 : Nat) ^ 32 = 4294967296 := by norm_num
      have hd := Nat.div_add_mod g 1024
      rw [h2, h3]
      omega
    · cases hgv
  refine ⟨hmul, hbt, hwrap, fun b t => ?_, ⟨_, hml, ?_, fun x => ?_⟩, fun a b result => ⟨?_, ?_⟩⟩
  · have := gspar_get_global_id_lt b 1024 t
    rw [hU] at this
    exact lt_of_lt_of_le this (by norm_num)
  · rw [globalIds_succ, List.filterMap_append, List.map_append, List.count_append]
    have h1 : ((0, 0) : Nat × Nat) ∈ ((globalIds (2 ^ 22) 1024).filterMap
        (fun gid =>
          if batchedControlIf 1024 (2 ^ 22 + 1) (batchedStdVariables 1024 gid) = true then
            some (batchedStdVariables 1024 gid)
          else none)).map (fun v => (v.gspar_batch, v.x)) := by
      refine List.mem_map.mpr ⟨batchedStdVariables 1024 0, ?_, by decide⟩
      refine List.mem_filterMap.mpr ⟨0, ?_, by decide⟩
      exact mem_globalIds (2 ^ 22) 1024 0 0 (by decide) (by decide)
    have h2 : ((0, 0) : Nat × Nat) ∈
        (((List.range 1024).map fun t => gspar_get_global_id (2 ^ 22) 1024 t).filterMap
        (fun gid =>
          if batchedControlIf 1024 (2 ^ 22 + 1) (batchedStdVariables 1024 gid) = true then
            some (batchedStdVariables 1024 gid)
          else none)).map (fun v => (v.gspar_batch, v.x)) := by
      refine List.mem_map.mpr ⟨batchedStdVariables 1024 0, ?_, by decide⟩
      refine List.mem_filterMap.mpr ⟨0, ?_, by decide⟩
      exact List.mem_map.mpr ⟨0, List.mem_range.mpr (by decide), by decide⟩
    have c1 := List.count_pos_iff.mpr h1
    have c2 := List.count_pos_iff.mpr h2
    omega
  · apply List.count_eq_zero.mpr
    intro h
    obtain ⟨v, hv, hvx⟩ := List.mem_map.mp h
    have := (hvars v hv).1
    have hb : v.gspar_batch = 2 ^ 22 := congrArg Prod.fst hvx
    omega
  · refine ⟨_, by simp only [batchedVectorSumMap, hml]; rfl, ?_⟩
    have hnot : ∀ i, 2 ^ 32 ≤ i → ¬ (i ∈ List.map (fun v => v.gspar_offset + v.x)
        ((globalIds (2 ^ 22 + 1) 1024).filterMap (fun gid =>
          if batchedControlIf 1024 (2 ^ 22 + 1) (batchedStdVariables 1024 gid) = true then
            some (batchedStdVariables 1024 gid)
          else none))) := by
      intro i hi h
      obtain ⟨v, hv, hvx⟩ := List.mem_map.mp h
      have := (hvars v hv).2
      omega
    simp only [chunkOf]
    rw [foldl_batchedVectorSumCore, foldl_update_apply (fun x => a x + b x),
      if_neg (hnot _ (by norm_num))]
  · have hlaunch := mapLaunch_eq_range (Dimensions.ofMax 0 0 0) (Dimensions.ofMax 1024 0 0) 1024
      ⟨1024, 1024, 64⟩ (by decide) rfl (by decide) (by decide)
    refine ⟨_, by simp only [vectorSumMap, hlaunch]; rfl, ?_⟩
    simp only [vectorSumCore]
    rw [foldl_update_apply (fun x => chunkOf 1024 a (2 ^ 22) x + chunkOf 1024 b (2 ^ 22) x),
      if_pos]
    exact List.mem_map.mpr ⟨0, List.mem_range.mpr (by decide), rfl⟩


/-! ### Three active axes, two active axes, scaling -/

/-- C23: `getNumBlocksAndThreads` ends with the error `3-dimensional kernels not
supported` for every `Dimensions` whose three axes are active, whatever the override and
the limits; for a `Dimensions` whose axes are set contiguously and which has one or two
active axes (X, or X and Y) it returns a mapping.  The error is the only one the
function raises. -/
theorem getNumBlocksAndThreads_three_dimensional (numThreads dims : Dimensions)
    (maxThreadsPerBlock : Nat) (limits : ThreadLimits) :
    (dims.x.toBool = true → dims.y.toBool = true → dims.z.toBool = true →
      getNumBlocksAndThreads numThreads dims maxThreadsPerBlock limits
        = .error "3-dimensional kernels not supported") ∧
    (dims.isContiguous = true → dims.getCount = 1 ∨ dims.getCount = 2 →
      ∃ bt, getNumBlocksAndThreads numThreads dims maxThreadsPerBlock limits = .ok bt) ∧
    (∀ e, getNumBlocksAndThreads numThreads dims maxThreadsPerBlock limits = .error e →
      e = "3-dimensional kernels not supported") := by
  refine ⟨fun _ hy hz => ?_, fun hc hn => ?_, fun e he => ?_⟩
  · simp [getNumBlocksAndThreads, hy, hz]
  · have hz : dims.z.toBool = false := by
      cases hx : dims.x.toBool <;> cases hy : dims.y.toBool <;> cases hz : dims.z.toBool <;>
        simp [Dimensions.isContiguous, Dimensions.getCount, hx, hy, hz] at hc hn ⊢
    simp only [getNumBlocksAndThreads, hz, Bool.and_false]
    exact ⟨_, rfl⟩
  · unfold getNumBlocksAndThreads at he
    split at he
    · exact (Except.error.inj he).symm
    · exact Except.noConfusion he

theorem getNumBlocksAndThreads_three_dimensional_witness :
    getNumBlocksAndThreads (Dimensions.ofMax 0 0 0) (Dimensions.ofMax 4 4 4) 1024
        ⟨1024, 1024, 64⟩ = .error "3-dimensional kernels not supported" ∧
    ∃ bt, getNumBlocksAndThreads (Dimensions.ofMax 0 0 0) (Dimensions.ofMax 64 64 0) 1024
        ⟨1024, 1024, 64⟩ = .ok bt :=
  ⟨(getNumBlocksAndThreads_three_dimensional (Dimensions.ofMax 0 0 0) (Dimensions.ofMax 4 4 4)
      1024 ⟨1024, 1024, 64⟩).1 (by decide) (by decide) (by decide),
   (getNumBlocksAndThreads_three_dimensional (Dimensions.ofMax 0 0 0) (Dimensions.ofMax 64 64 0)
      1024 ⟨1024, 1024, 64⟩).2.1 (by decide) (Or.inr (by decide))⟩


theorem forall_lt_three (P : Nat → Prop) : (∀ i, i < 3 → P i) ↔ P 0 ∧ P 1 ∧ P 2 := by
  constructor
  · intro h
    exact ⟨h 0 (by decide), h 1 (by decide), h 2 (by decide)⟩
  · rintro ⟨h0, h1, h2⟩ i hi
    interval_cases i
    · exact h0
    · exact h1
    · exact h2

/-- The two scaling operators on a `Dimensions` whose axes are set contiguously, without
overflow: `d *= n` scales the active axes and leaves the others as they are, `d * n`
scales the active axes and sets the others to `(0, 0)`. -/
theorem mulAssign_mul_explicit (d : Dimensions) (n : Nat) (hc : d.isContiguous = true)
    (hn : 1 ≤ n)
    (hno : ∀ i, i < 3 → (d.get i).max * n < ULONG_MOD ∧ (d.get i).min * n < ULONG_MOD) :
    d.mulAssign n
      = ⟨if d.x.toBool then ⟨d.x.max * n, d.x.min * n⟩ else d.x,
         if d.y.toBool then ⟨d.y.max * n, d.y.min * n⟩ else d.y,
         if d.z.toBool then ⟨d.z.max * n, d.z.min * n⟩ else d.z⟩ ∧
    d.mul n
      = ⟨if d.x.toBool then ⟨d.x.max * n, d.x.min * n⟩ else ⟨0, 0⟩,
         if d.y.toBool then ⟨d.y.max * n, d.y.min * n⟩ else ⟨0, 0⟩,
         if d.z.toBool then ⟨d.z.max * n, d.z.min * n⟩ else ⟨0, 0⟩⟩ := by
  obtain ⟨⟨xm, xn⟩, ⟨ym, yn⟩, ⟨zm, zn⟩⟩ := d
  obtain ⟨⟨hxm, hxn⟩, ⟨hym, hyn⟩, ⟨hzm, hzn⟩⟩ := (forall_lt_three _).mp hno
  simp only [Dimensions.get, if_true, one_ne_zero, if_false] at hxm hxn hym hyn
  have hzm1 : zm * n < ULONG_MOD := hzm
  have hzn1 : zn * n < ULONG_MOD := hzn
  have hn0 : 0 < n := hn
  have ex : (SingleDimension.mk xm xn).mulAssign n = ⟨xm * n, xn * n⟩ := by
    simp [SingleDimension.mulAssign, Nat.mod_eq_of_lt hxm, Nat.mod_eq_of_lt hxn]
  have ey : (SingleDimension.mk ym yn).mulAssign n = ⟨ym * n, yn * n⟩ := by
    simp [SingleDimension.mulAssign, Nat.mod_eq_of_lt hym, Nat.mod_eq_of_lt hyn]
  have ez : (SingleDimension.mk zm zn).mulAssign n = ⟨zm * n, zn * n⟩ := by
    simp [SingleDimension.mulAssign, Nat.mod_eq_of_lt hzm1, Nat.mod_eq_of_lt hzn1]
  have fx : (SingleDimension.mk xm xn).mul n = ⟨xm * n, xn * n⟩ := by
    simp [SingleDimension.mul, Nat.mod_eq_of_lt hxm, Nat.mod_eq_of_lt hxn]
  have fy : (SingleDimension.mk ym yn).mul n = ⟨ym * n, yn * n⟩ := by
    simp [SingleDimension.mul, Nat.mod_eq_of_lt hym, Nat.mod_eq_of_lt hyn]
  have fz : (SingleDimension.mk zm zn).mul n = ⟨zm * n, zn * n⟩ := by
    simp [SingleDimension.mul, Nat.mod_eq_of_lt hzm1, Nat.mod_eq_of_lt hzn1]
  refine ⟨?_, by simp only [Dimensions.mul, fx, fy, fz]⟩
  rcases Nat.eq_zero_or_pos xm with hx0 | hx0
  · subst hx0
    rcases Nat.eq_zero_or_pos ym with hy0 | hy0
    · subst hy0
      rcases Nat.eq_zero_or_pos zm with hz0 | hz0
      · subst hz0
        simp [Dimensions.mulAssign, Dimensions.getCount, SingleDimension.toBool]
      · exfalso
        simp [Dimensions.isContiguous, SingleDimension.toBool, hz0] at hc
    · exfalso
      simp [Dimensions.isContiguous, SingleDimension.toBool, hy0] at hc
  · have hxp : 0 < xm * n := Nat.mul_pos hx0 hn0
    rcases Nat.eq_zero_or_pos ym with hy0 | hy0
    · subst hy0
      rcases Nat.eq_zero_or_pos zm with hz0 | hz0
      · subst hz0
        simp [Dimensions.mulAssign, Dimensions.getCount, Dimensions.get,
          Dimensions.set, SingleDimension.toBool, hx0, hxp, ex]
      · exfalso
        simp [Dimensions.isContiguous, SingleDimension.toBool, hz0] at hc
    · have hyp : 0 < ym * n := Nat.mul_pos hy0 hn0
      rcases Nat.eq_zero_or_pos zm with hz0 | hz0
      · subst hz0
        simp [Dimensions.mulAssign, Dimensions.getCount, Dimensions.get,
          Dimensions.set, SingleDimension.toBool, hx0, hxp, hy0, hyp, ex, ey]
      · have hzp : 0 < zm * n := Nat.mul_pos hz0 hn0
        simp [Dimensions.mulAssign, Dimensions.getCount, Dimensions.get,
          Dimensions.set, SingleDimension.toBool, hx0, hxp, hy0, hyp, hz0, hzp, ex, ey, ez]

/-- C24 as stated fails on an unused axis whose `min` is not 0: for the `Dimensions`
with X = (max 10, min 0), Y = (max 0, min 5) and Z = (0, 0), whose only active axis is
X, and `n = 2`, no product overflows, yet `d *= 2` leaves Y at `(0, 5)` and `d * 2`
resets it to `(0, 0)`: the two results differ. -/
theorem mul_resets_unused_axis :
    ¬ (∀ (d : Dimensions) (n : Nat), d.isContiguous = true → 1 ≤ n →
        (∀ i, i < 3 → (d.get i).max * n < ULONG_MOD ∧ (d.get i).min * n < ULONG_MOD) →
        d.mulAssign n = d.mul n) := by
  intro h
  have := h ⟨⟨10, 0⟩, ⟨0, 5⟩, ⟨0, 0⟩⟩ 2 (by decide) (by decide)
    ((forall_lt_three _).mpr ⟨by decide, by decide, by decide⟩)
  exact absurd this (by decide)

/-- C24, amended: for a `Dimensions` whose axes are set contiguously and a factor
`n ≥ 1` whose products with every `max` and `min` do not overflow `unsigned long`, both
`d *= n` and `d * n` multiply the `max` and the `min` of each active axis by `n` and leave
every unused axis unused, so both keep the number of active axes and contiguity.  An
unused axis is left as it is by `d *= n` and set to `(0, 0)` by `d * n`; the two results
are equal (also under `operator==`) exactly when every unused axis of `d` has `min` 0. -/
theorem mulAssign_mul_axes (d : Dimensions) (n : Nat) (hc : d.isContiguous = true)
    (hn : 1 ≤ n)
    (hno : ∀ i, i < 3 → (d.get i).max * n < ULONG_MOD ∧ (d.get i).min * n < ULONG_MOD) :
    (∀ i, i < 3 → d.is i = true →
      (d.mulAssign n).get i = ⟨(d.get i).max * n, (d.get i).min * n⟩ ∧
      (d.mul n).get i = ⟨(d.get i).max * n, (d.get i).min * n⟩ ∧
      (d.mulAssign n).is i = true ∧ (d.mul n).is i = true) ∧
    (∀ i, i < 3 → d.is i = false →
      (d.mulAssign n).get i = d.get i ∧ (d.mul n).get i = ⟨0, 0⟩ ∧
      (d.mulAssign n).is i = false ∧ (d.mul n).is i = false) ∧
    (d.mulAssign n).getCount = d.getCount ∧ (d.mul n).getCount = d.getCount ∧
    (d.mulAssign n).isContiguous = true ∧ (d.mul n).isContiguous = true ∧
    (d.mulAssign n = d.mul n ↔ ∀ i, i < 3 → d.is i = false → (d.get i).min = 0) ∧
    ((d.mulAssign n).eq (d.mul n) = true
      ↔ ∀ i, i < 3 → d.is i = false → (d.get i).min = 0) := by
  obtain ⟨h1, h2⟩ := mulAssign_mul_explicit d n hc hn hno
  obtain ⟨⟨xm, xn⟩, ⟨ym, yn⟩, ⟨zm, zn⟩⟩ := d
  have hpos : ∀ m, 0 < m * n ↔ 0 < m := fun m =>
    ⟨fun h => Nat.pos_of_ne_zero (fun e => by simp [e] at h), fun h => Nat.mul_pos h hn⟩
  rw [h1, h2]
  simp only [forall_lt_three]
  rcases Nat.eq_zero_or_pos xm with hx0 | hx0 <;>
  rcases Nat.eq_zero_or_pos ym with hy0 | hy0 <;>
  rcases Nat.eq_zero_or_pos zm with hz0 | hz0 <;>
  first
    | (exfalso
       simp [Dimensions.isContiguous, SingleDimension.toBool, hx0, hy0, hz0] at hc
       done)
    | simp [Dimensions.is, Dimensions.get, Dimensions.getCount, Dimensions.isContiguous,
        Dimensions.eq, SingleDimension.eq, SingleDimension.toBool, hpos, hx0, hy0, hz0]

theorem mulAssign_mul_axes_witness :
    (Dimensions.mk ⟨20, 4⟩ ⟨10, 0⟩ ⟨0, 7⟩).mulAssign 3 = ⟨⟨60, 12⟩, ⟨30, 0⟩, ⟨0, 7⟩⟩ ∧
    (Dimensions.mk ⟨20, 4⟩ ⟨10, 0⟩ ⟨0, 7⟩).mul 3 = ⟨⟨60, 12⟩, ⟨30, 0⟩, ⟨0, 0⟩⟩ ∧
    (Dimensions.mk ⟨20, 4⟩ ⟨10, 0⟩ ⟨0, 7⟩).mulAssign 3 ≠ (Dimensions.mk ⟨20, 4⟩ ⟨10, 0⟩ ⟨0, 7⟩).mul 3 ∧
    (Dimensions.mk ⟨20, 4⟩ ⟨10, 0⟩ ⟨0, 0⟩).mulAssign 3 = (Dimensions.mk ⟨20, 4⟩ ⟨10, 0⟩ ⟨0, 0⟩).mul 3 := by
  have h := mulAssign_mul_axes (Dimensions.mk ⟨20, 4⟩ ⟨10, 0⟩ ⟨0, 7⟩) 3 (by decide) (by decide)
    ((forall_lt_three _).mpr ⟨by decide, by decide, by decide⟩)
  have h0 := mulAssign_mul_axes (Dimensions.mk ⟨20, 4⟩ ⟨10, 0⟩ ⟨0, 0⟩) 3 (by decide) (by decide)
    ((forall_lt_three _).mpr ⟨by decide, by decide, by decide⟩)
  refine ⟨rfl, rfl, ?_, ?_⟩
  · intro e
    have := (h.2.2.2.2.2.2.1.mp e) 2 (by decide) (by decide)
    exact absurd this (by decide)
  · exact h0.2.2.2.2.2.2.1.mpr ((forall_lt_three _).mpr ⟨by decide, by decide, by decide⟩)


theorem axisBlocksAndThreads_threads_le_delta (dim numThreads : SingleDimension)
    (maxThreads : Nat) (hon : dim.toBool = true) :
    (axisBlocksAndThreads dim numThreads maxThreads).max ≤ dim.delta := by
  simp only [axisBlocksAndThreads, hon, if_true]
  generalize (if numThreads.toBool && decide (numThreads.max < maxThreads) then numThreads.max
    else maxThreads) = m
  by_cases h : dim.delta ≤ m
  · simp [h]
  · simp only [h, if_false]
    omega

/-- The 2-D rule while the product `x.max * y.max` does not overflow `unsigned long`:
for a `Dimensions` with X and Y active and Z unused, `min ≤ max` on both axes, and a
group limit of at least 1: when `x.max * y.max` exceeds the group limit, entries 0 and 1 of the
per-axis maxima become `floor(sqrt(maxThreadsPerBlock))` and the per-axis rule is
applied with them; otherwise the maxima are left as they are.  In both cases the
threads per block returned satisfy `threads_x * threads_y ≤ maxThreadsPerBlock`. -/
theorem getNumBlocksAndThreads_two_dimensional_no_overflow (numThreads dims : Dimensions)
    (maxThreadsPerBlock : Nat) (limits : ThreadLimits)
    (hx : dims.x.toBool = true) (hy : dims.y.toBool = true) (hz : dims.z.toBool = false)
    (hxm : dims.x.min ≤ dims.x.max) (hym : dims.y.min ≤ dims.y.max)
    (_hT : 1 ≤ maxThreadsPerBlock) (hno : dims.x.max * dims.y.max < ULONG_MOD) :
    ∃ bt, getNumBlocksAndThreads numThreads dims maxThreadsPerBlock limits = .ok bt ∧
      (maxThreadsPerBlock < dims.x.max * dims.y.max →
        adjustLimits2D dims maxThreadsPerBlock limits
          = ⟨Nat.sqrt maxThreadsPerBlock, Nat.sqrt maxThreadsPerBlock, limits.d2⟩ ∧
        Nat.sqrt maxThreadsPerBlock * Nat.sqrt maxThreadsPerBlock ≤ maxThreadsPerBlock ∧
        maxThreadsPerBlock < (Nat.sqrt maxThreadsPerBlock + 1) * (Nat.sqrt maxThreadsPerBlock + 1) ∧
        bt.x = axisBlocksAndThreads dims.x (numThreads.get 0) (Nat.sqrt maxThreadsPerBlock) ∧
        bt.y = axisBlocksAndThreads dims.y (numThreads.get 1) (Nat.sqrt maxThreadsPerBlock) ∧
        bt.x.max ≤ Nat.sqrt maxThreadsPerBlock ∧ bt.y.max ≤ Nat.sqrt maxThreadsPerBlock) ∧
      (dims.x.max * dims.y.max ≤ maxThreadsPerBlock →
        adjustLimits2D dims maxThreadsPerBlock limits = limits ∧
        bt.x = axisBlocksAndThreads dims.x (numThreads.get 0) limits.d0 ∧
        bt.y = axisBlocksAndThreads dims.y (numThreads.get 1) limits.d1) ∧
      bt.x.max * bt.y.max ≤ maxThreadsPerBlock := by
  have hxp : 0 < dims.x.max := by simpa [SingleDimension.toBool] using hx
  have hyp : 0 < dims.y.max := by simpa [SingleDimension.toBool] using hy
  have hx64 : dims.x.max < ULONG_MOD :=
    lt_of_le_of_lt (Nat.le_mul_of_pos_right _ hyp) hno
  have hy64 : dims.y.max < ULONG_MOD :=
    lt_of_le_of_lt (Nat.le_mul_of_pos_left _ hxp) hno
  have hdx : dims.x.delta ≤ dims.x.max := by
    unfold SingleDimension.delta
    have : dims.x.max + ULONG_MOD - dims.x.min = (dims.x.max - dims.x.min) + ULONG_MOD := by omega
    rw [this, Nat.add_mod_right, Nat.mod_eq_of_lt (by omega)]
    omega
  have hdy : dims.y.delta ≤ dims.y.max := by
    unfold SingleDimension.delta
    have : dims.y.max + ULONG_MOD - dims.y.min = (dims.y.max - dims.y.min) + ULONG_MOD := by omega
    rw [this, Nat.add_mod_right, Nat.mod_eq_of_lt (by omega)]
    omega
  have hbt : getNumBlocksAndThreads numThreads dims maxThreadsPerBlock limits
      = .ok ⟨axisBlocksAndThreads dims.x (numThreads.get 0)
               ((adjustLimits2D dims maxThreadsPerBlock limits).get 0),
             axisBlocksAndThreads dims.y (numThreads.get 1)
               ((adjustLimits2D dims maxThreadsPerBlock limits).get 1),
             axisBlocksAndThreads dims.z (numThreads.get 2)
               ((adjustLimits2D dims maxThreadsPerBlock limits).get 2)⟩ := by
    simp only [getNumBlocksAndThreads, hz, Bool.and_false]
    rfl
  refine ⟨_, hbt, ?_⟩
  by_cases hex : maxThreadsPerBlock < dims.x.max * dims.y.max
  · have hadj : adjustLimits2D dims maxThreadsPerBlock limits
        = ⟨Nat.sqrt maxThreadsPerBlock, Nat.sqrt maxThreadsPerBlock, limits.d2⟩ := by
      simp [adjustLimits2D, hy, Nat.mod_eq_of_lt hno, hex]
    have h0 : (adjustLimits2D dims maxThreadsPerBlock limits).get 0
        = Nat.sqrt maxThreadsPerBlock := by rw [hadj]; rfl
    have h1 : (adjustLimits2D dims maxThreadsPerBlock limits).get 1
        = Nat.sqrt maxThreadsPerBlock := by rw [hadj]; rfl
    have hsx := (axisBlocksAndThreads_threads_le dims.x (numThreads.get 0)
      (Nat.sqrt maxThreadsPerBlock) hx).1
    have hsy := (axisBlocksAndThreads_threads_le dims.y (numThreads.get 1)
      (Nat.sqrt maxThreadsPerBlock) hy).1
    simp only [h0, h1]
    refine ⟨fun _ => ⟨hadj, Nat.sqrt_le _, Nat.lt_succ_sqrt _, trivial, trivial, hsx, hsy⟩,
      fun hle => absurd hex (Nat.not_lt.mpr hle), ?_⟩
    exact le_trans (Nat.mul_le_mul hsx hsy) (Nat.sqrt_le _)
  · have hle : dims.x.max * dims.y.max ≤ maxThreadsPerBlock := Nat.not_lt.mp hex
    have hadj : adjustLimits2D dims maxThreadsPerBlock limits = limits := by
      simp [adjustLimits2D, hy, Nat.mod_eq_of_lt hno, hex]
    have hsx := axisBlocksAndThreads_threads_le_delta dims.x (numThreads.get 0) limits.d0 hx
    have hsy := axisBlocksAndThreads_threads_le_delta dims.y (numThreads.get 1) limits.d1 hy
    have h0 : limits.get 0 = limits.d0 := rfl
    have h1 : limits.get 1 = limits.d1 := rfl
    simp only [hadj, h0, h1]
    refine ⟨fun h => absurd h hex, fun _ => ⟨trivial, trivial, trivial⟩, ?_⟩
    exact le_trans (Nat.mul_le_mul (le_trans hsx hdx) (le_trans hsy hdy)) hle

theorem getNumBlocksAndThreads_two_dimensional_no_overflow_witness :
    getNumBlocksAndThreads (Dimensions.ofMax 0 0 0) (Dimensions.ofMax 100 50 0) 1024
        ⟨1024, 1024, 64⟩ = .ok ⟨⟨32, 4⟩, ⟨32, 2⟩, ⟨1, 1⟩⟩ ∧
    (32 : Nat) * 32 ≤ 1024 := by
  obtain ⟨bt, hbt, hbig, -, hprod⟩ := getNumBlocksAndThreads_two_dimensional_no_overflow
    (Dimensions.ofMax 0 0 0) (Dimensions.ofMax 100 50 0) 1024 ⟨1024, 1024, 64⟩
    (by decide) (by decide) (by decide) (by decide) (by decide) (by decide) (by decide)
  have hs : Nat.sqrt 1024 = 32 := Nat.sqrt_eq 32
  have hv : bt = ⟨⟨32, 4⟩, ⟨32, 2⟩, ⟨1, 1⟩⟩ := by
    have hb := hbig (by decide)
    have h3 : getNumBlocksAndThreads (Dimensions.ofMax 0 0 0) (Dimensions.ofMax 100 50 0) 1024
        ⟨1024, 1024, 64⟩
        = .ok ⟨axisBlocksAndThreads ⟨100, 0⟩ ⟨0, 0⟩ 32, axisBlocksAndThreads ⟨50, 0⟩ ⟨0, 0⟩ 32,
            ⟨1, 1⟩⟩ := by
      simp only [getNumBlocksAndThreads, hb.1, hs]
      rfl
    rw [Except.ok.inj (hbt.symm.trans h3)]
    decide
  subst hv
  exact ⟨hbt, hprod⟩


/-- C27, evaluated at the failing input: `Dimensions(2 ^ 32, 2 ^ 32, 0)` (X and Y
active with `min = 0 ≤ max`, Z unused) under the group limit 1024 and the per-axis maxima
`(1024, 1024, 64)`.  The product `x.max * y.max` is `2 ^ 64`, which exceeds the group
limit, but it is 0 in `unsigned long`, so the test
`(dims.x.max * dims.y.max) > maxThreadsPerBlock` fails: the per-axis maxima are not
replaced by `floor(sqrt(1024)) = 32`, and the mapping has 1024 threads on each of the two
axes, that is `1024 * 1024` threads per block. -/
theorem getNumBlocksAndThreads_two_dimensional_wraps :
    (Dimensions.ofMax (2 ^ 32) (2 ^ 32) 0).x.toBool = true ∧
    (Dimensions.ofMax (2 ^ 32) (2 ^ 32) 0).y.toBool = true ∧
    (Dimensions.ofMax (2 ^ 32) (2 ^ 32) 0).z.toBool = false ∧
    (Dimensions.ofMax (2 ^ 32) (2 ^ 32) 0).x.min ≤ (Dimensions.ofMax (2 ^ 32) (2 ^ 32) 0).x.max ∧
    (Dimensions.ofMax (2 ^ 32) (2 ^ 32) 0).y.min ≤ (Dimensions.ofMax (2 ^ 32) (2 ^ 32) 0).y.max ∧
    1024 < (Dimensions.ofMax (2 ^ 32) (2 ^ 32) 0).x.max * (Dimensions.ofMax (2 ^ 32) (2 ^ 32) 0).y.max ∧
    Nat.sqrt 1024 = 32 ∧
    adjustLimits2D (Dimensions.ofMax (2 ^ 32) (2 ^ 32) 0) 1024 ⟨1024, 1024, 64⟩
      = ⟨1024, 1024, 64⟩ ∧
    getNumBlocksAndThreads (Dimensions.ofMax 0 0 0) (Dimensions.ofMax (2 ^ 32) (2 ^ 32) 0) 1024
      ⟨1024, 1024, 64⟩ = .ok ⟨⟨1024, 2 ^ 22⟩, ⟨1024, 2 ^ 22⟩, ⟨1, 1⟩⟩ ∧
    ¬ (1024 * 1024 ≤ 1024) := by
  refine ⟨by decide, by decide, by decide, by decide, by decide, by decide, Nat.sqrt_eq 32,
    by decide, rfl, by decide⟩

/-! ### Reduce: batching, repeated runs -/

/-- C21, evaluated at the failing input: the Reduce of `reduce_sample.cpp` with
`setBatchSize(2)` is batched, its kernel is generated with the batch-size parameter,
and `Reduce::run` for `Dimensions(100, 0, 0)` ends without exception after one kernel
launch, whose argument list holds no batch size. -/
theorem batched_reduce_is_launched :
    (sampleReduce.setBatchSize 2).isBatched = true ∧
    (Reduce.runCalls 5 (sampleReduce.setBatchSize 2) cudaBackend (Dimensions.ofMax 100 0 0)).map
        (fun r => (r.exception, launches r.backend.events, launchSlots r.backend.events,
          r.pattern.isBatched))
      = some (none, 1, [[.dimensionMax 0, .parameter "in_vector", .parameter "total",
          .parameter "gspar_partial_reductions"]], true) ∧
    (((sampleReduce.setBatchSize 2).compile cudaBackend (Dimensions.ofMax 100 0 0)).toOption.map
        fun pb => (CUDA.generateParamsDeclarations pb.1 (Dimensions.ofMax 100 0 0)).map
          fun d => d.slot)
      = some [.dimensionMax 0, .batchSize, .parameter "in_vector", .parameter "total",
          .parameter "gspar_partial_reductions"] := by
  refine ⟨rfl, ?_, ?_⟩
  · rfl
  · rfl

/-- C22, evaluated at the failing input: the Reduce of `reduce_sample.cpp` is run twice
for `Dimensions(100, 0, 0)` without registering anything in between.  `total` is
registered with direction OUT; after the first run its direction is
`GSPAR_PARAM_NONE`.  The first run binds `total` as third kernel argument; the second
run, which does not compile again, launches the same kernel with an argument list
that has no `total`. -/
theorem reduce_second_run_drops_output :
    (sampleReduce.getParameter "total").map (fun q => q.direction) = some .GSPAR_PARAM_OUT ∧
    (Reduce.runCalls 5 sampleReduce cudaBackend (Dimensions.ofMax 100 0 0)).map
        (fun r => (r.exception, (r.pattern.getParameter "total").map (fun q => q.direction),
          launchSlots r.backend.events,
          r.pattern.isKernelCompiledFor (Dimensions.ofMax 100 0 0)))
      = some (none, some .GSPAR_PARAM_NONE,
          [[.dimensionMax 0, .parameter "in_vector", .parameter "total",
            .parameter "gspar_partial_reductions"]], true) ∧
    ((Reduce.runCalls 5 sampleReduce cudaBackend (Dimensions.ofMax 100 0 0)).bind fun r =>
        Reduce.runCalls 5 r.pattern r.backend (Dimensions.ofMax 100 0 0)).map
        (fun r => (r.exception, launchSlots r.backend.events,
          BaseParallelPattern.preparedOn r.backend 0))
      = some (none,
          [[.dimensionMax 0, .parameter "in_vector", .parameter "total",
            .parameter "gspar_partial_reductions"],
           [.dimensionMax 0, .parameter "in_vector", .parameter "gspar_partial_reductions"]],
          1) := by
  refine ⟨rfl, ?_, ?_⟩
  · rfl
  · rfl

/-- C28, evaluated at the failing input: the Reduce of `reduce_sample.cpp` is run for
`Dimensions(100, 0, 0)` (one block of 100 threads: partial totals of `1 * 4` bytes,
shared memory of `100 * 4` bytes), then the input vector is registered with 5000
elements and the pattern is run for `Dimensions(5000, 0, 0)`.  The second run launches
5 blocks of 1024 threads, yet no buffer is allocated for the partial totals again, the
parameter keeps its 4 bytes and the kernel keeps 400 bytes of shared memory.  The
same request on a pattern that has not run before gets 20 and 4096 bytes. -/
theorem reduce_buffers_keep_first_size :
    (Reduce.runCalls 5 sampleReduce cudaBackend (Dimensions.ofMax 100 0 0)).map
        (fun r => (r.exception, launchShapes r.backend.events,
          allocations r.backend.events partialTotalsParamName))
      = some (none, [(100, ⟨100, 1⟩, 400)], [4]) ∧
    ((Reduce.runCalls 5 sampleReduce cudaBackend (Dimensions.ofMax 100 0 0)).bind fun r =>
        Reduce.runCalls 5 (registerLargerVector r.pattern) r.backend
          (Dimensions.ofMax 5000 0 0)).map
        (fun r => (r.exception, launchShapes r.backend.events,
          allocations r.backend.events partialTotalsParamName,
          (r.pattern.getParameter partialTotalsParamName).map (fun q => q.size)))
      = some (none, [(100, ⟨100, 1⟩, 400), (5000, ⟨1024, 5⟩, 400), (5, ⟨5, 1⟩, 400)], [4],
          some 4) ∧
    (Reduce.runCalls 5 (registerLargerVector sampleReduce) cudaBackend
        (Dimensions.ofMax 5000 0 0)).map
        (fun r => (r.exception, launchShapes r.backend.events,
          allocations r.backend.events partialTotalsParamName))
      = some (none, [(5000, ⟨1024, 5⟩, 4096), (5, ⟨5, 1⟩, 4096)], [20]) := by
  refine ⟨?_, ?_, ?_⟩
  · rfl
  · rfl
  · rfl

/-- C30, evaluated at the failing input: the Map of `vector_sum_map.cpp` with
`setNumThreadsPerBlock(8, 0, 0)` and its clone.  The clone's override is `(0, 0, 0)`.
A run of the source for `Dimensions(20, 0, 0)` launches 3 blocks of 8 threads, a run of
the clone one block of 20 threads; both runs end without exception. -/
theorem clone_drops_numThreadsPerBlock :
    (sampleMap.setNumThreadsPerBlock 8 0 0).numThreadsPerBlock = (8, 0, 0) ∧
    (sampleMap.setNumThreadsPerBlock 8 0 0).clone.numThreadsPerBlock = (0, 0, 0) ∧
    ((sampleMap.setNumThreadsPerBlock 8 0 0).run cudaBackend
        (Dimensions.ofMax 20 0 0) false).exception = none ∧
    launchShapes ((sampleMap.setNumThreadsPerBlock 8 0 0).run cudaBackend
        (Dimensions.ofMax 20 0 0) false).backend.events = [(20, ⟨8, 3⟩, 0)] ∧
    ((sampleMap.setNumThreadsPerBlock 8 0 0).clone.run cudaBackend
        (Dimensions.ofMax 20 0 0) false).exception = none ∧
    launchShapes ((sampleMap.setNumThreadsPerBlock 8 0 0).clone.run cudaBackend
        (Dimensions.ofMax 20 0 0) false).backend.events = [(20, ⟨20, 1⟩, 0)] := by
  refine ⟨rfl, rfl, rfl, ?_, rfl, ?_⟩
  · rfl
  · rfl


/-! ### Number of launches of the Reduce host loop -/

theorem ceilDiv_eq_pred_div (n a : Nat) (hn : 1 ≤ n) (ha : 1 ≤ a) :
    ceilDiv n a = (n - 1) / a + 1 := by
  unfold ceilDiv
  have : n + a - 1 = (n - 1) + a := by omega
  rw [this, Nat.add_div_right _ (by omega)]

theorem ceilDiv_ceilDiv (n a b : Nat) (hn : 1 ≤ n) (ha : 1 ≤ a) (hb : 1 ≤ b) :
    ceilDiv (ceilDiv n a) b = ceilDiv n (a * b) := by
  rw [ceilDiv_eq_pred_div n a hn ha, ceilDiv_eq_pred_div _ b (Nat.le_add_left 1 _) hb,
    ceilDiv_eq_pred_div n (a * b) hn (Nat.mul_pos ha hb), Nat.add_sub_cancel,
    Nat.div_div_eq_div_mul]

theorem ceilDiv_le_iff (n a c : Nat) (hn : 1 ≤ n) (ha : 1 ≤ a) :
    ceilDiv n a ≤ c ↔ n ≤ c * a := by
  rw [ceilDiv_eq_pred_div n a hn ha]
  constructor
  · intro h
    have h1 : (n - 1) / a < c := by omega
    have h2 := (Nat.div_lt_iff_lt_mul (by omega : 0 < a)).mp h1
    omega
  · intro h
    have h2 : (n - 1) / a < c := (Nat.div_lt_iff_lt_mul (by omega : 0 < a)).mpr (by omega)
    omega

theorem launchGrid_of_x (bt : Dimensions) (t b : Nat) (h : bt.x = ⟨t, b⟩) :
    launchGrid bt = (b % UINT_MOD, t % UINT_MOD) := by
  unfold launchGrid
  rw [h]

/-- One round of the host loop over an extent `n < 2 ^ 53` under the per-block limit
`m`: with `n ≤ m` it is the last one; otherwise the loop goes on with the extent
`ceil(n / m)` on the partial totals. -/
theorem hostLoop_round {α : Type} (op : α → α → α) (outIsIn : Bool) (numThreads : Dimensions)
    (maxThreadsPerBlock : Nat) (limits : ThreadLimits) (uninit : Nat → Nat → Nat → α)
    (m : Nat) (hm1 : 1 ≤ m)
    (hm : effectiveMax numThreads (Dimensions.ofMax 0 0 0) maxThreadsPerBlock limits 0 = m)
    (n fuel launches : Nat) (arg : VectorArg) (mem : DeviceMemory α)
    (hn : 1 ≤ n) (hN : n < 2 ^ 53) :
    (n ≤ m →
      Reduce.hostLoop op outIsIn numThreads maxThreadsPerBlock limits uninit (fuel + 1) launches
          (Dimensions.ofMax n 0 0) arg mem
        = .ok (some (Reduce.launch op outIsIn (1 % UINT_MOD) (n % UINT_MOD) n arg
            (uninit launches) mem, launches + 1))) ∧
    (m < n →
      Reduce.hostLoop op outIsIn numThreads maxThreadsPerBlock limits uninit (fuel + 1) launches
          (Dimensions.ofMax n 0 0) arg mem
        = Reduce.hostLoop op outIsIn numThreads maxThreadsPerBlock limits uninit fuel
            (launches + 1) (Dimensions.ofMax (ceilDiv n m) 0 0) .partialTotals
            (Reduce.launch op outIsIn (ceilDiv n m % UINT_MOD) (m % UINT_MOD) n arg
              (uninit launches) mem)) := by
  obtain ⟨bt, hbt, hbtx⟩ := mapping_1d numThreads (Dimensions.ofMax n 0 0) maxThreadsPerBlock
    limits n rfl rfl hn hN
  rw [effectiveMax_1d numThreads (Dimensions.ofMax n 0 0) (Dimensions.ofMax 0 0 0)
    maxThreadsPerBlock limits rfl rfl, hm] at hbtx
  have hmaxx : (Dimensions.ofMax n 0 0).x.max = n := rfl
  constructor
  · intro hle
    rw [if_pos hle] at hbtx
    have hmin : bt.x.min = 1 := by rw [hbtx]
    have hg := launchGrid_of_x bt n 1 hbtx
    simp only [Reduce.hostLoop, hbt, hmaxx, hmin, hg, if_true]
  · intro hlt
    rw [if_neg (by omega)] at hbtx
    have hmin : bt.x.min = ceilDiv n m := by rw [hbtx]
    have hg := launchGrid_of_x bt m (ceilDiv n m) hbtx
    have hG2 := two_le_ceilDiv n m hm1 hlt
    simp only [Reduce.hostLoop, hbt, hmaxx, hmin, hg]
    rw [if_neg (by omega)]

/-- With a per-block limit of at least 2 the host loop over an extent `n ≥ 1` below
`2 ^ 53` makes `k` launches, `k` being the least positive exponent with `n ≤ m ^ k`: that much fuel
is enough and less is not. -/
theorem hostLoop_count {α : Type} (op : α → α → α) (outIsIn : Bool) (numThreads : Dimensions)
    (maxThreadsPerBlock : Nat) (limits : ThreadLimits) (uninit : Nat → Nat → Nat → α)
    (m : Nat) (hm2 : 2 ≤ m)
    (hm : effectiveMax numThreads (Dimensions.ofMax 0 0 0) maxThreadsPerBlock limits 0 = m) :
    ∀ n, 1 ≤ n → n < 2 ^ 53 →
      ∃ k, 1 ≤ k ∧ n ≤ m ^ k ∧ (∀ j, 1 ≤ j → n ≤ m ^ j → k ≤ j) ∧
        ∀ (launches : Nat) (arg : VectorArg) (mem : DeviceMemory α),
          (∃ mem1, ∀ fuel, k ≤ fuel →
            Reduce.hostLoop op outIsIn numThreads maxThreadsPerBlock limits uninit fuel launches
              (Dimensions.ofMax n 0 0) arg mem = .ok (some (mem1, launches + k))) ∧
          (∀ fuel, fuel < k →
            Reduce.hostLoop op outIsIn numThreads maxThreadsPerBlock limits uninit fuel launches
              (Dimensions.ofMax n 0 0) arg mem = .ok none) := by
  intro n
  induction n using Nat.strong_induction_on with
  | _ n ih =>
    intro hn hN
    by_cases hle : n ≤ m
    · refine ⟨1, le_refl 1, by simpa using hle, fun j hj _ => hj, fun launches arg mem => ?_⟩
      constructor
      · refine ⟨Reduce.launch op outIsIn (1 % UINT_MOD) (n % UINT_MOD) n arg (uninit launches)
          mem, fun fuel hf => ?_⟩
        obtain ⟨f, rfl⟩ : ∃ f, fuel = f + 1 := ⟨fuel - 1, by omega⟩
        exact (hostLoop_round op outIsIn numThreads maxThreadsPerBlock limits uninit m (by omega)
          hm n f launches arg mem hn hN).1 hle
      · intro fuel hf
        obtain rfl : fuel = 0 := by omega
        rfl
    · have hlt : m < n := Nat.lt_of_not_le hle
      have hG2 := two_le_ceilDiv n m (by omega) hlt
      have hGn := ceilDiv_lt_self n m hm2 (by omega)
      obtain ⟨k, hk1, hkpow, hkmin, hrun⟩ := ih (ceilDiv n m) hGn (by omega) (lt_trans hGn hN)
      refine ⟨k + 1, by omega, ?_, ?_, fun launches arg mem => ?_⟩
      · rw [Nat.pow_succ]
        exact (ceilDiv_le_iff n m (m ^ k) hn (by omega)).mp hkpow
      · intro j hj hnj
        obtain ⟨j, rfl⟩ : ∃ i, j = i + 1 := ⟨j - 1, by omega⟩
        rcases Nat.eq_zero_or_pos j with rfl | hjpos
        · simp at hnj
          omega
        · rw [Nat.pow_succ] at hnj
          have := hkmin j hjpos ((ceilDiv_le_iff n m (m ^ j) hn (by omega)).mpr hnj)
          omega
      · obtain ⟨⟨mem1, hok⟩, hnone⟩ := hrun (launches + 1) .partialTotals
          (Reduce.launch op outIsIn (ceilDiv n m % UINT_MOD) (m % UINT_MOD) n arg
            (uninit launches) mem)
        constructor
        · refine ⟨mem1, fun fuel hf => ?_⟩
          obtain ⟨f, rfl⟩ : ∃ f, fuel = f + 1 := ⟨fuel - 1, by omega⟩
          rw [(hostLoop_round op outIsIn numThreads maxThreadsPerBlock limits uninit m (by omega)
            hm n f launches arg mem hn hN).2 hlt, hok f (by omega)]
          congr 3
          omega
        · intro fuel hf
          rcases Nat.eq_zero_or_pos fuel with rfl | hpos
          · rfl
          · obtain ⟨f, rfl⟩ : ∃ f, fuel = f + 1 := ⟨fuel - 1, by omega⟩
            rw [(hostLoop_round op outIsIn numThreads maxThreadsPerBlock limits uninit m
              (by omega) hm n f launches arg mem hn hN).2 hlt]
            exact hnone f (by omega)

/-- The state of the host loop over an extent `n < 2 ^ 53` when launch number `j`
starts: the extent is `ceil(n / m ^ j)`, as long as `m ^ j < n`. -/
theorem hostLoop_extent {α : Type} (op : α → α → α) (outIsIn : Bool) (numThreads : Dimensions)
    (maxThreadsPerBlock : Nat) (limits : ThreadLimits) (uninit : Nat → Nat → Nat → α)
    (m : Nat) (hm1 : 1 ≤ m)
    (hm : effectiveMax numThreads (Dimensions.ofMax 0 0 0) maxThreadsPerBlock limits 0 = m)
    (n : Nat) (hn : 1 ≤ n) (hN : n < 2 ^ 53) (mem : DeviceMemory α) :
    ∀ j, (j = 0 ∨ m ^ j < n) →
      ∃ arg memj, ∀ fuel,
        Reduce.hostLoop op outIsIn numThreads maxThreadsPerBlock limits uninit (fuel + j) 0
            (Dimensions.ofMax n 0 0) .inputVector mem
          = Reduce.hostLoop op outIsIn numThreads maxThreadsPerBlock limits uninit fuel j
              (Dimensions.ofMax (ceilDiv n (m ^ j)) 0 0) arg memj := by
  intro j
  induction j with
  | zero =>
    intro _
    refine ⟨.inputVector, mem, fun fuel => ?_⟩
    have : ceilDiv n (m ^ 0) = n := by simp [ceilDiv]
    rw [this]
    rfl
  | succ j ih =>
    intro hj
    have hlt : m ^ (j + 1) < n := by
      rcases hj with h | h
      · omega
      · exact h
    have hprev : j = 0 ∨ m ^ j < n := by
      right
      calc m ^ j ≤ m ^ (j + 1) := Nat.pow_le_pow_right (by omega) (by omega)
        _ < n := hlt
    obtain ⟨arg, memj, hstate⟩ := ih hprev
    have hpos : 1 ≤ m ^ j := Nat.one_le_pow _ _ (by omega)
    have he1 : 1 ≤ ceilDiv n (m ^ j) := by
      rw [ceilDiv_eq_pred_div n _ hn hpos]
      exact Nat.le_add_left 1 _
    have heN : ceilDiv n (m ^ j) < 2 ^ 53 :=
      lt_of_le_of_lt
        ((ceilDiv_le_iff n (m ^ j) n hn hpos).mpr (Nat.le_mul_of_pos_right n hpos)) hN
    have hbig : m < ceilDiv n (m ^ j) := by
      by_contra hc
      have := (ceilDiv_le_iff n (m ^ j) m hn hpos).mp (Nat.not_lt.mp hc)
      rw [Nat.pow_succ, Nat.mul_comm] at hlt
      omega
    refine ⟨.partialTotals, Reduce.launch op outIsIn (ceilDiv (ceilDiv n (m ^ j)) m % UINT_MOD)
      (m % UINT_MOD) (ceilDiv n (m ^ j)) arg (uninit j) memj, fun fuel => ?_⟩
    have := hstate (fuel + 1)
    rw [show fuel + 1 + j = fuel + (j + 1) by omega] at this
    rw [this, (hostLoop_round op outIsIn numThreads maxThreadsPerBlock limits uninit m hm1 hm
      (ceilDiv n (m ^ j)) fuel j arg memj he1 heN).2 hbig, ceilDiv_ceilDiv n (m ^ j) m hn hpos hm1,
      ← Nat.pow_succ]

/-- With a per-block limit of 1 the extent does not shrink: the host loop over an
extent `n ≥ 2` below `2 ^ 53` has not ended after any number of rounds. -/
theorem hostLoop_limit_one {α : Type} (op : α → α → α) (outIsIn : Bool)
    (numThreads : Dimensions) (maxThreadsPerBlock : Nat) (limits : ThreadLimits)
    (uninit : Nat → Nat → Nat → α)
    (hm : effectiveMax numThreads (Dimensions.ofMax 0 0 0) maxThreadsPerBlock limits 0 = 1)
    (n : Nat) (hn : 2 ≤ n) (hN : n < 2 ^ 53) :
    ∀ (fuel launches : Nat) (arg : VectorArg) (mem : DeviceMemory α),
      Reduce.hostLoop op outIsIn numThreads maxThreadsPerBlock limits uninit fuel launches
        (Dimensions.ofMax n 0 0) arg mem = .ok none := by
  intro fuel
  induction fuel with
  | zero => intro _ _ _; rfl
  | succ f ih =>
    intro launches arg mem
    rw [(hostLoop_round op outIsIn numThreads maxThreadsPerBlock limits uninit 1 (le_refl 1) hm
      n f launches arg mem (by omega) hN).2 (by omega)]
    have : ceilDiv n 1 = n := by simp [ceilDiv]
    rw [this]
    exact ih _ _ _


/-- The number of launches for an extent below `2 ^ 53`, where the conversion to
`double` is exact: let `m` be the per-block thread limit in force for the X axis and
`1 ≤ N < 2 ^ 53` the extent.  With `m ≥ 2` the host loop of `Reduce::run` ends: there is a `k ≥ 1`, the
least positive exponent with `N ≤ m ^ k`, such that any fuel of at least `k` rounds
gives a result after exactly `k` launches and less fuel does not; launch number
`j < k` runs over the extent `ceil(N / m ^ j)`.  With `m = 1` and `N ≥ 2` the loop
has not ended after any number of rounds. -/
theorem reduce_host_loop_launches_small {α : Type} (op : α → α → α) (outIsIn : Bool)
    (numThreads : Dimensions) (maxThreadsPerBlock : Nat) (limits : ThreadLimits)
    (uninit : Nat → Nat → Nat → α) (m N : Nat)
    (hm : effectiveMax numThreads (Dimensions.ofMax N 0 0) maxThreadsPerBlock limits 0 = m)
    (hN : 1 ≤ N) (hN64 : N < 2 ^ 53) (mem : DeviceMemory α) :
    (2 ≤ m →
      ∃ k, 1 ≤ k ∧ N ≤ m ^ k ∧ (∀ j, 1 ≤ j → N ≤ m ^ j → k ≤ j) ∧
        (∃ mem1, ∀ fuel, k ≤ fuel →
          Reduce.hostLoop op outIsIn numThreads maxThreadsPerBlock limits uninit fuel 0
            (Dimensions.ofMax N 0 0) .inputVector mem = .ok (some (mem1, k))) ∧
        (∀ fuel, fuel < k →
          Reduce.hostLoop op outIsIn numThreads maxThreadsPerBlock limits uninit fuel 0
            (Dimensions.ofMax N 0 0) .inputVector mem = .ok none) ∧
        (∀ j, j < k →
          ceilDiv N (m ^ j) = ⌈(N : ℚ) / (m ^ j : ℕ)⌉₊ ∧
          ∃ arg memj, ∀ fuel,
            Reduce.hostLoop op outIsIn numThreads maxThreadsPerBlock limits uninit (fuel + j) 0
                (Dimensions.ofMax N 0 0) .inputVector mem
              = Reduce.hostLoop op outIsIn numThreads maxThreadsPerBlock limits uninit fuel j
                  (Dimensions.ofMax (ceilDiv N (m ^ j)) 0 0) arg memj)) ∧
    (m = 1 → 2 ≤ N → ∀ fuel,
      Reduce.hostLoop op outIsIn numThreads maxThreadsPerBlock limits uninit fuel 0
        (Dimensions.ofMax N 0 0) .inputVector mem = .ok none) := by
  have hm0 : effectiveMax numThreads (Dimensions.ofMax 0 0 0) maxThreadsPerBlock limits 0 = m := by
    rw [← hm]
    exact effectiveMax_1d numThreads (Dimensions.ofMax 0 0 0) (Dimensions.ofMax N 0 0)
      maxThreadsPerBlock limits rfl rfl
  constructor
  · intro hm2
    obtain ⟨k, hk1, hpow, hmin, hrun⟩ := hostLoop_count op outIsIn numThreads maxThreadsPerBlock
      limits uninit m hm2 hm0 N hN hN64
    obtain ⟨⟨mem1, hok⟩, hnone⟩ := hrun 0 .inputVector mem
    refine ⟨k, hk1, hpow, hmin, ⟨mem1, fun fuel hf => ?_⟩, hnone, fun j hj => ⟨?_, ?_⟩⟩
    · rw [hok fuel hf, Nat.zero_add]
    · exact ceilDiv_eq_ceil N (m ^ j) (Nat.one_le_pow _ _ (by omega))
    · apply hostLoop_extent op outIsIn numThreads maxThreadsPerBlock limits uninit m (by omega)
        hm0 N hN hN64 mem j
      rcases Nat.eq_zero_or_pos j with h0 | hpos
      · exact Or.inl h0
      · right
        by_contra hc
        have := hmin j hpos (Nat.not_lt.mp hc)
        omega
  · intro hm1 hN2 fuel
    exact hostLoop_limit_one op outIsIn numThreads maxThreadsPerBlock limits uninit
      (hm1 ▸ hm0) N hN2 hN64 fuel 0 .inputVector mem

theorem reduce_host_loop_launches_small_witness :
    ∃ mem1, Reduce.hostLoop (fun a b : Nat => a + b) false (Dimensions.ofMax 4 0 0) 1024
        ⟨1024, 1024, 64⟩ (fun _ _ _ => 0) 4 0 (Dimensions.ofMax 100 0 0) .inputVector
        ⟨fun i => i, fun _ => 0, 0⟩ = .ok (some (mem1, 4)) := by
  obtain ⟨k, hk1, hpow, hmin, ⟨mem1, hok⟩, -, -⟩ :=
    (reduce_host_loop_launches_small (fun a b : Nat => a + b) false (Dimensions.ofMax 4 0 0) 1024
      ⟨1024, 1024, 64⟩ (fun _ _ _ => 0) 4 100 (by decide) (by decide) (by decide)
      ⟨fun i => i, fun _ => 0, 0⟩).1 (by decide)
  have hk4 : k ≤ 4 := hmin 4 (by decide) (by decide)
  have hk : k = 4 := by
    interval_cases k
    · exact absurd hpow (by decide)
    · exact absurd hpow (by decide)
    · exact absurd hpow (by decide)
    · rfl
  subst hk
  exact ⟨mem1, hok 4 (le_refl 4)⟩


set_option maxRecDepth 100000 in
/-- C26, evaluated at the failing input: a composition whose only member is the Map of
`vector_sum_map.cpp` assigned to GPU 1, on a backend with two GPUs.
`compilePatterns(Dimensions(20, 0, 0))` returns without exception and records the
`Dimensions`, but it has made no driver call and the member is not compiled: the
source generated for GPU 0 is empty, and the `continue` taken for it skips
`gpuIndex++`, so GPU 1 is never reached.  With the same Map on GPU 0, and with members
on both GPUs, every member is compiled, from one program per device. -/
theorem compilePatterns_skips_gpus_after_unused :
    ((PatternComposition.ofArguments [(.Map, sampleMap.setGpuIndex 1)]).compilePatterns
        twoGpuBackend (Dimensions.ofMax 20 0 0)).exception = none ∧
    ((PatternComposition.ofArguments [(.Map, sampleMap.setGpuIndex 1)]).compilePatterns
        twoGpuBackend (Dimensions.ofMax 20 0 0)).backend.events = [] ∧
    ((PatternComposition.ofArguments [(.Map, sampleMap.setGpuIndex 1)]).compilePatterns
        twoGpuBackend (Dimensions.ofMax 20 0 0)).composition.compiledPatternsDimension
      = Dimensions.ofMax 20 0 0 ∧
    ((PatternComposition.ofArguments [(.Map, sampleMap.setGpuIndex 1)]).compilePatterns
        twoGpuBackend (Dimensions.ofMax 20 0 0)).composition.patterns.map
        (fun m => (m.pattern.getGpuIndex, m.pattern.isKernelCompiledFor (Dimensions.ofMax 20 0 0)))
      = [(1, false)] ∧
    ((PatternComposition.ofArguments [(.Map, sampleMap)]).compilePatterns
        twoGpuBackend (Dimensions.ofMax 20 0 0)).composition.patterns.map
        (fun m => (m.pattern.getGpuIndex, m.pattern.isKernelCompiledFor (Dimensions.ofMax 20 0 0)))
      = [(0, true)] ∧
    ((PatternComposition.ofArguments
        [(.Map, sampleMap), (.Reduce, sampleReduce.setGpuIndex 1), (.Map, sampleMap)]).compilePatterns
        twoGpuBackend (Dimensions.ofMax 20 0 0)).composition.patterns.map
        (fun m => (m.pattern.getGpuIndex, m.pattern.kernelName, m.pattern.compiledKernel,
          m.pattern.isKernelCompiledFor (Dimensions.ofMax 20 0 0)))
      = [(0, "gspar_kernel_k0", some { device := 0, id := 0 }, true),
         (1, "gspar_kernel_k2", some { device := 1, id := 0 }, true),
         (0, "gspar_kernel_k1", some { device := 0, id := 1 }, true)] ∧
    ((PatternComposition.ofArguments
        [(.Map, sampleMap), (.Reduce, sampleReduce.setGpuIndex 1), (.Map, sampleMap)]).compilePatterns
        twoGpuBackend (Dimensions.ofMax 20 0 0)).backend.events.filterMap
        (fun e =>
          match e with
          | .prepareKernels device _ kernelNames => some (device, kernelNames)
          | _ => none)
      = [(0, ["gspar_kernel_k0", "gspar_kernel_k1"]), (1, ["gspar_kernel_k2"])] := by
  refine ⟨rfl, rfl, rfl, rfl, ?_, ?_, ?_⟩
  · rfl
  · rfl
  · rfl


theorem setGpu_kind (p : BaseParallelPattern) (d : Option Nat) : (p.setGpu d).kind = p.kind := by
  unfold BaseParallelPattern.setGpu
  split <;> rfl

theorem cloneInto_kind (p other : BaseParallelPattern) : (p.cloneInto other).kind = other.kind := by
  have h1 : ((p.cloneIntoNonTemplated other).setGpu p.gpuDevice).kind = other.kind := by
    rw [setGpu_kind]
    rfl
  unfold BaseParallelPattern.cloneInto
  generalize (p.cloneIntoNonTemplated other).setGpu p.gpuDevice = o1 at h1
  simp only
  split
  · split <;> split <;> exact h1
  · exact h1

theorem clone_kind (p : BaseParallelPattern) : p.clone.kind = p.kind := by
  unfold BaseParallelPattern.clone
  cases hk : p.kind with
  | map => exact cloneInto_kind p _
  | reduce v o t => rfl

theorem ofArguments_eq (args : List (PatternClass × BaseParallelPattern)) :
    PatternComposition.ofArguments args
      = { patterns := args.map fun a =>
            { pattern := a.2, patternType := PatternComposition.typeOf a.1 } } := by
  induction args with
  | nil => rfl
  | cons a args ih =>
    obtain ⟨T, p⟩ := a
    simp only [PatternComposition.ofArguments, ih, PatternComposition.addPatternInverseOrder,
      List.map_cons]

theorem foldl_addPattern (args : List (PatternClass × BaseParallelPattern))
    (c : PatternComposition) :
    args.foldl (fun c a => c.addPattern a.1 a.2) c
      = { c with patterns := c.patterns ++ args.map fun a =>
            { pattern := a.2, patternType := PatternComposition.typeOf a.1 } } := by
  induction args generalizing c with
  | nil => simp
  | cons a args ih =>
    rw [List.foldl_cons, ih]
    simp [PatternComposition.addPattern]

theorem typeOf_of_isClassOf (T : PatternClass) (p : BaseParallelPattern)
    (h : T.isClassOf p = true) :
    (PatternComposition.typeOf T = .GSPAR_PATTERN_MAP ∧ p.kind = .map) ∨
    (PatternComposition.typeOf T = .GSPAR_PATTERN_REDUCE ∧ ∃ v o t, p.kind = .reduce v o t) := by
  cases T <;> cases hk : p.kind <;>
    simp [PatternClass.isClassOf, hk, PatternComposition.typeOf, PatternClass.instanceofMap] at h ⊢

theorem cloneMembers_ok (ms : List Member) (other : PatternComposition)
    (h : ∀ m ∈ ms, (m.patternType = .GSPAR_PATTERN_MAP ∧ m.pattern.kind = .map) ∨
      (m.patternType = .GSPAR_PATTERN_REDUCE ∧ ∃ v o t, m.pattern.kind = .reduce v o t)) :
    PatternComposition.cloneMembers ms other
      = .ok { other with patterns := other.patterns ++ ms.map fun m =>
                { pattern := m.pattern.clone, patternType := m.patternType } } := by
  induction ms generalizing other with
  | nil => simp [PatternComposition.cloneMembers]
  | cons m ms ih =>
    have hm := h m (List.mem_cons_self _ _)
    have hrest : ∀ x ∈ ms, _ := fun x hx => h x (List.mem_cons_of_mem _ hx)
    rcases hm with ⟨ht, hk⟩ | ⟨ht, v, o, t, hk⟩
    · simp only [PatternComposition.cloneMembers, PatternComposition.cloneMember, ht, hk,
        ih _ hrest]
      simp [PatternComposition.addPattern, PatternComposition.typeOf,
        PatternClass.instanceofMap]
      exact ht.symm
    · simp only [PatternComposition.cloneMembers, PatternComposition.cloneMember, ht, hk,
        ih _ hrest]
      simp [PatternComposition.addPattern, PatternComposition.typeOf,
        PatternClass.instanceofMap]
      exact ht.symm

/-- The loop of `run` over `xs ++ ys` runs the members of `xs` first, and the members of
`ys` on the backend they leave, unless one of `xs` ends with an exception. -/
theorem runMembers_append (fuel : Nat) (dims : Dimensions) (xs ys : List Member) (b : Backend) :
    PatternComposition.runMembers fuel dims (xs ++ ys) b
      = match PatternComposition.runMembers fuel dims xs b with
        | none => none
        | some (ms, b1, some e) => some (ms ++ ys, b1, some e)
        | some (ms, b1, none) =>
          match PatternComposition.runMembers fuel dims ys b1 with
          | none => none
          | some (ms2, b2, e) => some (ms ++ ms2, b2, e) := by
  induction xs generalizing b with
  | nil =>
    simp only [List.nil_append, PatternComposition.runMembers]
    cases PatternComposition.runMembers fuel dims ys b with
    | none => rfl
    | some r => rfl
  | cons m xs ih =>
    simp only [List.cons_append, PatternComposition.runMembers]
    cases hm : PatternComposition.runMember fuel dims m b with
    | none => rfl
    | some r =>
      obtain ⟨m1, b1, e⟩ := r
      cases e with
      | some e => rfl
      | none =>
        simp only
        rw [show xs.append ys = xs ++ ys from rfl, ih b1]
        cases hx : PatternComposition.runMembers fuel dims xs b1 with
        | none => rfl
        | some r1 =>
          obtain ⟨ms, b2, e1⟩ := r1
          cases e1 with
          | some e1 => rfl
          | none =>
            simp only
            cases PatternComposition.runMembers fuel dims ys b2 with
            | none => rfl
            | some r2 => rfl


theorem generateMembersSource_shape (dims : Dimensions) (gpuIndex : Nat) (ms : List Member)
    (b : Backend) (r : String × Bool × List Member × Backend)
    (h : PatternComposition.generateMembersSource dims gpuIndex ms b = .ok r) :
    r.2.2.1.map Member.shape = ms.map Member.shape := by
  induction ms generalizing b r with
  | nil =>
    simp only [PatternComposition.generateMembersSource] at h
    rw [← Except.ok.inj h]
  | cons m ms ih =>
    simp only [PatternComposition.generateMembersSource] at h
    split at h
    · split at h
      · exact Except.noConfusion h
      · rename_i text added rest1 b1 hrest
        rw [← Except.ok.inj h]
        simp only [List.map_cons]
        rw [ih b _ hrest]
    · split at h
      · exact Except.noConfusion h
      · rename_i p1 hcb
        split at h
        · exact Except.noConfusion h
        · rename_i text p2 b2 hgen
          split at h
          · exact Except.noConfusion h
          · rename_i text1 added rest1 b3 hrest
            rw [← Except.ok.inj h]
            simp only [List.map_cons]
            rw [ih b2 _ hrest]
            have hk2 : p2.kind = p1.kind := generateKernelSource_kind p1 b dims _ hgen
            have hk1 : p1.kind = m.pattern.kind := callback_kind _ _ hcb
            simp [Member.shape, hk2, hk1]

theorem kernelNamesOn_shape (gpuIndex : Nat) (ms : List Member) (b : Backend) :
    (PatternComposition.kernelNamesOn gpuIndex ms b).2.1.map Member.shape
      = ms.map Member.shape := by
  induction ms generalizing b with
  | nil => rfl
  | cons m ms ih =>
    simp only [PatternComposition.kernelNamesOn]
    split
    · simp only [List.map_cons, ih]
    · simp only [List.map_cons, ih]
      simp [Member.shape, getKernelName_kind]

theorem assignKernels_shape (dims : Dimensions) (gpuIndex device first : Nat) (ms : List Member)
    (i : Nat) :
    (PatternComposition.assignKernels dims gpuIndex device first ms i).map Member.shape
      = ms.map Member.shape := by
  induction ms generalizing i with
  | nil => rfl
  | cons m ms ih =>
    simp only [PatternComposition.assignKernels]
    split
    · simp only [List.map_cons, ih]
    · simp only [List.map_cons, ih]
      rfl

theorem compileOnGpus_shape (dims : Dimensions) (gpus : List Nat) (gpuIndex : Nat)
    (c : PatternComposition) (b : Backend) :
    (PatternComposition.compileOnGpus dims gpus gpuIndex c b).composition.patterns.map
        Member.shape = c.patterns.map Member.shape := by
  induction gpus generalizing gpuIndex c b with
  | nil => rfl
  | cons gpu gpus ih =>
    simp only [PatternComposition.compileOnGpus]
    split
    · rfl
    · rename_i kernelSource c1 b1 hgen
      have h1 : c1.patterns.map Member.shape = c.patterns.map Member.shape := by
        unfold PatternComposition.generateKernelSource at hgen
        split at hgen
        · exact Except.noConfusion hgen
        · rename_i text added members b2 hm
          have := generateMembersSource_shape dims gpuIndex c.patterns b _ hm
          have hc1 := (Prod.mk.inj (Prod.mk.inj (Except.ok.inj hgen)).2).1
          rw [← hc1]
          exact this
      split
      · rw [ih, h1]
      · split
        · rw [ih]
          simp only [kernelNamesOn_shape, h1]
        · split
          · rw [ih]
            simp only [assignKernels_shape, kernelNamesOn_shape, h1]
          · simp only [kernelNamesOn_shape, h1]

theorem compilePatterns_shape (c : PatternComposition) (b : Backend) (dims : Dimensions) :
    (c.compilePatterns b dims).composition.patterns.map Member.shape
      = c.patterns.map Member.shape := by
  unfold PatternComposition.compilePatterns
  split
  · rfl
  · split
    · rfl
    · split
      · rfl
      · simp only
        split
        · exact compileOnGpus_shape _ _ _ _ _
        · exact compileOnGpus_shape _ _ _ _ _


theorem clone_patterns (c other : PatternComposition)
    (h : PatternComposition.cloneMembers c.patterns {} = .ok other) :
    ∃ o, c.clone = .ok o ∧ o.patterns = other.patterns := by
  unfold PatternComposition.clone
  rw [h]
  simp only
  split
  · exact ⟨_, rfl, rfl⟩
  · exact ⟨_, rfl, rfl⟩

/-- Compositions of patterns handed over through a pointer of their own class (`Map*` or
`Reduce*`).  The variadic constructor, successive `addPattern` calls and (for arguments
of one class) the initializer-list constructor build the same composition, whose members
are the arguments in argument order: `getPattern(i)` is argument `i + 1`, and the type
recorded for a member is `GSPAR_PATTERN_MAP` exactly for a Map.  `compilePatterns` keeps
the members, their order and their types; `run` is `compilePatterns` followed by the
loop over the members, which runs the first member with its own `run` (`Map::run` or
`Reduce::run`) and the others on the state it leaves, and stops at the first exception.
`clone` returns a composition with as many members, member `i` being the clone of
argument `i + 1`, of the same class and recorded type. -/
theorem composition_member_order_typed (T : PatternClass) (patterns : List BaseParallelPattern)
    (args : List (PatternClass × BaseParallelPattern))
    (hargs : ∀ a ∈ args, a.1.isClassOf a.2 = true) :
    (PatternComposition.ofArguments args).patterns.map (fun m => m.pattern)
      = args.map (fun a => a.2) ∧
    (∀ i, (PatternComposition.ofArguments args).getPattern i = (args[i]?).map fun a => a.2) ∧
    args.foldl (fun c a => c.addPattern a.1 a.2) {} = PatternComposition.ofArguments args ∧
    PatternComposition.ofInitializerList T patterns
      = PatternComposition.ofArguments (patterns.map fun p => (T, p)) ∧
    (∀ m ∈ (PatternComposition.ofArguments args).patterns,
      (m.patternType = .GSPAR_PATTERN_MAP ↔ m.pattern.kind = .map)) ∧
    (∀ b dims, ((PatternComposition.ofArguments args).compilePatterns b dims).composition.patterns.map
        Member.shape = args.map fun a => (PatternComposition.typeOf a.1, a.2.kind)) ∧
    (∀ fuel dims m rest b, m.patternType = .GSPAR_PATTERN_MAP → m.pattern.kind = .map →
      PatternComposition.runMembers fuel dims (m :: rest) b
        = match (m.pattern.run b dims false).exception with
          | some e =>
            some ({ m with pattern := (m.pattern.run b dims false).pattern } :: rest,
              (m.pattern.run b dims false).backend, some e)
          | none =>
            (PatternComposition.runMembers fuel dims rest (m.pattern.run b dims false).backend).map
              fun x => ({ m with pattern := (m.pattern.run b dims false).pattern } :: x.1, x.2)) ∧
    (∀ fuel dims m rest b v o t, m.patternType = .GSPAR_PATTERN_REDUCE →
      m.pattern.kind = .reduce v o t →
      PatternComposition.runMembers fuel dims (m :: rest) b
        = match Reduce.runCalls fuel m.pattern b dims with
          | none => none
          | some r =>
            match r.exception with
            | some e => some ({ m with pattern := r.pattern } :: rest, r.backend, some e)
            | none =>
              (PatternComposition.runMembers fuel dims rest r.backend).map
                fun x => ({ m with pattern := r.pattern } :: x.1, x.2)) ∧
    (∀ fuel b dims, args ≠ [] → dims.getCount ≠ 0 →
      ((PatternComposition.ofArguments args).compilePatterns b dims).exception = none →
      (PatternComposition.ofArguments args).run fuel b dims false
        = (PatternComposition.runMembers fuel dims
            ((PatternComposition.ofArguments args).compilePatterns b dims).composition.patterns
            ((PatternComposition.ofArguments args).compilePatterns b dims).backend).map
          fun x =>
            { composition :=
                { ((PatternComposition.ofArguments args).compilePatterns b dims).composition with
                  patterns := x.1 },
              backend := x.2.1, exception := x.2.2 }) ∧
    ∃ other, (PatternComposition.ofArguments args).clone = .ok other ∧
      other.patterns.length = args.length ∧
      other.patterns.map (fun m => m.pattern) = args.map (fun a => a.2.clone) ∧
      other.patterns.map Member.shape
        = (PatternComposition.ofArguments args).patterns.map Member.shape := by
  have hwt : ∀ m ∈ (PatternComposition.ofArguments args).patterns,
      (m.patternType = .GSPAR_PATTERN_MAP ∧ m.pattern.kind = .map) ∨
      (m.patternType = .GSPAR_PATTERN_REDUCE ∧ ∃ v o t, m.pattern.kind = .reduce v o t) := by
    intro m hm
    rw [ofArguments_eq] at hm
    obtain ⟨a, ha, rfl⟩ := List.mem_map.mp hm
    exact typeOf_of_isClassOf a.1 a.2 (hargs a ha)
  have hclone := cloneMembers_ok (PatternComposition.ofArguments args).patterns {} hwt
  refine ⟨?_, fun i => ?_, ?_, ?_, fun m hm => ?_, fun b dims => ?_,
    fun fuel dims m rest b ht hk => ?_, fun fuel dims m rest b v o t ht hk => ?_,
    fun fuel b dims hne hcount hexc => ?_, ?_⟩
  · rw [ofArguments_eq]
    simp [List.map_map, Function.comp_def]
  · rw [ofArguments_eq]
    simp only [PatternComposition.getPattern, List.getElem?_map, Option.map_map]
    rfl
  · rw [foldl_addPattern, ofArguments_eq]
    rfl
  · unfold PatternComposition.ofInitializerList
    have := foldl_addPattern (patterns.map fun p => (T, p)) {}
    rw [List.foldl_map] at this
    rw [this, ofArguments_eq]
    rfl
  · rcases hwt m hm with ⟨ht, hk⟩ | ⟨ht, v, o, t, hk⟩
    · simp [ht, hk]
    · simp [ht, hk]
  · rw [compilePatterns_shape, ofArguments_eq]
    simp [List.map_map, Function.comp_def, Member.shape]
  · simp only [PatternComposition.runMembers, PatternComposition.runMember, ht, hk]
    cases (m.pattern.run b dims false).exception with
    | some e => rfl
    | none =>
      simp only
      cases PatternComposition.runMembers fuel dims rest (m.pattern.run b dims false).backend with
      | none => rfl
      | some x => rfl
  · simp only [PatternComposition.runMembers, PatternComposition.runMember, ht, hk]
    cases Reduce.runCalls fuel m.pattern b dims with
    | none => rfl
    | some r =>
      simp only
      cases r.exception with
      | some e => rfl
      | none =>
        simp only
        cases PatternComposition.runMembers fuel dims rest r.backend with
        | none => rfl
        | some x => rfl
  · have hemp : (PatternComposition.ofArguments args).patterns.isEmpty = false := by
      rw [ofArguments_eq]
      cases args with
      | nil => exact absurd rfl hne
      | cons a args => rfl
    unfold PatternComposition.run
    simp only [hemp, Bool.false_eq_true, if_false, hcount, hexc]
    cases PatternComposition.runMembers fuel dims
        ((PatternComposition.ofArguments args).compilePatterns b dims).composition.patterns
        ((PatternComposition.ofArguments args).compilePatterns b dims).backend with
    | none => rfl
    | some x => rfl
  · obtain ⟨o, ho, hpat⟩ := clone_patterns _ _ hclone
    refine ⟨o, ho, ?_, ?_, ?_⟩
    · rw [hpat, ofArguments_eq]
      simp
    · rw [hpat, ofArguments_eq]
      simp [List.map_map, Function.comp_def]
    · rw [hpat]
      simp [List.map_map, Function.comp_def, Member.shape, clone_kind]

theorem composition_member_order_typed_witness :
    (PatternComposition.ofArguments [(.Map, sampleMap), (.Reduce, sampleReduce)]).getPattern 1
      = some sampleReduce ∧
    ∃ other,
      (PatternComposition.ofArguments [(.Map, sampleMap), (.Reduce, sampleReduce)]).clone
        = .ok other ∧
      other.patterns.map Member.shape
        = [(.GSPAR_PATTERN_MAP, .map),
           (.GSPAR_PATTERN_REDUCE, .reduce "in_vector" "+" "total")] := by
  obtain ⟨-, hget, -, -, -, -, -, -, -, other, hother, -, -, hshape⟩ :=
    composition_member_order_typed .Map [] [(.Map, sampleMap), (.Reduce, sampleReduce)]
      (by
        intro a ha
        simp only [List.mem_cons, List.mem_singleton, List.not_mem_nil, or_false] at ha
        rcases ha with rfl | rfl <;> rfl)
  refine ⟨hget 1, other, hother, ?_⟩
  rw [hshape]
  rfl


set_option maxRecDepth 100000 in
/-- C25, evaluated at the failing input: the Map of `vector_sum_map.cpp` handed to the
variadic constructor through a `BaseParallelPattern*`, as `getPattern` returns it.  The
pointer passes `assertValidParallelPattern`, `getPattern(0)` is the Map, but the type
recorded is `GSPAR_PATTERN_REDUCE`, because `instanceof<Map>` is decided by the class of
the pointer: `clone` and `run` then use the Map through a `Reduce*`, and `run` ends
there without a launch.  An initializer list of `BaseParallelPattern*` records every
member as a Reduce.  With pointers of their own class the Map and the Reduce of
`reduce_sample.cpp` are recorded as such, `run` launches the kernel of the first
argument before that of the second whichever comes first, and `clone` keeps the types. -/
theorem composition_base_pointer_recorded_as_reduce :
    (PatternComposition.ofArguments [(.BaseParallelPattern, sampleMap)]).getPattern 0
      = some sampleMap ∧
    (PatternComposition.ofArguments [(.BaseParallelPattern, sampleMap)]).patterns.map
        Member.shape = [(.GSPAR_PATTERN_REDUCE, .map)] ∧
    (PatternComposition.ofArguments [(.BaseParallelPattern, sampleMap)]).clone
      = .error invalidDowncast ∧
    ((PatternComposition.ofArguments [(.BaseParallelPattern, sampleMap)]).run 5 cudaBackend
        (Dimensions.ofMax 20 0 0) false).map
        (fun r => (r.exception, launches r.backend.events))
      = some (some invalidDowncast, 0) ∧
    (PatternComposition.ofInitializerList .BaseParallelPattern [sampleMap, sampleReduce]).patterns.map
        Member.shape
      = [(.GSPAR_PATTERN_REDUCE, .map),
         (.GSPAR_PATTERN_REDUCE, .reduce "in_vector" "+" "total")] ∧
    ((PatternComposition.ofArguments [(.Map, sampleMap), (.Reduce, sampleReduce)]).run 5
        cudaBackend (Dimensions.ofMax 20 0 0) false).map
        (fun r => (r.exception, launchSlots r.backend.events))
      = some (none,
          [[.dimensionMax 0, .parameter "a", .parameter "b", .parameter "result"],
           [.dimensionMax 0, .parameter "in_vector", .parameter "total",
            .parameter "gspar_partial_reductions"]]) ∧
    ((PatternComposition.ofArguments [(.Reduce, sampleReduce), (.Map, sampleMap)]).run 5
        cudaBackend (Dimensions.ofMax 20 0 0) false).map
        (fun r => (r.exception, launchSlots r.backend.events))
      = some (none,
          [[.dimensionMax 0, .parameter "in_vector", .parameter "total",
            .parameter "gspar_partial_reductions"],
           [.dimensionMax 0, .parameter "a", .parameter "b", .parameter "result"]]) ∧
    (PatternComposition.ofArguments [(.Map, sampleMap), (.Reduce, sampleReduce)]).clone.toOption.map
        (fun o => o.patterns.map Member.shape)
      = some [(.GSPAR_PATTERN_MAP, .map),
          (.GSPAR_PATTERN_REDUCE, .reduce "in_vector" "+" "total")] := by
  refine ⟨rfl, rfl, rfl, ?_, rfl, ?_, ?_, rfl⟩
  · rfl
  · rfl
  · rfl

end GSPar
